import Mathlib

/-!
kernel-chess: a shallow embedding of `chess.c`.

The chess character device keeps one `struct d_data` per minor number and
changes it in `d_write`.  This development embeds the sequential behaviour of
the rules engine of `src/chess.c`:

* `int` values are unbounded `Int`s (every coordinate the device stores is in
  `0..7`, every index in `-1..63`, so no `int` arithmetic of the source wraps);
* `char` values are `Char`s, the reply buffer and the written message are
  lists of characters;
* the arrays `board[64]` and `figures[32]` are functions on `Fin 64` and
  `Fin 32`; a C subscript is an `Int`, see `rd_board` and `rd_figure`;
* the state of one device is passed explicitly; `d_num` is dropped;
* `mutex_lock`/`mutex_unlock`, `kmalloc`/`kfree` and `printk` are not modelled;
* the candidate buffer `moves` together with the returned count is the list of
  the coordinates written, in the order they are written.
-/

namespace KernelChess

/-! ## Data model -/

def PAWN : Int := 0
def ROOK : Int := 8
def KNIGHT : Int := 10
def BISHOP : Int := 12
def QUEEN : Int := 14
def KING : Int := 15

/-- The C `struct coord_t`: `x` is the file, `y` the rank. -/
structure coord_t where
  x : Int
  y : Int
deriving DecidableEq, Repr

/-- The C `struct piece_t`. -/
structure piece_t where
  type : Int
  color : Char
  alive : Int
  square : coord_t
deriving DecidableEq, Repr

instance : Inhabited piece_t := ⟨⟨0, Char.ofNat 0, 0, ⟨0, 0⟩⟩⟩

/-- The C `struct d_data` without its `cdev` member. -/
structure d_data where
  game_on : Int
  board : Fin 64 → Int
  figures : Fin 32 → piece_t
  turn : Char
  player_color : Char
  computer_color : Char
  reply : List Char

/-- Read of `board[i]`.  The only subscript outside `0..63` that the source
reads is `-1` in `pawn_helper`, where the value is discarded; the model
gives -1 there. -/
def rd_board (s : d_data) (i : Int) : Int :=
  if h : 0 ≤ i ∧ i < 64 then s.board ⟨i.toNat, by omega⟩ else -1

/-- Read of `figures[i]`; every read of the source is guarded by `i != -1`. -/
def rd_figure (s : d_data) (i : Int) : piece_t :=
  if h : 0 ≤ i ∧ i < 32 then s.figures ⟨i.toNat, by omega⟩ else default

/-- The assignment `board[i] = v`. -/
def wr_board (s : d_data) (i : Int) (v : Int) : d_data :=
  { s with board := fun k => if (k.val : Int) = i then v else s.board k }

/-- The assignment `figures[i].square = c`. -/
def wr_square (s : d_data) (i : Int) (c : coord_t) : d_data :=
  { s with figures := fun k =>
      if (k.val : Int) = i then { s.figures k with square := c } else s.figures k }

/-- The assignment `figures[i].alive = a`. -/
def wr_alive (s : d_data) (i : Int) (a : Int) : d_data :=
  { s with figures := fun k =>
      if (k.val : Int) = i then { s.figures k with alive := a } else s.figures k }

/-- The assignment `figures[i].type = t`. -/
def wr_type (s : d_data) (i : Int) (t : Int) : d_data :=
  { s with figures := fun k =>
      if (k.val : Int) = i then { s.figures k with type := t } else s.figures k }

/-- The assignment `figures[i].color = c`. -/
def wr_color (s : d_data) (i : Int) (c : Char) : d_data :=
  { s with figures := fun k =>
      if (k.val : Int) = i then { s.figures k with color := c } else s.figures k }

/-- The C `coord_to_sq`. -/
def coord_to_sq (c : coord_t) : Int :=
  if c.x < 0 ∨ c.x > 7 ∨ c.y < 0 ∨ c.y > 7 then -1 else 8 * c.y + c.x

/-- The C `sq_to_coord` (its guard is `s > 64`, as in the source). -/
def sq_to_coord (s : Int) : coord_t :=
  if s < 0 ∨ s > 64 then ⟨-1, -1⟩ else ⟨s % 8, s / 8⟩

/-! ## Move generator -/

/-- The C `pawn_helper`, called with `count = 0`. -/
def pawn_helper (s : d_data) (piece : piece_t) : List coord_t :=
  let y_move : Int := if piece.color = 'B' then -1 else 1
  let first : List coord_t :=
    if (piece.color = 'W' ∧ piece.square.y = 1) ∨
        (piece.color = 'B' ∧ piece.square.y = 6) then
      let c : coord_t := ⟨piece.square.x, piece.square.y + 2 * y_move⟩
      let sq := coord_to_sq c
      if sq ≠ -1 ∧ rd_board s sq = -1 then [c] else []
    else []
  let rest : List coord_t :=
    if piece.square.y ≠ 0 ∨ piece.square.x ≠ 7 then
      let c : coord_t := ⟨piece.square.x, piece.square.y + y_move⟩
      let sq := coord_to_sq c
      let step : List coord_t := if sq ≠ -1 ∧ rd_board s sq = -1 then [c] else []
      let c1 : coord_t := ⟨c.x - 1, c.y⟩
      let c2 : coord_t := ⟨c.x + 1, c.y⟩
      let sq1 := coord_to_sq c1
      let sq2 := coord_to_sq c2
      let left : List coord_t :=
        if sq1 ≠ -1 ∧ rd_board s sq1 ≠ -1 ∧
            (rd_figure s (rd_board s sq1)).color ≠ piece.color then [c1] else []
      let right : List coord_t :=
        if sq2 ≠ -1 ∧ rd_board s sq2 ≠ -1 ∧
            (rd_figure s (rd_board s sq2)).color ≠ piece.color then [c2] else []
      step ++ left ++ right
    else []
  first ++ rest

/-- The C `verify_move_helper`: the square is on the board and is empty or
holds a piece of another colour. -/
def verify_move_helper (s : d_data) (move : coord_t) (color : Char) : Bool :=
  let sq := coord_to_sq move
  if sq ≠ -1 then
    let i := rd_board s sq
    if i = -1 ∨ (rd_figure s i).color ≠ color then true else false
  else false

/-- One `if (verify_move_helper(...)) moves[count++] = c;` of the source. -/
def keep_move (s : d_data) (color : Char) (c : coord_t) : List coord_t :=
  if verify_move_helper s c color then [c] else []

/-- The C `knight_helper`: the eight offsets in source order. -/
def knight_helper (s : d_data) (piece : piece_t) : List coord_t :=
  let x := piece.square.x
  let y := piece.square.y
  keep_move s piece.color ⟨x - 1, y - 2⟩ ++ keep_move s piece.color ⟨x - 1, y + 2⟩ ++
  keep_move s piece.color ⟨x + 1, y + 2⟩ ++ keep_move s piece.color ⟨x + 1, y - 2⟩ ++
  keep_move s piece.color ⟨x + 2, y - 1⟩ ++ keep_move s piece.color ⟨x + 2, y + 1⟩ ++
  keep_move s piece.color ⟨x - 2, y + 1⟩ ++ keep_move s piece.color ⟨x - 2, y - 1⟩

/-- One `while (cont)` loop of `rook_helper` and `bishop_helper`: `c` is the
coordinate before the step, `dx`, `dy` the increments of the loop.  The C loop
has no counter; it ends when the coordinate leaves the board, which happens
after at most eight steps, so the callers pass `fuel = 8`. -/
def ray (s : d_data) (color : Char) (dx dy : Int) : Nat → coord_t → List coord_t
  | 0, _ => []
  | fuel + 1, c =>
    let c1 : coord_t := ⟨c.x + dx, c.y + dy⟩
    let sq := coord_to_sq c1
    if sq = -1 then []
    else
      let piece_index := rd_board s sq
      if piece_index = -1 then c1 :: ray s color dx dy fuel c1
      else if (rd_figure s piece_index).color ≠ color then [c1]
      else []

/-- The C `rook_helper`: right, left, up, down. -/
def rook_helper (s : d_data) (piece : piece_t) : List coord_t :=
  ray s piece.color 1 0 8 piece.square ++ ray s piece.color (-1) 0 8 piece.square ++
  ray s piece.color 0 1 8 piece.square ++ ray s piece.color 0 (-1) 8 piece.square

/-- The C `bishop_helper`: the four diagonals in source order. -/
def bishop_helper (s : d_data) (piece : piece_t) : List coord_t :=
  ray s piece.color 1 1 8 piece.square ++ ray s piece.color 1 (-1) 8 piece.square ++
  ray s piece.color (-1) 1 8 piece.square ++ ray s piece.color (-1) (-1) 8 piece.square

/-- The C `queen_helper`: the rook candidates, then the bishop candidates. -/
def queen_helper (s : d_data) (piece : piece_t) : List coord_t :=
  rook_helper s piece ++ bishop_helper s piece

/-- The C `king_helper`: the eight neighbours in source order. -/
def king_helper (s : d_data) (piece : piece_t) : List coord_t :=
  let x := piece.square.x
  let y := piece.square.y
  keep_move s piece.color ⟨x + 1, y⟩ ++ keep_move s piece.color ⟨x - 1, y⟩ ++
  keep_move s piece.color ⟨x, y + 1⟩ ++ keep_move s piece.color ⟨x, y - 1⟩ ++
  keep_move s piece.color ⟨x + 1, y + 1⟩ ++ keep_move s piece.color ⟨x - 1, y - 1⟩ ++
  keep_move s piece.color ⟨x + 1, y - 1⟩ ++ keep_move s piece.color ⟨x - 1, y + 1⟩

/-- The C `find_move`: dispatch on the kind, the king being the default. -/
def find_move (s : d_data) (piece : piece_t) : List coord_t :=
  if piece.type = PAWN then pawn_helper s piece
  else if piece.type = ROOK then rook_helper s piece
  else if piece.type = KNIGHT then knight_helper s piece
  else if piece.type = BISHOP then bishop_helper s piece
  else if piece.type = QUEEN then queen_helper s piece
  else king_helper s piece

/-! ## Check detector -/

/-- The inner `for (k ...)` loop of `in_check`: does a candidate equal `king`? -/
def hits_king (king : coord_t) : List coord_t → Bool
  | [] => false
  | m :: ms => if m.x = king.x ∧ m.y = king.y then true else hits_king king ms

/-- The index `j` that `in_check` computes from its counter `i`: the pieces of
the other side (`j += 16` when `color` is `'W'`). -/
def attacker (color : Char) (i : Int) : Int := if color = 'W' then i + 16 else i

/-- The `king` that `in_check` compares with: `figures[KING]` for `'W'`,
`figures[KING + 16]` otherwise. -/
def king_of (s : d_data) (color : Char) : coord_t :=
  if color = 'W' then (rd_figure s KING).square else (rd_figure s (KING + 16)).square

/-- The outer `for (i ...)` loop of `in_check` over the remaining values of `i`. -/
def in_check_loop (s : d_data) (color : Char) : List Int → Int
  | [] => 0
  | i :: is =>
    let j := attacker color i
    if (rd_figure s j).alive ≠ 0 then
      let moves := find_move s (rd_figure s j)
      if hits_king (king_of s color) moves then 1 else in_check_loop s color is
    else in_check_loop s color is

/-- The values `0, 1, ..., 15` of the loop counters of `in_check` and `make_move`. -/
def sixteen : List Int := [0, 1, 2, 3, 4, 5, 6, 7, 8, 9, 10, 11, 12, 13, 14, 15]

/-- The C `in_check`: 1 when a candidate of an alive opposing piece is the
square of the king of `color`, else 0.  It writes nothing to the state. -/
def in_check (s : d_data) (color : Char) : Int :=
  in_check_loop s color sixteen

/-! ## Board set-up -/

/-- The four assignments `type`, `color`, `alive`, `square` that `set_board`
makes for one piece record. -/
def place (s : d_data) (idx : Int) (type : Int) (color : Char) (x y : Int) : d_data :=
  wr_square (wr_alive (wr_color (wr_type s idx type) idx color) idx 1) idx ⟨x, y⟩

/-- The pawn loop of `set_board` over the remaining values of `i`. -/
def set_pawns (s : d_data) : List Int → d_data
  | [] => s
  | i :: is =>
    let s1 := place s i PAWN 'W' i 1
    let s2 := wr_board s1 (coord_to_sq (rd_figure s1 i).square) i
    let j := i + 16
    let s3 := place s2 j PAWN 'B' i 6
    let s4 := wr_board s3 (coord_to_sq (rd_figure s3 j).square) j
    set_pawns s4 is

/-- The last loop of `set_board`: `board[i] = -1` for the remaining values of `i`. -/
def clear_slots (s : d_data) : List Int → d_data
  | [] => s
  | i :: is => clear_slots (wr_board s i (-1)) is

/-- The values `0..7` of the pawn loop. -/
def eight : List Int := [0, 1, 2, 3, 4, 5, 6, 7]

/-- The values `16..47` of the loop that empties the middle of the board. -/
def middle : List Int :=
  [16, 17, 18, 19, 20, 21, 22, 23, 24, 25, 26, 27, 28, 29, 30, 31,
   32, 33, 34, 35, 36, 37, 38, 39, 40, 41, 42, 43, 44, 45, 46, 47]

/-- The C `set_board`, assignment by assignment (`w`, `b`, `square_w`,
`square_b` are the values the source's counters have at each statement). -/
def set_board (s : d_data) : d_data :=
  let s := { s with game_on := 1 }
  let s := { s with turn := 'W' }
  let s := set_pawns s eight
  -- rooks: w = 8, b = 24, square_w = 0, square_b = 56
  let s := wr_board (place s 8 ROOK 'W' 0 0) 0 8
  let s := wr_board (place s 24 ROOK 'B' 0 7) 56 24
  let s := wr_board (place s 9 ROOK 'W' 7 0) (0 + 7) 9
  let s := wr_board (place s 25 ROOK 'B' 7 7) (56 + 7) 25
  -- knights: w = 10, b = 26, square_w = 1, square_b = 57
  let s := wr_board (place s 10 KNIGHT 'W' 1 0) 1 10
  let s := wr_board (place s 26 KNIGHT 'B' 1 7) 57 26
  let s := wr_board (place s 11 KNIGHT 'W' 6 0) (1 + 5) 11
  let s := wr_board (place s 27 KNIGHT 'B' 6 7) (57 + 5) 27
  -- bishops: w = 12, b = 28, square_w = 2, square_b = 58
  let s := wr_board (place s 12 BISHOP 'W' 2 0) 2 12
  let s := wr_board (place s 28 BISHOP 'B' 2 7) 58 28
  let s := wr_board (place s 13 BISHOP 'W' 5 0) (2 + 3) 13
  let s := wr_board (place s 29 BISHOP 'B' 5 7) (58 + 3) 29
  -- queens: w = 14, b = 30, square_w = 3, square_b = 59
  let s := wr_board (place s 14 QUEEN 'W' 3 0) 3 14
  let s := wr_board (place s 30 QUEEN 'B' 3 7) 59 30
  -- kings: w = 15, b = 31, square_w = 4, square_b = 60
  let s := wr_board (place s 15 KING 'W' 4 0) 4 15
  let s := wr_board (place s 31 KING 'B' 4 7) 60 31
  clear_slots s middle

/-! ## Tentative application and rollback -/

/-- The locals that `make_move` and `move_valid` keep from one tentative
application, together with the state it produced. -/
structure tentative where
  state : d_data
  prev_c : coord_t
  prev_sq : Int
  new_square : Int
  prev_piece_idx : Int
  prev_type : Int
  promoted : Int

/-- The test `prev_piece_idx != -1 && figures[prev_piece_idx].color != color`
of `make_move`. -/
def takes (s : d_data) (color : Char) (prev_piece_idx : Int) : Bool :=
  decide (prev_piece_idx ≠ -1 ∧ (rd_figure s prev_piece_idx).color ≠ color)

/-- The promotion test of `make_move` and `move_valid`: record `j` is a pawn,
and the candidate `m` is on rank 0 for a black or on rank 7 for a white one. -/
def on_last_rank (s : d_data) (j : Int) (m : coord_t) : Bool :=
  decide ((rd_figure s j).type = PAWN ∧
    (((rd_figure s j).color = 'B' ∧ m.y = 0) ∨ ((rd_figure s j).color = 'W' ∧ m.y = 7)))

/-- Lines 409-441 of `make_move`: piece `j` of colour `color` is put on the
candidate `m`; an occupant of another colour is marked dead, a pawn on its
last rank becomes a queen, both grid slots are written. -/
def mm_apply (s : d_data) (color : Char) (j : Int) (m : coord_t) : tentative :=
  let prev_c := (rd_figure s j).square
  let prev_sq := coord_to_sq prev_c
  let s1 := wr_square s j m
  let new_square := coord_to_sq m
  let prev_piece_idx := rd_board s1 new_square
  let capt := takes s1 color prev_piece_idx
  let prev_type : Int := if capt then (rd_figure s1 prev_piece_idx).type else -1
  let s2 := if capt then wr_alive s1 prev_piece_idx 0 else s1
  let promo := on_last_rank s2 j m
  let s3 := if promo then wr_type s2 j QUEEN else s2
  let s4 := wr_board (wr_board s3 new_square j) prev_sq (-1)
  ⟨s4, prev_c, prev_sq, new_square, prev_piece_idx, prev_type, if promo then 1 else 0⟩

/-- The rollback block, the same text in `make_move` (lines 457-468 and
476-487) and in `move_valid` (lines 636-647), for the moved piece `j`. -/
def undo (t : tentative) (j : Int) : d_data :=
  let s1 := wr_square t.state j t.prev_c
  let s2 := wr_board s1 t.prev_sq j
  let s3 := wr_board s2 t.new_square t.prev_piece_idx
  let s4 := if t.prev_type ≠ -1 then wr_alive s3 t.prev_piece_idx 1 else s3
  if t.promoted = 1 then wr_type s4 j PAWN else s4

/-! ## The computer's move search -/

/-- The `for (k ...)` loop of `make_move` for piece `j` over the remaining
candidates; the flag tells whether the function returned 0 inside the loop. -/
def make_move_cands (s : d_data) (color : Char) (testing : Int) (j : Int) :
    List coord_t → d_data × Bool
  | [] => (s, false)
  | m :: ms =>
    let t := mm_apply s color j m
    let check := in_check t.state color
    if check = 0 then
      if testing = 1 then (undo t j, true) else (t.state, true)
    else make_move_cands (undo t j) color testing j ms

/-- The index `j` that `make_move` computes from its counter `i`: the pieces
of `color` (`j = i + 16` when `color` is `'B'`). -/
def mover (color : Char) (i : Int) : Int := if color = 'B' then i + 16 else i

/-- The `for (i ...)` loop of `make_move` over the remaining values of `i`. -/
def make_move_loop (s : d_data) (color : Char) (testing : Int) : List Int → d_data × Int
  | [] => (s, 1)
  | i :: is =>
    let j := mover color i
    if (rd_figure s j).alive ≠ 0 then
      let moves := find_move s (rd_figure s j)
      let r := make_move_cands s color testing j moves
      if r.2 then (r.1, 0) else make_move_loop r.1 color testing is
    else make_move_loop s color testing is

/-- The C `make_move`: the new state and the returned value, 0 when a
candidate was found that leaves the king of `color` unattacked, 1 when none. -/
def make_move (s : d_data) (color : Char) (testing : Int) : d_data × Int :=
  make_move_loop s color testing sixteen

/-! ## The validator -/

/-- What lines 581-616 of `move_valid` do with a candidate that equals the
destination: an early `return 0` in the state reached so far, or the
tentative application. -/
inductive attempt where
  | rejected (s : d_data)
  | applied (t : tentative)

/-- The test `prev_piece_idx != -1 && figures[prev_piece_idx].color ==
computer_color` of `move_valid`. -/
def takes_computer (s : d_data) (prev_piece_idx : Int) : Bool :=
  decide (prev_piece_idx ≠ -1 ∧ (rd_figure s prev_piece_idx).color = s.computer_color)

/-- Lines 581-616 of `move_valid` for the candidate `m`: the square of the
piece is written first; an occupant of the computer's colour must be declared
with its kind and is marked dead; a pawn on its last rank must come with a
promotion and takes the declared kind; then both grid slots are written. -/
def mv_apply (s : d_data) (piece_idx : Int) (prev_c : coord_t) (take_piece promote : Int)
    (opt_piece_capt opt_piece_prom : piece_t) (m : coord_t) : attempt :=
  let prev_sq := coord_to_sq prev_c
  let s1 := wr_square s piece_idx m
  let new_square := coord_to_sq m
  let prev_piece_idx := rd_board s1 new_square
  let capt := takes_computer s1 prev_piece_idx
  let prev_type : Int := if capt then (rd_figure s1 prev_piece_idx).type else -1
  if capt ∧ (take_piece = 0 ∨ opt_piece_capt.type ≠ prev_type) then .rejected s1
  else
    let s2 := if capt then wr_alive s1 prev_piece_idx 0 else s1
    let promo := on_last_rank s2 piece_idx m
    if promo ∧ (promote = 0 ∨ opt_piece_prom.type = -1) then .rejected s2
    else
      let s3 := if promo then wr_type s2 piece_idx opt_piece_prom.type else s2
      let s4 := wr_board (wr_board s3 new_square piece_idx) prev_sq (-1)
      .applied ⟨s4, prev_c, prev_sq, new_square, prev_piece_idx, prev_type,
        if promo then 1 else 0⟩

/-- The `for (k ...)` loop of `move_valid` over the remaining candidates. -/
def move_valid_loop (s : d_data) (piece_idx : Int) (prev_c dest : coord_t)
    (take_piece promote : Int) (opt_piece_capt opt_piece_prom : piece_t) :
    List coord_t → d_data × Int
  | [] => (s, 0)
  | m :: ms =>
    if m.x = dest.x ∧ m.y = dest.y then
      match mv_apply s piece_idx prev_c take_piece promote opt_piece_capt opt_piece_prom m with
      | .rejected s1 => (s1, 0)
      | .applied t =>
        let check := in_check t.state t.state.player_color
        if check = 0 then (t.state, 1)
        else
          move_valid_loop (undo t piece_idx) piece_idx prev_c dest take_piece promote
            opt_piece_capt opt_piece_prom ms
    else
      move_valid_loop s piece_idx prev_c dest take_piece promote opt_piece_capt
        opt_piece_prom ms

/-- The C `move_valid`: the new state and the returned value (1 accepted,
0 rejected). -/
def move_valid (s : d_data) (piece : piece_t) (dest : coord_t) (take_piece promote : Int)
    (opt_piece_capt opt_piece_prom : piece_t) : d_data × Int :=
  let prev_c := piece.square
  let prev_sq := coord_to_sq prev_c
  let piece_idx := rd_board s prev_sq
  if piece_idx = -1 then (s, 0)
  else
    let p := rd_figure s piece_idx
    if p.color ≠ piece.color ∨ p.type ≠ piece.type ∨ p.alive = 0 then (s, 0)
    else
      move_valid_loop s piece_idx prev_c dest take_piece promote opt_piece_capt
        opt_piece_prom (find_move s piece)

/-! ## Replies and the board snapshot -/

def OK : List Char := "OK\n".data
def CHECK : List Char := "CHECK\n".data
def MATE : List Char := "MATE\n".data
def ILLMOVE : List Char := "ILLMOVE\n".data
def NOGAME : List Char := "NOGAME\n".data
def OOT : List Char := "OOT\n".data
def INVFMT : List Char := "INVFMT\n".data
def UNKCMD : List Char := "UNKCMD\n".data
def NOMSG : List Char := "NOMSG\n".data

/-- The `strcpy` of a constant into `reply`. -/
def answer (s : d_data) (r : List Char) : d_data := { s with reply := r }

/-- The two characters that one iteration of `display_board` writes for the
grid slot `sl` (the source's `i / 2`). -/
def cell (s : d_data) (sl : Int) : List Char :=
  let piece_index := rd_board s sl
  if piece_index = -1 then ['*', '*']
  else
    let p := rd_figure s piece_index
    [ if p.color = 'W' then 'W' else 'B',
      if p.type = PAWN then 'P'
      else if p.type = ROOK then 'R'
      else if p.type = KNIGHT then 'N'
      else if p.type = BISHOP then 'B'
      else if p.type = QUEEN then 'Q'
      else 'K' ]

/-- The cells of the remaining slots, in order. -/
def cells (s : d_data) : List Int → List Char
  | [] => []
  | sl :: sls => cell s sl ++ cells s sls

/-- The slots `0..63`. -/
def slots : List Int := (List.range 64).map Int.ofNat

/-- The C `display_board`: 64 cells, then a newline. -/
def display_board (s : d_data) : d_data :=
  { s with reply := cells s slots ++ ['\n'] }

/-! ## Command decoding -/

/-- The first loop of `d_write`: `n_ct` is the subscript of the last newline
of the message, 0 when there is none; `i` is the subscript of the head. -/
def last_newline : List Char → Nat → Nat → Nat
  | [], _, n_ct => n_ct
  | c :: cs, i, n_ct => last_newline cs (i + 1) (if c = '\n' then i else n_ct)

/-- The C string that starts at `msg` once `msg[n_ct] = 0` is written: the
characters before the first NUL among the first `n_ct`. -/
def c_string (msg : List Char) (n_ct : Nat) : List Char :=
  (msg.take n_ct).takeWhile (fun c => c ≠ Char.ofNat 0)

/-- The tokens that repeated `strsep(&m, " ")` returns: the pieces between
blanks, empty pieces included. -/
def strsep_all : List Char → List (List Char)
  | [] => [[]]
  | c :: cs =>
    if c = ' ' then [] :: strsep_all cs
    else
      match strsep_all cs with
      | [] => [[c]]
      | t :: ts => (c :: t) :: ts

/-- The if-chain that turns a kind letter into a piece type (three copies in
`d_write`); `none` is the branch that answers INVFMT. -/
def kind_of_letter (c : Char) : Option Int :=
  if c = 'P' then some PAWN
  else if c = 'R' then some ROOK
  else if c = 'N' then some KNIGHT
  else if c = 'B' then some BISHOP
  else if c = 'Q' then some QUEEN
  else if c = 'K' then some KING
  else none

/-- The test on a file letter and a rank digit; the coordinate is
`(letter - 97, digit - 49)`. -/
def coord_of_letters (letter num : Char) : Option coord_t :=
  if 'a'.toNat ≤ letter.toNat ∧ letter.toNat ≤ 'h'.toNat ∧
      '1'.toNat ≤ num.toNat ∧ num.toNat ≤ '8'.toNat then
    some ⟨(letter.toNat : Int) - 97, (num.toNat : Int) - 49⟩
  else none

/-- The arguments that `d_write` passes to `move_valid`. -/
structure move_args where
  piece : piece_t
  dest : coord_t
  take_piece : Int
  promote : Int
  piece_opt1 : piece_t
  piece_opt2 : piece_t
deriving DecidableEq

/-- A local `piece_t` of `d_write` of which only `type` is set (to -1). -/
def no_piece : piece_t := ⟨-1, Char.ofNat 0, 0, ⟨0, 0⟩⟩

/-- The promotion block of the `02` branch (lines 1448-1546) for the option
letters `color_opt`, `type_opt`; `len` is `strlen(arg)`. -/
def decode_promotion (s : d_data) (len : Nat) (piece : piece_t) (dest : coord_t)
    (take_piece : Int) (piece_opt1 : piece_t) (color_opt type_opt : Char) :
    Except (List Char) move_args :=
  if color_opt = s.player_color then
    match kind_of_letter type_opt with
    | none => .error INVFMT
    | some t =>
      let piece_opt : piece_t := ⟨t, color_opt, 0, dest⟩
      if piece.type ≠ PAWN then .error ILLMOVE
      else if piece_opt.type = PAWN ∨ piece_opt.type = KING then .error ILLMOVE
      else if s.player_color = 'W' ∧ (piece.square.y ≠ 6 ∨ piece_opt.square.y ≠ 7) then
        .error ILLMOVE
      else if s.player_color ≠ 'W' ∧ s.player_color = 'B' ∧
          (piece.square.y ≠ 1 ∨ piece_opt.square.y ≠ 0) then
        .error ILLMOVE
      else if len = 10 then .ok ⟨piece, dest, take_piece, 1, piece_opt, no_piece⟩
      else if len = 13 then .ok ⟨piece, dest, take_piece, 1, piece_opt1, piece_opt⟩
      else .ok ⟨piece, dest, take_piece, 1, piece_opt1, no_piece⟩
  else .error INVFMT

/-- The option block of the `02` branch (lines 1404-1547). -/
def decode_options (s : d_data) (arg : List Char) (piece : piece_t) (dest : coord_t) :
    Except (List Char) move_args :=
  let len := arg.length
  if len = 10 ∨ len = 13 then
    let option1 := arg.getD 7 'n'
    let color1 := arg.getD 8 'n'
    let type1 := arg.getD 9 'n'
    let option2 := if len = 13 then arg.getD 10 'n' else 'n'
    let color2 := if len = 13 then arg.getD 11 'n' else 'n'
    let type2 := if len = 13 then arg.getD 12 'n' else 'n'
    if option1 = 'x' then
      if color1 = s.computer_color then
        match kind_of_letter type1 with
        | none => .error INVFMT
        | some t1 =>
          let piece_opt1 : piece_t := ⟨t1, color1, 0, dest⟩
          if option2 = 'y' then
            decode_promotion s len piece dest 1 piece_opt1 color2 type2
          else .ok ⟨piece, dest, 1, 0, piece_opt1, no_piece⟩
      else .error INVFMT
    else if option1 = 'y' then
      decode_promotion s len piece dest 0 no_piece color1 type1
    else .ok ⟨piece, dest, 0, 0, no_piece, no_piece⟩
  else .ok ⟨piece, dest, 0, 0, no_piece, no_piece⟩

/-- Lines 1299-1547 of the `02` branch: the reply of a `goto out` taken
before the game-state tests, or the arguments for `move_valid`. -/
def decode_move (s : d_data) (arg : Option (List Char)) : Except (List Char) move_args :=
  match arg with
  | none => .error INVFMT
  | some arg =>
    if arg.length < 7 then .error INVFMT
    else
      let color := arg.getD 0 'n'
      let type := arg.getD 1 'n'
      let source_letter := arg.getD 2 'n'
      let source_num := arg.getD 3 'n'
      let dest_letter := arg.getD 5 'n'
      let dest_num := arg.getD 6 'n'
      match kind_of_letter type with
      | none => .error INVFMT
      | some t =>
        if (color = 'W' ∨ color = 'B') ∧ color = s.player_color then
          match coord_of_letters source_letter source_num with
          | none => .error INVFMT
          | some source =>
            let piece : piece_t := ⟨t, color, 0, source⟩
            if arg.getD 4 'n' ≠ '-' then .error INVFMT
            else
              match coord_of_letters dest_letter dest_num with
              | none => .error INVFMT
              | some dest => decode_options s arg piece dest
        else .error INVFMT

/-! ## The command handler -/

/-- The check and mate evaluation that follows a move (lines 1578-1606 and
1633-1660): `color` is the side that has to answer. -/
def evaluate (s : d_data) (color : Char) : d_data :=
  let check := in_check s color
  if check ≠ 0 then
    let r := make_move s color 1
    if r.2 ≠ 0 then answer { r.1 with game_on := 0 } MATE
    else answer r.1 CHECK
  else answer s OK

/-- Lines 1549-1606 of the `02` branch: the game-state tests, the validator
and the evaluation. -/
def player_move (s : d_data) (a : move_args) : d_data :=
  if s.game_on = 0 then answer s NOGAME
  else if s.turn ≠ s.player_color then answer s OOT
  else
    let r := move_valid s a.piece a.dest a.take_piece a.promote a.piece_opt1 a.piece_opt2
    if r.2 = 0 then answer r.1 ILLMOVE
    else
      let s1 := { r.1 with turn := r.1.computer_color }
      evaluate s1 s1.computer_color

/-- The `03` branch. -/
def computer_move (s : d_data) : d_data :=
  if s.game_on ≠ 1 then answer s NOGAME
  else if s.turn ≠ s.computer_color then answer s OOT
  else
    let s1 := answer s OK
    let r := make_move s1 s1.computer_color 0
    let s2 := { r.1 with turn := r.1.player_color }
    evaluate s2 s2.player_color

/-- The `04` branch. -/
def resign (s : d_data) : d_data :=
  if s.game_on ≠ 1 then answer s NOGAME
  else if s.turn ≠ s.player_color then answer s OOT
  else answer { s with game_on := 0 } OK

/-- The `00` branch for an argument that is present. -/
def new_game (s : d_data) (arg : List Char) : d_data :=
  if arg = ['W'] then
    let s1 := set_board { s with game_on := 1 }
    answer { s1 with player_color := 'W', computer_color := 'B' } OK
  else if arg = ['B'] then
    let s1 := set_board { s with game_on := 1 }
    answer { s1 with player_color := 'B', computer_color := 'W' } OK
  else answer s INVFMT

/-- The dispatch of `d_write` on the command token. -/
def dispatch (s : d_data) (cmd : List Char) (arg : Option (List Char)) : d_data :=
  if cmd = ['0', '0'] then
    match arg with
    | none => answer s INVFMT
    | some a => new_game s a
  else if cmd = ['0', '1'] then
    match arg with
    | some _ => answer s INVFMT
    | none => display_board s
  else if cmd = ['0', '2'] then
    match decode_move s arg with
    | .error r => answer s r
    | .ok a => player_move s a
  else if cmd = ['0', '3'] then
    match arg with
    | none => computer_move s
    | some _ => answer s INVFMT
  else if cmd = ['0', '4'] then
    match arg with
    | none => resign s
    | some _ => answer s INVFMT
  else answer s UNKCMD

/-- The command token and the optional argument token of a written message,
or `none` where `d_write` answers INVFMT before it looks at the command. -/
def tokenize (msg : List Char) : Option (List Char × Option (List Char)) :=
  let n_ct := last_newline msg 0 0
  if n_ct = 0 then none
  else
    match strsep_all (c_string msg n_ct) with
    | [cmd] => if cmd.length ≠ 2 then none else some (cmd, none)
    | [cmd, arg] =>
      if cmd.length ≠ 2 then none
      else if arg.length > 13 then none
      else some (cmd, some arg)
    | _ => none

/-- The C `d_write` for the message `msg` (the `len` bytes copied from the
caller): the state of the device after the call. -/
def d_write (s : d_data) (msg : List Char) : d_data :=
  match tokenize msg with
  | none => answer s INVFMT
  | some (cmd, arg) => dispatch s cmd arg

/-- The C `d_read` with a buffer that is long enough: the reply handed to the
caller and the state with the reply cleared. -/
def d_read (s : d_data) : List Char × d_data := (s.reply, { s with reply := [] })

/-- The state that `chess_init` leaves in the zero-initialised `cdev_data`. -/
def init_state : d_data :=
  { game_on := 0
    board := fun _ => 0
    figures := fun _ => ⟨0, Char.ofNat 0, 0, ⟨0, 0⟩⟩
    turn := 'W'
    player_color := Char.ofNat 0
    computer_color := Char.ofNat 0
    reply := NOMSG }

/-- The state after the messages of a list have been written one by one. -/
def run (s : d_data) : List (List Char) → d_data
  | [] => s
  | msg :: msgs => run (d_write s msg) msgs

/-! ## State predicates -/

/-- The six piece types of the source. -/
def is_kind (t : Int) : Prop :=
  t = PAWN ∨ t = ROOK ∨ t = KNIGHT ∨ t = BISHOP ∨ t = QUEEN ∨ t = KING

instance (t : Int) : Decidable (is_kind t) := by unfold is_kind; infer_instance

/-- Grid/piece agreement: slot `sl` holds index `i` exactly when record `i` is
alive and its stored square is the coordinate of `sl`, and every slot holds
-1 or an index `0..31`. -/
def grid_agrees (s : d_data) : Prop :=
  (∀ sl : Fin 64, ∀ i : Fin 32, s.board sl = (i.val : Int) ↔
    ((s.figures i).alive ≠ 0 ∧ coord_to_sq (s.figures i).square = (sl.val : Int))) ∧
  (∀ sl : Fin 64, s.board sl = -1 ∨ (0 ≤ s.board sl ∧ s.board sl < 32))

instance (s : d_data) : Decidable (grid_agrees s) := by unfold grid_agrees; infer_instance

/-- The ranges that the data model gives the fields of a record: `alive` is
the flag 0 or 1, the stored square is on the board, the type is one of the six
kinds. -/
def well_formed (s : d_data) : Prop :=
  ∀ i : Fin 32, ((s.figures i).alive = 0 ∨ (s.figures i).alive = 1) ∧
    coord_to_sq (s.figures i).square ≠ -1 ∧ is_kind (s.figures i).type

instance (s : d_data) : Decidable (well_formed s) := by unfold well_formed; infer_instance

/-! ## The search order, as the specification words it -/

/-- The candidates that the search of `color` goes through, in its order:
the sixteen records of the colour by ascending index (the counters `is`),
dead records skipped, and for each record its generated candidates in
generation order. -/
def search_order (s : d_data) (color : Char) : List Int → List (Int × coord_t)
  | [] => []
  | i :: is =>
    (if (rd_figure s (mover color i)).alive ≠ 0 then
      (find_move s (rd_figure s (mover color i))).map (fun m => (mover color i, m))
    else []) ++ search_order s color is

/-- A candidate is safe when the king of `color` is not attacked in the state
that its tentative application produces. -/
def safe_candidate (s : d_data) (color : Char) (jm : Int × coord_t) : Bool :=
  decide (in_check (mm_apply s color jm.1 jm.2).state color = 0)

/-- The first safe candidate in search order, if there is one. -/
def first_safe (s : d_data) (color : Char) : Option (Int × coord_t) :=
  (search_order s color sixteen).find? (safe_candidate s color)

/-! ## The starting layout, as the specification words it -/

/-- The kind of record `i` in the fixed index layout: within each colour's
sixteen indices, 0-7 pawns, 8-9 rooks, 10-11 knights, 12-13 bishops, 14 the
queen, 15 the king. -/
def layout_type (i : Nat) : Int :=
  if i % 16 < 8 then PAWN
  else if i % 16 < 10 then ROOK
  else if i % 16 < 12 then KNIGHT
  else if i % 16 < 14 then BISHOP
  else if i % 16 = 14 then QUEEN
  else KING

/-- The file of record `i` at the start: pawns on files a-h in index order,
rooks on a and h, knights on b and g, bishops on c and f, queen on d, king
on e. -/
def layout_file (i : Nat) : Int :=
  if i % 16 < 8 then ((i % 16 : Nat) : Int)
  else if i % 16 = 8 then 0
  else if i % 16 = 9 then 7
  else if i % 16 = 10 then 1
  else if i % 16 = 11 then 6
  else if i % 16 = 12 then 2
  else if i % 16 = 13 then 5
  else if i % 16 = 14 then 3
  else 4

/-- The rank index of record `i` at the start: white pawns 1, white pieces 0,
black pawns 6, black pieces 7. -/
def layout_rank (i : Nat) : Int :=
  if i < 8 then 1 else if i < 16 then 0 else if i < 24 then 6 else 7

/-- Record `i` of the standard starting layout. -/
def layout_piece (i : Fin 32) : piece_t :=
  ⟨layout_type i.val, if i.val < 16 then 'W' else 'B', 1,
    ⟨layout_file i.val, layout_rank i.val⟩⟩

/-- The occupancy grid of the standard starting layout. -/
def layout_board (sl : Fin 64) : Int :=
  [8, 10, 12, 14, 15, 13, 11, 9, 0, 1, 2, 3, 4, 5, 6, 7,
   -1, -1, -1, -1, -1, -1, -1, -1, -1, -1, -1, -1, -1, -1, -1, -1,
   -1, -1, -1, -1, -1, -1, -1, -1, -1, -1, -1, -1, -1, -1, -1, -1,
   16, 17, 18, 19, 20, 21, 22, 23, 24, 26, 28, 30, 31, 29, 27, 25].getD sl.val (-1)

/-! ## Write logs -/

/-- The value that a subscript `k` reads after a sequence of array writes,
given as pairs (subscript, value) with the last write first; `d` is the value
before the writes. -/
def read_log {α : Type} : List (Int × α) → Int → α → α
  | [], _, d => d
  | (i, v) :: ws, k, d => if k = i then v else read_log ws k d

/-- The value that the writes of a log give the subscript `k`, if one of them
writes it. -/
def read_log_opt {α : Type} : List (Int × α) → Int → Option α
  | [], _ => none
  | (i, v) :: ws, k => if k = i then some v else read_log_opt ws k

/-- The writes of `set_board` to `board`, the last one first. -/
def board_log : List (Int × Int) :=
  [(47, -1), (46, -1), (45, -1), (44, -1), (43, -1), (42, -1), (41, -1), (40, -1),
   (39, -1), (38, -1), (37, -1), (36, -1), (35, -1), (34, -1), (33, -1), (32, -1),
   (31, -1), (30, -1), (29, -1), (28, -1), (27, -1), (26, -1), (25, -1), (24, -1),
   (23, -1), (22, -1), (21, -1), (20, -1), (19, -1), (18, -1), (17, -1), (16, -1),
   (60, 31), (4, 15), (59, 30), (3, 14), (61, 29), (5, 13), (58, 28), (2, 12),
   (62, 27), (6, 11), (57, 26), (1, 10), (63, 25), (7, 9), (56, 24), (0, 8),
   (55, 23), (15, 7), (54, 22), (14, 6), (53, 21), (13, 5), (52, 20), (12, 4),
   (51, 19), (11, 3), (50, 18), (10, 2), (49, 17), (9, 1), (48, 16), (8, 0)]

/-- The records that `set_board` writes to `figures`, the last one first. -/
def figures_log : List (Int × piece_t) :=
  [(31, ⟨KING, 'B', 1, ⟨4, 7⟩⟩),
   (15, ⟨KING, 'W', 1, ⟨4, 0⟩⟩),
   (30, ⟨QUEEN, 'B', 1, ⟨3, 7⟩⟩),
   (14, ⟨QUEEN, 'W', 1, ⟨3, 0⟩⟩),
   (29, ⟨BISHOP, 'B', 1, ⟨5, 7⟩⟩),
   (13, ⟨BISHOP, 'W', 1, ⟨5, 0⟩⟩),
   (28, ⟨BISHOP, 'B', 1, ⟨2, 7⟩⟩),
   (12, ⟨BISHOP, 'W', 1, ⟨2, 0⟩⟩),
   (27, ⟨KNIGHT, 'B', 1, ⟨6, 7⟩⟩),
   (11, ⟨KNIGHT, 'W', 1, ⟨6, 0⟩⟩),
   (26, ⟨KNIGHT, 'B', 1, ⟨1, 7⟩⟩),
   (10, ⟨KNIGHT, 'W', 1, ⟨1, 0⟩⟩),
   (25, ⟨ROOK, 'B', 1, ⟨7, 7⟩⟩),
   (9, ⟨ROOK, 'W', 1, ⟨7, 0⟩⟩),
   (24, ⟨ROOK, 'B', 1, ⟨0, 7⟩⟩),
   (8, ⟨ROOK, 'W', 1, ⟨0, 0⟩⟩),
   (23, ⟨PAWN, 'B', 1, ⟨7, 6⟩⟩),
   (7, ⟨PAWN, 'W', 1, ⟨7, 1⟩⟩),
   (22, ⟨PAWN, 'B', 1, ⟨6, 6⟩⟩),
   (6, ⟨PAWN, 'W', 1, ⟨6, 1⟩⟩),
   (21, ⟨PAWN, 'B', 1, ⟨5, 6⟩⟩),
   (5, ⟨PAWN, 'W', 1, ⟨5, 1⟩⟩),
   (20, ⟨PAWN, 'B', 1, ⟨4, 6⟩⟩),
   (4, ⟨PAWN, 'W', 1, ⟨4, 1⟩⟩),
   (19, ⟨PAWN, 'B', 1, ⟨3, 6⟩⟩),
   (3, ⟨PAWN, 'W', 1, ⟨3, 1⟩⟩),
   (18, ⟨PAWN, 'B', 1, ⟨2, 6⟩⟩),
   (2, ⟨PAWN, 'W', 1, ⟨2, 1⟩⟩),
   (17, ⟨PAWN, 'B', 1, ⟨1, 6⟩⟩),
   (1, ⟨PAWN, 'W', 1, ⟨1, 1⟩⟩),
   (16, ⟨PAWN, 'B', 1, ⟨0, 6⟩⟩),
   (0, ⟨PAWN, 'W', 1, ⟨0, 1⟩⟩)]

/-! ## Relations between states used in the statements -/

/-- All fields but the reply are the same in both states. -/
def same_game (s t : d_data) : Prop :=
  t.game_on = s.game_on ∧ t.board = s.board ∧ t.figures = s.figures ∧ t.turn = s.turn ∧
    t.player_color = s.player_color ∧ t.computer_color = s.computer_color

/-- The reply is one of INVFMT, NOGAME, OOT, UNKCMD. -/
def error_reply (r : List Char) : Prop := r = INVFMT ∨ r = NOGAME ∨ r = OOT ∨ r = UNKCMD

/-- Both states have the same occupancy grid and the same piece records. -/
def same_position (s t : d_data) : Prop := s.board = t.board ∧ s.figures = t.figures

/-- The scalar fields of both states are the same. -/
def same_scalars (s t : d_data) : Prop :=
  t.game_on = s.game_on ∧ t.turn = s.turn ∧ t.player_color = s.player_color ∧
    t.computer_color = s.computer_color ∧ t.reply = s.reply

/-- The position of `s` with the scalar fields of `u`. -/
def relabel (s u : d_data) : d_data := { u with board := s.board, figures := s.figures }

/-- The tentative application with the scalar fields of `u` in its state. -/
def relabel_tentative (t : tentative) (u : d_data) : tentative :=
  { t with state := relabel t.state u }

/-- The state that an attempt of `move_valid` ends in has the scalar fields of `s`. -/
def attempt_scalars (s : d_data) : attempt → Prop
  | .rejected s1 => same_scalars s s1
  | .applied t => same_scalars s t.state

/-! ## Concrete games -/

/-- The state right after `00 W`: the starting layout, White to move, the
player White. -/
def start_white : d_data := ⟨1, layout_board, layout_piece, 'W', 'W', 'B', OK⟩

/-- The moves after `00 W` that offer the white b-pawn a capture: b2-b4, and
the computer answers a7-a5. -/
def capture_offer : List (List Char) := ["02 WPb2-b4\n".data, "03\n".data]

/-- The capture b4xa5 written without the capture declaration. -/
def undeclared_capture : List Char := "02 WPb4-a5\n".data

/-- The moves after `00 W` of a game in which the rejected `02 WPf6-e7` (an
undeclared capture) leaves the record of the white f-pawn on e7; the check
test of the later `03` then writes that pawn into the grid slot of e7. -/
def phantom_pawn_game : List (List Char) :=
  ["02 WNg1-h3\n".data, "03\n".data, "02 WPf2-f4\n".data, "03\n".data,
   "02 WPh2-h4\n".data, "03\n".data, "02 WPf4-f5\n".data, "03\n".data,
   "02 WPf5-f6\n".data, "03\n".data, "02 WPf6-e7\n".data, "02 WRh1-g1\n".data,
   "03\n".data, "02 WPa2-a4\n".data, "03\n".data, "02 WPh4-h5\n".data, "03\n".data,
   "02 WKe1-d1xBQ\n".data, "03\n".data]

/-- The accepted move that follows `phantom_pawn_game`: the pawn is moved from
e7 and takes the bishop on f8, promoting to a queen. -/
def phantom_capture : List Char := "02 WPe7-f8xBByWQ\n".data

/-- The arguments that `d_write` decodes from `phantom_capture`. -/
def phantom_args : move_args :=
  ⟨⟨PAWN, 'W', 0, ⟨4, 6⟩⟩, ⟨5, 7⟩, 1, 1, ⟨BISHOP, 'B', 0, ⟨5, 7⟩⟩, ⟨QUEEN, 'W', 0, ⟨5, 7⟩⟩⟩

/-! ## The move-spec grammar of the specification -/

/-- A colour letter of the move-spec grammar (specification, section 6). -/
def grammar_color (c : Char) : Bool := c = 'W' ∨ c = 'B'

/-- A kind letter of the move-spec grammar: one of P, R, N, B, Q, K. -/
def grammar_kind (c : Char) : Bool := c ∈ ['P', 'R', 'N', 'B', 'Q', 'K']

/-- A file letter of the move-spec grammar: a to h. -/
def grammar_file (c : Char) : Bool := c ∈ ['a', 'b', 'c', 'd', 'e', 'f', 'g', 'h']

/-- A rank digit of the move-spec grammar: 1 to 8. -/
def grammar_rank (c : Char) : Bool := c ∈ ['1', '2', '3', '4', '5', '6', '7', '8']

/-- An option of the move-spec grammar: the marker x or y, a colour letter and
a kind letter. -/
def grammar_option (o c k : Char) : Bool := (o = 'x' ∨ o = 'y') && grammar_color c && grammar_kind k

/-- The move-spec grammar as the specification words it (section 6): colour,
kind, source file and rank, a dash, destination file and rank, then none, one
or two options; the length is 7, 10 or 13. -/
def grammar_move_spec : List Char → Bool
  | c :: k :: sf :: sr :: sep :: df :: dr :: opts =>
    grammar_color c && grammar_kind k && grammar_file sf && grammar_rank sr &&
      decide (sep = '-') && grammar_file df && grammar_rank dr &&
      (match opts with
        | [] => true
        | [o1, c1, k1] => grammar_option o1 c1 k1
        | [o1, c1, k1, o2, c2, k2] => grammar_option o1 c1 k1 && grammar_option o2 c2 k2
        | _ => false)
  | _ => false

/-! ## Comparing states inside `move_valid` -/

/-- What the loop of `move_valid` for piece `idx` keeps of the state `s` it
started in, after attempts that were rolled back: the grid, both colours, the
kind and colour of every record, and the square of every record but `idx`. -/
def rolled_back (s st : d_data) (idx : Int) : Prop :=
  (∀ k, rd_board st k = rd_board s k) ∧ st.computer_color = s.computer_color ∧
  st.player_color = s.player_color ∧
  ∀ k, (rd_figure st k).type = (rd_figure s k).type ∧
    (rd_figure st k).color = (rd_figure s k).color ∧
    (k ≠ idx → (rd_figure st k).square = (rd_figure s k).square)

/-- The promotion that a move spec declares, in the words of the grammar: the
colour and kind letters of the first option whose marker is y. -/
def declared_promotion (arg : List Char) : Option (Char × Char) :=
  if (arg.length = 10 ∨ arg.length = 13) ∧ arg.getD 7 'n' = 'y' then
    some (arg.getD 8 'n', arg.getD 9 'n')
  else if arg.length = 13 ∧ arg.getD 10 'n' = 'y' then some (arg.getD 11 'n', arg.getD 12 'n')
  else none

/-- The files a to h. -/
def files : List Char := "abcdefgh".data

/-- The message `02 WP<f>2-<f>4` of Scenario 1 for the file `f`. -/
def pawn_push (f : Char) : List Char :=
  ['0', '2', ' ', 'W', 'P', f, '2', '-', f, '4', '\n']

/-- The moves after `00 W` of a game that brings the white c-pawn to b7 and,
after the check Qb5 is answered by Nb8-c6, leaves b8 empty. -/
def promotion_game : List (List Char) :=
  ["02 WPc2-c4\n".data, "03\n".data, "02 WPc4-c5\n".data, "03\n".data,
   "02 WPh2-h4\n".data, "03\n".data, "02 WPc5-c6\n".data, "03\n".data,
   "02 WPc6-b7xBP\n".data, "03\n".data, "02 WPd2-d3\n".data, "03\n".data,
   "02 WQd1-c2\n".data, "03\n".data, "02 WQc2-c1xBQ\n".data, "03\n".data,
   "02 WQc1-c5xBP\n".data, "03\n".data, "02 WQc5-b5\n".data, "03\n".data]

/-- The promotion b7-b8 to a queen in the 10-character form. -/
def short_promotion : List Char := "02 WPb7-b8yWQ\n".data

/-! ## Reference definitions of the move generator -/

/-- On-board and empty, in the words of the specification. -/
def empty_at (s : d_data) (c : coord_t) : Prop :=
  coord_to_sq c ≠ -1 ∧ rd_board s (coord_to_sq c) = -1

instance (s : d_data) (c : coord_t) : Decidable (empty_at s c) := by
  unfold empty_at; infer_instance

/-- On-board and occupied by a piece of another colour than `color`. -/
def enemy_at (s : d_data) (color : Char) (c : coord_t) : Prop :=
  coord_to_sq c ≠ -1 ∧ rd_board s (coord_to_sq c) ≠ -1 ∧
    (rd_figure s (rd_board s (coord_to_sq c))).color ≠ color

instance (s : d_data) (color : Char) (c : coord_t) : Decidable (enemy_at s color c) := by
  unfold enemy_at; infer_instance

/-- The occupancy filter of the step pieces and of the end of a ray: on-board
and empty or occupied by a piece of another colour. -/
def may_land (s : d_data) (color : Char) (c : coord_t) : Prop :=
  coord_to_sq c ≠ -1 ∧
    (rd_board s (coord_to_sq c) = -1 ∨
      (rd_figure s (rd_board s (coord_to_sq c))).color ≠ color)

instance (s : d_data) (color : Char) (c : coord_t) : Decidable (may_land s color c) := by
  unfold may_land; infer_instance

/-- The forward direction of a pawn: +1 for White, -1 for Black. -/
def pawn_forward (color : Char) : Int := if color = 'W' then 1 else -1

/-- The home rank of a pawn: rank index 1 for White, 6 for Black. -/
def home_rank (color : Char) : Int := if color = 'W' then 1 else 6

/-- The pawn candidates as the specification lists them: the double step from
the home rank, then, unless the pawn stands on file h rank 1, the single
step, the capture to the left and the capture to the right. -/
def pawn_reference (s : d_data) (piece : piece_t) : List coord_t :=
  (if piece.square.y = home_rank piece.color ∧
      empty_at s ⟨piece.square.x, piece.square.y + 2 * pawn_forward piece.color⟩ then
    [⟨piece.square.x, piece.square.y + 2 * pawn_forward piece.color⟩] else []) ++
  (if piece.square.x = 7 ∧ piece.square.y = 0 then []
  else
    (if empty_at s ⟨piece.square.x, piece.square.y + pawn_forward piece.color⟩ then
      [⟨piece.square.x, piece.square.y + pawn_forward piece.color⟩] else []) ++
    (if enemy_at s piece.color
        ⟨piece.square.x - 1, piece.square.y + pawn_forward piece.color⟩ then
      [⟨piece.square.x - 1, piece.square.y + pawn_forward piece.color⟩] else []) ++
    (if enemy_at s piece.color
        ⟨piece.square.x + 1, piece.square.y + pawn_forward piece.color⟩ then
      [⟨piece.square.x + 1, piece.square.y + pawn_forward piece.color⟩] else []))

/-- An L-shaped offset: one coordinate changes by 1 and the other by 2. -/
def l_shaped (dx dy : Int) : Prop :=
  ((dx = 1 ∨ dx = -1) ∧ (dy = 2 ∨ dy = -2)) ∨ ((dx = 2 ∨ dx = -2) ∧ (dy = 1 ∨ dy = -1))

instance (dx dy : Int) : Decidable (l_shaped dx dy) := by unfold l_shaped; infer_instance

/-- An offset to an adjacent square: both coordinates change by at most 1,
not both by 0. -/
def adjacent (dx dy : Int) : Prop :=
  (dx = -1 ∨ dx = 0 ∨ dx = 1) ∧ (dy = -1 ∨ dy = 0 ∨ dy = 1) ∧ (dx ≠ 0 ∨ dy ≠ 0)

instance (dx dy : Int) : Decidable (adjacent dx dy) := by unfold adjacent; infer_instance

/-- The four axis directions of a rook. -/
def rook_directions : List (Int × Int) := [(1, 0), (-1, 0), (0, 1), (0, -1)]

/-- The four diagonal directions of a bishop. -/
def bishop_directions : List (Int × Int) := [(1, 1), (1, -1), (-1, 1), (-1, -1)]

/-- The square `t` lies on the ray from `c` in direction `d`, every square
strictly between `c` and `t` is empty, and `t` is on the board and empty or
occupied by a piece of another colour than `color`. -/
def slides_to (s : d_data) (color : Char) (c : coord_t) (d : Int × Int) (t : coord_t) : Prop :=
  ∃ k : Nat, 1 ≤ k ∧ t.x = c.x + k * d.1 ∧ t.y = c.y + k * d.2 ∧
    (∀ j : Nat, 1 ≤ j → j < k →
      rd_board s (coord_to_sq ⟨c.x + j * d.1, c.y + j * d.2⟩) = -1) ∧
    may_land s color t

/-- The forward candidates of a pawn: the candidates on the pawn's own file. -/
def forward_candidates (s : d_data) (piece : piece_t) : List coord_t :=
  (pawn_helper s piece).filter (fun m => decide (m.x = piece.square.x))

/-- The moves after `00 W` that block the white a-pawn: the knight goes to a3
and the computer's a-pawn arrives on a4. -/
def blocked_pawn_game : List (List Char) :=
  ["02 WNb1-a3\n".data, "03\n".data, "02 WPh2-h3\n".data, "03\n".data]

/-- The colour letters of a move spec name the two sides in their roles: the
moving piece has the player's colour, a declared capture the computer's and
a declared promotion the player's. -/
def colors_in_role (s : d_data) (arg : List Char) : Prop :=
  arg.getD 0 'n' = s.player_color ∧
  (arg.getD 7 'n' = 'x' → arg.getD 8 'n' = s.computer_color) ∧
  ∀ p, declared_promotion arg = some p → p.1 = s.player_color

/-- The kind `k` of a record whose kind was `k0`: the same kind, or for a pawn
one of the four kinds of a promotion. -/
def kind_kept (k0 k : Int) : Prop :=
  k = k0 ∨ (k0 = PAWN ∧ (k = ROOK ∨ k = KNIGHT ∨ k = BISHOP ∨ k = QUEEN))

instance (k0 k : Int) : Decidable (kind_kept k0 k) := by unfold kind_kept; infer_instance

/-- Every record of `t` has the colour that it has in `s`, and the kind that
it has in `s` or, where that is a pawn, the kind of a promotion. -/
def identity_kept (s t : d_data) : Prop :=
  ∀ k : Int, (rd_figure t k).color = (rd_figure s k).color ∧
    kind_kept (rd_figure s k).type (rd_figure t k).type

/-- Every record of `s` has the colour that the set-up gives its index, and
the kind of the set-up or, for the index of a pawn, the kind of a promotion. -/
def layout_identity (s : d_data) : Prop :=
  ∀ i : Fin 32, (s.figures i).color = (layout_piece i).color ∧
    kind_kept (layout_piece i).type (s.figures i).type

/-- The moves after `00 W` in which the player's knight goes to and fro
while the computer's a-pawn walks to a1. -/
def computer_promotion_game : List (List Char) :=
  ["02 WNg1-f3\n".data, "03\n".data, "02 WNf3-g1\n".data, "03\n".data,
   "02 WNg1-f3\n".data, "03\n".data, "02 WNf3-g1\n".data, "03\n".data,
   "02 WNg1-f3\n".data, "03\n".data]

/-- A board that holds nothing but the white rook of record 8 on d4. -/
def lone_rook : d_data :=
  { game_on := 1
    board := fun k => if k.val = 27 then 8 else -1
    figures := fun i =>
      if i.val = 8 then ⟨ROOK, 'W', 1, ⟨3, 3⟩⟩
      else ⟨(layout_piece i).type, (layout_piece i).color, 0, (layout_piece i).square⟩
    turn := 'W'
    player_color := 'W'
    computer_color := 'B'
    reply := OK }

/-! ## Directions of candidates -/

/-- The direction in which `m` lies from `c`: the signs of the two coordinate
differences. -/
def heading (c m : coord_t) : Int × Int :=
  (if m.x > c.x then 1 else if m.x < c.x then -1 else 0,
   if m.y > c.y then 1 else if m.y < c.y then -1 else 0)

/-! ## The kings and the colours of the records -/

/-- Record 15 is a white king, record 31 a black king, and the records
0..15 are white, the records 16..31 black. -/
def kings_in_place (t : d_data) : Prop :=
  (t.figures 15).color = 'W' ∧ (t.figures 15).type = KING ∧
  (t.figures 31).color = 'B' ∧ (t.figures 31).type = KING ∧
  ∀ i : Fin 32, (t.figures i).color = (if i.val < 16 then 'W' else 'B')

/-! ## States written out -/

/-- The `j`-th of eight values. -/
def pick8 {α : Type} (a0 a1 a2 a3 a4 a5 a6 a7 : α) (j : Nat) : α :=
  if j < 4 then
    if j < 2 then (if j < 1 then a0 else a1) else (if j < 3 then a2 else a3)
  else
    if j < 6 then (if j < 5 then a4 else a5) else (if j < 7 then a6 else a7)

/-- A grid given rank by rank, from rank 1 to rank 8. -/
def grid_of_ranks (r0 r1 r2 r3 r4 r5 r6 r7 : Nat → Int) : Fin 64 → Int :=
  fun k => pick8 r0 r1 r2 r3 r4 r5 r6 r7 (k.val / 8) (k.val % 8)

/-- The records given in four rows of eight. -/
def records_of_rows (r0 r1 r2 r3 : Nat → piece_t) : Fin 32 → piece_t :=
  fun i => pick8 r0 r1 r2 r3 r3 r3 r3 r3 (i.val / 8) (i.val % 8)

/-- The contents of a state as lists, to compare two states by evaluation. -/
def state_table (s : d_data) : List Int × List piece_t × List Char :=
  (s.game_on :: List.ofFn s.board, List.ofFn s.figures,
    s.turn :: s.player_color :: s.computer_color :: s.reply)

/-! ## The revival game -/

/-- The first part of the revival game. -/
def revival_part_1 : List (List Char) :=
  ["02 WNg1-h3\n".data, "03\n".data, "02 WPf2-f4\n".data, "03\n".data, "02 WPh2-h4\n".data]

/-- The state after the first part of the revival game. -/
def revival_state_1 : d_data :=
  { game_on := 1
    board := grid_of_ranks
      (pick8 8 10 12 14 15 13 (-1) 9)
      (pick8 0 1 2 3 4 (-1) 6 (-1))
      (pick8 (-1) (-1) (-1) (-1) (-1) (-1) (-1) 11)
      (pick8 16 (-1) (-1) (-1) (-1) 5 (-1) 7)
      (pick8 (-1) (-1) (-1) (-1) (-1) (-1) (-1) (-1))
      (pick8 (-1) (-1) (-1) (-1) (-1) (-1) (-1) (-1))
      (pick8 (-1) 17 18 19 20 21 22 23)
      (pick8 24 26 28 30 31 29 27 25)
    figures := records_of_rows
      (pick8 ⟨PAWN, 'W', 1, ⟨0, 1⟩⟩ ⟨PAWN, 'W', 1, ⟨1, 1⟩⟩ ⟨PAWN, 'W', 1, ⟨2, 1⟩⟩
        ⟨PAWN, 'W', 1, ⟨3, 1⟩⟩ ⟨PAWN, 'W', 1, ⟨4, 1⟩⟩ ⟨PAWN, 'W', 1, ⟨5, 3⟩⟩
        ⟨PAWN, 'W', 1, ⟨6, 1⟩⟩ ⟨PAWN, 'W', 1, ⟨7, 3⟩⟩)
      (pick8 ⟨ROOK, 'W', 1, ⟨0, 0⟩⟩ ⟨ROOK, 'W', 1, ⟨7, 0⟩⟩ ⟨KNIGHT, 'W', 1, ⟨1, 0⟩⟩
        ⟨KNIGHT, 'W', 1, ⟨7, 2⟩⟩ ⟨BISHOP, 'W', 1, ⟨2, 0⟩⟩ ⟨BISHOP, 'W', 1, ⟨5, 0⟩⟩
        ⟨QUEEN, 'W', 1, ⟨3, 0⟩⟩ ⟨KING, 'W', 1, ⟨4, 0⟩⟩)
      (pick8 ⟨PAWN, 'B', 1, ⟨0, 3⟩⟩ ⟨PAWN, 'B', 1, ⟨1, 6⟩⟩ ⟨PAWN, 'B', 1, ⟨2, 6⟩⟩
        ⟨PAWN, 'B', 1, ⟨3, 6⟩⟩ ⟨PAWN, 'B', 1, ⟨4, 6⟩⟩ ⟨PAWN, 'B', 1, ⟨5, 6⟩⟩
        ⟨PAWN, 'B', 1, ⟨6, 6⟩⟩ ⟨PAWN, 'B', 1, ⟨7, 6⟩⟩)
      (pick8 ⟨ROOK, 'B', 1, ⟨0, 7⟩⟩ ⟨ROOK, 'B', 1, ⟨7, 7⟩⟩ ⟨KNIGHT, 'B', 1, ⟨1, 7⟩⟩
        ⟨KNIGHT, 'B', 1, ⟨6, 7⟩⟩ ⟨BISHOP, 'B', 1, ⟨2, 7⟩⟩ ⟨BISHOP, 'B', 1, ⟨5, 7⟩⟩
        ⟨QUEEN, 'B', 1, ⟨3, 7⟩⟩ ⟨KING, 'B', 1, ⟨4, 7⟩⟩)
    turn := 'B'
    player_color := 'W'
    computer_color := 'B'
    reply := OK }

/-- The second part of the revival game. -/
def revival_part_2 : List (List Char) :=
  ["03\n".data, "02 WPf4-f5\n".data, "03\n".data, "02 WPf5-f6\n".data, "03\n".data]

/-- The state after the second part of the revival game. -/
def revival_state_2 : d_data :=
  { game_on := 1
    board := grid_of_ranks
      (pick8 16 10 12 14 15 13 (-1) 9)
      (pick8 0 (-1) 2 3 4 (-1) 6 (-1))
      (pick8 (-1) (-1) (-1) (-1) (-1) (-1) (-1) 11)
      (pick8 (-1) (-1) (-1) (-1) (-1) (-1) (-1) 7)
      (pick8 (-1) (-1) (-1) (-1) (-1) (-1) (-1) (-1))
      (pick8 (-1) (-1) (-1) (-1) (-1) 5 (-1) (-1))
      (pick8 (-1) 17 18 19 20 21 22 23)
      (pick8 24 26 28 30 31 29 27 25)
    figures := records_of_rows
      (pick8 ⟨PAWN, 'W', 1, ⟨0, 1⟩⟩ ⟨PAWN, 'W', 0, ⟨1, 1⟩⟩ ⟨PAWN, 'W', 1, ⟨2, 1⟩⟩
        ⟨PAWN, 'W', 1, ⟨3, 1⟩⟩ ⟨PAWN, 'W', 1, ⟨4, 1⟩⟩ ⟨PAWN, 'W', 1, ⟨5, 5⟩⟩
        ⟨PAWN, 'W', 1, ⟨6, 1⟩⟩ ⟨PAWN, 'W', 1, ⟨7, 3⟩⟩)
      (pick8 ⟨ROOK, 'W', 0, ⟨0, 0⟩⟩ ⟨ROOK, 'W', 1, ⟨7, 0⟩⟩ ⟨KNIGHT, 'W', 1, ⟨1, 0⟩⟩
        ⟨KNIGHT, 'W', 1, ⟨7, 2⟩⟩ ⟨BISHOP, 'W', 1, ⟨2, 0⟩⟩ ⟨BISHOP, 'W', 1, ⟨5, 0⟩⟩
        ⟨QUEEN, 'W', 1, ⟨3, 0⟩⟩ ⟨KING, 'W', 1, ⟨4, 0⟩⟩)
      (pick8 ⟨QUEEN, 'B', 1, ⟨0, 0⟩⟩ ⟨PAWN, 'B', 1, ⟨1, 6⟩⟩ ⟨PAWN, 'B', 1, ⟨2, 6⟩⟩
        ⟨PAWN, 'B', 1, ⟨3, 6⟩⟩ ⟨PAWN, 'B', 1, ⟨4, 6⟩⟩ ⟨PAWN, 'B', 1, ⟨5, 6⟩⟩
        ⟨PAWN, 'B', 1, ⟨6, 6⟩⟩ ⟨PAWN, 'B', 1, ⟨7, 6⟩⟩)
      (pick8 ⟨ROOK, 'B', 1, ⟨0, 7⟩⟩ ⟨ROOK, 'B', 1, ⟨7, 7⟩⟩ ⟨KNIGHT, 'B', 1, ⟨1, 7⟩⟩
        ⟨KNIGHT, 'B', 1, ⟨6, 7⟩⟩ ⟨BISHOP, 'B', 1, ⟨2, 7⟩⟩ ⟨BISHOP, 'B', 1, ⟨5, 7⟩⟩
        ⟨QUEEN, 'B', 1, ⟨3, 7⟩⟩ ⟨KING, 'B', 1, ⟨4, 7⟩⟩)
    turn := 'W'
    player_color := 'W'
    computer_color := 'B'
    reply := OK }

/-- The third part of the revival game. -/
def revival_part_3 : List (List Char) :=
  ["02 WPf6-e7\n".data, "02 WRh1-g1\n".data, "03\n".data, "02 WPa2-a4\n".data, "03\n".data]

/-- The state after the third part of the revival game. -/
def revival_state_3 : d_data :=
  { game_on := 1
    board := grid_of_ranks
      (pick8 (-1) (-1) 16 14 15 13 9 (-1))
      (pick8 (-1) (-1) 2 3 4 (-1) 6 (-1))
      (pick8 (-1) (-1) (-1) (-1) (-1) (-1) (-1) 11)
      (pick8 0 (-1) (-1) (-1) (-1) (-1) (-1) 7)
      (pick8 (-1) (-1) (-1) (-1) (-1) (-1) (-1) (-1))
      (pick8 (-1) (-1) (-1) (-1) (-1) 5 (-1) (-1))
      (pick8 (-1) 17 18 19 20 21 22 23)
      (pick8 24 26 28 30 31 29 27 25)
    figures := records_of_rows
      (pick8 ⟨PAWN, 'W', 1, ⟨0, 3⟩⟩ ⟨PAWN, 'W', 0, ⟨1, 1⟩⟩ ⟨PAWN, 'W', 1, ⟨2, 1⟩⟩
        ⟨PAWN, 'W', 1, ⟨3, 1⟩⟩ ⟨PAWN, 'W', 1, ⟨4, 1⟩⟩ ⟨PAWN, 'W', 1, ⟨4, 6⟩⟩
        ⟨PAWN, 'W', 1, ⟨6, 1⟩⟩ ⟨PAWN, 'W', 1, ⟨7, 3⟩⟩)
      (pick8 ⟨ROOK, 'W', 0, ⟨0, 0⟩⟩ ⟨ROOK, 'W', 1, ⟨6, 0⟩⟩ ⟨KNIGHT, 'W', 0, ⟨1, 0⟩⟩
        ⟨KNIGHT, 'W', 1, ⟨7, 2⟩⟩ ⟨BISHOP, 'W', 0, ⟨2, 0⟩⟩ ⟨BISHOP, 'W', 1, ⟨5, 0⟩⟩
        ⟨QUEEN, 'W', 1, ⟨3, 0⟩⟩ ⟨KING, 'W', 1, ⟨4, 0⟩⟩)
      (pick8 ⟨QUEEN, 'B', 1, ⟨2, 0⟩⟩ ⟨PAWN, 'B', 1, ⟨1, 6⟩⟩ ⟨PAWN, 'B', 1, ⟨2, 6⟩⟩
        ⟨PAWN, 'B', 1, ⟨3, 6⟩⟩ ⟨PAWN, 'B', 1, ⟨4, 6⟩⟩ ⟨PAWN, 'B', 1, ⟨5, 6⟩⟩
        ⟨PAWN, 'B', 1, ⟨6, 6⟩⟩ ⟨PAWN, 'B', 1, ⟨7, 6⟩⟩)
      (pick8 ⟨ROOK, 'B', 1, ⟨0, 7⟩⟩ ⟨ROOK, 'B', 1, ⟨7, 7⟩⟩ ⟨KNIGHT, 'B', 1, ⟨1, 7⟩⟩
        ⟨KNIGHT, 'B', 1, ⟨6, 7⟩⟩ ⟨BISHOP, 'B', 1, ⟨2, 7⟩⟩ ⟨BISHOP, 'B', 1, ⟨5, 7⟩⟩
        ⟨QUEEN, 'B', 1, ⟨3, 7⟩⟩ ⟨KING, 'B', 1, ⟨4, 7⟩⟩)
    turn := 'W'
    player_color := 'W'
    computer_color := 'B'
    reply := OK }

/-- The fourth part of the revival game. -/
def revival_part_4 : List (List Char) :=
  ["02 WPh4-h5\n".data, "03\n".data, "02 WKe1-d1xBQ\n".data, "03\n".data]

/-- The state after the fourth part of the revival game. -/
def revival_state_4 : d_data :=
  { game_on := 1
    board := grid_of_ranks
      (pick8 (-1) (-1) (-1) 15 (-1) 13 9 (-1))
      (pick8 (-1) (-1) 2 3 4 (-1) 6 (-1))
      (pick8 (-1) (-1) (-1) (-1) (-1) (-1) (-1) 11)
      (pick8 0 (-1) (-1) (-1) (-1) (-1) (-1) (-1))
      (pick8 (-1) 17 (-1) (-1) (-1) (-1) (-1) 7)
      (pick8 (-1) (-1) (-1) (-1) (-1) 5 (-1) (-1))
      (pick8 (-1) (-1) 18 19 5 21 22 23)
      (pick8 24 26 28 30 31 29 27 25)
    figures := records_of_rows
      (pick8 ⟨PAWN, 'W', 1, ⟨0, 3⟩⟩ ⟨PAWN, 'W', 0, ⟨1, 1⟩⟩ ⟨PAWN, 'W', 1, ⟨2, 1⟩⟩
        ⟨PAWN, 'W', 1, ⟨3, 1⟩⟩ ⟨PAWN, 'W', 1, ⟨4, 1⟩⟩ ⟨PAWN, 'W', 1, ⟨4, 6⟩⟩
        ⟨PAWN, 'W', 1, ⟨6, 1⟩⟩ ⟨PAWN, 'W', 1, ⟨7, 4⟩⟩)
      (pick8 ⟨ROOK, 'W', 0, ⟨0, 0⟩⟩ ⟨ROOK, 'W', 1, ⟨6, 0⟩⟩ ⟨KNIGHT, 'W', 0, ⟨1, 0⟩⟩
        ⟨KNIGHT, 'W', 1, ⟨7, 2⟩⟩ ⟨BISHOP, 'W', 0, ⟨2, 0⟩⟩ ⟨BISHOP, 'W', 1, ⟨5, 0⟩⟩
        ⟨QUEEN, 'W', 0, ⟨3, 0⟩⟩ ⟨KING, 'W', 1, ⟨3, 0⟩⟩)
      (pick8 ⟨QUEEN, 'B', 0, ⟨3, 0⟩⟩ ⟨PAWN, 'B', 1, ⟨1, 4⟩⟩ ⟨PAWN, 'B', 1, ⟨2, 6⟩⟩
        ⟨PAWN, 'B', 1, ⟨3, 6⟩⟩ ⟨PAWN, 'B', 1, ⟨4, 6⟩⟩ ⟨PAWN, 'B', 1, ⟨5, 6⟩⟩
        ⟨PAWN, 'B', 1, ⟨6, 6⟩⟩ ⟨PAWN, 'B', 1, ⟨7, 6⟩⟩)
      (pick8 ⟨ROOK, 'B', 1, ⟨0, 7⟩⟩ ⟨ROOK, 'B', 1, ⟨7, 7⟩⟩ ⟨KNIGHT, 'B', 1, ⟨1, 7⟩⟩
        ⟨KNIGHT, 'B', 1, ⟨6, 7⟩⟩ ⟨BISHOP, 'B', 1, ⟨2, 7⟩⟩ ⟨BISHOP, 'B', 1, ⟨5, 7⟩⟩
        ⟨QUEEN, 'B', 1, ⟨3, 7⟩⟩ ⟨KING, 'B', 1, ⟨4, 7⟩⟩)
    turn := 'W'
    player_color := 'W'
    computer_color := 'B'
    reply := OK }

/-- The fifth part of the revival game. -/
def revival_part_5 : List (List Char) :=
  ["02 WPe7-d8xBQ\n".data, "02 WPe7-f8xBByWQ\n".data, "03\n".data, "02 WPh5-h6\n".data,
   "03\n".data]

/-- The state after the fifth part of the revival game. -/
def revival_state_5 : d_data :=
  { game_on := 1
    board := grid_of_ranks
      (pick8 (-1) (-1) (-1) 15 (-1) 13 9 (-1))
      (pick8 (-1) (-1) 2 3 4 (-1) 6 (-1))
      (pick8 (-1) (-1) (-1) (-1) (-1) (-1) (-1) 11)
      (pick8 0 17 (-1) (-1) (-1) (-1) (-1) (-1))
      (pick8 (-1) (-1) (-1) (-1) (-1) (-1) (-1) (-1))
      (pick8 (-1) (-1) (-1) (-1) (-1) 20 (-1) 7)
      (pick8 (-1) (-1) 18 19 (-1) 21 22 23)
      (pick8 24 26 28 30 31 5 27 25)
    figures := records_of_rows
      (pick8 ⟨PAWN, 'W', 1, ⟨0, 3⟩⟩ ⟨PAWN, 'W', 0, ⟨1, 1⟩⟩ ⟨PAWN, 'W', 1, ⟨2, 1⟩⟩
        ⟨PAWN, 'W', 1, ⟨3, 1⟩⟩ ⟨PAWN, 'W', 1, ⟨4, 1⟩⟩ ⟨QUEEN, 'W', 0, ⟨5, 7⟩⟩
        ⟨PAWN, 'W', 1, ⟨6, 1⟩⟩ ⟨PAWN, 'W', 1, ⟨7, 5⟩⟩)
      (pick8 ⟨ROOK, 'W', 0, ⟨0, 0⟩⟩ ⟨ROOK, 'W', 1, ⟨6, 0⟩⟩ ⟨KNIGHT, 'W', 0, ⟨1, 0⟩⟩
        ⟨KNIGHT, 'W', 1, ⟨7, 2⟩⟩ ⟨BISHOP, 'W', 0, ⟨2, 0⟩⟩ ⟨BISHOP, 'W', 1, ⟨5, 0⟩⟩
        ⟨QUEEN, 'W', 0, ⟨3, 0⟩⟩ ⟨KING, 'W', 1, ⟨3, 0⟩⟩)
      (pick8 ⟨QUEEN, 'B', 0, ⟨3, 0⟩⟩ ⟨PAWN, 'B', 1, ⟨1, 3⟩⟩ ⟨PAWN, 'B', 1, ⟨2, 6⟩⟩
        ⟨PAWN, 'B', 1, ⟨3, 6⟩⟩ ⟨PAWN, 'B', 1, ⟨5, 5⟩⟩ ⟨PAWN, 'B', 1, ⟨5, 6⟩⟩
        ⟨PAWN, 'B', 1, ⟨6, 6⟩⟩ ⟨PAWN, 'B', 1, ⟨7, 6⟩⟩)
      (pick8 ⟨ROOK, 'B', 1, ⟨0, 7⟩⟩ ⟨ROOK, 'B', 1, ⟨7, 7⟩⟩ ⟨KNIGHT, 'B', 1, ⟨1, 7⟩⟩
        ⟨KNIGHT, 'B', 1, ⟨6, 7⟩⟩ ⟨BISHOP, 'B', 1, ⟨2, 7⟩⟩ ⟨BISHOP, 'B', 0, ⟨5, 7⟩⟩
        ⟨QUEEN, 'B', 0, ⟨3, 7⟩⟩ ⟨KING, 'B', 1, ⟨4, 7⟩⟩)
    turn := 'W'
    player_color := 'W'
    computer_color := 'B'
    reply := OK }

/-- The sixth part of the revival game. -/
def revival_part_6 : List (List Char) :=
  ["02 WPh6-g7xBP\n".data, "03\n".data, "02 WPc2-b3xBP\n".data, "03\n".data,
   "02 WPg2-g4\n".data]

/-- The state after the sixth part of the revival game. -/
def revival_state_6 : d_data :=
  { game_on := 1
    board := grid_of_ranks
      (pick8 (-1) (-1) (-1) 15 (-1) 13 9 (-1))
      (pick8 (-1) (-1) (-1) 3 4 (-1) (-1) (-1))
      (pick8 (-1) 2 (-1) (-1) (-1) (-1) (-1) 11)
      (pick8 0 (-1) (-1) (-1) (-1) (-1) 6 (-1))
      (pick8 (-1) (-1) 18 (-1) (-1) (-1) (-1) (-1))
      (pick8 (-1) (-1) (-1) (-1) (-1) 20 (-1) (-1))
      (pick8 (-1) (-1) (-1) 19 (-1) 21 7 23)
      (pick8 24 26 28 30 31 5 27 25)
    figures := records_of_rows
      (pick8 ⟨PAWN, 'W', 1, ⟨0, 3⟩⟩ ⟨PAWN, 'W', 0, ⟨1, 1⟩⟩ ⟨PAWN, 'W', 1, ⟨1, 2⟩⟩
        ⟨PAWN, 'W', 1, ⟨3, 1⟩⟩ ⟨PAWN, 'W', 1, ⟨4, 1⟩⟩ ⟨QUEEN, 'W', 0, ⟨5, 7⟩⟩
        ⟨PAWN, 'W', 1, ⟨6, 3⟩⟩ ⟨PAWN, 'W', 1, ⟨6, 6⟩⟩)
      (pick8 ⟨ROOK, 'W', 0, ⟨0, 0⟩⟩ ⟨ROOK, 'W', 1, ⟨6, 0⟩⟩ ⟨KNIGHT, 'W', 0, ⟨1, 0⟩⟩
        ⟨KNIGHT, 'W', 1, ⟨7, 2⟩⟩ ⟨BISHOP, 'W', 0, ⟨2, 0⟩⟩ ⟨BISHOP, 'W', 1, ⟨5, 0⟩⟩
        ⟨QUEEN, 'W', 0, ⟨3, 0⟩⟩ ⟨KING, 'W', 1, ⟨3, 0⟩⟩)
      (pick8 ⟨QUEEN, 'B', 0, ⟨3, 0⟩⟩ ⟨PAWN, 'B', 0, ⟨1, 2⟩⟩ ⟨PAWN, 'B', 1, ⟨2, 4⟩⟩
        ⟨PAWN, 'B', 1, ⟨3, 6⟩⟩ ⟨PAWN, 'B', 1, ⟨5, 5⟩⟩ ⟨PAWN, 'B', 1, ⟨5, 6⟩⟩
        ⟨PAWN, 'B', 0, ⟨6, 6⟩⟩ ⟨PAWN, 'B', 1, ⟨7, 6⟩⟩)
      (pick8 ⟨ROOK, 'B', 1, ⟨0, 7⟩⟩ ⟨ROOK, 'B', 1, ⟨7, 7⟩⟩ ⟨KNIGHT, 'B', 1, ⟨1, 7⟩⟩
        ⟨KNIGHT, 'B', 1, ⟨6, 7⟩⟩ ⟨BISHOP, 'B', 1, ⟨2, 7⟩⟩ ⟨BISHOP, 'B', 0, ⟨5, 7⟩⟩
        ⟨QUEEN, 'B', 0, ⟨3, 7⟩⟩ ⟨KING, 'B', 1, ⟨4, 7⟩⟩)
    turn := 'B'
    player_color := 'W'
    computer_color := 'B'
    reply := OK }

/-- The seventh part of the revival game. -/
def revival_part_7 : List (List Char) :=
  ["03\n".data, "02 WBf1-g2\n".data, "03\n".data, "02 WBg2-a8xBR\n".data, "03\n".data]

/-- The state after the seventh part of the revival game. -/
def revival_state_7 : d_data :=
  { game_on := 1
    board := grid_of_ranks
      (pick8 (-1) (-1) (-1) 15 (-1) (-1) 9 (-1))
      (pick8 (-1) (-1) 18 3 4 (-1) (-1) (-1))
      (pick8 (-1) 2 (-1) (-1) (-1) (-1) (-1) 11)
      (pick8 0 (-1) (-1) (-1) (-1) (-1) 6 (-1))
      (pick8 (-1) (-1) (-1) (-1) (-1) (-1) (-1) (-1))
      (pick8 (-1) (-1) (-1) (-1) (-1) 20 (-1) (-1))
      (pick8 (-1) (-1) (-1) 19 (-1) 21 7 23)
      (pick8 13 26 28 30 31 5 27 25)
    figures := records_of_rows
      (pick8 ⟨PAWN, 'W', 1, ⟨0, 3⟩⟩ ⟨PAWN, 'W', 0, ⟨1, 1⟩⟩ ⟨PAWN, 'W', 1, ⟨1, 2⟩⟩
        ⟨PAWN, 'W', 1, ⟨3, 1⟩⟩ ⟨PAWN, 'W', 1, ⟨4, 1⟩⟩ ⟨QUEEN, 'W', 0, ⟨5, 7⟩⟩
        ⟨PAWN, 'W', 1, ⟨6, 3⟩⟩ ⟨PAWN, 'W', 1, ⟨6, 6⟩⟩)
      (pick8 ⟨ROOK, 'W', 0, ⟨0, 0⟩⟩ ⟨ROOK, 'W', 1, ⟨6, 0⟩⟩ ⟨KNIGHT, 'W', 0, ⟨1, 0⟩⟩
        ⟨KNIGHT, 'W', 1, ⟨7, 2⟩⟩ ⟨BISHOP, 'W', 0, ⟨2, 0⟩⟩ ⟨BISHOP, 'W', 1, ⟨0, 7⟩⟩
        ⟨QUEEN, 'W', 0, ⟨3, 0⟩⟩ ⟨KING, 'W', 1, ⟨3, 0⟩⟩)
      (pick8 ⟨QUEEN, 'B', 0, ⟨3, 0⟩⟩ ⟨PAWN, 'B', 0, ⟨1, 2⟩⟩ ⟨PAWN, 'B', 1, ⟨2, 1⟩⟩
        ⟨PAWN, 'B', 1, ⟨3, 6⟩⟩ ⟨PAWN, 'B', 1, ⟨5, 5⟩⟩ ⟨PAWN, 'B', 1, ⟨5, 6⟩⟩
        ⟨PAWN, 'B', 0, ⟨6, 6⟩⟩ ⟨PAWN, 'B', 1, ⟨7, 6⟩⟩)
      (pick8 ⟨ROOK, 'B', 0, ⟨0, 7⟩⟩ ⟨ROOK, 'B', 1, ⟨7, 7⟩⟩ ⟨KNIGHT, 'B', 1, ⟨1, 7⟩⟩
        ⟨KNIGHT, 'B', 1, ⟨6, 7⟩⟩ ⟨BISHOP, 'B', 1, ⟨2, 7⟩⟩ ⟨BISHOP, 'B', 0, ⟨5, 7⟩⟩
        ⟨QUEEN, 'B', 0, ⟨3, 7⟩⟩ ⟨KING, 'B', 1, ⟨4, 7⟩⟩)
    turn := 'W'
    player_color := 'W'
    computer_color := 'B'
    reply := CHECK }

/-- The eighth part of the revival game. -/
def revival_part_8 : List (List Char) :=
  ["02 WKd1-c2xBP\n".data, "03\n".data, "02 WBa8-d5xBP\n".data, "03\n".data,
   "02 WPg4-f5xBP\n".data]

/-- The state after the eighth part of the revival game. -/
def revival_state_8 : d_data :=
  { game_on := 1
    board := grid_of_ranks
      (pick8 (-1) (-1) (-1) (-1) (-1) (-1) 9 (-1))
      (pick8 (-1) (-1) 15 3 4 (-1) (-1) (-1))
      (pick8 (-1) 2 (-1) (-1) (-1) (-1) (-1) 11)
      (pick8 0 (-1) (-1) (-1) (-1) (-1) (-1) (-1))
      (pick8 (-1) (-1) (-1) 13 (-1) 6 (-1) (-1))
      (pick8 (-1) (-1) (-1) (-1) (-1) (-1) (-1) (-1))
      (pick8 (-1) (-1) (-1) (-1) (-1) 21 7 23)
      (pick8 (-1) 26 28 30 31 5 27 25)
    figures := records_of_rows
      (pick8 ⟨PAWN, 'W', 1, ⟨0, 3⟩⟩ ⟨PAWN, 'W', 0, ⟨1, 1⟩⟩ ⟨PAWN, 'W', 1, ⟨1, 2⟩⟩
        ⟨PAWN, 'W', 1, ⟨3, 1⟩⟩ ⟨PAWN, 'W', 1, ⟨4, 1⟩⟩ ⟨QUEEN, 'W', 0, ⟨5, 7⟩⟩
        ⟨PAWN, 'W', 1, ⟨5, 4⟩⟩ ⟨PAWN, 'W', 1, ⟨6, 6⟩⟩)
      (pick8 ⟨ROOK, 'W', 0, ⟨0, 0⟩⟩ ⟨ROOK, 'W', 1, ⟨6, 0⟩⟩ ⟨KNIGHT, 'W', 0, ⟨1, 0⟩⟩
        ⟨KNIGHT, 'W', 1, ⟨7, 2⟩⟩ ⟨BISHOP, 'W', 0, ⟨2, 0⟩⟩ ⟨BISHOP, 'W', 1, ⟨3, 4⟩⟩
        ⟨QUEEN, 'W', 0, ⟨3, 0⟩⟩ ⟨KING, 'W', 1, ⟨2, 1⟩⟩)
      (pick8 ⟨QUEEN, 'B', 0, ⟨3, 0⟩⟩ ⟨PAWN, 'B', 0, ⟨1, 2⟩⟩ ⟨PAWN, 'B', 0, ⟨2, 1⟩⟩
        ⟨PAWN, 'B', 0, ⟨3, 4⟩⟩ ⟨PAWN, 'B', 0, ⟨5, 4⟩⟩ ⟨PAWN, 'B', 1, ⟨5, 6⟩⟩
        ⟨PAWN, 'B', 0, ⟨6, 6⟩⟩ ⟨PAWN, 'B', 1, ⟨7, 6⟩⟩)
      (pick8 ⟨ROOK, 'B', 0, ⟨0, 7⟩⟩ ⟨ROOK, 'B', 1, ⟨7, 7⟩⟩ ⟨KNIGHT, 'B', 1, ⟨1, 7⟩⟩
        ⟨KNIGHT, 'B', 1, ⟨6, 7⟩⟩ ⟨BISHOP, 'B', 1, ⟨2, 7⟩⟩ ⟨BISHOP, 'B', 0, ⟨5, 7⟩⟩
        ⟨QUEEN, 'B', 0, ⟨3, 7⟩⟩ ⟨KING, 'B', 1, ⟨4, 7⟩⟩)
    turn := 'B'
    player_color := 'W'
    computer_color := 'B'
    reply := OK }

/-- The ninth part of the revival game. -/
def revival_part_9 : List (List Char) :=
  ["03\n".data, "02 WBd5-g8xBN\n".data, "03\n".data, "02 WBg8-e6\n".data, "03\n".data]

/-- The state after the ninth part of the revival game. -/
def revival_state_9 : d_data :=
  { game_on := 1
    board := grid_of_ranks
      (pick8 (-1) (-1) (-1) (-1) (-1) (-1) 9 (-1))
      (pick8 (-1) (-1) 15 3 4 (-1) (-1) (-1))
      (pick8 (-1) 2 (-1) (-1) (-1) (-1) (-1) 11)
      (pick8 0 (-1) (-1) (-1) (-1) (-1) (-1) 23)
      (pick8 (-1) (-1) (-1) (-1) (-1) 6 (-1) (-1))
      (pick8 (-1) (-1) (-1) (-1) 13 21 (-1) (-1))
      (pick8 (-1) (-1) (-1) (-1) (-1) (-1) 7 (-1))
      (pick8 (-1) 26 28 30 31 5 (-1) 25)
    figures := records_of_rows
      (pick8 ⟨PAWN, 'W', 1, ⟨0, 3⟩⟩ ⟨PAWN, 'W', 0, ⟨1, 1⟩⟩ ⟨PAWN, 'W', 1, ⟨1, 2⟩⟩
        ⟨PAWN, 'W', 1, ⟨3, 1⟩⟩ ⟨PAWN, 'W', 1, ⟨4, 1⟩⟩ ⟨QUEEN, 'W', 0, ⟨5, 7⟩⟩
        ⟨PAWN, 'W', 1, ⟨5, 4⟩⟩ ⟨PAWN, 'W', 1, ⟨6, 6⟩⟩)
      (pick8 ⟨ROOK, 'W', 0, ⟨0, 0⟩⟩ ⟨ROOK, 'W', 1, ⟨6, 0⟩⟩ ⟨KNIGHT, 'W', 0, ⟨1, 0⟩⟩
        ⟨KNIGHT, 'W', 1, ⟨7, 2⟩⟩ ⟨BISHOP, 'W', 0, ⟨2, 0⟩⟩ ⟨BISHOP, 'W', 1, ⟨4, 5⟩⟩
        ⟨QUEEN, 'W', 0, ⟨3, 0⟩⟩ ⟨KING, 'W', 1, ⟨2, 1⟩⟩)
      (pick8 ⟨QUEEN, 'B', 0, ⟨3, 0⟩⟩ ⟨PAWN, 'B', 0, ⟨1, 2⟩⟩ ⟨PAWN, 'B', 0, ⟨2, 1⟩⟩
        ⟨PAWN, 'B', 0, ⟨3, 4⟩⟩ ⟨PAWN, 'B', 0, ⟨5, 4⟩⟩ ⟨PAWN, 'B', 1, ⟨5, 5⟩⟩
        ⟨PAWN, 'B', 0, ⟨6, 6⟩⟩ ⟨PAWN, 'B', 1, ⟨7, 3⟩⟩)
      (pick8 ⟨ROOK, 'B', 0, ⟨0, 7⟩⟩ ⟨ROOK, 'B', 1, ⟨7, 7⟩⟩ ⟨KNIGHT, 'B', 1, ⟨1, 7⟩⟩
        ⟨KNIGHT, 'B', 0, ⟨6, 7⟩⟩ ⟨BISHOP, 'B', 1, ⟨2, 7⟩⟩ ⟨BISHOP, 'B', 0, ⟨5, 7⟩⟩
        ⟨QUEEN, 'B', 0, ⟨3, 7⟩⟩ ⟨KING, 'B', 1, ⟨4, 7⟩⟩)
    turn := 'W'
    player_color := 'W'
    computer_color := 'B'
    reply := OK }

/-- The tenth part of the revival game. -/
def revival_part_10 : List (List Char) :=
  ["02 WPg7-h8xBRyWQ\n".data, "03\n".data, "02 WBe6-c8xBB\n".data, "03\n".data,
   "02 WRg1-g7\n".data]

/-- The state after the tenth part of the revival game. -/
def revival_state_10 : d_data :=
  { game_on := 1
    board := grid_of_ranks
      (pick8 (-1) (-1) (-1) (-1) (-1) (-1) (-1) (-1))
      (pick8 (-1) (-1) 15 3 4 (-1) (-1) (-1))
      (pick8 (-1) 2 (-1) (-1) (-1) (-1) (-1) 11)
      (pick8 0 (-1) (-1) (-1) (-1) (-1) (-1) 23)
      (pick8 (-1) (-1) (-1) (-1) (-1) 6 (-1) (-1))
      (pick8 (-1) (-1) (-1) (-1) (-1) 21 (-1) (-1))
      (pick8 (-1) (-1) (-1) (-1) (-1) (-1) 9 (-1))
      (pick8 (-1) 26 13 30 31 5 (-1) 7)
    figures := records_of_rows
      (pick8 ⟨PAWN, 'W', 1, ⟨0, 3⟩⟩ ⟨PAWN, 'W', 0, ⟨1, 1⟩⟩ ⟨PAWN, 'W', 1, ⟨1, 2⟩⟩
        ⟨PAWN, 'W', 1, ⟨3, 1⟩⟩ ⟨PAWN, 'W', 1, ⟨4, 1⟩⟩ ⟨QUEEN, 'W', 0, ⟨5, 7⟩⟩
        ⟨PAWN, 'W', 1, ⟨5, 4⟩⟩ ⟨QUEEN, 'W', 1, ⟨7, 7⟩⟩)
      (pick8 ⟨ROOK, 'W', 0, ⟨0, 0⟩⟩ ⟨ROOK, 'W', 1, ⟨6, 6⟩⟩ ⟨KNIGHT, 'W', 0, ⟨1, 0⟩⟩
        ⟨KNIGHT, 'W', 1, ⟨7, 2⟩⟩ ⟨BISHOP, 'W', 0, ⟨2, 0⟩⟩ ⟨BISHOP, 'W', 1, ⟨2, 7⟩⟩
        ⟨QUEEN, 'W', 0, ⟨3, 0⟩⟩ ⟨KING, 'W', 1, ⟨2, 1⟩⟩)
      (pick8 ⟨QUEEN, 'B', 0, ⟨3, 0⟩⟩ ⟨PAWN, 'B', 0, ⟨1, 2⟩⟩ ⟨PAWN, 'B', 0, ⟨2, 1⟩⟩
        ⟨PAWN, 'B', 0, ⟨3, 4⟩⟩ ⟨PAWN, 'B', 0, ⟨5, 4⟩⟩ ⟨PAWN, 'B', 1, ⟨5, 5⟩⟩
        ⟨PAWN, 'B', 0, ⟨6, 6⟩⟩ ⟨PAWN, 'B', 1, ⟨7, 3⟩⟩)
      (pick8 ⟨ROOK, 'B', 0, ⟨0, 7⟩⟩ ⟨ROOK, 'B', 0, ⟨7, 7⟩⟩ ⟨KNIGHT, 'B', 1, ⟨1, 7⟩⟩
        ⟨KNIGHT, 'B', 0, ⟨6, 7⟩⟩ ⟨BISHOP, 'B', 0, ⟨2, 7⟩⟩ ⟨BISHOP, 'B', 0, ⟨5, 7⟩⟩
        ⟨QUEEN, 'B', 0, ⟨3, 7⟩⟩ ⟨KING, 'B', 1, ⟨4, 7⟩⟩)
    turn := 'B'
    player_color := 'W'
    computer_color := 'B'
    reply := OK }

/-- The eleventh part of the revival game. -/
def revival_part_11 : List (List Char) :=
  ["03\n".data, "02 WBc8-a6xBN\n".data]

/-- The state after the eleventh part of the revival game. -/
def revival_state_11 : d_data :=
  { game_on := 1
    board := grid_of_ranks
      (pick8 (-1) (-1) (-1) (-1) (-1) (-1) (-1) (-1))
      (pick8 (-1) (-1) 15 3 4 (-1) (-1) (-1))
      (pick8 (-1) 2 (-1) (-1) (-1) (-1) (-1) 11)
      (pick8 0 (-1) (-1) (-1) (-1) (-1) (-1) 23)
      (pick8 (-1) (-1) (-1) (-1) (-1) 6 (-1) (-1))
      (pick8 13 (-1) (-1) (-1) (-1) 21 (-1) (-1))
      (pick8 (-1) (-1) (-1) (-1) (-1) (-1) 9 (-1))
      (pick8 (-1) (-1) (-1) 30 31 5 (-1) 7)
    figures := records_of_rows
      (pick8 ⟨PAWN, 'W', 1, ⟨0, 3⟩⟩ ⟨PAWN, 'W', 0, ⟨1, 1⟩⟩ ⟨PAWN, 'W', 1, ⟨1, 2⟩⟩
        ⟨PAWN, 'W', 1, ⟨3, 1⟩⟩ ⟨PAWN, 'W', 1, ⟨4, 1⟩⟩ ⟨QUEEN, 'W', 0, ⟨5, 7⟩⟩
        ⟨PAWN, 'W', 1, ⟨5, 4⟩⟩ ⟨QUEEN, 'W', 1, ⟨7, 7⟩⟩)
      (pick8 ⟨ROOK, 'W', 0, ⟨0, 0⟩⟩ ⟨ROOK, 'W', 1, ⟨6, 6⟩⟩ ⟨KNIGHT, 'W', 0, ⟨1, 0⟩⟩
        ⟨KNIGHT, 'W', 1, ⟨7, 2⟩⟩ ⟨BISHOP, 'W', 0, ⟨2, 0⟩⟩ ⟨BISHOP, 'W', 1, ⟨0, 5⟩⟩
        ⟨QUEEN, 'W', 0, ⟨3, 0⟩⟩ ⟨KING, 'W', 1, ⟨2, 1⟩⟩)
      (pick8 ⟨QUEEN, 'B', 0, ⟨3, 0⟩⟩ ⟨PAWN, 'B', 0, ⟨1, 2⟩⟩ ⟨PAWN, 'B', 0, ⟨2, 1⟩⟩
        ⟨PAWN, 'B', 0, ⟨3, 4⟩⟩ ⟨PAWN, 'B', 0, ⟨5, 4⟩⟩ ⟨PAWN, 'B', 1, ⟨5, 5⟩⟩
        ⟨PAWN, 'B', 0, ⟨6, 6⟩⟩ ⟨PAWN, 'B', 1, ⟨7, 3⟩⟩)
      (pick8 ⟨ROOK, 'B', 0, ⟨0, 7⟩⟩ ⟨ROOK, 'B', 0, ⟨7, 7⟩⟩ ⟨KNIGHT, 'B', 0, ⟨0, 5⟩⟩
        ⟨KNIGHT, 'B', 0, ⟨6, 7⟩⟩ ⟨BISHOP, 'B', 0, ⟨2, 7⟩⟩ ⟨BISHOP, 'B', 0, ⟨5, 7⟩⟩
        ⟨QUEEN, 'B', 0, ⟨3, 7⟩⟩ ⟨KING, 'B', 1, ⟨4, 7⟩⟩)
    turn := 'B'
    player_color := 'W'
    computer_color := 'B'
    reply := OK }

/-- The revival game, a continuation of `phantom_pawn_game`: after `00 W` it leads to a
position in which the computer has no safe candidate while the dead record 5 still stands
in the grid. -/
def revival_game : List (List Char) :=
  revival_part_1 ++ revival_part_2 ++ revival_part_3 ++ revival_part_4 ++
  revival_part_5 ++ revival_part_6 ++ revival_part_7 ++ revival_part_8 ++
  revival_part_9 ++ revival_part_10 ++ revival_part_11

/-! ## The tentative application, as the specification words it -/

/-- A pawn reaches its final rank on `m`: rank 8 for White, rank 1 for Black. -/
def reaches_final_rank (p : piece_t) (m : coord_t) : Prop :=
  p.type = PAWN ∧ ((p.color = 'W' ∧ m.y = 7) ∨ (p.color = 'B' ∧ m.y = 0))

instance (p : piece_t) (m : coord_t) : Decidable (reaches_final_rank p m) := by
  unfold reaches_final_rank; infer_instance

/-- The tentative application of the candidate `m` of record `j` for the side
`color`, in the words of the specification: record `j` stands on `m`, and it
is a queen if it is a pawn that reaches its final rank there; the victim, the
occupant of `m` when it has another colour, is marked dead; the grid slot of
`m` holds `j` and the slot that record `j` left is empty; nothing else
changes. -/
def tentative_application (s : d_data) (color : Char) (j : Int) (m : coord_t) : d_data :=
  { s with
    board := fun k =>
      if (k.val : Int) = coord_to_sq (rd_figure s j).square then -1
      else if (k.val : Int) = coord_to_sq m then j
      else s.board k
    figures := fun i =>
      if (i.val : Int) = j then
        { s.figures i with
          type := if reaches_final_rank (s.figures i) m then QUEEN else (s.figures i).type
          square := m }
      else if rd_board s (coord_to_sq m) = (i.val : Int) ∧ (s.figures i).color ≠ color then
        { s.figures i with alive := 0 }
      else s.figures i }

/-- A position in which the first safe candidate of Black is a capture with a
promotion: the black pawn of record 16 on a2, the white rook of record 8 on
a1 in front of it, the white knight of record 10 on b1, the white king on h3
and the black king on e8; the other records are dead. -/
def capture_promotion_state : d_data :=
  { game_on := 1
    board := grid_of_ranks
      (pick8 8 10 (-1) (-1) (-1) (-1) (-1) (-1))
      (pick8 16 (-1) (-1) (-1) (-1) (-1) (-1) (-1))
      (pick8 (-1) (-1) (-1) (-1) (-1) (-1) (-1) 15)
      (pick8 (-1) (-1) (-1) (-1) (-1) (-1) (-1) (-1))
      (pick8 (-1) (-1) (-1) (-1) (-1) (-1) (-1) (-1))
      (pick8 (-1) (-1) (-1) (-1) (-1) (-1) (-1) (-1))
      (pick8 (-1) (-1) (-1) (-1) (-1) (-1) (-1) (-1))
      (pick8 (-1) (-1) (-1) (-1) 31 (-1) (-1) (-1))
    figures := records_of_rows
      (pick8 ⟨PAWN, 'W', 0, ⟨0, 1⟩⟩ ⟨PAWN, 'W', 0, ⟨1, 1⟩⟩ ⟨PAWN, 'W', 0, ⟨2, 1⟩⟩
        ⟨PAWN, 'W', 0, ⟨3, 1⟩⟩ ⟨PAWN, 'W', 0, ⟨4, 1⟩⟩ ⟨PAWN, 'W', 0, ⟨5, 1⟩⟩
        ⟨PAWN, 'W', 0, ⟨6, 1⟩⟩ ⟨PAWN, 'W', 0, ⟨7, 1⟩⟩)
      (pick8 ⟨ROOK, 'W', 1, ⟨0, 0⟩⟩ ⟨ROOK, 'W', 0, ⟨7, 0⟩⟩ ⟨KNIGHT, 'W', 1, ⟨1, 0⟩⟩
        ⟨KNIGHT, 'W', 0, ⟨6, 0⟩⟩ ⟨BISHOP, 'W', 0, ⟨2, 0⟩⟩ ⟨BISHOP, 'W', 0, ⟨5, 0⟩⟩
        ⟨QUEEN, 'W', 0, ⟨3, 0⟩⟩ ⟨KING, 'W', 1, ⟨7, 2⟩⟩)
      (pick8 ⟨PAWN, 'B', 1, ⟨0, 1⟩⟩ ⟨PAWN, 'B', 0, ⟨1, 6⟩⟩ ⟨PAWN, 'B', 0, ⟨2, 6⟩⟩
        ⟨PAWN, 'B', 0, ⟨3, 6⟩⟩ ⟨PAWN, 'B', 0, ⟨4, 6⟩⟩ ⟨PAWN, 'B', 0, ⟨5, 6⟩⟩
        ⟨PAWN, 'B', 0, ⟨6, 6⟩⟩ ⟨PAWN, 'B', 0, ⟨7, 6⟩⟩)
      (pick8 ⟨ROOK, 'B', 0, ⟨0, 7⟩⟩ ⟨ROOK, 'B', 0, ⟨7, 7⟩⟩ ⟨KNIGHT, 'B', 0, ⟨1, 7⟩⟩
        ⟨KNIGHT, 'B', 0, ⟨6, 7⟩⟩ ⟨BISHOP, 'B', 0, ⟨2, 7⟩⟩ ⟨BISHOP, 'B', 0, ⟨5, 7⟩⟩
        ⟨QUEEN, 'B', 0, ⟨3, 7⟩⟩ ⟨KING, 'B', 1, ⟨4, 7⟩⟩)
    turn := 'B'
    player_color := 'W'
    computer_color := 'B'
    reply := OK }

theorem move_valid_loop_sound (piece_idx : Int) (prev_c dest : coord_t)
    (take_piece promote : Int) (opt_piece_capt opt_piece_prom : piece_t) :
    ∀ (ms : List coord_t) (s : d_data),
      (move_valid_loop s piece_idx prev_c dest take_piece promote opt_piece_capt
        opt_piece_prom ms).2 = 1 →
      in_check
        (move_valid_loop s piece_idx prev_c dest take_piece promote opt_piece_capt
          opt_piece_prom ms).1
        (move_valid_loop s piece_idx prev_c dest take_piece promote opt_piece_capt
          opt_piece_prom ms).1.player_color = 0 := by
  intro ms
  induction ms with
  | nil => intro s h; simp [move_valid_loop] at h
  | cons m ms ih =>
    intro s
    simp only [move_valid_loop]
    split
    · split
      · intro h; simp at h
      · split
        · intro _; assumption
        · exact ih _
    · exact ih _

/-- C3: whenever `move_valid` returns 1, `in_check` of the player's colour is
0 in the state it leaves. -/
theorem move_valid_sound (s : d_data) (piece : piece_t) (dest : coord_t)
    (take_piece promote : Int) (opt_piece_capt opt_piece_prom : piece_t)
    (h : (move_valid s piece dest take_piece promote opt_piece_capt opt_piece_prom).2 = 1) :
    in_check (move_valid s piece dest take_piece promote opt_piece_capt opt_piece_prom).1
      (move_valid s piece dest take_piece promote opt_piece_capt
        opt_piece_prom).1.player_color = 0 := by
  revert h
  simp only [move_valid]
  split
  · intro h; simp at h
  · split
    · intro h; simp at h
    · exact move_valid_loop_sound _ _ _ _ _ _ _ _ _

/-! ### The check detector as a reachability sweep -/

theorem coord_eq_iff (a b : coord_t) : (a.x = b.x ∧ a.y = b.y) ↔ a = b := by
  cases a; cases b; simp

theorem hits_king_iff (king : coord_t) (ms : List coord_t) :
    hits_king king ms = true ↔ king ∈ ms := by
  induction ms with
  | nil => simp [hits_king]
  | cons m ms ih =>
    simp only [hits_king, List.mem_cons]
    by_cases h : m.x = king.x ∧ m.y = king.y
    · have : m = king := (coord_eq_iff _ _).1 h
      simp [h, this]
    · have : ¬ king = m := fun e => h (by subst e; exact ⟨rfl, rfl⟩)
      simp [h, this, ih]

theorem in_check_loop_zero_or_one (s : d_data) (color : Char) (is : List Int) :
    in_check_loop s color is = 0 ∨ in_check_loop s color is = 1 := by
  induction is with
  | nil => simp [in_check_loop]
  | cons i is ih =>
    simp only [in_check_loop]
    split
    · split
      · right; rfl
      · exact ih
    · exact ih

theorem in_check_loop_iff (s : d_data) (color : Char) (is : List Int) :
    in_check_loop s color is = 1 ↔
      ∃ i ∈ is, (rd_figure s (attacker color i)).alive ≠ 0 ∧
        king_of s color ∈ find_move s (rd_figure s (attacker color i)) := by
  induction is with
  | nil => simp [in_check_loop]
  | cons i is ih =>
    simp only [in_check_loop, List.exists_mem_cons_iff]
    split
    · rename_i ha
      split
      · rename_i hk
        simp only [true_iff]
        left
        exact ⟨ha, (hits_king_iff _ _).1 hk⟩
      · rename_i hk
        rw [ih]
        constructor
        · intro h; exact Or.inr h
        · rintro (⟨_, h⟩ | h)
          · exact absurd ((hits_king_iff _ _).2 h) hk
          · exact h
    · rename_i ha
      rw [ih]
      constructor
      · intro h; exact Or.inr h
      · rintro (⟨h, _⟩ | h)
        · exact absurd h ha
        · exact h

theorem mem_sixteen (i : Int) : i ∈ sixteen ↔ 0 ≤ i ∧ i < 16 := by
  simp only [sixteen, List.mem_cons, List.mem_singleton, List.not_mem_nil, or_false]
  omega

/-- C10: `in_check` is one sweep over the sixteen records of the other side:
for White it returns 1 exactly when some record `j` in `16..31` is alive and
the square of record 15 is among `find_move` of record `j`; for Black the
same with the records `0..15` and the square of record 31; it returns 1 or 0
and, being a function of the state alone, writes nothing. -/
theorem in_check_is_reachability_sweep (s : d_data) :
    (in_check s 'W' = 1 ↔
      ∃ j : Int, 16 ≤ j ∧ j < 32 ∧ (rd_figure s j).alive ≠ 0 ∧
        (rd_figure s 15).square ∈ find_move s (rd_figure s j)) ∧
    (in_check s 'B' = 1 ↔
      ∃ j : Int, 0 ≤ j ∧ j < 16 ∧ (rd_figure s j).alive ≠ 0 ∧
        (rd_figure s 31).square ∈ find_move s (rd_figure s j)) ∧
    (∀ c : Char, in_check s c = 1 ∨ in_check s c = 0) := by
  refine ⟨?_, ?_, ?_⟩
  · rw [in_check, in_check_loop_iff]
    constructor
    · rintro ⟨i, hi, ha, hk⟩
      rw [mem_sixteen] at hi
      refine ⟨i + 16, by omega, by omega, ?_, ?_⟩
      · simpa [attacker] using ha
      · simpa [attacker, king_of, KING] using hk
    · rintro ⟨j, h1, h2, ha, hk⟩
      refine ⟨j - 16, (mem_sixteen _).2 ⟨by omega, by omega⟩, ?_, ?_⟩
      · simpa [attacker] using ha
      · simpa [attacker, king_of, KING] using hk
  · rw [in_check, in_check_loop_iff]
    constructor
    · rintro ⟨i, hi, ha, hk⟩
      rw [mem_sixteen] at hi
      refine ⟨i, hi.1, hi.2, ?_, ?_⟩
      · simpa [attacker] using ha
      · simpa [attacker, king_of, KING] using hk
    · rintro ⟨j, h1, h2, ha, hk⟩
      refine ⟨j, (mem_sixteen _).2 ⟨h1, h2⟩, ?_, ?_⟩
      · simpa [attacker] using ha
      · simpa [attacker, king_of, KING] using hk
  · intro c
    rcases in_check_loop_zero_or_one s c sixteen with h | h
    · exact Or.inr h
    · exact Or.inl h

/-! ### Tentative application followed by rollback -/

theorem d_data_ext (a b : d_data) (h1 : a.game_on = b.game_on) (h2 : a.board = b.board)
    (h3 : a.figures = b.figures) (h4 : a.turn = b.turn) (h5 : a.player_color = b.player_color)
    (h6 : a.computer_color = b.computer_color) (h7 : a.reply = b.reply) : a = b := by
  cases a; cases b; simp_all

theorem rd_board_fin (s : d_data) (k : Fin 64) : rd_board s (k.val : Int) = s.board k := by
  have : 0 ≤ (k.val : Int) ∧ (k.val : Int) < 64 := ⟨by omega, by omega⟩
  simp [rd_board, this]

theorem rd_figure_fin (s : d_data) (k : Fin 32) : rd_figure s (k.val : Int) = s.figures k := by
  have : 0 ≤ (k.val : Int) ∧ (k.val : Int) < 32 := ⟨by omega, by omega⟩
  simp [rd_figure, this]

theorem coord_to_sq_range (c : coord_t) (h : coord_to_sq c ≠ -1) :
    0 ≤ coord_to_sq c ∧ coord_to_sq c < 64 := by
  unfold coord_to_sq at *
  split_ifs at * with h1
  · simp at h
  · omega

@[simp] theorem rd_board_wr_square (s : d_data) (i : Int) (c : coord_t) (k : Int) :
    rd_board (wr_square s i c) k = rd_board s k := rfl

@[simp] theorem rd_board_wr_alive (s : d_data) (i : Int) (c : Int) (k : Int) :
    rd_board (wr_alive s i c) k = rd_board s k := rfl

@[simp] theorem rd_board_wr_type (s : d_data) (i : Int) (c : Int) (k : Int) :
    rd_board (wr_type s i c) k = rd_board s k := rfl

theorem alive_one (s : d_data) (hw : well_formed s) (k : Fin 32)
    (h : (s.figures k).alive ≠ 0) : (s.figures k).alive = 1 := by
  rcases (hw k).1 with h0 | h1
  · exact absurd h0 h
  · exact h1

theorem type_ne_neg_one (s : d_data) (hw : well_formed s) (k : Fin 32) :
    (s.figures k).type ≠ -1 := by
  have := (hw k).2.2
  unfold is_kind PAWN ROOK KNIGHT BISHOP QUEEN KING at this
  omega

theorem rd_board_cases (s : d_data) (hg : grid_agrees s) (i : Int) :
    rd_board s i = -1 ∨ ∃ kv : Fin 32, rd_board s i = (kv.val : Int) ∧
      ∃ sl : Fin 64, (sl.val : Int) = i ∧ s.board sl = (kv.val : Int) := by
  unfold rd_board
  split
  · rename_i h
    rcases hg.2 ⟨i.toNat, by omega⟩ with h1 | h1
    · exact Or.inl h1
    · right
      refine ⟨⟨(s.board ⟨i.toNat, by omega⟩).toNat, by omega⟩, ?_, ⟨i.toNat, by omega⟩, ?_, ?_⟩
      · simp; omega
      · simp; omega
      · simp; omega
  · exact Or.inl rfl

theorem takes_true (s : d_data) (color : Char) (v : Int) (h : takes s color v = true) :
    v ≠ -1 ∧ (rd_figure s v).color ≠ color := by
  simpa [takes] using h

theorem on_last_rank_true (s : d_data) (j : Int) (m : coord_t)
    (h : on_last_rank s j m = true) : (rd_figure s j).type = PAWN := by
  have := of_decide_eq_true h
  exact this.1

theorem rd_figure_wr_square_type (s : d_data) (i : Int) (c : coord_t) (k : Int) :
    (rd_figure (wr_square s i c) k).type = (rd_figure s k).type := by
  unfold rd_figure wr_square
  split
  · simp only; split <;> rfl
  · rfl

theorem rd_figure_wr_alive_type (s : d_data) (i : Int) (c : Int) (k : Int) :
    (rd_figure (wr_alive s i c) k).type = (rd_figure s k).type := by
  unfold rd_figure wr_alive
  split
  · simp only; split <;> rfl
  · rfl

theorem wr_board_frame (s : d_data) (i v : Int) :
    (wr_board s i v).game_on = s.game_on ∧ (wr_board s i v).figures = s.figures ∧
    (wr_board s i v).turn = s.turn ∧ (wr_board s i v).player_color = s.player_color ∧
    (wr_board s i v).computer_color = s.computer_color ∧ (wr_board s i v).reply = s.reply :=
  ⟨rfl, rfl, rfl, rfl, rfl, rfl⟩

theorem wr_square_frame (s : d_data) (i : Int) (c : coord_t) :
    (wr_square s i c).game_on = s.game_on ∧ (wr_square s i c).board = s.board ∧
    (wr_square s i c).turn = s.turn ∧ (wr_square s i c).player_color = s.player_color ∧
    (wr_square s i c).computer_color = s.computer_color ∧ (wr_square s i c).reply = s.reply :=
  ⟨rfl, rfl, rfl, rfl, rfl, rfl⟩

theorem wr_alive_frame (s : d_data) (i a : Int) :
    (wr_alive s i a).game_on = s.game_on ∧ (wr_alive s i a).board = s.board ∧
    (wr_alive s i a).turn = s.turn ∧ (wr_alive s i a).player_color = s.player_color ∧
    (wr_alive s i a).computer_color = s.computer_color ∧ (wr_alive s i a).reply = s.reply :=
  ⟨rfl, rfl, rfl, rfl, rfl, rfl⟩

theorem wr_type_frame (s : d_data) (i t : Int) :
    (wr_type s i t).game_on = s.game_on ∧ (wr_type s i t).board = s.board ∧
    (wr_type s i t).turn = s.turn ∧ (wr_type s i t).player_color = s.player_color ∧
    (wr_type s i t).computer_color = s.computer_color ∧ (wr_type s i t).reply = s.reply :=
  ⟨rfl, rfl, rfl, rfl, rfl, rfl⟩

theorem wr_color_frame (s : d_data) (i : Int) (c : Char) :
    (wr_color s i c).game_on = s.game_on ∧ (wr_color s i c).board = s.board ∧
    (wr_color s i c).turn = s.turn ∧ (wr_color s i c).player_color = s.player_color ∧
    (wr_color s i c).computer_color = s.computer_color ∧ (wr_color s i c).reply = s.reply :=
  ⟨rfl, rfl, rfl, rfl, rfl, rfl⟩

theorem figures_wr_square_type (s : d_data) (i : Int) (c : coord_t) (k : Fin 32) :
    ((wr_square s i c).figures k).type = (s.figures k).type := by
  unfold wr_square
  simp only
  split <;> rfl

theorem undo_mm_apply (s : d_data) (color : Char) (kj : Fin 32) (m : coord_t)
    (hw : well_formed s) (hg : grid_agrees s) (ha : (s.figures kj).alive ≠ 0) :
    undo (mm_apply s color (kj.val : Int) m) (kj.val : Int) = s := by
  have hhome : ∀ k : Fin 64, (k.val : Int) = coord_to_sq (s.figures kj).square →
      s.board k = (kj.val : Int) := fun k hk => (hg.1 k kj).2 ⟨ha, hk.symm⟩
  have hnew : ∀ k : Fin 64, (k.val : Int) = coord_to_sq m →
      rd_board s (coord_to_sq m) = s.board k := fun k hk => by rw [← hk, rd_board_fin]
  have hboard : (fun k : Fin 64 =>
        if (k.val : Int) = coord_to_sq m then rd_board s (coord_to_sq m)
        else if (k.val : Int) = coord_to_sq (s.figures kj).square then (kj.val : Int)
        else if (k.val : Int) = coord_to_sq (s.figures kj).square then -1
        else if (k.val : Int) = coord_to_sq m then (kj.val : Int) else s.board k) = s.board := by
    funext k
    split_ifs with h1 h2
    · rw [hnew k h1]
    · exact (hhome k h2).symm
    · rfl
  have hvict : ∀ k : Fin 32, (k.val : Int) = rd_board s (coord_to_sq m) →
      (s.figures k).alive = 1 ∧ (s.figures k).type ≠ -1 := by
    intro k hk
    refine ⟨?_, type_ne_neg_one s hw k⟩
    rcases rd_board_cases s hg (coord_to_sq m) with h | ⟨kv, h1, sl, _, h3⟩
    · omega
    · have hkv : kv = k := by apply Fin.ext; omega
      subst hkv
      exact alive_one s hw _ ((hg.1 sl _).1 h3).1
  have hfin : ∀ a b : Fin 32, ((a.val : Int) = (b.val : Int)) ↔ a = b := by
    intro a b; constructor
    · intro h; apply Fin.ext; omega
    · intro h; rw [h]
  simp only [undo, mm_apply, rd_board_wr_square, rd_figure_fin]
  cases hc : takes (wr_square s kj m) color (rd_board s (coord_to_sq m))
  · simp only [Bool.false_eq_true, if_false, ne_eq, not_true_eq_false]
    cases hp : on_last_rank (wr_square s kj m) kj m
    · simp only [Bool.false_eq_true, if_false, zero_ne_one]
      apply d_data_ext
      · simp only [wr_board_frame, wr_square_frame, wr_alive_frame, wr_type_frame]
      · exact hboard
      · funext k
        show (if (k.val : Int) = kj.val then _ else _) = _
        by_cases hk : (k.val : Int) = (kj.val : Int)
        · have := (hfin _ _).1 hk
          subst this
          simp [wr_board, wr_square]
        · have hk2 : ¬ (k.val = kj.val) := fun h => hk (by rw [h])
          simp [wr_board, wr_square, hk2]
      all_goals rfl
    · have hpawn : (s.figures kj).type = PAWN := by
        have := on_last_rank_true _ _ _ hp
        rwa [rd_figure_wr_square_type, rd_figure_fin] at this
      simp only [if_true]
      apply d_data_ext
      · simp only [wr_board_frame, wr_square_frame, wr_alive_frame, wr_type_frame]
      · exact hboard
      · funext k
        show (if (k.val : Int) = kj.val then _ else _) = _
        by_cases hk : (k.val : Int) = (kj.val : Int)
        · have := (hfin _ _).1 hk
          subst this
          simp [wr_board, wr_square, wr_type, ← hpawn]
        · have hk2 : ¬ (k.val = kj.val) := fun h => hk (by rw [h])
          simp [wr_board, wr_square, wr_type, hk2]
      all_goals rfl
  · have hne := (takes_true _ _ _ hc).1
    rcases rd_board_cases s hg (coord_to_sq m) with h | ⟨kv, hv, _⟩
    · exact absurd h hne
    · have hal := (hvict kv hv.symm).1
      have hty : ¬ (s.figures kv).type = -1 := (hvict kv hv.symm).2
      rw [hv] at hboard
      simp only [hv, rd_figure_fin, figures_wr_square_type, if_true, ne_eq, hty,
        not_false_eq_true]
      cases hp : on_last_rank (wr_alive (wr_square s kj m) kv 0) kj m
      · simp only [Bool.false_eq_true, if_false, zero_ne_one]
        apply d_data_ext
        · simp only [wr_board_frame, wr_square_frame, wr_alive_frame, wr_type_frame]
        · exact hboard
        · funext k
          show (if (k.val : Int) = kv.val then _ else _) = _
          by_cases hk : k = kj <;> by_cases hk2 : k = kv
          · subst hk; subst hk2
            simp [wr_board, wr_square, wr_alive, ← hal]
          · subst hk
            have hk3 : ¬ (k.val = kv.val) := fun h => hk2 (Fin.ext h)
            simp [wr_board, wr_square, wr_alive, hk3]
          · subst hk2
            have hk3 : ¬ (k.val = kj.val) := fun h => hk (Fin.ext h)
            simp [wr_board, wr_square, wr_alive, hk3, ← hal]
          · have hk3 : ¬ (k.val = kj.val) := fun h => hk (Fin.ext h)
            have hk4 : ¬ (k.val = kv.val) := fun h => hk2 (Fin.ext h)
            simp [wr_board, wr_square, wr_alive, hk3, hk4]
        all_goals simp only [wr_board_frame, wr_square_frame, wr_alive_frame, wr_type_frame]
      · have hpawn : (s.figures kj).type = PAWN := by
          have := on_last_rank_true _ _ _ hp
          rwa [rd_figure_wr_alive_type, rd_figure_wr_square_type, rd_figure_fin] at this
        simp only [if_true]
        apply d_data_ext
        · simp only [wr_board_frame, wr_square_frame, wr_alive_frame, wr_type_frame]
        · exact hboard
        · funext k
          show (if (k.val : Int) = kj.val then _ else _) = _
          by_cases hk : k = kj <;> by_cases hk2 : k = kv
          · subst hk; subst hk2
            simp [wr_board, wr_square, wr_alive, wr_type, ← hal, ← hpawn]
          · subst hk
            have hk3 : ¬ (k.val = kv.val) := fun h => hk2 (Fin.ext h)
            simp [wr_board, wr_square, wr_alive, wr_type, hk3, ← hpawn]
          · subst hk2
            have hk3 : ¬ (k.val = kj.val) := fun h => hk (Fin.ext h)
            simp [wr_board, wr_square, wr_alive, wr_type, hk3, ← hal]
          · have hk3 : ¬ (k.val = kj.val) := fun h => hk (Fin.ext h)
            have hk4 : ¬ (k.val = kv.val) := fun h => hk2 (Fin.ext h)
            simp [wr_board, wr_square, wr_alive, wr_type, hk3, hk4]
        all_goals simp only [wr_board_frame, wr_square_frame, wr_alive_frame, wr_type_frame]

/-! ### The search of `make_move` -/

theorem mover_range (color : Char) (i : Int) (h : i ∈ sixteen) :
    0 ≤ mover color i ∧ mover color i < 32 := by
  rw [mem_sixteen] at h
  unfold mover
  split <;> omega

theorem undo_mm_apply_int (s : d_data) (color : Char) (j : Int) (m : coord_t)
    (hw : well_formed s) (hg : grid_agrees s) (hj : 0 ≤ j ∧ j < 32)
    (ha : (rd_figure s j).alive ≠ 0) : undo (mm_apply s color j m) j = s := by
  obtain ⟨kj, rfl⟩ : ∃ kj : Fin 32, (kj.val : Int) = j :=
    ⟨⟨j.toNat, by omega⟩, by simp; omega⟩
  rw [rd_figure_fin] at ha
  exact undo_mm_apply s color kj m hw hg ha

theorem make_move_cands_testing (s : d_data) (color : Char) (j : Int)
    (hw : well_formed s) (hg : grid_agrees s) (hj : 0 ≤ j ∧ j < 32)
    (ha : (rd_figure s j).alive ≠ 0) (ms : List coord_t) :
    (make_move_cands s color 1 j ms).1 = s := by
  induction ms with
  | nil => rfl
  | cons m ms ih =>
    simp only [make_move_cands, undo_mm_apply_int s color j m hw hg hj ha, if_true]
    split
    · rfl
    · exact ih

theorem make_move_loop_testing (s : d_data) (color : Char)
    (hw : well_formed s) (hg : grid_agrees s) (is : List Int) (his : ∀ i ∈ is, i ∈ sixteen) :
    (make_move_loop s color 1 is).1 = s ∧
      ((make_move_loop s color 1 is).2 = 0 ∨ (make_move_loop s color 1 is).2 = 1) := by
  induction is with
  | nil => exact ⟨rfl, Or.inr rfl⟩
  | cons i is ih =>
    have ih := ih (fun x hx => his x (List.mem_cons_of_mem _ hx))
    have hr := mover_range color i (his i (List.mem_cons_self _ _))
    simp only [make_move_loop]
    by_cases ha : (rd_figure s (mover color i)).alive ≠ 0
    · rw [if_pos ha]
      have hc := make_move_cands_testing s color (mover color i) hw hg hr ha
        (find_move s (rd_figure s (mover color i)))
      split
      · exact ⟨hc, Or.inl rfl⟩
      · rw [hc]; exact ih
    · rw [if_neg ha]; exact ih

/-- C8: in a well-formed state with grid/piece agreement, `make_move` with
`testing = 1` returns the state it was given (grid, records and all scalar
fields), whether it returns 0 (found) or 1 (none). -/
theorem make_move_testing_pure (s : d_data) (color : Char)
    (hw : well_formed s) (hg : grid_agrees s) :
    (make_move s color 1).1 = s ∧
      ((make_move s color 1).2 = 0 ∨ (make_move s color 1).2 = 1) :=
  make_move_loop_testing s color hw hg sixteen (fun _ h => h)

theorem make_move_cands_commit (s : d_data) (color : Char) (j : Int)
    (hw : well_formed s) (hg : grid_agrees s) (hj : 0 ≤ j ∧ j < 32)
    (ha : (rd_figure s j).alive ≠ 0) (ms : List coord_t) :
    make_move_cands s color 0 j ms =
      match (ms.map (fun m => (j, m))).find? (safe_candidate s color) with
      | none => (s, false)
      | some jm => ((mm_apply s color jm.1 jm.2).state, true) := by
  induction ms with
  | nil => rfl
  | cons m ms ih =>
    simp only [make_move_cands, undo_mm_apply_int s color j m hw hg hj ha, List.map_cons,
      List.find?_cons]
    by_cases hc : in_check (mm_apply s color j m).state color = 0
    · have : safe_candidate s color (j, m) = true := by simp [safe_candidate, hc]
      rw [if_pos hc, this]
      simp
    · have : safe_candidate s color (j, m) = false := by simp [safe_candidate, hc]
      rw [if_neg hc, this]
      exact ih

theorem make_move_loop_commit (s : d_data) (color : Char)
    (hw : well_formed s) (hg : grid_agrees s) (is : List Int) (his : ∀ i ∈ is, i ∈ sixteen) :
    make_move_loop s color 0 is =
      match (search_order s color is).find? (safe_candidate s color) with
      | none => (s, 1)
      | some jm => ((mm_apply s color jm.1 jm.2).state, 0) := by
  induction is with
  | nil => rfl
  | cons i is ih =>
    have ih := ih (fun x hx => his x (List.mem_cons_of_mem _ hx))
    have hr := mover_range color i (his i (List.mem_cons_self _ _))
    simp only [make_move_loop, search_order]
    by_cases ha : (rd_figure s (mover color i)).alive ≠ 0
    · rw [if_pos ha, if_pos ha, List.find?_append,
        make_move_cands_commit s color (mover color i) hw hg hr ha]
      cases hf : List.find? (safe_candidate s color)
          (List.map (fun m => (mover color i, m)) (find_move s (rd_figure s (mover color i))))
      · simp [ih]
      · simp
    · rw [if_neg ha, if_neg ha, List.nil_append]; exact ih

theorem make_move_commit_eq (s : d_data) (color : Char)
    (hw : well_formed s) (hg : grid_agrees s) :
    make_move s color 0 =
      match first_safe s color with
      | none => (s, 1)
      | some jm => ((mm_apply s color jm.1 jm.2).state, 0) :=
  make_move_loop_commit s color hw hg sixteen (fun _ h => h)

theorem safe_candidate_iff (s : d_data) (color : Char) (jm : Int × coord_t) :
    safe_candidate s color jm = true ↔ in_check (mm_apply s color jm.1 jm.2).state color = 0 := by
  simp [safe_candidate]

theorem mem_search_order (s : d_data) (color : Char) (is : List Int) (j : Int) (m : coord_t) :
    (j, m) ∈ search_order s color is ↔
      (∃ i ∈ is, j = mover color i) ∧ (rd_figure s j).alive ≠ 0 ∧
        m ∈ find_move s (rd_figure s j) := by
  induction is with
  | nil => simp [search_order]
  | cons i is ih =>
    simp only [search_order, List.mem_append, ih, List.exists_mem_cons_iff]
    constructor
    · rintro (h | ⟨h1, h2⟩)
      · split at h
        · rename_i ha
          simp only [List.mem_map, Prod.mk.injEq] at h
          obtain ⟨m1, hm1, hj, rfl⟩ := h
          subst hj
          exact ⟨Or.inl rfl, ha, hm1⟩
        · simp at h
      · exact ⟨Or.inr h1, h2⟩
    · rintro ⟨h1 | h1, ha, hm⟩
      · left
        subst h1
        rw [if_pos ha]
        exact List.mem_map.2 ⟨m, hm, rfl⟩
      · exact Or.inr ⟨h1, ha, hm⟩

/-- The committing search in terms of `mm_apply`, the tentative application
that `make_move` itself performs: it returns 1 exactly when no candidate of
the search order is safe, and then the state is unchanged; otherwise it
returns 0 and the new state is the state that `mm_apply` gives for the
first safe candidate. -/
theorem make_move_first_safe (s : d_data) (color : Char)
    (hw : well_formed s) (hg : grid_agrees s) :
    (∀ j m, (j, m) ∈ search_order s color sixteen ↔
      (∃ i, (0 ≤ i ∧ i < 16) ∧ j = mover color i) ∧ (rd_figure s j).alive ≠ 0 ∧
        m ∈ find_move s (rd_figure s j)) ∧
    ((make_move s color 0).2 = 1 ↔
      ∀ jm ∈ search_order s color sixteen,
        in_check (mm_apply s color jm.1 jm.2).state color ≠ 0) ∧
    ((make_move s color 0).2 = 1 → (make_move s color 0).1 = s) ∧
    ((make_move s color 0).2 ≠ 1 →
      (make_move s color 0).2 = 0 ∧
      ∃ before jm after, search_order s color sixteen = before ++ jm :: after ∧
        (∀ x ∈ before, in_check (mm_apply s color x.1 x.2).state color ≠ 0) ∧
        in_check (mm_apply s color jm.1 jm.2).state color = 0 ∧
        (make_move s color 0).1 = (mm_apply s color jm.1 jm.2).state ∧
        in_check (make_move s color 0).1 color = 0) := by
  have heq := make_move_commit_eq s color hw hg
  refine ⟨?_, ?_⟩
  · intro j m
    rw [mem_search_order]
    constructor
    · rintro ⟨⟨i, hi, hj⟩, h⟩
      exact ⟨⟨i, (mem_sixteen i).1 hi, hj⟩, h⟩
    · rintro ⟨⟨i, hi, hj⟩, h⟩
      exact ⟨⟨i, (mem_sixteen i).2 hi, hj⟩, h⟩
  · cases hf : first_safe s color with
    | none =>
      rw [hf] at heq
      have hnone : ∀ jm ∈ search_order s color sixteen,
          in_check (mm_apply s color jm.1 jm.2).state color ≠ 0 := by
        intro jm hjm hsafe
        have := List.find?_eq_none.1 hf jm hjm
        exact this ((safe_candidate_iff s color jm).2 hsafe)
      rw [heq]
      exact ⟨⟨fun _ => hnone, fun _ => rfl⟩, fun _ => rfl, fun h => absurd rfl h⟩
    | some jm =>
      rw [hf] at heq
      obtain ⟨hsafe, before, after, hsplit, hbefore⟩ := List.find?_eq_some.1 hf
      have hsafe := (safe_candidate_iff s color jm).1 hsafe
      rw [heq]
      have h01 : ¬ ((0 : Int) = 1) := by decide
      refine ⟨⟨fun h => absurd h h01, fun h => ?_⟩, fun h => absurd h h01,
        fun _ => ⟨rfl, before, jm, after, hsplit, ?_, hsafe, rfl, hsafe⟩⟩
      · exact absurd hsafe (h jm (by rw [hsplit]; simp))
      · intro x hx hx0
        have := hbefore x hx
        rw [(safe_candidate_iff s color x).2 hx0] at this
        simp at this

/-! ### The board set-up -/

theorem place_frame (s : d_data) (idx type : Int) (color : Char) (x y : Int) :
    (place s idx type color x y).game_on = s.game_on ∧
    (place s idx type color x y).board = s.board ∧
    (place s idx type color x y).turn = s.turn ∧
    (place s idx type color x y).player_color = s.player_color ∧
    (place s idx type color x y).computer_color = s.computer_color ∧
    (place s idx type color x y).reply = s.reply :=
  ⟨rfl, rfl, rfl, rfl, rfl, rfl⟩

theorem place_figures (s : d_data) (idx type : Int) (color : Char) (x y : Int) (k : Fin 32) :
    (place s idx type color x y).figures k =
      if (k.val : Int) = idx then ⟨type, color, 1, ⟨x, y⟩⟩ else s.figures k := by
  unfold place wr_square wr_alive wr_color wr_type
  simp only
  split <;> rfl

theorem wr_board_board (s : d_data) (i v : Int) (k : Fin 64) :
    (wr_board s i v).board k = if (k.val : Int) = i then v else s.board k := rfl

theorem rd_figure_place (s : d_data) (idx type : Int) (color : Char) (x y : Int)
    (h : 0 ≤ idx ∧ idx < 32) :
    rd_figure (place s idx type color x y) idx = ⟨type, color, 1, ⟨x, y⟩⟩ := by
  unfold rd_figure
  rw [dif_pos h, place_figures]
  have : ((idx.toNat : Nat) : Int) = idx := by omega
  simp [this]

theorem read_log_eq {α : Type} (ws : List (Int × α)) (k : Int) (d v : α)
    (h : read_log_opt ws k = some v) : read_log ws k d = v := by
  induction ws with
  | nil => simp [read_log_opt] at h
  | cons w ws ih =>
    obtain ⟨i, x⟩ := w
    simp only [read_log_opt, read_log] at *
    split
    · rename_i hk
      rw [if_pos hk] at h
      exact Option.some.inj h
    · rename_i hk
      rw [if_neg hk] at h
      exact ih h

theorem figures_log_total : ∀ k : Fin 32,
    read_log_opt figures_log (k.val : Int) = some (layout_piece k) := by decide

theorem board_log_total : ∀ k : Fin 64,
    read_log_opt board_log (k.val : Int) = some (layout_board k) := by decide

theorem set_board_figures (s : d_data) (k : Fin 32) :
    (set_board s).figures k = layout_piece k := by
  rw [← read_log_eq figures_log k (s.figures k) _ (figures_log_total k)]
  simp only [set_board, set_pawns, eight, clear_slots, middle, wr_board_frame, place_figures,
    figures_log, read_log, Int.reduceAdd]

theorem pawn_slot (t : d_data) (i : Int) (h : 0 ≤ i ∧ i ≤ 7) :
    coord_to_sq (rd_figure (place t i PAWN 'W' i 1) i).square = 8 + i ∧
    coord_to_sq (rd_figure (place t (i + 16) PAWN 'B' i 6) (i + 16)).square = 48 + i := by
  rw [rd_figure_place _ _ _ _ _ _ ⟨by omega, by omega⟩,
    rd_figure_place _ _ _ _ _ _ ⟨by omega, by omega⟩]
  unfold coord_to_sq
  simp only
  constructor
  · rw [if_neg (by omega)]; omega
  · rw [if_neg (by omega)]; omega

theorem set_board_board (s : d_data) (k : Fin 64) :
    (set_board s).board k = layout_board k := by
  rw [← read_log_eq board_log k (s.board k) _ (board_log_total k)]
  simp only [set_board, set_pawns, eight, clear_slots, middle]
  simp only [wr_board_board, place_frame]
  simp only [pawn_slot _ 0 (by decide), pawn_slot _ 1 (by decide), pawn_slot _ 2 (by decide),
    pawn_slot _ 3 (by decide), pawn_slot _ 4 (by decide), pawn_slot _ 5 (by decide),
    pawn_slot _ 6 (by decide), pawn_slot _ 7 (by decide)]
  simp only [board_log, read_log, Int.reduceAdd]

theorem set_board_scalars (s : d_data) :
    (set_board s).game_on = 1 ∧ (set_board s).turn = 'W' ∧
    (set_board s).player_color = s.player_color ∧
    (set_board s).computer_color = s.computer_color ∧ (set_board s).reply = s.reply := by
  simp only [set_board, set_pawns, eight, clear_slots, middle, wr_board_frame, place_frame,
    and_self]

theorem layout_agrees :
    (∀ sl : Fin 64, ∀ i : Fin 32, layout_board sl = (i.val : Int) ↔
      ((layout_piece i).alive ≠ 0 ∧ coord_to_sq (layout_piece i).square = (sl.val : Int))) ∧
    (∀ sl : Fin 64, layout_board sl = -1 ∨ (0 ≤ layout_board sl ∧ layout_board sl < 32)) ∧
    (∀ sl : Fin 64, 16 ≤ sl.val → sl.val < 48 → layout_board sl = -1) := by
  decide

theorem colors_frame (u : d_data) (c o : Char) (r : List Char) :
    (answer { u with player_color := c, computer_color := o } r).figures = u.figures ∧
    (answer { u with player_color := c, computer_color := o } r).board = u.board ∧
    (answer { u with player_color := c, computer_color := o } r).game_on = u.game_on ∧
    (answer { u with player_color := c, computer_color := o } r).turn = u.turn ∧
    (answer { u with player_color := c, computer_color := o } r).reply = r ∧
    (answer { u with player_color := c, computer_color := o } r).player_color = c ∧
    (answer { u with player_color := c, computer_color := o } r).computer_color = o :=
  ⟨rfl, rfl, rfl, rfl, rfl, rfl, rfl⟩

theorem new_game_state (s : d_data) (c o : Char) (t : d_data)
    (ht : t = answer { set_board { s with game_on := 1 } with
      player_color := c, computer_color := o } OK) :
    t.reply = OK ∧ t.game_on = 1 ∧ t.turn = 'W' ∧ t.player_color = c ∧
    t.computer_color = o ∧ (∀ i : Fin 32, t.figures i = layout_piece i) ∧
    (∀ sl : Fin 64, t.board sl = layout_board sl) ∧ grid_agrees t ∧
    (∀ sl : Fin 64, 16 ≤ sl.val → sl.val < 48 → t.board sl = -1) := by
  obtain ⟨e1, e2, e3, e4, e5, e6, e7⟩ := colors_frame (set_board { s with game_on := 1 }) c o OK
  rw [← ht] at e1 e2 e3 e4 e5 e6 e7
  have hf : ∀ i : Fin 32, t.figures i = layout_piece i := by
    intro i; rw [e1]; exact set_board_figures _ i
  have hb : ∀ sl : Fin 64, t.board sl = layout_board sl := by
    intro sl; rw [e2]; exact set_board_board _ sl
  have hs := set_board_scalars { s with game_on := 1 }
  refine ⟨e5, by rw [e3]; exact hs.1, by rw [e4]; exact hs.2.1, e6, e7, hf, hb, ?_, ?_⟩
  · unfold grid_agrees
    simp only [hf, hb]
    exact ⟨layout_agrees.1, layout_agrees.2.1⟩
  · intro sl h1 h2
    rw [hb]
    exact layout_agrees.2.2 sl h1 h2

/-- C5: from every state, `00 W` and `00 B` answer OK, set the game in
progress with White to move, the player's colour as given and the computer's
the other one, write the fixed layout into all 32 records, and leave a grid
that agrees with the records and is empty on the slots 16..47. -/
theorem new_game_is_full_reset (s : d_data) :
    ((d_write s "00 W\n".data).reply = OK ∧ (d_write s "00 W\n".data).game_on = 1 ∧
      (d_write s "00 W\n".data).turn = 'W' ∧
      (d_write s "00 W\n".data).player_color = 'W' ∧
      (d_write s "00 W\n".data).computer_color = 'B' ∧
      (∀ i : Fin 32, (d_write s "00 W\n".data).figures i = layout_piece i) ∧
      (∀ sl : Fin 64, (d_write s "00 W\n".data).board sl = layout_board sl) ∧
      grid_agrees (d_write s "00 W\n".data) ∧
      (∀ sl : Fin 64, 16 ≤ sl.val → sl.val < 48 → (d_write s "00 W\n".data).board sl = -1)) ∧
    ((d_write s "00 B\n".data).reply = OK ∧ (d_write s "00 B\n".data).game_on = 1 ∧
      (d_write s "00 B\n".data).turn = 'W' ∧
      (d_write s "00 B\n".data).player_color = 'B' ∧
      (d_write s "00 B\n".data).computer_color = 'W' ∧
      (∀ i : Fin 32, (d_write s "00 B\n".data).figures i = layout_piece i) ∧
      (∀ sl : Fin 64, (d_write s "00 B\n".data).board sl = layout_board sl) ∧
      grid_agrees (d_write s "00 B\n".data) ∧
      (∀ sl : Fin 64, 16 ≤ sl.val → sl.val < 48 → (d_write s "00 B\n".data).board sl = -1)) :=
  ⟨new_game_state s 'W' 'B' _ rfl, new_game_state s 'B' 'W' _ rfl⟩

/-! ### Replies that leave the game as it was -/

theorem same_game_answer (s : d_data) (r : List Char) : same_game s (answer s r) :=
  ⟨rfl, rfl, rfl, rfl, rfl, rfl⟩

theorem evaluate_reply (s : d_data) (c : Char) :
    (evaluate s c).reply = MATE ∨ (evaluate s c).reply = CHECK ∨ (evaluate s c).reply = OK := by
  unfold evaluate
  simp only
  split
  · split
    · exact Or.inl rfl
    · exact Or.inr (Or.inl rfl)
  · exact Or.inr (Or.inr rfl)

theorem not_error_of_outcome (r : List Char)
    (h : r = MATE ∨ r = CHECK ∨ r = OK ∨ r = ILLMOVE) : ¬ error_reply r := by
  unfold error_reply
  rcases h with h | h | h | h <;> subst h <;> decide

theorem cells_length (s : d_data) (l : List Int) : (cells s l).length = 2 * l.length := by
  induction l with
  | nil => rfl
  | cons a l ih =>
    have : (cell s a).length = 2 := by
      unfold cell
      simp only
      split <;> rfl
    simp only [cells, List.length_append, List.length_cons, ih, this]
    omega

theorem display_board_length (s : d_data) : (display_board s).reply.length = 129 := by
  simp only [display_board, List.length_append, cells_length, slots, List.length_map,
    List.length_range, List.length_singleton]

theorem not_error_of_length (r : List Char) (h : r.length = 129) : ¬ error_reply r := by
  unfold error_reply
  rintro (e | e | e | e) <;> subst e <;> revert h <;> decide

theorem player_move_frame (s : d_data) (a : move_args) :
    same_game s (player_move s a) ∨ ¬ error_reply (player_move s a).reply := by
  unfold player_move
  split
  · exact Or.inl (same_game_answer _ _)
  · split
    · exact Or.inl (same_game_answer _ _)
    · simp only
      split
      · exact Or.inr (not_error_of_outcome _ (Or.inr (Or.inr (Or.inr rfl))))
      · right
        apply not_error_of_outcome
        rcases evaluate_reply
          { (move_valid s a.piece a.dest a.take_piece a.promote a.piece_opt1 a.piece_opt2).1 with
            turn := (move_valid s a.piece a.dest a.take_piece a.promote a.piece_opt1
              a.piece_opt2).1.computer_color }
          (move_valid s a.piece a.dest a.take_piece a.promote a.piece_opt1
              a.piece_opt2).1.computer_color with h | h | h
        · exact Or.inl h
        · exact Or.inr (Or.inl h)
        · exact Or.inr (Or.inr (Or.inl h))

theorem computer_move_frame (s : d_data) :
    same_game s (computer_move s) ∨ ¬ error_reply (computer_move s).reply := by
  unfold computer_move
  split
  · exact Or.inl (same_game_answer _ _)
  · split
    · exact Or.inl (same_game_answer _ _)
    · right
      apply not_error_of_outcome
      simp only
      rcases evaluate_reply
        { (make_move (answer s OK) (answer s OK).computer_color 0).1 with
          turn := (make_move (answer s OK) (answer s OK).computer_color 0).1.player_color }
        (make_move (answer s OK) (answer s OK).computer_color 0).1.player_color with h | h | h
      · exact Or.inl h
      · exact Or.inr (Or.inl h)
      · exact Or.inr (Or.inr (Or.inl h))

theorem resign_frame (s : d_data) :
    same_game s (resign s) ∨ ¬ error_reply (resign s).reply := by
  unfold resign
  split
  · exact Or.inl (same_game_answer _ _)
  · split
    · exact Or.inl (same_game_answer _ _)
    · exact Or.inr (not_error_of_outcome _ (Or.inr (Or.inr (Or.inl rfl))))

theorem new_game_frame (s : d_data) (arg : List Char) :
    same_game s (new_game s arg) ∨ ¬ error_reply (new_game s arg).reply := by
  unfold new_game
  split
  · exact Or.inr (not_error_of_outcome _ (Or.inr (Or.inr (Or.inl rfl))))
  · split
    · exact Or.inr (not_error_of_outcome _ (Or.inr (Or.inr (Or.inl rfl))))
    · exact Or.inl (same_game_answer _ _)

theorem dispatch_frame (s : d_data) (cmd : List Char) (arg : Option (List Char)) :
    same_game s (dispatch s cmd arg) ∨ ¬ error_reply (dispatch s cmd arg).reply := by
  unfold dispatch
  split
  · cases arg with
    | none => exact Or.inl (same_game_answer _ _)
    | some a => exact new_game_frame s a
  · split
    · cases arg with
      | none => exact Or.inr (not_error_of_length _ (display_board_length s))
      | some a => exact Or.inl (same_game_answer _ _)
    · split
      · cases decode_move s arg with
        | error r => exact Or.inl (same_game_answer _ _)
        | ok a => exact player_move_frame s a
      · split
        · cases arg with
          | none => exact computer_move_frame s
          | some a => exact Or.inl (same_game_answer _ _)
        · split
          · cases arg with
            | none => exact resign_frame s
            | some a => exact Or.inl (same_game_answer _ _)
          · exact Or.inl (same_game_answer _ _)

/-- C4: when the reply to a written message is INVFMT, NOGAME, OOT or UNKCMD,
the in-progress flag, the grid, the records, the turn and both colours are
what they were before the message. -/
theorem error_replies_keep_state (s : d_data) (msg : List Char)
    (h : (d_write s msg).reply = INVFMT ∨ (d_write s msg).reply = NOGAME ∨
      (d_write s msg).reply = OOT ∨ (d_write s msg).reply = UNKCMD) :
    (d_write s msg).game_on = s.game_on ∧ (d_write s msg).board = s.board ∧
    (d_write s msg).figures = s.figures ∧ (d_write s msg).turn = s.turn ∧
    (d_write s msg).player_color = s.player_color ∧
    (d_write s msg).computer_color = s.computer_color := by
  have key : same_game s (d_write s msg) ∨ ¬ error_reply (d_write s msg).reply := by
    unfold d_write
    cases tokenize msg with
    | none => exact Or.inl (same_game_answer _ _)
    | some p => exact dispatch_frame s p.1 p.2
  rcases key with k | k
  · exact k
  · exact absurd h k

/-! ### Functions of the position alone -/

theorem rd_board_congr {s t : d_data} (h : same_position s t) : rd_board s = rd_board t := by
  funext i
  unfold rd_board
  rw [h.1]

theorem rd_figure_congr {s t : d_data} (h : same_position s t) : rd_figure s = rd_figure t := by
  funext i
  unfold rd_figure
  rw [h.2]

theorem ray_congr {s t : d_data} (h : same_position s t) (color : Char) (dx dy : Int)
    (fuel : Nat) (c : coord_t) : ray s color dx dy fuel c = ray t color dx dy fuel c := by
  induction fuel generalizing c with
  | zero => rfl
  | succ n ih => simp only [ray, rd_board_congr h, rd_figure_congr h, ih]

theorem find_move_congr {s t : d_data} (h : same_position s t) (piece : piece_t) :
    find_move s piece = find_move t piece := by
  simp only [find_move, pawn_helper, rook_helper, knight_helper, bishop_helper, queen_helper,
    king_helper, keep_move, verify_move_helper, rd_board_congr h, rd_figure_congr h,
    ray_congr h]

theorem in_check_loop_congr {s t : d_data} (h : same_position s t) (color : Char)
    (is : List Int) : in_check_loop s color is = in_check_loop t color is := by
  induction is with
  | nil => rfl
  | cons i is ih =>
    simp only [in_check_loop, king_of, rd_figure_congr h, find_move_congr h, ih]

theorem in_check_congr {s t : d_data} (h : same_position s t) (color : Char) :
    in_check s color = in_check t color := in_check_loop_congr h color sixteen

theorem relabel_self (s : d_data) : relabel s s = s := rfl

theorem same_position_relabel (s u : d_data) : same_position (relabel s u) s := ⟨rfl, rfl⟩

theorem relabel_of_same_position {s t : d_data} (h : same_position s t) : t = relabel s t := by
  cases t; cases s
  simp only [same_position] at h
  simp only [relabel, h.1, h.2]

theorem takes_relabel (s u : d_data) (color : Char) (v : Int) :
    takes (relabel s u) color v = takes s color v := rfl

theorem on_last_rank_relabel (s u : d_data) (j : Int) (m : coord_t) :
    on_last_rank (relabel s u) j m = on_last_rank s j m := rfl

theorem in_check_relabel (s u : d_data) (color : Char) :
    in_check (relabel s u) color = in_check s color :=
  in_check_congr (same_position_relabel s u) color

theorem find_move_relabel (s u : d_data) (piece : piece_t) :
    find_move (relabel s u) piece = find_move s piece :=
  find_move_congr (same_position_relabel s u) piece

theorem wr_board_relabel (s u : d_data) (i v : Int) :
    wr_board (relabel s u) i v = relabel (wr_board s i v) u := rfl

theorem wr_square_relabel (s u : d_data) (i : Int) (c : coord_t) :
    wr_square (relabel s u) i c = relabel (wr_square s i c) u := rfl

theorem wr_alive_relabel (s u : d_data) (i a : Int) :
    wr_alive (relabel s u) i a = relabel (wr_alive s i a) u := rfl

theorem wr_type_relabel (s u : d_data) (i t : Int) :
    wr_type (relabel s u) i t = relabel (wr_type s i t) u := rfl

theorem rd_board_relabel (s u : d_data) (i : Int) :
    rd_board (relabel s u) i = rd_board s i := rfl

theorem rd_figure_relabel (s u : d_data) (i : Int) :
    rd_figure (relabel s u) i = rd_figure s i := rfl

theorem ite_relabel (c : Prop) [Decidable c] (a b u : d_data) :
    (if c then relabel a u else relabel b u) = relabel (if c then a else b) u := by
  split <;> rfl

theorem mm_apply_relabel (s u : d_data) (color : Char) (j : Int) (m : coord_t) :
    mm_apply (relabel s u) color j m = relabel_tentative (mm_apply s color j m) u := by
  simp only [mm_apply, relabel_tentative, wr_board_relabel, wr_square_relabel, wr_alive_relabel,
    wr_type_relabel, rd_board_relabel, rd_figure_relabel, takes_relabel, on_last_rank_relabel,
    ite_relabel]

theorem undo_relabel (t : tentative) (u : d_data) (j : Int) :
    undo (relabel_tentative t u) j = relabel (undo t j) u := by
  simp only [undo, relabel_tentative, wr_board_relabel, wr_square_relabel, wr_alive_relabel,
    wr_type_relabel, ite_relabel]

theorem make_move_cands_relabel (u : d_data) (color : Char) (testing : Int) (j : Int)
    (ms : List coord_t) (s : d_data) :
    make_move_cands (relabel s u) color testing j ms =
      (relabel (make_move_cands s color testing j ms).1 u,
        (make_move_cands s color testing j ms).2) := by
  induction ms generalizing s with
  | nil => rfl
  | cons m ms ih =>
    simp only [make_move_cands, mm_apply_relabel, undo_relabel]
    have e : (relabel_tentative (mm_apply s color j m) u).state =
        relabel (mm_apply s color j m).state u := rfl
    rw [e, in_check_relabel]
    split
    · split <;> rfl
    · exact ih _

theorem make_move_loop_relabel (u : d_data) (color : Char) (testing : Int)
    (is : List Int) (s : d_data) :
    make_move_loop (relabel s u) color testing is =
      (relabel (make_move_loop s color testing is).1 u,
        (make_move_loop s color testing is).2) := by
  induction is generalizing s with
  | nil => rfl
  | cons i is ih =>
    simp only [make_move_loop]
    have e : rd_figure (relabel s u) = rd_figure s := rd_figure_congr (same_position_relabel s u)
    rw [e, find_move_relabel, make_move_cands_relabel]
    simp only
    split
    · split
      · rfl
      · exact ih _
    · exact ih _

theorem make_move_relabel (s u : d_data) (color : Char) (testing : Int) :
    make_move (relabel s u) color testing =
      (relabel (make_move s color testing).1 u, (make_move s color testing).2) :=
  make_move_loop_relabel u color testing sixteen s

/-! ### The check and mate evaluation -/

theorem replies_distinct : OK ≠ CHECK ∧ OK ≠ MATE ∧ CHECK ≠ MATE := by decide

theorem evaluate_spec (B u : d_data) (c : Char) :
    (evaluate (relabel B u) c).turn = u.turn ∧
    (evaluate (relabel B u) c).player_color = u.player_color ∧
    (evaluate (relabel B u) c).computer_color = u.computer_color ∧
    ((evaluate (relabel B u) c).reply = OK ↔ in_check B c = 0) ∧
    ((evaluate (relabel B u) c).reply = CHECK ↔
      in_check B c ≠ 0 ∧ (make_move B c 1).2 = 0) ∧
    ((evaluate (relabel B u) c).reply = MATE ↔
      in_check B c ≠ 0 ∧ (make_move B c 1).2 ≠ 0) ∧
    ((evaluate (relabel B u) c).reply = MATE → (evaluate (relabel B u) c).game_on = 0) ∧
    ((evaluate (relabel B u) c).reply ≠ MATE →
      (evaluate (relabel B u) c).game_on = u.game_on) ∧
    (in_check B c = 0 → same_position B (evaluate (relabel B u) c)) ∧
    (in_check B c ≠ 0 → same_position (make_move B c 1).1 (evaluate (relabel B u) c)) := by
  obtain ⟨d1, d2, d3⟩ := replies_distinct
  simp only [evaluate, in_check_relabel, make_move_relabel]
  by_cases hc : in_check B c = 0
  · rw [if_neg (not_not.2 hc)]
    refine ⟨rfl, rfl, rfl, ⟨fun _ => hc, fun _ => rfl⟩, ⟨fun h => absurd h d1, fun h => absurd hc h.1⟩,
      ⟨fun h => absurd h d2, fun h => absurd hc h.1⟩, fun h => absurd h d2, fun _ => rfl,
      fun _ => ⟨rfl, rfl⟩, fun h => absurd hc h⟩
  · rw [if_pos hc]
    by_cases hm : (make_move B c 1).2 = 0
    · rw [if_neg (not_not.2 hm)]
      refine ⟨rfl, rfl, rfl, ⟨fun h => absurd h.symm d1, fun h => absurd h hc⟩,
        ⟨fun _ => ⟨hc, hm⟩, fun _ => rfl⟩, ⟨fun h => absurd h d3, fun h => absurd hm h.2⟩,
        fun h => absurd h d3, fun _ => rfl, fun h => absurd h hc, fun _ => ⟨rfl, rfl⟩⟩
    · rw [if_pos hm]
      refine ⟨rfl, rfl, rfl, ⟨fun h => absurd h.symm d2, fun h => absurd h hc⟩,
        ⟨fun h => absurd h.symm d3, fun h => absurd h.2 hm⟩, ⟨fun _ => ⟨hc, hm⟩, fun _ => rfl⟩,
        fun _ => rfl, fun h => absurd rfl h, fun h => absurd h hc, fun _ => ⟨rfl, rfl⟩⟩

/-- C7: in a game in progress with the computer to move, `03` commits
`make_move` for the computer's colour, gives the turn to the player, and
answers OK exactly when the player's king is not attacked in the committed
state, CHECK when it is and the test search finds a move, MATE when it is and
the search finds none; the game stays in progress except on MATE; the final
position is the committed one when the answer is OK, and what the test search
returns otherwise (the committed one again when that state is well formed
with grid/piece agreement). -/
theorem computer_move_outcome (s : d_data) (hg : s.game_on = 1)
    (ht : s.turn = s.computer_color) :
    (d_write s "03\n".data).turn = s.player_color ∧
    (d_write s "03\n".data).player_color = s.player_color ∧
    (d_write s "03\n".data).computer_color = s.computer_color ∧
    ((d_write s "03\n".data).reply = OK ∨ (d_write s "03\n".data).reply = CHECK ∨
      (d_write s "03\n".data).reply = MATE) ∧
    ((d_write s "03\n".data).reply = OK ↔
      in_check (make_move s s.computer_color 0).1 s.player_color = 0) ∧
    ((d_write s "03\n".data).reply = CHECK ↔
      in_check (make_move s s.computer_color 0).1 s.player_color ≠ 0 ∧
      (make_move (make_move s s.computer_color 0).1 s.player_color 1).2 = 0) ∧
    ((d_write s "03\n".data).reply = MATE ↔
      in_check (make_move s s.computer_color 0).1 s.player_color ≠ 0 ∧
      (make_move (make_move s s.computer_color 0).1 s.player_color 1).2 ≠ 0) ∧
    ((d_write s "03\n".data).game_on = 0 ↔ (d_write s "03\n".data).reply = MATE) ∧
    ((d_write s "03\n".data).reply ≠ MATE → (d_write s "03\n".data).game_on = 1) ∧
    (in_check (make_move s s.computer_color 0).1 s.player_color = 0 →
      same_position (make_move s s.computer_color 0).1 (d_write s "03\n".data)) ∧
    (in_check (make_move s s.computer_color 0).1 s.player_color ≠ 0 →
      same_position (make_move (make_move s s.computer_color 0).1 s.player_color 1).1
        (d_write s "03\n".data)) ∧
    (well_formed (make_move s s.computer_color 0).1 →
      grid_agrees (make_move s s.computer_color 0).1 →
      same_position (make_move s s.computer_color 0).1 (d_write s "03\n".data)) := by
  have e : d_write s "03\n".data =
      evaluate (relabel (make_move s s.computer_color 0).1
        { answer s OK with turn := s.player_color }) s.player_color := by
    show computer_move s = _
    unfold computer_move
    rw [if_neg (not_not.2 hg), if_neg (not_not.2 ht)]
    show evaluate { (make_move (relabel s (answer s OK)) s.computer_color 0).1 with
      turn := (make_move (relabel s (answer s OK)) s.computer_color 0).1.player_color }
      (make_move (relabel s (answer s OK)) s.computer_color 0).1.player_color = _
    rw [make_move_relabel]
    rfl
  rw [e]
  obtain ⟨h1, h2, h3, h4, h5, h6, h7, h8, h9, h10⟩ :=
    evaluate_spec (make_move s s.computer_color 0).1
      { answer s OK with turn := s.player_color } s.player_color
  refine ⟨h1, h2, h3, ?_, h4, h5, h6, ⟨fun h0 => ?_, h7⟩, fun h => ?_, h9, h10, ?_⟩
  rotate_right
  · intro hw hga
    by_cases hc : in_check (make_move s s.computer_color 0).1 s.player_color = 0
    · exact h9 hc
    · have hp : (make_move (make_move s s.computer_color 0).1 s.player_color 1).1 =
          (make_move s s.computer_color 0).1 :=
        (make_move_loop_testing (make_move s s.computer_color 0).1 s.player_color
          hw hga sixteen (fun _ h => h)).1
      have h := h10 hc
      rw [hp] at h
      exact h
  · by_cases hc : in_check (make_move s s.computer_color 0).1 s.player_color = 0
    · exact Or.inl (h4.2 hc)
    · by_cases hm : (make_move (make_move s s.computer_color 0).1 s.player_color 1).2 = 0
      · exact Or.inr (Or.inl (h5.2 ⟨hc, hm⟩))
      · exact Or.inr (Or.inr (h6.2 ⟨hc, hm⟩))
  · by_contra hne
    have := h8 hne
    rw [h0] at this
    have hg1 : ({ answer s OK with turn := s.player_color } : d_data).game_on = 1 := hg
    rw [hg1] at this
    exact absurd this (by decide)
  · rw [h8 h]; exact hg

/-! ### The scalar fields under the validator -/

theorem same_scalars_refl (s : d_data) : same_scalars s s := ⟨rfl, rfl, rfl, rfl, rfl⟩

theorem same_scalars_trans {a b c : d_data} (h1 : same_scalars a b) (h2 : same_scalars b c) :
    same_scalars a c :=
  ⟨h2.1.trans h1.1, h2.2.1.trans h1.2.1, h2.2.2.1.trans h1.2.2.1,
    h2.2.2.2.1.trans h1.2.2.2.1, h2.2.2.2.2.trans h1.2.2.2.2⟩

theorem same_scalars_wr_board (s : d_data) (i v : Int) : same_scalars s (wr_board s i v) :=
  ⟨rfl, rfl, rfl, rfl, rfl⟩

theorem same_scalars_wr_square (s : d_data) (i : Int) (c : coord_t) :
    same_scalars s (wr_square s i c) := ⟨rfl, rfl, rfl, rfl, rfl⟩

theorem same_scalars_wr_alive (s : d_data) (i v : Int) : same_scalars s (wr_alive s i v) :=
  ⟨rfl, rfl, rfl, rfl, rfl⟩

theorem same_scalars_wr_type (s : d_data) (i v : Int) : same_scalars s (wr_type s i v) :=
  ⟨rfl, rfl, rfl, rfl, rfl⟩

theorem same_scalars_ite (s a b : d_data) (c : Prop) [Decidable c] (ha : same_scalars s a)
    (hb : same_scalars s b) : same_scalars s (if c then a else b) := by
  split
  · exact ha
  · exact hb

theorem same_scalars_undo (t : tentative) (j : Int) : same_scalars t.state (undo t j) := by
  unfold undo
  simp only
  apply same_scalars_ite
  · apply same_scalars_trans _ (same_scalars_wr_type _ _ _)
    apply same_scalars_ite
    · exact same_scalars_trans (same_scalars_trans (same_scalars_trans (same_scalars_wr_square _ _ _)
        (same_scalars_wr_board _ _ _)) (same_scalars_wr_board _ _ _)) (same_scalars_wr_alive _ _ _)
    · exact same_scalars_trans (same_scalars_trans (same_scalars_wr_square _ _ _)
        (same_scalars_wr_board _ _ _)) (same_scalars_wr_board _ _ _)
  · apply same_scalars_ite
    · exact same_scalars_trans (same_scalars_trans (same_scalars_trans (same_scalars_wr_square _ _ _)
        (same_scalars_wr_board _ _ _)) (same_scalars_wr_board _ _ _)) (same_scalars_wr_alive _ _ _)
    · exact same_scalars_trans (same_scalars_trans (same_scalars_wr_square _ _ _)
        (same_scalars_wr_board _ _ _)) (same_scalars_wr_board _ _ _)

theorem attempt_scalars_ite (s : d_data) (a b : attempt) (c : Prop) [Decidable c]
    (ha : attempt_scalars s a) (hb : attempt_scalars s b) :
    attempt_scalars s (if c then a else b) := by
  split
  · exact ha
  · exact hb

theorem same_scalars_mv_apply (s : d_data) (piece_idx : Int) (prev_c : coord_t)
    (take_piece promote : Int) (opt_piece_capt opt_piece_prom : piece_t) (m : coord_t) :
    attempt_scalars s
      (mv_apply s piece_idx prev_c take_piece promote opt_piece_capt opt_piece_prom m) := by
  unfold mv_apply
  simp only
  have h1 := same_scalars_wr_square s piece_idx m
  have h2 : same_scalars s
      (if takes_computer (wr_square s piece_idx m)
          (rd_board (wr_square s piece_idx m) (coord_to_sq m)) = true then
        wr_alive (wr_square s piece_idx m) (rd_board (wr_square s piece_idx m) (coord_to_sq m)) 0
      else wr_square s piece_idx m) :=
    same_scalars_ite _ _ _ _ (same_scalars_trans h1 (same_scalars_wr_alive _ _ _)) h1
  apply attempt_scalars_ite
  · exact h1
  · apply attempt_scalars_ite
    · exact h2
    · show same_scalars s _
      apply same_scalars_trans _ (same_scalars_wr_board _ _ _)
      apply same_scalars_trans _ (same_scalars_wr_board _ _ _)
      apply same_scalars_ite
      · exact same_scalars_trans h2 (same_scalars_wr_type _ _ _)
      · exact h2

theorem same_scalars_move_valid_loop (piece_idx : Int) (prev_c dest : coord_t)
    (take_piece promote : Int) (opt_piece_capt opt_piece_prom : piece_t) (ms : List coord_t) :
    ∀ s : d_data, same_scalars s
      (move_valid_loop s piece_idx prev_c dest take_piece promote opt_piece_capt
        opt_piece_prom ms).1 := by
  induction ms with
  | nil => intro s; exact same_scalars_refl s
  | cons m ms ih =>
    intro s
    simp only [move_valid_loop]
    have hm := same_scalars_mv_apply s piece_idx prev_c take_piece promote opt_piece_capt
      opt_piece_prom m
    split
    · split
      · rename_i s1 heq
        rw [heq] at hm
        exact hm
      · rename_i t heq
        rw [heq] at hm
        simp only [attempt_scalars] at hm
        split
        · exact hm
        · exact same_scalars_trans (same_scalars_trans hm (same_scalars_undo t piece_idx)) (ih _)
    · exact ih s

theorem same_scalars_move_valid (s : d_data) (piece : piece_t) (dest : coord_t)
    (take_piece promote : Int) (opt_piece_capt opt_piece_prom : piece_t) :
    same_scalars s (move_valid s piece dest take_piece promote opt_piece_capt opt_piece_prom).1 := by
  unfold move_valid
  simp only
  split
  · exact same_scalars_refl s
  · split
    · exact same_scalars_refl s
    · exact same_scalars_move_valid_loop _ _ _ _ _ _ _ _ s

theorem player_move_accepted (s : d_data) (a : move_args) (hg : s.game_on = 1)
    (ht : s.turn = s.player_color)
    (hv : (move_valid s a.piece a.dest a.take_piece a.promote a.piece_opt1 a.piece_opt2).2 = 1) :
    player_move s a =
      evaluate
        (relabel (move_valid s a.piece a.dest a.take_piece a.promote a.piece_opt1 a.piece_opt2).1
          { (move_valid s a.piece a.dest a.take_piece a.promote a.piece_opt1 a.piece_opt2).1 with
            turn := s.computer_color })
        s.computer_color := by
  have hs := same_scalars_move_valid s a.piece a.dest a.take_piece a.promote a.piece_opt1
    a.piece_opt2
  unfold player_move
  have h0 : ¬ s.game_on = 0 := by rw [hg]; decide
  have h1 : ¬ (move_valid s a.piece a.dest a.take_piece a.promote a.piece_opt1 a.piece_opt2).2 = 0 := by
    rw [hv]; decide
  rw [if_neg h0, if_neg (not_not.2 ht)]
  simp only
  rw [if_neg h1, hs.2.2.2.1]
  rfl

/-! ### What a new game as White leaves, and the failing games -/

theorem new_game_white_eq (s : d_data) : d_write s "00 W\n".data = start_white := by
  obtain ⟨h1, h2, h3, h4, h5, h6, h7, _, _⟩ := new_game_state s 'W' 'B' _
    (rfl : d_write s "00 W\n".data = _)
  exact d_data_ext _ _ h2 (funext h7) (funext h6) h3 h4 h5 h1

theorem run_cons (s : d_data) (msg : List Char) (msgs : List (List Char)) :
    run s (msg :: msgs) = run (d_write s msg) msgs := rfl

theorem run_append_one (msgs : List (List Char)) (msg : List Char) :
    ∀ s : d_data, run s (msgs ++ [msg]) = d_write (run s msgs) msg := by
  induction msgs with
  | nil => intro s; rfl
  | cons m ms ih => intro s; exact ih (d_write s m)

theorem rejected_capture_facts :
    (run start_white capture_offer).game_on = 1 ∧
    (run start_white capture_offer).turn = (run start_white capture_offer).player_color ∧
    ((run start_white capture_offer).figures 1).square = ⟨1, 3⟩ ∧
    (d_write (run start_white capture_offer) undeclared_capture).reply = ILLMOVE ∧
    (d_write (run start_white capture_offer) undeclared_capture).board 25 = 1 ∧
    ((d_write (run start_white capture_offer) undeclared_capture).figures 1).alive = 1 ∧
    ((d_write (run start_white capture_offer) undeclared_capture).figures 1).square = ⟨0, 4⟩ := by
  decide

/-- C1 (the code breaks it): after `00 W`, `02 WPb2-b4`, `03` and the rejected
`02 WPb4-a5`, grid slot 25 (b4) holds index 1 while the stored square of
record 1 is a5, so grid/piece agreement does not hold in a state reached by
commands from a new game. -/
theorem agreement_lost_after_rejected_capture :
    (run init_state ("00 W\n".data :: (capture_offer ++ [undeclared_capture]))).reply = ILLMOVE ∧
    (run init_state ("00 W\n".data :: (capture_offer ++ [undeclared_capture]))).board 25 = 1 ∧
    ((run init_state ("00 W\n".data :: (capture_offer ++ [undeclared_capture]))).figures 1).square
      = ⟨0, 4⟩ ∧
    ¬ grid_agrees (run init_state ("00 W\n".data :: (capture_offer ++ [undeclared_capture]))) := by
  rw [run_cons, new_game_white_eq, run_append_one]
  obtain ⟨_, _, _, h1, h2, h3, h4⟩ := rejected_capture_facts
  refine ⟨h1, h2, h4, fun hg => ?_⟩
  have h := ((hg.1 25 1).1 h2).2
  rw [h4] at h
  revert h
  decide

/-- C2 (the code breaks it): in the game in progress after `00 W`,
`02 WPb2-b4`, `03`, with the player to move, the command `02 WPb4-a5` is
answered ILLMOVE and yet the stored square of record 1 changes from b4 to
a5. -/
theorem rejected_capture_moves_the_pawn :
    (run init_state ("00 W\n".data :: capture_offer)).game_on = 1 ∧
    (run init_state ("00 W\n".data :: capture_offer)).turn =
      (run init_state ("00 W\n".data :: capture_offer)).player_color ∧
    (d_write (run init_state ("00 W\n".data :: capture_offer)) undeclared_capture).reply =
      ILLMOVE ∧
    ((run init_state ("00 W\n".data :: capture_offer)).figures 1).square = ⟨1, 3⟩ ∧
    ((d_write (run init_state ("00 W\n".data :: capture_offer)) undeclared_capture).figures
      1).square = ⟨0, 4⟩ := by
  rw [run_cons, new_game_white_eq]
  obtain ⟨h1, h2, h3, h4, _, _, h7⟩ := rejected_capture_facts
  exact ⟨h1, h2, h4, h3, h7⟩

theorem accepted_move_outcome (s : d_data) (a : move_args) (hg : s.game_on = 1)
    (ht : s.turn = s.player_color)
    (hv : (move_valid s a.piece a.dest a.take_piece a.promote a.piece_opt1 a.piece_opt2).2 = 1) :
    (player_move s a).turn = s.computer_color ∧
    ((player_move s a).reply = OK ↔
      in_check (move_valid s a.piece a.dest a.take_piece a.promote a.piece_opt1 a.piece_opt2).1
        s.computer_color = 0) ∧
    ((player_move s a).reply = CHECK ↔
      in_check (move_valid s a.piece a.dest a.take_piece a.promote a.piece_opt1 a.piece_opt2).1
        s.computer_color ≠ 0 ∧
      (make_move (move_valid s a.piece a.dest a.take_piece a.promote a.piece_opt1 a.piece_opt2).1
        s.computer_color 1).2 = 0) ∧
    ((player_move s a).reply = MATE ↔
      in_check (move_valid s a.piece a.dest a.take_piece a.promote a.piece_opt1 a.piece_opt2).1
        s.computer_color ≠ 0 ∧
      (make_move (move_valid s a.piece a.dest a.take_piece a.promote a.piece_opt1 a.piece_opt2).1
        s.computer_color 1).2 ≠ 0) ∧
    ((player_move s a).reply = MATE → (player_move s a).game_on = 0) ∧
    ((player_move s a).reply ≠ MATE → (player_move s a).game_on = 1) ∧
    (well_formed (move_valid s a.piece a.dest a.take_piece a.promote a.piece_opt1 a.piece_opt2).1 →
      grid_agrees (move_valid s a.piece a.dest a.take_piece a.promote a.piece_opt1 a.piece_opt2).1 →
      same_position (move_valid s a.piece a.dest a.take_piece a.promote a.piece_opt1 a.piece_opt2).1
        (player_move s a)) := by
  have hs := same_scalars_move_valid s a.piece a.dest a.take_piece a.promote a.piece_opt1
    a.piece_opt2
  rw [player_move_accepted s a hg ht hv]
  obtain ⟨h1, _, _, h4, h5, h6, h7, h8, h9, h10⟩ :=
    evaluate_spec (move_valid s a.piece a.dest a.take_piece a.promote a.piece_opt1 a.piece_opt2).1
      { (move_valid s a.piece a.dest a.take_piece a.promote a.piece_opt1 a.piece_opt2).1 with
        turn := s.computer_color } s.computer_color
  refine ⟨h1, h4, h5, h6, h7, fun h => ?_, fun hw hga => ?_⟩
  · rw [h8 h]
    exact hs.1.trans hg
  · by_cases hc : in_check
        (move_valid s a.piece a.dest a.take_piece a.promote a.piece_opt1 a.piece_opt2).1
        s.computer_color = 0
    · exact h9 hc
    · have hp : (make_move
          (move_valid s a.piece a.dest a.take_piece a.promote a.piece_opt1 a.piece_opt2).1
          s.computer_color 1).1 =
          (move_valid s a.piece a.dest a.take_piece a.promote a.piece_opt1 a.piece_opt2).1 :=
        (make_move_loop_testing _ s.computer_color hw hga sixteen (fun _ h => h)).1
      have h := h10 hc
      rw [hp] at h
      exact h

/-! ### The revival game, part by part -/

theorem state_table_inj (a b : d_data) (h : state_table a = state_table b) : a = b := by
  unfold state_table at h
  simp only [Prod.mk.injEq, List.cons.injEq] at h
  obtain ⟨⟨h1, h2⟩, h3, h4, h5, h6, h7⟩ := h
  exact d_data_ext a b h1 (List.ofFn_injective h2) (List.ofFn_injective h3) h4 h5 h6 h7

theorem run_append (a b : List (List Char)) :
    ∀ s : d_data, run s (a ++ b) = run (run s a) b := by
  induction a with
  | nil => intro s; rfl
  | cons m ms ih => intro s; exact ih (d_write s m)

set_option maxRecDepth 100000 in
theorem revival_step_1 : run start_white revival_part_1 = revival_state_1 :=
  state_table_inj _ _ (by decide!)

set_option maxRecDepth 100000 in
theorem revival_step_2 : run revival_state_1 revival_part_2 = revival_state_2 :=
  state_table_inj _ _ (by decide!)

set_option maxRecDepth 100000 in
theorem revival_step_3 : run revival_state_2 revival_part_3 = revival_state_3 :=
  state_table_inj _ _ (by decide!)

set_option maxRecDepth 100000 in
theorem revival_step_4 : run revival_state_3 revival_part_4 = revival_state_4 :=
  state_table_inj _ _ (by decide!)

set_option maxRecDepth 100000 in
theorem revival_step_5 : run revival_state_4 revival_part_5 = revival_state_5 :=
  state_table_inj _ _ (by decide!)

set_option maxRecDepth 100000 in
theorem revival_step_6 : run revival_state_5 revival_part_6 = revival_state_6 :=
  state_table_inj _ _ (by decide!)

set_option maxRecDepth 100000 in
theorem revival_step_7 : run revival_state_6 revival_part_7 = revival_state_7 :=
  state_table_inj _ _ (by decide!)

set_option maxRecDepth 100000 in
theorem revival_step_8 : run revival_state_7 revival_part_8 = revival_state_8 :=
  state_table_inj _ _ (by decide!)

set_option maxRecDepth 100000 in
theorem revival_step_9 : run revival_state_8 revival_part_9 = revival_state_9 :=
  state_table_inj _ _ (by decide!)

set_option maxRecDepth 100000 in
theorem revival_step_10 : run revival_state_9 revival_part_10 = revival_state_10 :=
  state_table_inj _ _ (by decide!)

set_option maxRecDepth 100000 in
theorem revival_step_11 : run revival_state_10 revival_part_11 = revival_state_11 :=
  state_table_inj _ _ (by decide!)

theorem phantom_pawn_state : run start_white phantom_pawn_game = revival_state_4 := by
  have h : phantom_pawn_game =
      revival_part_1 ++ revival_part_2 ++ revival_part_3 ++ revival_part_4 := rfl
  rw [h]
  simp only [run_append, revival_step_1, revival_step_2, revival_step_3, revival_step_4]

theorem revival_game_state : run start_white revival_game = revival_state_11 := by
  unfold revival_game
  simp only [run_append, revival_step_1, revival_step_2, revival_step_3, revival_step_4,
    revival_step_5, revival_step_6, revival_step_7, revival_step_8,
    revival_step_9, revival_step_10, revival_step_11]

set_option maxRecDepth 1000000 in
theorem phantom_facts :
    (run start_white phantom_pawn_game).game_on = 1 ∧
    (run start_white phantom_pawn_game).turn = (run start_white phantom_pawn_game).player_color ∧
    tokenize phantom_capture = some ("02".data, some "WPe7-f8xBByWQ".data) ∧
    (decode_move (run start_white phantom_pawn_game) (some "WPe7-f8xBByWQ".data)).toOption =
      some phantom_args ∧
    (move_valid (run start_white phantom_pawn_game) phantom_args.piece phantom_args.dest
      phantom_args.take_piece phantom_args.promote phantom_args.piece_opt1
      phantom_args.piece_opt2).2 = 1 ∧
    (move_valid (run start_white phantom_pawn_game) phantom_args.piece phantom_args.dest
      phantom_args.take_piece phantom_args.promote phantom_args.piece_opt1
      phantom_args.piece_opt2).1.board 52 = -1 ∧
    (d_write (run start_white phantom_pawn_game) phantom_capture).reply = CHECK ∧
    (d_write (run start_white phantom_pawn_game) phantom_capture).board 52 = 20 ∧
    (run start_white phantom_pawn_game).board 52 = 5 ∧
    (d_write (run start_white phantom_pawn_game) phantom_capture).board 61 = 5 ∧
    ((d_write (run start_white phantom_pawn_game) phantom_capture).figures 5).square = ⟨5, 7⟩ := by
  rw [phantom_pawn_state]
  decide!

/-- C6 (the code breaks its last clause): in the game reached by `00 W` and
`phantom_pawn_game` the player is to move, the command `02 WPe7-f8xBByWQ` is
decoded, the validator accepts it and leaves grid slot 52 (e7) empty; the
reply is CHECK, and after the check evaluation slot 52 holds index 20: the
test search of the evaluation has changed the board. -/
theorem evaluation_rewrites_grid :
    (run init_state ("00 W\n".data :: phantom_pawn_game)).game_on = 1 ∧
    (run init_state ("00 W\n".data :: phantom_pawn_game)).turn =
      (run init_state ("00 W\n".data :: phantom_pawn_game)).player_color ∧
    tokenize phantom_capture = some ("02".data, some "WPe7-f8xBByWQ".data) ∧
    (decode_move (run init_state ("00 W\n".data :: phantom_pawn_game))
      (some "WPe7-f8xBByWQ".data)).toOption = some phantom_args ∧
    (move_valid (run init_state ("00 W\n".data :: phantom_pawn_game)) phantom_args.piece
      phantom_args.dest phantom_args.take_piece phantom_args.promote phantom_args.piece_opt1
      phantom_args.piece_opt2).2 = 1 ∧
    (move_valid (run init_state ("00 W\n".data :: phantom_pawn_game)) phantom_args.piece
      phantom_args.dest phantom_args.take_piece phantom_args.promote phantom_args.piece_opt1
      phantom_args.piece_opt2).1.board 52 = -1 ∧
    (d_write (run init_state ("00 W\n".data :: phantom_pawn_game)) phantom_capture).reply =
      CHECK ∧
    (d_write (run init_state ("00 W\n".data :: phantom_pawn_game)) phantom_capture).board 52 =
      20 := by
  rw [run_cons, new_game_white_eq]
  obtain ⟨h1, h2, h3, h4, h5, h6, h7, h8, _⟩ := phantom_facts
  exact ⟨h1, h2, h3, h4, h5, h6, h7, h8⟩

/-! ### The commands without an argument -/

theorem write_view (s : d_data) : d_write s "01\n".data = display_board s := rfl

theorem write_computer (s : d_data) : d_write s "03\n".data = computer_move s := rfl

theorem write_resign (s : d_data) : d_write s "04\n".data = resign s := rfl

/-! ### The board snapshot -/

theorem cell_length (s : d_data) (sl : Int) : (cell s sl).length = 2 := by
  unfold cell
  by_cases h : rd_board s sl = -1
  · simp [h]
  · simp [h]

theorem cells_getElem (s : d_data) : ∀ (l : List Int) (k : Nat) (tail : List Char),
    k < l.length →
    (cells s l ++ tail)[2 * k]? = (cell s (l.getD k 0))[0]? ∧
    (cells s l ++ tail)[2 * k + 1]? = (cell s (l.getD k 0))[1]? := by
  intro l
  induction l with
  | nil => intro k tail h; simp at h
  | cons a l ih =>
    intro k tail hk
    have hl := cell_length s a
    cases k with
    | zero =>
      simp only [cells, List.append_assoc, List.getD_cons_zero]
      constructor
      · rw [List.getElem?_append_left (by omega)]
      · rw [List.getElem?_append_left (by omega)]
    | succ k =>
      have hk2 : k < l.length := by simpa using hk
      obtain ⟨h1, h2⟩ := ih k tail hk2
      simp only [cells, List.append_assoc, List.getD_cons_succ]
      constructor
      · rw [List.getElem?_append_right (by omega), hl]
        have : 2 * (k + 1) - 2 = 2 * k := by omega
        rw [this]; exact h1
      · rw [List.getElem?_append_right (by omega), hl]
        have : 2 * (k + 1) + 1 - 2 = 2 * k + 1 := by omega
        rw [this]; exact h2

theorem slots_getD (k : Nat) (h : k < 64) : slots.getD k 0 = (k : Int) := by
  unfold slots
  rw [List.getD_eq_getElem?_getD, List.getElem?_map, List.getElem?_range h]
  rfl

theorem slots_length : slots.length = 64 := by simp [slots]

theorem display_board_cell (s : d_data) (k : Nat) (h : k < 64) :
    (display_board s).reply[2 * k]? = (cell s k)[0]? ∧
    (display_board s).reply[2 * k + 1]? = (cell s k)[1]? := by
  have := cells_getElem s slots k ['\n'] (by rw [slots_length]; exact h)
  rw [slots_getD k h] at this
  exact this

theorem display_board_last (s : d_data) : (display_board s).reply[128]? = some '\n' := by
  have h : (cells s slots).length = 128 := by rw [cells_length, slots_length]
  show (cells s slots ++ ['\n'])[128]? = some '\n'
  rw [List.getElem?_append_right (by omega), h]
  rfl

/-- C19: the reply of `01` has 129 characters, the last one a newline; for
every grid slot `sl` the characters `2 * sl` and `2 * sl + 1` are `**` when
the slot holds -1, and when it holds an index in `0..31` they are a colour
letter W or B, which is the colour of that record when this is W or B, and
the kind letter P, R, N, B, Q, K of that record. -/
theorem snapshot_format (s : d_data) :
    (d_write s "01\n".data).reply.length = 129 ∧
    (d_write s "01\n".data).reply[128]? = some '\n' ∧
    ∀ sl : Fin 64,
      (s.board sl = -1 →
        (d_write s "01\n".data).reply[2 * sl.val]? = some '*' ∧
        (d_write s "01\n".data).reply[2 * sl.val + 1]? = some '*') ∧
      (0 ≤ s.board sl ∧ s.board sl < 32 →
        ((d_write s "01\n".data).reply[2 * sl.val]? = some 'W' ∨
          (d_write s "01\n".data).reply[2 * sl.val]? = some 'B') ∧
        ((rd_figure s (s.board sl)).color = 'W' ∨ (rd_figure s (s.board sl)).color = 'B' →
          (d_write s "01\n".data).reply[2 * sl.val]? = some (rd_figure s (s.board sl)).color) ∧
        ((rd_figure s (s.board sl)).type = PAWN →
          (d_write s "01\n".data).reply[2 * sl.val + 1]? = some 'P') ∧
        ((rd_figure s (s.board sl)).type = ROOK →
          (d_write s "01\n".data).reply[2 * sl.val + 1]? = some 'R') ∧
        ((rd_figure s (s.board sl)).type = KNIGHT →
          (d_write s "01\n".data).reply[2 * sl.val + 1]? = some 'N') ∧
        ((rd_figure s (s.board sl)).type = BISHOP →
          (d_write s "01\n".data).reply[2 * sl.val + 1]? = some 'B') ∧
        ((rd_figure s (s.board sl)).type = QUEEN →
          (d_write s "01\n".data).reply[2 * sl.val + 1]? = some 'Q') ∧
        ((rd_figure s (s.board sl)).type = KING →
          (d_write s "01\n".data).reply[2 * sl.val + 1]? = some 'K')) := by
  rw [write_view]
  refine ⟨display_board_length s, display_board_last s, fun sl => ?_⟩
  obtain ⟨h0, h1⟩ := display_board_cell s sl.val sl.isLt
  have hb : rd_board s (sl.val : Int) = s.board sl := rd_board_fin s sl
  rw [h0, h1]
  unfold cell
  rw [hb]
  constructor
  · intro he
    simp [he]
  · intro hin
    have hne : s.board sl ≠ -1 := by omega
    simp only [if_neg hne]
    refine ⟨?_, ?_, ?_, ?_, ?_, ?_, ?_, ?_⟩
    · by_cases hc : (rd_figure s (s.board sl)).color = 'W'
      · simp [hc]
      · simp [hc]
    · rintro (hc | hc)
      · simp [hc]
      · simp [hc]
    all_goals
      intro ht
      simp [ht, PAWN, ROOK, KNIGHT, BISHOP, QUEEN, KING]

/-- C20: the command `01` changes no field but the reply, and a second `01`
right after it gives the same reply. -/
theorem view_board_is_pure (s : d_data) :
    same_game s (d_write s "01\n".data) ∧
    (d_write (d_write s "01\n".data) "01\n".data).reply = (d_write s "01\n".data).reply := by
  rw [write_view, write_view]
  exact ⟨⟨rfl, rfl, rfl, rfl, rfl, rfl⟩, rfl⟩

/-! ### Resignation -/

/-- C15: in a game in progress with the player to move, `04` is answered OK
and clears `game_on`; the grid, the 32 records, the turn and both colours
stay as they were. -/
theorem resign_ends_game (s : d_data) (hg : s.game_on = 1) (ht : s.turn = s.player_color) :
    (d_write s "04\n".data).reply = OK ∧ (d_write s "04\n".data).game_on = 0 ∧
    (d_write s "04\n".data).board = s.board ∧ (d_write s "04\n".data).figures = s.figures ∧
    (d_write s "04\n".data).turn = s.turn ∧
    (d_write s "04\n".data).player_color = s.player_color ∧
    (d_write s "04\n".data).computer_color = s.computer_color := by
  rw [write_resign]
  unfold resign
  rw [if_neg (by simp [hg]), if_neg (by simp [ht])]
  exact ⟨rfl, rfl, rfl, rfl, rfl, rfl, rfl⟩

/-! ### No game, and out of turn -/

theorem write_move (s : d_data) (msg : List Char) (arg : Option (List Char)) (a : move_args)
    (hm : tokenize msg = some ("02".data, arg)) (hd : decode_move s arg = .ok a) :
    d_write s msg = player_move s a := by
  unfold d_write
  rw [hm]
  show dispatch s ['0', '2'] arg = _
  unfold dispatch
  rw [if_neg (by decide), if_neg (by decide), if_pos rfl, hd]

theorem write_move_error (s : d_data) (msg : List Char) (arg : Option (List Char))
    (r : List Char) (hm : tokenize msg = some ("02".data, arg))
    (hd : decode_move s arg = .error r) : d_write s msg = answer s r := by
  unfold d_write
  rw [hm]
  show dispatch s ['0', '2'] arg = _
  unfold dispatch
  rw [if_neg (by decide), if_neg (by decide), if_pos rfl, hd]

/-- Two grammatical moves without a game in progress: before any new game
`game_on` is 0 and `02 WPe2-e4` is answered INVFMT; after `00 W` and the
resignation `04` the move `02 WNb1-c3yWQ` is answered ILLMOVE by the
promotion checks of the decoder; neither is answered NOGAME. -/
theorem move_before_any_game_is_format_error :
    init_state.game_on = 0 ∧ grammar_move_spec "WPe2-e4".data = true ∧
    (d_write init_state "02 WPe2-e4\n".data).reply = INVFMT ∧
    (d_write start_white "04\n".data).game_on = 0 ∧
    grammar_move_spec "WNb1-c3yWQ".data = true ∧
    (d_write (d_write start_white "04\n".data) "02 WNb1-c3yWQ\n".data).reply = ILLMOVE := by
  decide

/-- The order of the tests of `d_write` without a game in progress: when
`game_on` is 0, `03` and `04` are answered NOGAME, and so is every `02`
command whose argument `d_write` decodes into a move request. -/
theorem no_game_replies (s : d_data) (hg : s.game_on = 0) :
    (d_write s "03\n".data).reply = NOGAME ∧ (d_write s "04\n".data).reply = NOGAME ∧
    ∀ (msg : List Char) (arg : Option (List Char)) (a : move_args),
      tokenize msg = some ("02".data, arg) → decode_move s arg = .ok a →
      (d_write s msg).reply = NOGAME := by
  refine ⟨?_, ?_, fun msg arg a hm hd => ?_⟩
  · rw [write_computer]; unfold computer_move
    rw [if_pos (by rw [hg]; decide)]; rfl
  · rw [write_resign]; unfold resign
    rw [if_pos (by rw [hg]; decide)]; rfl
  · rw [write_move s msg arg a hm hd]; unfold player_move
    rw [if_pos hg]; rfl

/-- C14 (counterexample): after `00 W` and `02 WPe2-e4` the game is in
progress and the turn is not the player's; the grammatical `02 WNb1-c3yWQ` is
answered ILLMOVE and the grammatical `02 BPe7-e5` INVFMT, neither OOT. -/
theorem move_out_of_turn_is_illegal :
    (d_write start_white "02 WPe2-e4\n".data).game_on = 1 ∧
    (d_write start_white "02 WPe2-e4\n".data).turn ≠
      (d_write start_white "02 WPe2-e4\n".data).player_color ∧
    grammar_move_spec "WNb1-c3yWQ".data = true ∧
    (d_write (d_write start_white "02 WPe2-e4\n".data) "02 WNb1-c3yWQ\n".data).reply = ILLMOVE ∧
    grammar_move_spec "BPe7-e5".data = true ∧
    (d_write (d_write start_white "02 WPe2-e4\n".data) "02 BPe7-e5\n".data).reply = INVFMT := by
  decide

/-- C14 (amended): in a game in progress, when the turn is not the player's
`04` is answered OOT and so is every `02` command whose argument `d_write`
decodes into a move request; when the turn is not the computer's `03` is
answered OOT. -/
theorem out_of_turn_replies (s : d_data) (hg : s.game_on = 1) :
    (s.turn ≠ s.player_color →
      (d_write s "04\n".data).reply = OOT ∧
      ∀ (msg : List Char) (arg : Option (List Char)) (a : move_args),
        tokenize msg = some ("02".data, arg) → decode_move s arg = .ok a →
        (d_write s msg).reply = OOT) ∧
    (s.turn ≠ s.computer_color → (d_write s "03\n".data).reply = OOT) := by
  have h1 : ¬ s.game_on ≠ 1 := by simp [hg]
  have h0 : ¬ s.game_on = 0 := by rw [hg]; decide
  refine ⟨fun ht => ⟨?_, fun msg arg a hm hd => ?_⟩, fun ht => ?_⟩
  · rw [write_resign]; unfold resign
    rw [if_neg h1, if_pos ht]; rfl
  · rw [write_move s msg arg a hm hd]; unfold player_move
    rw [if_neg h0, if_pos ht]; rfl
  · rw [write_computer]; unfold computer_move
    rw [if_neg h1, if_pos ht]; rfl

/-! ### Reads after writes -/

theorem rd_board_wr_board (s : d_data) (i v k : Int) :
    rd_board (wr_board s i v) k =
      if k = i ∧ 0 ≤ k ∧ k < 64 then v else rd_board s k := by
  unfold rd_board wr_board
  by_cases hr : 0 ≤ k ∧ k < 64
  · have hk : ((k.toNat : Nat) : Int) = k := Int.toNat_of_nonneg hr.1
    simp only [dif_pos hr, hk]
    by_cases hi : k = i
    · subst hi
      simp [hr]
    · simp [hi]
  · have : ¬ (k = i ∧ 0 ≤ k ∧ k < 64) := fun h => hr h.2
    simp only [dif_neg hr, if_neg this]

theorem rd_figure_wr_board (s : d_data) (i v k : Int) :
    rd_figure (wr_board s i v) k = rd_figure s k := rfl

theorem rd_figure_wr_square (s : d_data) (i : Int) (c : coord_t) (k : Int) :
    rd_figure (wr_square s i c) k =
      if k = i ∧ 0 ≤ k ∧ k < 32 then { rd_figure s k with square := c } else rd_figure s k := by
  unfold rd_figure wr_square
  by_cases hr : 0 ≤ k ∧ k < 32
  · have hk : ((k.toNat : Nat) : Int) = k := Int.toNat_of_nonneg hr.1
    simp only [dif_pos hr, hk]
    by_cases hi : k = i
    · subst hi
      simp [hr]
    · simp [hi]
  · have : ¬ (k = i ∧ 0 ≤ k ∧ k < 32) := fun h => hr h.2
    simp only [dif_neg hr, if_neg this]

theorem rd_figure_wr_alive (s : d_data) (i a k : Int) :
    rd_figure (wr_alive s i a) k =
      if k = i ∧ 0 ≤ k ∧ k < 32 then { rd_figure s k with alive := a } else rd_figure s k := by
  unfold rd_figure wr_alive
  by_cases hr : 0 ≤ k ∧ k < 32
  · have hk : ((k.toNat : Nat) : Int) = k := Int.toNat_of_nonneg hr.1
    simp only [dif_pos hr, hk]
    by_cases hi : k = i
    · subst hi
      simp [hr]
    · simp [hi]
  · have : ¬ (k = i ∧ 0 ≤ k ∧ k < 32) := fun h => hr h.2
    simp only [dif_neg hr, if_neg this]

theorem rd_figure_wr_type (s : d_data) (i t k : Int) :
    rd_figure (wr_type s i t) k =
      if k = i ∧ 0 ≤ k ∧ k < 32 then { rd_figure s k with type := t } else rd_figure s k := by
  unfold rd_figure wr_type
  by_cases hr : 0 ≤ k ∧ k < 32
  · have hk : ((k.toNat : Nat) : Int) = k := Int.toNat_of_nonneg hr.1
    simp only [dif_pos hr, hk]
    by_cases hi : k = i
    · subst hi
      simp [hr]
    · simp [hi]
  · have : ¬ (k = i ∧ 0 ≤ k ∧ k < 32) := fun h => hr h.2
    simp only [dif_neg hr, if_neg this]

theorem rd_figure_wr_square_color (s : d_data) (i : Int) (c : coord_t) (k : Int) :
    (rd_figure (wr_square s i c) k).color = (rd_figure s k).color := by
  rw [rd_figure_wr_square]; split <;> rfl

theorem rd_figure_wr_square_alive (s : d_data) (i : Int) (c : coord_t) (k : Int) :
    (rd_figure (wr_square s i c) k).alive = (rd_figure s k).alive := by
  rw [rd_figure_wr_square]; split <;> rfl

theorem rd_figure_wr_alive_color (s : d_data) (i a k : Int) :
    (rd_figure (wr_alive s i a) k).color = (rd_figure s k).color := by
  rw [rd_figure_wr_alive]; split <;> rfl

theorem rd_figure_wr_alive_square (s : d_data) (i a k : Int) :
    (rd_figure (wr_alive s i a) k).square = (rd_figure s k).square := by
  rw [rd_figure_wr_alive]; split <;> rfl

theorem rd_figure_wr_type_color (s : d_data) (i t k : Int) :
    (rd_figure (wr_type s i t) k).color = (rd_figure s k).color := by
  rw [rd_figure_wr_type]; split <;> rfl

theorem rd_figure_wr_type_square (s : d_data) (i t k : Int) :
    (rd_figure (wr_type s i t) k).square = (rd_figure s k).square := by
  rw [rd_figure_wr_type]; split <;> rfl

theorem rd_figure_wr_type_alive (s : d_data) (i t k : Int) :
    (rd_figure (wr_type s i t) k).alive = (rd_figure s k).alive := by
  rw [rd_figure_wr_type]; split <;> rfl

/-! ### A capture that is undeclared or declared with another kind -/

theorem coord_eta (m dest : coord_t) (h : m.x = dest.x ∧ m.y = dest.y) : m = dest := by
  cases m; cases dest; simp_all

theorem mv_apply_capture_rejected (s : d_data) (idx : Int) (prev_c dest : coord_t)
    (take_piece promote : Int) (oc op : piece_t)
    (hv : rd_board s (coord_to_sq dest) ≠ -1)
    (hc : (rd_figure s (rd_board s (coord_to_sq dest))).color = s.computer_color)
    (hk : take_piece = 0 ∨ oc.type ≠ (rd_figure s (rd_board s (coord_to_sq dest))).type) :
    mv_apply s idx prev_c take_piece promote oc op dest = .rejected (wr_square s idx dest) := by
  have hcap : takes_computer (wr_square s idx dest)
      (rd_board (wr_square s idx dest) (coord_to_sq dest)) = true := by
    unfold takes_computer
    rw [rd_board_wr_square, rd_figure_wr_square_color]
    exact decide_eq_true ⟨hv, hc⟩
  unfold mv_apply
  simp only [hcap, if_true]
  rw [if_pos]
  refine ⟨trivial, ?_⟩
  rw [rd_board_wr_square, rd_figure_wr_square_type]
  exact hk

theorem move_valid_loop_capture_rejected (s : d_data) (idx : Int) (prev_c dest : coord_t)
    (take_piece promote : Int) (oc op : piece_t)
    (hv : rd_board s (coord_to_sq dest) ≠ -1)
    (hc : (rd_figure s (rd_board s (coord_to_sq dest))).color = s.computer_color)
    (hk : take_piece = 0 ∨ oc.type ≠ (rd_figure s (rd_board s (coord_to_sq dest))).type) :
    ∀ ms : List coord_t,
      move_valid_loop s idx prev_c dest take_piece promote oc op ms = (s, 0) ∨
      move_valid_loop s idx prev_c dest take_piece promote oc op ms =
        (wr_square s idx dest, 0) := by
  intro ms
  induction ms with
  | nil => exact Or.inl rfl
  | cons m ms ih =>
    unfold move_valid_loop
    by_cases hm : m.x = dest.x ∧ m.y = dest.y
    · rw [if_pos hm, coord_eta m dest hm,
        mv_apply_capture_rejected s idx prev_c dest take_piece promote oc op hv hc hk]
      exact Or.inr rfl
    · rw [if_neg hm]
      exact ih

theorem move_valid_capture_rejected (s : d_data) (piece : piece_t) (dest : coord_t)
    (take_piece promote : Int) (oc op : piece_t)
    (hv : rd_board s (coord_to_sq dest) ≠ -1)
    (hc : (rd_figure s (rd_board s (coord_to_sq dest))).color = s.computer_color)
    (hk : take_piece = 0 ∨ oc.type ≠ (rd_figure s (rd_board s (coord_to_sq dest))).type) :
    move_valid s piece dest take_piece promote oc op = (s, 0) ∨
    move_valid s piece dest take_piece promote oc op =
      (wr_square s (rd_board s (coord_to_sq piece.square)) dest, 0) := by
  unfold move_valid
  simp only
  split
  · exact Or.inl rfl
  · split
    · exact Or.inl rfl
    · exact move_valid_loop_capture_rejected s _ _ dest take_piece promote oc op hv hc hk _

theorem player_move_rejected (s : d_data) (a : move_args) (hg : s.game_on = 1)
    (ht : s.turn = s.player_color)
    (hv : (move_valid s a.piece a.dest a.take_piece a.promote a.piece_opt1 a.piece_opt2).2 = 0) :
    player_move s a =
      answer (move_valid s a.piece a.dest a.take_piece a.promote a.piece_opt1 a.piece_opt2).1
        ILLMOVE := by
  unfold player_move
  rw [if_neg (by rw [hg]; decide), if_neg (by simp [ht])]
  simp only
  rw [if_pos hv]

theorem takes_computer_wr_square (s : d_data) (i : Int) (c : coord_t) (v : Int) :
    takes_computer (wr_square s i c) v = takes_computer s v := by
  unfold takes_computer
  rw [rd_figure_wr_square_color]
  rfl

theorem mv_apply_applied_eq (st : d_data) (idx : Int) (prev_c : coord_t)
    (take_piece promote : Int) (oc op : piece_t) (m : coord_t) (t : tentative)
    (h : mv_apply st idx prev_c take_piece promote oc op m = .applied t) :
    (takes_computer st (rd_board st (coord_to_sq m)) = true →
      take_piece ≠ 0 ∧ oc.type = (rd_figure st (rd_board st (coord_to_sq m))).type) ∧
    (on_last_rank (if takes_computer st (rd_board st (coord_to_sq m)) = true
        then wr_alive (wr_square st idx m) (rd_board st (coord_to_sq m)) 0
        else wr_square st idx m) idx m = true → promote ≠ 0 ∧ op.type ≠ -1) ∧
    t = ⟨wr_board (wr_board
          (if on_last_rank (if takes_computer st (rd_board st (coord_to_sq m)) = true
              then wr_alive (wr_square st idx m) (rd_board st (coord_to_sq m)) 0
              else wr_square st idx m) idx m = true
            then wr_type (if takes_computer st (rd_board st (coord_to_sq m)) = true
              then wr_alive (wr_square st idx m) (rd_board st (coord_to_sq m)) 0
              else wr_square st idx m) idx op.type
            else (if takes_computer st (rd_board st (coord_to_sq m)) = true
              then wr_alive (wr_square st idx m) (rd_board st (coord_to_sq m)) 0
              else wr_square st idx m))
          (coord_to_sq m) idx) (coord_to_sq prev_c) (-1),
        prev_c, coord_to_sq prev_c, coord_to_sq m, rd_board st (coord_to_sq m),
        if takes_computer st (rd_board st (coord_to_sq m)) = true
          then (rd_figure st (rd_board st (coord_to_sq m))).type else -1,
        if on_last_rank (if takes_computer st (rd_board st (coord_to_sq m)) = true
            then wr_alive (wr_square st idx m) (rd_board st (coord_to_sq m)) 0
            else wr_square st idx m) idx m = true then 1 else 0⟩ := by
  unfold mv_apply at h
  simp only [rd_board_wr_square, takes_computer_wr_square, rd_figure_wr_square_type] at h
  cases hcap : takes_computer st (rd_board st (coord_to_sq m))
  · simp only [hcap, Bool.false_eq_true, false_and, if_false] at h ⊢
    cases hpro : on_last_rank (wr_square st idx m) idx m
    · simp only [hpro, Bool.false_eq_true, false_and, if_false] at h ⊢
      injection h with h
      exact ⟨fun x => absurd x (by decide), fun x => absurd x (by decide), h.symm⟩
    · simp only [hpro, true_and, if_true] at h ⊢
      by_cases hq : promote = 0 ∨ op.type = -1
      · rw [if_pos hq] at h
        cases h
      · rw [if_neg hq] at h
        injection h with h
        exact ⟨fun x => absurd x (by decide), fun _ => not_or.1 hq, h.symm⟩
  · simp only [hcap, true_and, if_true] at h ⊢
    by_cases hk : take_piece = 0 ∨
        oc.type ≠ (rd_figure st (rd_board st (coord_to_sq m))).type
    · rw [if_pos hk] at h
      cases h
    · rw [if_neg hk] at h
      have hk2 : take_piece ≠ 0 ∧
          oc.type = (rd_figure st (rd_board st (coord_to_sq m))).type := by
        rw [not_or, not_not] at hk
        exact hk
      cases hpro : on_last_rank
          (wr_alive (wr_square st idx m) (rd_board st (coord_to_sq m)) 0) idx m
      · simp only [hpro, Bool.false_eq_true, false_and, if_false] at h ⊢
        injection h with h
        exact ⟨fun _ => hk2, fun x => absurd x (by decide), h.symm⟩
      · simp only [hpro, true_and, if_true] at h ⊢
        by_cases hq : promote = 0 ∨ op.type = -1
        · rw [if_pos hq] at h
          cases h
        · rw [if_neg hq] at h
          injection h with h
          exact ⟨fun _ => hk2, fun _ => not_or.1 hq, h.symm⟩

theorem mv_apply_applied_reads (st : d_data) (idx : Int) (prev_c : coord_t)
    (take_piece promote : Int) (oc op : piece_t) (m : coord_t) (t : tentative)
    (hi : 0 ≤ idx ∧ idx < 32)
    (h : mv_apply st idx prev_c take_piece promote oc op m = .applied t) :
    (∀ k, rd_board t.state k =
      if k = coord_to_sq prev_c ∧ 0 ≤ k ∧ k < 64 then -1
      else if k = coord_to_sq m ∧ 0 ≤ k ∧ k < 64 then idx else rd_board st k) ∧
    (∀ k, (rd_figure t.state k).color = (rd_figure st k).color) ∧
    (∀ k, k ≠ idx → (rd_figure t.state k).type = (rd_figure st k).type ∧
      (rd_figure t.state k).square = (rd_figure st k).square) ∧
    (rd_figure t.state idx).square = m ∧
    (t.promoted = 1 → (rd_figure st idx).type = PAWN) ∧
    (t.promoted ≠ 1 → (rd_figure t.state idx).type = (rd_figure st idx).type) ∧
    (takes_computer st (rd_board st (coord_to_sq m)) = true →
      (rd_figure t.state (rd_board st (coord_to_sq m))).alive = 0) ∧
    t.prev_c = prev_c ∧ t.prev_sq = coord_to_sq prev_c ∧ t.new_square = coord_to_sq m ∧
    t.prev_piece_idx = rd_board st (coord_to_sq m) ∧
    t.state.computer_color = st.computer_color ∧ t.state.player_color = st.player_color := by
  obtain ⟨_, _, ht⟩ := mv_apply_applied_eq st idx prev_c take_piece promote oc op m t h
  have hidx : idx = idx ∧ 0 ≤ idx ∧ idx < 32 := ⟨rfl, hi⟩
  have h01 : ¬ ((0 : Int) = 1) := by decide
  cases hcap : takes_computer st (rd_board st (coord_to_sq m))
  · simp only [hcap, Bool.false_eq_true, if_false] at ht
    cases hpro : on_last_rank (wr_square st idx m) idx m
    · simp only [hpro, Bool.false_eq_true, if_false] at ht
      subst ht
      refine ⟨fun k => ?_, fun k => ?_, fun k hk => ⟨?_, ?_⟩, ?_, ?_, ?_, ?_,
        rfl, rfl, rfl, rfl, rfl, rfl⟩
      · rw [rd_board_wr_board, rd_board_wr_board]; rfl
      · exact rd_figure_wr_square_color st idx m k
      · exact rd_figure_wr_square_type st idx m k
      · show (rd_figure (wr_square st idx m) k).square = _
        rw [rd_figure_wr_square, if_neg (fun hh => hk hh.1)]
      · show (rd_figure (wr_square st idx m) idx).square = _
        rw [rd_figure_wr_square, if_pos hidx]
      · intro hh; exact absurd hh h01
      · intro _; exact rd_figure_wr_square_type st idx m idx
      · intro hh; exact absurd hh (by decide)
    · have hpawn : (rd_figure st idx).type = PAWN := by
        have := on_last_rank_true _ _ _ hpro
        rwa [rd_figure_wr_square_type] at this
      simp only [hpro, if_true] at ht
      subst ht
      refine ⟨fun k => ?_, fun k => ?_, fun k hk => ⟨?_, ?_⟩, ?_, ?_, ?_, ?_,
        rfl, rfl, rfl, rfl, rfl, rfl⟩
      · rw [rd_board_wr_board, rd_board_wr_board]; rfl
      · show (rd_figure (wr_type (wr_square st idx m) idx op.type) k).color = _
        rw [rd_figure_wr_type_color, rd_figure_wr_square_color]
      · show (rd_figure (wr_type (wr_square st idx m) idx op.type) k).type = _
        rw [rd_figure_wr_type, if_neg (fun hh => hk hh.1), rd_figure_wr_square_type]
      · show (rd_figure (wr_type (wr_square st idx m) idx op.type) k).square = _
        rw [rd_figure_wr_type_square, rd_figure_wr_square, if_neg (fun hh => hk hh.1)]
      · show (rd_figure (wr_type (wr_square st idx m) idx op.type) idx).square = _
        rw [rd_figure_wr_type_square, rd_figure_wr_square, if_pos hidx]
      · intro _; exact hpawn
      · intro hh; exact absurd rfl hh
      · intro hh; exact absurd hh (by decide)
  · simp only [hcap, if_true] at ht
    cases hpro : on_last_rank
        (wr_alive (wr_square st idx m) (rd_board st (coord_to_sq m)) 0) idx m
    · simp only [hpro, Bool.false_eq_true, if_false] at ht
      subst ht
      refine ⟨fun k => ?_, fun k => ?_, fun k hk => ⟨?_, ?_⟩, ?_, ?_, ?_, ?_,
        rfl, rfl, rfl, rfl, rfl, rfl⟩
      · rw [rd_board_wr_board, rd_board_wr_board]; rfl
      · show (rd_figure (wr_alive (wr_square st idx m) _ 0) k).color = _
        rw [rd_figure_wr_alive_color, rd_figure_wr_square_color]
      · show (rd_figure (wr_alive (wr_square st idx m) _ 0) k).type = _
        rw [rd_figure_wr_alive_type, rd_figure_wr_square_type]
      · show (rd_figure (wr_alive (wr_square st idx m) _ 0) k).square = _
        rw [rd_figure_wr_alive_square, rd_figure_wr_square, if_neg (fun hh => hk hh.1)]
      · show (rd_figure (wr_alive (wr_square st idx m) _ 0) idx).square = _
        rw [rd_figure_wr_alive_square, rd_figure_wr_square, if_pos hidx]
      · intro hh; exact absurd hh h01
      · intro _
        show (rd_figure (wr_alive (wr_square st idx m) _ 0) idx).type = _
        rw [rd_figure_wr_alive_type, rd_figure_wr_square_type]
      · intro _
        show (rd_figure (wr_alive (wr_square st idx m) _ 0) _).alive = 0
        rw [rd_figure_wr_alive]
        split
        · rfl
        · rename_i hn
          unfold rd_figure
          rw [dif_neg (fun hh => hn ⟨rfl, hh⟩)]
          rfl
    · have hpawn : (rd_figure st idx).type = PAWN := by
        have := on_last_rank_true _ _ _ hpro
        rwa [rd_figure_wr_alive_type, rd_figure_wr_square_type] at this
      simp only [hpro, if_true] at ht
      subst ht
      refine ⟨fun k => ?_, fun k => ?_, fun k hk => ⟨?_, ?_⟩, ?_, ?_, ?_, ?_,
        rfl, rfl, rfl, rfl, rfl, rfl⟩
      · rw [rd_board_wr_board, rd_board_wr_board]; rfl
      · show (rd_figure (wr_type (wr_alive (wr_square st idx m) _ 0) idx op.type) k).color = _
        rw [rd_figure_wr_type_color, rd_figure_wr_alive_color, rd_figure_wr_square_color]
      · show (rd_figure (wr_type (wr_alive (wr_square st idx m) _ 0) idx op.type) k).type = _
        rw [rd_figure_wr_type, if_neg (fun hh => hk hh.1), rd_figure_wr_alive_type,
          rd_figure_wr_square_type]
      · show (rd_figure (wr_type (wr_alive (wr_square st idx m) _ 0) idx op.type) k).square = _
        rw [rd_figure_wr_type_square, rd_figure_wr_alive_square, rd_figure_wr_square,
          if_neg (fun hh => hk hh.1)]
      · show (rd_figure (wr_type (wr_alive (wr_square st idx m) _ 0) idx op.type) idx).square
          = _
        rw [rd_figure_wr_type_square, rd_figure_wr_alive_square, rd_figure_wr_square,
          if_pos hidx]
      · intro _; exact hpawn
      · intro hh; exact absurd rfl hh
      · intro _
        show (rd_figure (wr_type (wr_alive (wr_square st idx m) _ 0) idx op.type) _).alive = 0
        rw [rd_figure_wr_type_alive, rd_figure_wr_alive]
        split
        · rfl
        · rename_i hn
          unfold rd_figure
          rw [dif_neg (fun hh => hn ⟨rfl, hh⟩)]
          rfl

theorem on_last_rank_congr (a b : d_data) (j : Int) (m : coord_t)
    (h : (rd_figure a j).type = (rd_figure b j).type ∧
      (rd_figure a j).color = (rd_figure b j).color) :
    on_last_rank a j m = on_last_rank b j m := by
  unfold on_last_rank
  rw [h.1, h.2]

theorem on_last_rank_attempt (st : d_data) (idx : Int) (m : coord_t) (c : Prop) [Decidable c]
    (v : Int) :
    on_last_rank (if c then wr_alive (wr_square st idx m) v 0 else wr_square st idx m) idx m =
      on_last_rank st idx m := by
  apply on_last_rank_congr
  split
  · exact ⟨by rw [rd_figure_wr_alive_type, rd_figure_wr_square_type],
      by rw [rd_figure_wr_alive_color, rd_figure_wr_square_color]⟩
  · exact ⟨rd_figure_wr_square_type _ _ _ _, rd_figure_wr_square_color _ _ _ _⟩

theorem mv_apply_applied_type (st : d_data) (idx : Int) (prev_c : coord_t)
    (take_piece promote : Int) (oc op : piece_t) (m : coord_t) (t : tentative)
    (hi : 0 ≤ idx ∧ idx < 32)
    (h : mv_apply st idx prev_c take_piece promote oc op m = .applied t) :
    (on_last_rank st idx m = true →
      promote ≠ 0 ∧ op.type ≠ -1 ∧ (rd_figure t.state idx).type = op.type) ∧
    (on_last_rank st idx m = false → (rd_figure t.state idx).type = (rd_figure st idx).type) := by
  obtain ⟨_, b2, ht⟩ := mv_apply_applied_eq st idx prev_c take_piece promote oc op m t h
  have hidx : idx = idx ∧ 0 ≤ idx ∧ idx < 32 := ⟨rfl, hi⟩
  rw [on_last_rank_attempt] at b2
  simp only [on_last_rank_attempt] at ht
  subst ht
  constructor
  · intro hp
    refine ⟨(b2 hp).1, (b2 hp).2, ?_⟩
    simp only [hp, if_true]
    show (rd_figure (wr_type _ idx op.type) idx).type = _
    rw [rd_figure_wr_type, if_pos hidx]
  · intro hp
    simp only [hp, Bool.false_eq_true, if_false]
    show (rd_figure (if _ then _ else _) idx).type = _
    split
    · rw [rd_figure_wr_alive_type, rd_figure_wr_square_type]
    · exact rd_figure_wr_square_type _ _ _ _

theorem undo_reads (t : tentative) (idx : Int) (hi : 0 ≤ idx ∧ idx < 32) :
    (∀ k, rd_board (undo t idx) k =
      if k = t.new_square ∧ 0 ≤ k ∧ k < 64 then t.prev_piece_idx
      else if k = t.prev_sq ∧ 0 ≤ k ∧ k < 64 then idx else rd_board t.state k) ∧
    (∀ k, (rd_figure (undo t idx) k).color = (rd_figure t.state k).color) ∧
    (∀ k, k ≠ idx → (rd_figure (undo t idx) k).type = (rd_figure t.state k).type ∧
      (rd_figure (undo t idx) k).square = (rd_figure t.state k).square) ∧
    (t.promoted = 1 → (rd_figure (undo t idx) idx).type = PAWN) ∧
    (t.promoted ≠ 1 → (rd_figure (undo t idx) idx).type = (rd_figure t.state idx).type) := by
  have hidx : idx = idx ∧ 0 ≤ idx ∧ idx < 32 := ⟨rfl, hi⟩
  unfold undo
  simp only
  by_cases hpt : t.prev_type ≠ -1
  · rw [if_pos hpt]
    by_cases hpr : t.promoted = 1
    · rw [if_pos hpr]
      refine ⟨fun k => ?_, fun k => ?_, fun k hk => ⟨?_, ?_⟩, ?_, ?_⟩
      · show rd_board (wr_board (wr_board (wr_square t.state idx t.prev_c) _ _) _ _) k = _
        rw [rd_board_wr_board, rd_board_wr_board]; rfl
      · rw [rd_figure_wr_type_color, rd_figure_wr_alive_color]
        exact rd_figure_wr_square_color _ _ _ _
      · rw [rd_figure_wr_type, if_neg (fun hh => hk hh.1), rd_figure_wr_alive_type]
        exact rd_figure_wr_square_type _ _ _ _
      · rw [rd_figure_wr_type_square, rd_figure_wr_alive_square]
        show (rd_figure (wr_square t.state idx t.prev_c) k).square = _
        rw [rd_figure_wr_square, if_neg (fun hh => hk hh.1)]
      · intro _
        rw [rd_figure_wr_type, if_pos hidx]
      · intro hh; exact absurd hpr hh
    · rw [if_neg hpr]
      refine ⟨fun k => ?_, fun k => ?_, fun k hk => ⟨?_, ?_⟩, ?_, ?_⟩
      · show rd_board (wr_board (wr_board (wr_square t.state idx t.prev_c) _ _) _ _) k = _
        rw [rd_board_wr_board, rd_board_wr_board]; rfl
      · rw [rd_figure_wr_alive_color]
        exact rd_figure_wr_square_color _ _ _ _
      · rw [rd_figure_wr_alive_type]
        exact rd_figure_wr_square_type _ _ _ _
      · rw [rd_figure_wr_alive_square]
        show (rd_figure (wr_square t.state idx t.prev_c) k).square = _
        rw [rd_figure_wr_square, if_neg (fun hh => hk hh.1)]
      · intro hh; exact absurd hh hpr
      · intro _
        rw [rd_figure_wr_alive_type]
        exact rd_figure_wr_square_type _ _ _ _
  · rw [if_neg hpt]
    by_cases hpr : t.promoted = 1
    · rw [if_pos hpr]
      refine ⟨fun k => ?_, fun k => ?_, fun k hk => ⟨?_, ?_⟩, ?_, ?_⟩
      · show rd_board (wr_board (wr_board (wr_square t.state idx t.prev_c) _ _) _ _) k = _
        rw [rd_board_wr_board, rd_board_wr_board]; rfl
      · rw [rd_figure_wr_type_color]
        exact rd_figure_wr_square_color _ _ _ _
      · rw [rd_figure_wr_type, if_neg (fun hh => hk hh.1)]
        exact rd_figure_wr_square_type _ _ _ _
      · rw [rd_figure_wr_type_square]
        show (rd_figure (wr_square t.state idx t.prev_c) k).square = _
        rw [rd_figure_wr_square, if_neg (fun hh => hk hh.1)]
      · intro _
        rw [rd_figure_wr_type, if_pos hidx]
      · intro hh; exact absurd hpr hh
    · rw [if_neg hpr]
      refine ⟨fun k => ?_, fun k => ?_, fun k hk => ⟨?_, ?_⟩, ?_, ?_⟩
      · show rd_board (wr_board (wr_board (wr_square t.state idx t.prev_c) _ _) _ _) k = _
        rw [rd_board_wr_board, rd_board_wr_board]; rfl
      · exact rd_figure_wr_square_color _ _ _ _
      · exact rd_figure_wr_square_type _ _ _ _
      · show (rd_figure (wr_square t.state idx t.prev_c) k).square = _
        rw [rd_figure_wr_square, if_neg (fun hh => hk hh.1)]
      · intro hh; exact absurd hh hpr
      · intro _
        exact rd_figure_wr_square_type _ _ _ _

theorem rolled_back_refl (s : d_data) (idx : Int) : rolled_back s s idx :=
  ⟨fun _ => rfl, rfl, rfl, fun _ => ⟨rfl, rfl, fun _ => rfl⟩⟩

theorem rolled_back_undo (s st : d_data) (idx : Int) (prev_c : coord_t)
    (take_piece promote : Int) (oc op : piece_t) (m : coord_t) (t : tentative)
    (hi : 0 ≤ idx ∧ idx < 32) (hidx : rd_board s (coord_to_sq prev_c) = idx)
    (hr : rolled_back s st idx)
    (h : mv_apply st idx prev_c take_piece promote oc op m = .applied t) :
    rolled_back s (undo t idx) idx := by
  obtain ⟨a1, a2, a3, _, a5, a6, _, a8, a9, a10, a11, a12, a13⟩ :=
    mv_apply_applied_reads st idx prev_c take_piece promote oc op m t hi h
  obtain ⟨u1, u2, u3, u4, u5⟩ := undo_reads t idx hi
  obtain ⟨r1, r2, r3, r4⟩ := hr
  have hsc := same_scalars_undo t idx
  refine ⟨fun k => ?_, ?_, ?_, fun k => ⟨?_, ?_, fun hk => ?_⟩⟩
  · rw [u1 k, a10, a9, a11]
    by_cases h1 : k = coord_to_sq m ∧ 0 ≤ k ∧ k < 64
    · rw [if_pos h1, ← h1.1, r1]
    · rw [if_neg h1]
      by_cases h2 : k = coord_to_sq prev_c ∧ 0 ≤ k ∧ k < 64
      · rw [if_pos h2, h2.1, hidx]
      · rw [if_neg h2, a1 k, if_neg h2, if_neg h1, r1]
  · rw [hsc.2.2.2.1, a12, r2]
  · rw [hsc.2.2.1, a13, r3]
  · by_cases hk : k = idx
    · subst hk
      by_cases hp : t.promoted = 1
      · rw [u4 hp, ← (r4 k).1, a5 hp]
      · rw [u5 hp, a6 hp, (r4 k).1]
    · rw [(u3 k hk).1, (a3 k hk).1, (r4 k).1]
  · rw [u2 k, a2 k, (r4 k).2.1]
  · rw [(u3 k hk).2, (a3 k hk).2, (r4 k).2.2 hk]

theorem move_valid_loop_accepted (s : d_data) (idx : Int) (prev_c dest : coord_t)
    (take_piece promote : Int) (oc op : piece_t) (hi : 0 ≤ idx ∧ idx < 32)
    (hidx : rd_board s (coord_to_sq prev_c) = idx) :
    ∀ (ms : List coord_t) (st : d_data), rolled_back s st idx →
      (move_valid_loop st idx prev_c dest take_piece promote oc op ms).2 = 1 →
      dest ∈ ms ∧ ∃ (st1 : d_data) (t : tentative), rolled_back s st1 idx ∧
        mv_apply st1 idx prev_c take_piece promote oc op dest = .applied t ∧
        (move_valid_loop st idx prev_c dest take_piece promote oc op ms).1 = t.state := by
  have h01 : ¬ ((0 : Int) = 1) := by decide
  intro ms
  induction ms with
  | nil =>
    intro st _ h
    exact absurd h h01
  | cons m ms ih =>
    intro st hr h
    unfold move_valid_loop at h ⊢
    by_cases hm : m.x = dest.x ∧ m.y = dest.y
    · have hmd := coord_eta m dest hm
      subst hmd
      rw [if_pos hm] at h ⊢
      cases ha : mv_apply st idx prev_c take_piece promote oc op m with
      | rejected s1 =>
        rw [ha] at h
        exact absurd h h01
      | applied t =>
        rw [ha] at h
        simp only at h ⊢
        by_cases hc : in_check t.state t.state.player_color = 0
        · rw [if_pos hc]
          exact ⟨List.mem_cons_self _ _, st, t, hr, ha, rfl⟩
        · rw [if_neg hc] at h ⊢
          obtain ⟨h1, h2⟩ := ih (undo t idx)
            (rolled_back_undo s st idx prev_c take_piece promote oc op m t hi hidx hr ha) h
          exact ⟨List.mem_cons_of_mem _ h1, h2⟩
    · rw [if_neg hm] at h ⊢
      obtain ⟨h1, h2⟩ := ih st hr h
      exact ⟨List.mem_cons_of_mem _ h1, h2⟩

/-! ### Candidates are on the board and off the square of the piece -/

theorem mem_keep_move (s : d_data) (color : Char) (c m : coord_t)
    (h : m ∈ keep_move s color c) : m = c ∧ coord_to_sq c ≠ -1 := by
  unfold keep_move at h
  by_cases hv : verify_move_helper s c color = true
  · rw [if_pos hv] at h
    refine ⟨List.mem_singleton.1 h, ?_⟩
    unfold verify_move_helper at hv
    simp only at hv
    by_cases hq : coord_to_sq c ≠ -1
    · exact hq
    · rw [if_neg hq] at hv
      exact absurd hv (by decide)
  · rw [if_neg hv] at h
    exact absurd h (List.not_mem_nil _)

theorem mem_ray (s : d_data) (color : Char) (dx dy : Int) :
    ∀ (fuel : Nat) (c m : coord_t), m ∈ ray s color dx dy fuel c →
      coord_to_sq m ≠ -1 ∧ ∃ k : Int, 1 ≤ k ∧ m.x = c.x + k * dx ∧ m.y = c.y + k * dy := by
  intro fuel
  induction fuel with
  | zero => intro c m h; exact absurd h (List.not_mem_nil _)
  | succ fuel ih =>
    intro c m h
    unfold ray at h
    simp only at h
    by_cases hq : coord_to_sq ⟨c.x + dx, c.y + dy⟩ = -1
    · rw [if_pos hq] at h
      exact absurd h (List.not_mem_nil _)
    · rw [if_neg hq] at h
      have hfirst : m = ⟨c.x + dx, c.y + dy⟩ →
          coord_to_sq m ≠ -1 ∧ ∃ k : Int, 1 ≤ k ∧ m.x = c.x + k * dx ∧ m.y = c.y + k * dy := by
        intro hm
        subst hm
        exact ⟨hq, 1, le_refl _, by simp, by simp⟩
      by_cases he : rd_board s (coord_to_sq ⟨c.x + dx, c.y + dy⟩) = -1
      · rw [if_pos he] at h
        rcases List.mem_cons.1 h with h1 | h1
        · exact hfirst h1
        · obtain ⟨a, k, hk, hx, hy⟩ := ih _ m h1
          refine ⟨a, k + 1, by omega, ?_, ?_⟩
          · rw [hx]; simp only; ring
          · rw [hy]; simp only; ring
      · rw [if_neg he] at h
        split at h
        · exact hfirst (List.mem_singleton.1 h)
        · exact absurd h (List.not_mem_nil _)

theorem mem_ray_off (s : d_data) (color : Char) (dx dy : Int) (hd : dx ≠ 0 ∨ dy ≠ 0)
    (fuel : Nat) (c m : coord_t) (h : m ∈ ray s color dx dy fuel c) :
    coord_to_sq m ≠ -1 ∧ (m.x ≠ c.x ∨ m.y ≠ c.y) := by
  obtain ⟨a, k, hk, hx, hy⟩ := mem_ray s color dx dy fuel c m h
  refine ⟨a, ?_⟩
  rcases hd with hd | hd
  · left
    intro he
    rw [he] at hx
    have : k * dx = 0 := by omega
    rcases mul_eq_zero.1 this with h0 | h0
    · omega
    · exact hd h0
  · right
    intro he
    rw [he] at hy
    have : k * dy = 0 := by omega
    rcases mul_eq_zero.1 this with h0 | h0
    · omega
    · exact hd h0

theorem mem_rook_helper (s : d_data) (piece : piece_t) (m : coord_t)
    (h : m ∈ rook_helper s piece) :
    coord_to_sq m ≠ -1 ∧ (m.x ≠ piece.square.x ∨ m.y ≠ piece.square.y) := by
  unfold rook_helper at h
  simp only [List.mem_append] at h
  rcases h with ((h | h) | h) | h
  · exact mem_ray_off s _ _ _ (by decide) _ _ _ h
  · exact mem_ray_off s _ _ _ (by decide) _ _ _ h
  · exact mem_ray_off s _ _ _ (by decide) _ _ _ h
  · exact mem_ray_off s _ _ _ (by decide) _ _ _ h

theorem mem_bishop_helper (s : d_data) (piece : piece_t) (m : coord_t)
    (h : m ∈ bishop_helper s piece) :
    coord_to_sq m ≠ -1 ∧ (m.x ≠ piece.square.x ∨ m.y ≠ piece.square.y) := by
  unfold bishop_helper at h
  simp only [List.mem_append] at h
  rcases h with ((h | h) | h) | h
  · exact mem_ray_off s _ _ _ (by decide) _ _ _ h
  · exact mem_ray_off s _ _ _ (by decide) _ _ _ h
  · exact mem_ray_off s _ _ _ (by decide) _ _ _ h
  · exact mem_ray_off s _ _ _ (by decide) _ _ _ h

theorem keep_move_off (s : d_data) (color : Char) (c src m : coord_t)
    (hc : c.x ≠ src.x ∨ c.y ≠ src.y) (h : m ∈ keep_move s color c) :
    coord_to_sq m ≠ -1 ∧ (m.x ≠ src.x ∨ m.y ≠ src.y) := by
  obtain ⟨h1, h2⟩ := mem_keep_move s color c m h
  subst h1
  exact ⟨h2, hc⟩

theorem mem_knight_helper (s : d_data) (piece : piece_t) (m : coord_t)
    (h : m ∈ knight_helper s piece) :
    coord_to_sq m ≠ -1 ∧ (m.x ≠ piece.square.x ∨ m.y ≠ piece.square.y) := by
  unfold knight_helper at h
  simp only [List.mem_append] at h
  rcases h with ((((((h | h) | h) | h) | h) | h) | h) | h <;>
    exact keep_move_off s _ _ _ _ (by simp) h

theorem mem_king_helper (s : d_data) (piece : piece_t) (m : coord_t)
    (h : m ∈ king_helper s piece) :
    coord_to_sq m ≠ -1 ∧ (m.x ≠ piece.square.x ∨ m.y ≠ piece.square.y) := by
  unfold king_helper at h
  simp only [List.mem_append] at h
  rcases h with ((((((h | h) | h) | h) | h) | h) | h) | h <;>
    exact keep_move_off s _ _ _ _ (by simp) h

theorem mem_ite_single {α : Type} (p : Prop) [Decidable p] (a m : α)
    (h : m ∈ (if p then [a] else [])) : p ∧ m = a := by
  by_cases hp : p
  · rw [if_pos hp] at h
    exact ⟨hp, List.mem_singleton.1 h⟩
  · rw [if_neg hp] at h
    exact absurd h (List.not_mem_nil _)

theorem mem_ite_nil {α : Type} (p : Prop) [Decidable p] (l : List α) (m : α)
    (h : m ∈ (if p then l else [])) : p ∧ m ∈ l := by
  by_cases hp : p
  · rw [if_pos hp] at h
    exact ⟨hp, h⟩
  · rw [if_neg hp] at h
    exact absurd h (List.not_mem_nil _)

theorem mem_pawn_helper (s : d_data) (piece : piece_t) (m : coord_t)
    (h : m ∈ pawn_helper s piece) :
    coord_to_sq m ≠ -1 ∧ (m.x ≠ piece.square.x ∨ m.y ≠ piece.square.y) := by
  have hy2 : ∀ y : Int, y + 2 * (if piece.color = 'B' then (-1 : Int) else 1) ≠ y := by
    intro y; split <;> omega
  have hy1 : ∀ y : Int, y + (if piece.color = 'B' then (-1 : Int) else 1) ≠ y := by
    intro y; split <;> omega
  unfold pawn_helper at h
  simp only [List.mem_append] at h
  rcases h with h | h
  · obtain ⟨_, h⟩ := mem_ite_nil _ _ _ h
    obtain ⟨hq, h⟩ := mem_ite_single _ _ _ h
    subst h
    exact ⟨hq.1, Or.inr (hy2 _)⟩
  · obtain ⟨_, h⟩ := mem_ite_nil _ _ _ h
    simp only [List.mem_append] at h
    rcases h with (h | h) | h
    · obtain ⟨hq, h⟩ := mem_ite_single _ _ _ h
      subst h
      exact ⟨hq.1, Or.inr (hy1 _)⟩
    · obtain ⟨hq, h⟩ := mem_ite_single _ _ _ h
      subst h
      exact ⟨hq.1, Or.inr (hy1 _)⟩
    · obtain ⟨hq, h⟩ := mem_ite_single _ _ _ h
      subst h
      exact ⟨hq.1, Or.inr (hy1 _)⟩

theorem mem_find_move (s : d_data) (piece : piece_t) (m : coord_t)
    (h : m ∈ find_move s piece) :
    coord_to_sq m ≠ -1 ∧ (m.x ≠ piece.square.x ∨ m.y ≠ piece.square.y) := by
  unfold find_move at h
  split at h
  · exact mem_pawn_helper s piece m h
  · split at h
    · exact mem_rook_helper s piece m h
    · split at h
      · exact mem_knight_helper s piece m h
      · split at h
        · exact mem_bishop_helper s piece m h
        · split at h
          · unfold queen_helper at h
            rcases List.mem_append.1 h with h | h
            · exact mem_rook_helper s piece m h
            · exact mem_bishop_helper s piece m h
          · exact mem_king_helper s piece m h

theorem candidate_square_ne (s : d_data) (piece : piece_t) (m : coord_t)
    (h : m ∈ find_move s piece) :
    0 ≤ coord_to_sq m ∧ coord_to_sq m < 64 ∧ coord_to_sq m ≠ coord_to_sq piece.square := by
  obtain ⟨h1, h2⟩ := mem_find_move s piece m h
  obtain ⟨h3, h4⟩ := coord_to_sq_range m h1
  refine ⟨h3, h4, fun he => ?_⟩
  rw [he] at h1
  unfold coord_to_sq at he h1
  split at he
  · rename_i hm
    split at he
    · simp at h1; omega
    · omega
  · rename_i hm
    split at he
    · simp at h1; omega
    · omega

theorem takes_computer_rolled_back (s st : d_data) (idx v : Int) (hr : rolled_back s st idx) :
    takes_computer st v = takes_computer s v := by
  unfold takes_computer
  rw [(hr.2.2.2 v).2.1, hr.2.1]

theorem rd_figure_range (s : d_data) (i : Int) (h : (rd_figure s i).alive ≠ 0) :
    0 ≤ i ∧ i < 32 := by
  by_contra hn
  unfold rd_figure at h
  rw [dif_neg hn] at h
  exact h rfl

theorem move_valid_accepted (s : d_data) (piece : piece_t) (dest : coord_t)
    (take_piece promote : Int) (oc op : piece_t)
    (h : (move_valid s piece dest take_piece promote oc op).2 = 1) :
    (0 ≤ rd_board s (coord_to_sq piece.square) ∧ rd_board s (coord_to_sq piece.square) < 32) ∧
    dest ∈ find_move s piece ∧
    (∀ k, rd_board (move_valid s piece dest take_piece promote oc op).1 k =
      if k = coord_to_sq piece.square ∧ 0 ≤ k ∧ k < 64 then -1
      else if k = coord_to_sq dest ∧ 0 ≤ k ∧ k < 64 then rd_board s (coord_to_sq piece.square)
      else rd_board s k) ∧
    (rd_figure (move_valid s piece dest take_piece promote oc op).1
      (rd_board s (coord_to_sq piece.square))).square = dest ∧
    (∀ k, (rd_figure (move_valid s piece dest take_piece promote oc op).1 k).color =
      (rd_figure s k).color) ∧
    (∀ k, k ≠ rd_board s (coord_to_sq piece.square) →
      (rd_figure (move_valid s piece dest take_piece promote oc op).1 k).type =
        (rd_figure s k).type ∧
      (rd_figure (move_valid s piece dest take_piece promote oc op).1 k).square =
        (rd_figure s k).square) ∧
    (takes_computer s (rd_board s (coord_to_sq dest)) = true →
      take_piece ≠ 0 ∧ oc.type = (rd_figure s (rd_board s (coord_to_sq dest))).type ∧
      (rd_figure (move_valid s piece dest take_piece promote oc op).1
        (rd_board s (coord_to_sq dest))).alive = 0) ∧
    (rd_figure s (rd_board s (coord_to_sq piece.square))).color = piece.color ∧
    (rd_figure s (rd_board s (coord_to_sq piece.square))).type = piece.type ∧
    (on_last_rank s (rd_board s (coord_to_sq piece.square)) dest = true →
      promote ≠ 0 ∧ op.type ≠ -1 ∧
      (rd_figure (move_valid s piece dest take_piece promote oc op).1
        (rd_board s (coord_to_sq piece.square))).type = op.type) ∧
    (on_last_rank s (rd_board s (coord_to_sq piece.square)) dest = false →
      (rd_figure (move_valid s piece dest take_piece promote oc op).1
        (rd_board s (coord_to_sq piece.square))).type =
        (rd_figure s (rd_board s (coord_to_sq piece.square))).type) := by
  have h01 : ¬ ((0 : Int) = 1) := by decide
  unfold move_valid at h ⊢
  simp only at h ⊢
  by_cases h1 : rd_board s (coord_to_sq piece.square) = -1
  · rw [if_pos h1] at h
    exact absurd h h01
  · rw [if_neg h1] at h ⊢
    by_cases h2 : (rd_figure s (rd_board s (coord_to_sq piece.square))).color ≠ piece.color ∨
        (rd_figure s (rd_board s (coord_to_sq piece.square))).type ≠ piece.type ∨
        (rd_figure s (rd_board s (coord_to_sq piece.square))).alive = 0
    · rw [if_pos h2] at h
      exact absurd h h01
    · rw [if_neg h2] at h ⊢
      have hal : (rd_figure s (rd_board s (coord_to_sq piece.square))).alive ≠ 0 :=
        fun hh => h2 (Or.inr (Or.inr hh))
      have hi := rd_figure_range s _ hal
      obtain ⟨hmem, st1, t, hr, ha, he⟩ :=
        move_valid_loop_accepted s (rd_board s (coord_to_sq piece.square)) piece.square dest
          take_piece promote oc op hi rfl (find_move s piece) s (rolled_back_refl s _) h
      rw [he]
      obtain ⟨a1, a2, a3, a4, _, _, a7, _, _, _, _, _, _⟩ :=
        mv_apply_applied_reads st1 _ piece.square take_piece promote oc op dest t hi ha
      obtain ⟨b1, _, _⟩ := mv_apply_applied_eq st1 _ piece.square take_piece promote oc op dest t ha
      obtain ⟨r1, r2, r3, r4⟩ := hr
      have hr2 : rolled_back s st1 (rd_board s (coord_to_sq piece.square)) := ⟨r1, r2, r3, r4⟩
      have hcol : (rd_figure s (rd_board s (coord_to_sq piece.square))).color = piece.color := by
        by_contra hh; exact h2 (Or.inl hh)
      have htyp : (rd_figure s (rd_board s (coord_to_sq piece.square))).type = piece.type := by
        by_contra hh; exact h2 (Or.inr (Or.inl hh))
      obtain ⟨p1, p2⟩ :=
        mv_apply_applied_type st1 _ piece.square take_piece promote oc op dest t hi ha
      have hol : on_last_rank st1 (rd_board s (coord_to_sq piece.square)) dest =
          on_last_rank s (rd_board s (coord_to_sq piece.square)) dest :=
        on_last_rank_congr _ _ _ _ ⟨(r4 _).1, (r4 _).2.1⟩
      rw [hol] at p1 p2
      refine ⟨hi, hmem, fun k => ?_, a4, fun k => ?_, fun k hk => ⟨?_, ?_⟩, fun hc => ?_,
        hcol, htyp, p1, fun hp => ?_⟩
      rotate_left 5
      · rw [p2 hp, (r4 _).1]
      · rw [a1 k, r1 k]
      · rw [a2 k, (r4 k).2.1]
      · rw [(a3 k hk).1, (r4 k).1]
      · rw [(a3 k hk).2, (r4 k).2.2 hk]
      · rw [← takes_computer_rolled_back s st1 _ _ hr2, ← r1] at hc
        have hb := b1 hc
        have ha7 := a7 hc
        rw [r1, (r4 _).1] at hb
        rw [r1] at ha7
        exact ⟨hb.1, hb.2, ha7⟩

/-- C17: when the destination holds a piece `v` of the computer's colour and
the mover is not of that colour, `move_valid` accepts only a capture declared
with the kind of `v`; `v` is dead afterwards with its kind and square kept,
and the destination slot holds the mover; an undeclared capture or one
declared with another kind is rejected. -/
theorem capture_rule (s : d_data) (piece : piece_t) (dest : coord_t)
    (take_piece promote : Int) (oc op : piece_t) (ho : piece.color ≠ s.computer_color)
    (hv : rd_board s (coord_to_sq dest) ≠ -1)
    (hc : (rd_figure s (rd_board s (coord_to_sq dest))).color = s.computer_color) :
    ((move_valid s piece dest take_piece promote oc op).2 = 1 →
      take_piece ≠ 0 ∧ oc.type = (rd_figure s (rd_board s (coord_to_sq dest))).type ∧
      (rd_figure (move_valid s piece dest take_piece promote oc op).1
        (rd_board s (coord_to_sq dest))).alive = 0 ∧
      (rd_figure (move_valid s piece dest take_piece promote oc op).1
        (rd_board s (coord_to_sq dest))).type =
        (rd_figure s (rd_board s (coord_to_sq dest))).type ∧
      (rd_figure (move_valid s piece dest take_piece promote oc op).1
        (rd_board s (coord_to_sq dest))).square =
        (rd_figure s (rd_board s (coord_to_sq dest))).square ∧
      rd_board (move_valid s piece dest take_piece promote oc op).1 (coord_to_sq dest) =
        rd_board s (coord_to_sq piece.square)) ∧
    (take_piece = 0 ∨ oc.type ≠ (rd_figure s (rd_board s (coord_to_sq dest))).type →
      (move_valid s piece dest take_piece promote oc op).2 = 0) := by
  constructor
  · intro h
    obtain ⟨_, hmem, a1, _, _, a3, a7, hcol, _⟩ :=
      move_valid_accepted s piece dest take_piece promote oc op h
    have htk : takes_computer s (rd_board s (coord_to_sq dest)) = true :=
      decide_eq_true ⟨hv, hc⟩
    obtain ⟨b1, b2, b3⟩ := a7 htk
    have hne : rd_board s (coord_to_sq dest) ≠ rd_board s (coord_to_sq piece.square) := by
      intro he
      rw [he, hcol] at hc
      exact ho hc
    obtain ⟨c1, c2, c3⟩ := candidate_square_ne s piece dest hmem
    refine ⟨b1, b2, b3, (a3 _ hne).1, (a3 _ hne).2, ?_⟩
    rw [a1, if_neg (fun hh => c3 hh.1), if_pos ⟨rfl, c1, c2⟩]
  · intro hk
    rcases move_valid_capture_rejected s piece dest take_piece promote oc op hv hc hk with h | h
    · rw [h]
    · rw [h]

/-! ### A pawn on its last rank needs a promotion -/

theorem move_valid_loop_binary (idx : Int) (prev_c dest : coord_t) (take_piece promote : Int)
    (oc op : piece_t) : ∀ (ms : List coord_t) (st : d_data),
      (move_valid_loop st idx prev_c dest take_piece promote oc op ms).2 = 0 ∨
      (move_valid_loop st idx prev_c dest take_piece promote oc op ms).2 = 1 := by
  intro ms
  induction ms with
  | nil => intro st; exact Or.inl rfl
  | cons m ms ih =>
    intro st
    unfold move_valid_loop
    split
    · split
      · exact Or.inl rfl
      · simp only
        split
        · exact Or.inr rfl
        · exact ih _
    · exact ih _

theorem move_valid_binary (s : d_data) (piece : piece_t) (dest : coord_t)
    (take_piece promote : Int) (oc op : piece_t) :
    (move_valid s piece dest take_piece promote oc op).2 = 0 ∨
    (move_valid s piece dest take_piece promote oc op).2 = 1 := by
  unfold move_valid
  simp only
  split
  · exact Or.inl rfl
  · split
    · exact Or.inl rfl
    · exact move_valid_loop_binary _ _ _ _ _ _ _ _ _

theorem move_valid_promotion_rejected (s : d_data) (piece : piece_t) (dest : coord_t)
    (take_piece promote : Int) (oc op : piece_t) (hp : piece.type = PAWN)
    (hr : (piece.color = 'W' ∧ dest.y = 7) ∨ (piece.color = 'B' ∧ dest.y = 0))
    (ho : promote = 0 ∨ op.type = -1) :
    (move_valid s piece dest take_piece promote oc op).2 = 0 := by
  rcases move_valid_binary s piece dest take_piece promote oc op with h | h
  · exact h
  · obtain ⟨_, _, _, _, _, _, _, hcol, htyp, p1, _⟩ :=
      move_valid_accepted s piece dest take_piece promote oc op h
    have hl : on_last_rank s (rd_board s (coord_to_sq piece.square)) dest = true := by
      unfold on_last_rank
      rw [hcol, htyp]
      apply decide_eq_true
      refine ⟨hp, ?_⟩
      rcases hr with hr | hr
      · exact Or.inr hr
      · exact Or.inl hr
    rcases ho with ho | ho
    · exact absurd ho (p1 hl).1
    · exact absurd ho (p1 hl).2.1

/-! ### Decoding a grammatical move spec -/

theorem grammar_facts (arg : List Char) (h : grammar_move_spec arg = true) :
    7 ≤ arg.length ∧ grammar_color (arg.getD 0 'n') = true ∧
    grammar_kind (arg.getD 1 'n') = true ∧ grammar_file (arg.getD 2 'n') = true ∧
    grammar_rank (arg.getD 3 'n') = true ∧ arg.getD 4 'n' = '-' ∧
    grammar_file (arg.getD 5 'n') = true ∧ grammar_rank (arg.getD 6 'n') = true ∧
    (arg.length = 7 ∨
      (arg.length = 10 ∧
        grammar_option (arg.getD 7 'n') (arg.getD 8 'n') (arg.getD 9 'n') = true) ∨
      (arg.length = 13 ∧
        grammar_option (arg.getD 7 'n') (arg.getD 8 'n') (arg.getD 9 'n') = true ∧
        grammar_option (arg.getD 10 'n') (arg.getD 11 'n') (arg.getD 12 'n') = true)) := by
  rcases arg with _ | ⟨c, _ | ⟨k, _ | ⟨sf, _ | ⟨sr, _ | ⟨sep, _ | ⟨df, _ | ⟨dr, opts⟩⟩⟩⟩⟩⟩⟩
  all_goals try (simp [grammar_move_spec] at h; done)
  simp only [grammar_move_spec, Bool.and_eq_true, decide_eq_true_eq] at h
  obtain ⟨⟨⟨⟨⟨⟨⟨h1, h2⟩, h3⟩, h4⟩, h5⟩, h6⟩, h7⟩, h8⟩ := h
  refine ⟨by simp, h1, h2, h3, h4, h5, h6, h7, ?_⟩
  rcases opts with _ | ⟨o1, _ | ⟨c1, _ | ⟨k1, _ | ⟨o2, _ | ⟨c2, _ | ⟨k2, _ | ⟨z, rest⟩⟩⟩⟩⟩⟩⟩
  all_goals try (simp at h8; done)
  · exact Or.inl rfl
  · exact Or.inr (Or.inl ⟨rfl, h8⟩)
  · simp only [Bool.and_eq_true] at h8
    exact Or.inr (Or.inr ⟨rfl, h8.1, h8.2⟩)

theorem kind_of_letter_grammar (k : Char) (h : grammar_kind k = true) :
    ∃ t, kind_of_letter k = some t ∧ (t = PAWN ↔ k = 'P') ∧ (t = KING ↔ k = 'K') := by
  simp only [grammar_kind, decide_eq_true_eq, List.mem_cons, List.mem_singleton,
    List.not_mem_nil, or_false] at h
  rcases h with rfl | rfl | rfl | rfl | rfl | rfl
  all_goals exact ⟨_, rfl, by decide, by decide⟩

theorem coord_of_letters_grammar (f r : Char) (hf : grammar_file f = true)
    (hr : grammar_rank r = true) :
    ∃ c, coord_of_letters f r = some c ∧ (c.y = 6 ↔ r = '7') ∧ (c.y = 7 ↔ r = '8') ∧
      (c.y = 1 ↔ r = '2') ∧ (c.y = 0 ↔ r = '1') := by
  simp only [grammar_file, grammar_rank, decide_eq_true_eq, List.mem_cons, List.mem_singleton,
    List.not_mem_nil, or_false] at hf hr
  rcases hf with rfl | rfl | rfl | rfl | rfl | rfl | rfl | rfl <;>
  rcases hr with rfl | rfl | rfl | rfl | rfl | rfl | rfl | rfl <;>
  exact ⟨_, rfl, by decide, by decide, by decide, by decide⟩

theorem decode_move_grammar (s : d_data) (arg : List Char)
    (h : grammar_move_spec arg = true) (hc : arg.getD 0 'n' = s.player_color) :
    ∃ t src dst, decode_move s (some arg) =
        decode_options s arg ⟨t, arg.getD 0 'n', 0, src⟩ dst ∧
      (t = PAWN ↔ arg.getD 1 'n' = 'P') ∧
      (src.y = 6 ↔ arg.getD 3 'n' = '7') ∧ (dst.y = 7 ↔ arg.getD 6 'n' = '8') ∧
      (src.y = 1 ↔ arg.getD 3 'n' = '2') ∧ (dst.y = 0 ↔ arg.getD 6 'n' = '1') := by
  obtain ⟨h0, h1, h2, h3, h4, h5, h6, h7, _⟩ := grammar_facts arg h
  obtain ⟨t, ht, ht2, _⟩ := kind_of_letter_grammar _ h2
  obtain ⟨src, hs, hs6, _, hs1, _⟩ := coord_of_letters_grammar _ _ h3 h4
  obtain ⟨dst, hd, _, hd7, _, hd0⟩ := coord_of_letters_grammar _ _ h6 h7
  have hcol : (arg.getD 0 'n' = 'W' ∨ arg.getD 0 'n' = 'B') ∧ arg.getD 0 'n' = s.player_color := by
    refine ⟨?_, hc⟩
    simpa [grammar_color] using h1
  refine ⟨t, src, dst, ?_, ht2, hs6, hd7, hs1, hd0⟩
  unfold decode_move
  simp only
  rw [if_neg (by omega), ht]
  simp only
  rw [if_pos hcol, hs]
  simp only
  rw [if_neg (not_not.2 h5), hd]

theorem decode_promotion_illegal (s : d_data) (len : Nat) (piece : piece_t) (dest : coord_t)
    (take_piece : Int) (piece_opt1 : piece_t) (color_opt type_opt : Char) (tp : Int)
    (hco : color_opt = s.player_color) (hk : kind_of_letter type_opt = some tp)
    (hv : piece.type ≠ PAWN ∨ tp = PAWN ∨ tp = KING ∨
      (s.player_color = 'W' ∧ (piece.square.y ≠ 6 ∨ dest.y ≠ 7)) ∨
      (s.player_color = 'B' ∧ (piece.square.y ≠ 1 ∨ dest.y ≠ 0))) :
    decode_promotion s len piece dest take_piece piece_opt1 color_opt type_opt =
      .error ILLMOVE := by
  unfold decode_promotion
  rw [if_pos hco, hk]
  simp only
  by_cases h1 : piece.type ≠ PAWN
  · rw [if_pos h1]
  · rw [if_neg h1]
    by_cases h2 : tp = PAWN ∨ tp = KING
    · rw [if_pos h2]
    · rw [if_neg h2]
      by_cases h3 : s.player_color = 'W' ∧ (piece.square.y ≠ 6 ∨ dest.y ≠ 7)
      · rw [if_pos h3]
      · rw [if_neg h3]
        by_cases h4 : s.player_color ≠ 'W' ∧ s.player_color = 'B' ∧
            (piece.square.y ≠ 1 ∨ dest.y ≠ 0)
        · rw [if_pos h4]
        · exfalso
          rcases hv with hv | hv | hv | hv | hv
          · exact h1 hv
          · exact h2 (Or.inl hv)
          · exact h2 (Or.inr hv)
          · exact h3 hv
          · refine h4 ⟨?_, hv⟩
            rw [hv.1]; decide

theorem decode_options_promotion (s : d_data) (arg : List Char) (piece : piece_t)
    (dest : coord_t) (kl : Char) (hg : grammar_move_spec arg = true)
    (hcap : arg.getD 7 'n' = 'x' → arg.getD 8 'n' = s.computer_color)
    (hp : declared_promotion arg = some (s.player_color, kl)) :
    ∃ (take_piece : Int) (piece_opt1 : piece_t),
      decode_options s arg piece dest =
        decode_promotion s arg.length piece dest take_piece piece_opt1 s.player_color kl ∧
      grammar_kind kl = true := by
  obtain ⟨_, _, _, _, _, _, _, _, hopt⟩ := grammar_facts arg hg
  unfold declared_promotion at hp
  unfold decode_options
  simp only
  by_cases h7 : arg.getD 7 'n' = 'y'
  · have hlen : arg.length = 10 ∨ arg.length = 13 := by
      by_contra hn
      rw [if_neg (fun hh => hn hh.1), if_neg (fun hh => hn (Or.inr hh.1))] at hp
      exact absurd hp (by simp)
    rw [if_pos ⟨hlen, h7⟩] at hp
    injection hp with hp
    injection hp with hp1 hp2
    have hk : grammar_kind kl = true := by
      rw [← hp2]
      rcases hopt with h | h | h
      · omega
      · have := h.2
        simp only [grammar_option, Bool.and_eq_true] at this
        exact this.2
      · have := h.2.1
        simp only [grammar_option, Bool.and_eq_true] at this
        exact this.2
    refine ⟨0, no_piece, ?_, hk⟩
    rw [if_pos hlen, if_neg (by rw [h7]; decide), if_pos h7, hp1, hp2]
  · rw [if_neg (fun hh => h7 hh.2)] at hp
    by_cases h13 : arg.length = 13 ∧ arg.getD 10 'n' = 'y'
    · rw [if_pos h13] at hp
      injection hp with hp
      injection hp with hp1 hp2
      rcases hopt with h | h | h
      · omega
      · omega
      · have g1 := h.2.1
        have g2 := h.2.2
        simp only [grammar_option, Bool.and_eq_true, Bool.or_eq_true, decide_eq_true_eq] at g1 g2
        have hx : arg.getD 7 'n' = 'x' := by
          rcases g1.1.1 with hh | hh
          · exact hh
          · exact absurd hh h7
        obtain ⟨t1, ht1, _⟩ := kind_of_letter_grammar _ g1.2
        refine ⟨1, ⟨t1, arg.getD 8 'n', 0, dest⟩, ?_, by rw [← hp2]; exact g2.2⟩
        rw [if_pos (Or.inr h13.1), if_pos hx, if_pos (hcap hx), ht1]
        simp only
        rw [if_pos h13.1, if_pos h13.1, if_pos h13.1, if_pos h13.2, hp1, hp2]
    · rw [if_neg h13] at hp
      exact absurd hp (by simp)

/-! ### Promotion rules of the decoder and the validator -/

/-- C18 (amended): in a game in progress with the player to move, a decoded
`02` move of a pawn of the player's colour onto its far rank (rank index 7
for White, 0 for Black) without a promotion is answered ILLMOVE; and a
grammatical `02` move that names the player's colour, declares a promotion
with the player's colour letter (and, when its first option is a capture,
the computer's colour letter there) is answered ILLMOVE when the moved kind
is not P, the promoted kind is P or K, or the rank digits are not 7 to 8 for
White, 2 to 1 for Black. -/
theorem promotion_rules (s : d_data) (hg : s.game_on = 1) (ht : s.turn = s.player_color) :
    (∀ (msg : List Char) (arg : Option (List Char)) (a : move_args),
      tokenize msg = some ("02".data, arg) → decode_move s arg = .ok a →
      a.piece.type = PAWN → a.piece.color = s.player_color → a.promote = 0 →
      ((s.player_color = 'W' ∧ a.dest.y = 7) ∨ (s.player_color = 'B' ∧ a.dest.y = 0)) →
      (d_write s msg).reply = ILLMOVE) ∧
    (∀ (msg arg : List Char) (kl : Char),
      tokenize msg = some ("02".data, some arg) → grammar_move_spec arg = true →
      arg.getD 0 'n' = s.player_color →
      (arg.getD 7 'n' = 'x' → arg.getD 8 'n' = s.computer_color) →
      declared_promotion arg = some (s.player_color, kl) →
      (arg.getD 1 'n' ≠ 'P' ∨ kl = 'P' ∨ kl = 'K' ∨
        (s.player_color = 'W' ∧ (arg.getD 3 'n' ≠ '7' ∨ arg.getD 6 'n' ≠ '8')) ∨
        (s.player_color = 'B' ∧ (arg.getD 3 'n' ≠ '2' ∨ arg.getD 6 'n' ≠ '1'))) →
      (d_write s msg).reply = ILLMOVE) := by
  constructor
  · intro msg arg a hm hd hp hc hpr hr
    rw [write_move s msg arg a hm hd]
    have hz : (move_valid s a.piece a.dest a.take_piece a.promote a.piece_opt1
        a.piece_opt2).2 = 0 := by
      rw [hpr]
      exact move_valid_promotion_rejected s a.piece a.dest a.take_piece 0 _ _ hp
        (by rw [hc]; exact hr) (Or.inl rfl)
    rw [player_move_rejected s a hg ht hz]
    rfl
  · intro msg arg kl hm hgr hc hcap hpro hv
    obtain ⟨t, src, dst, hdec, ht1, hs6, hd7, hs1, hd0⟩ := decode_move_grammar s arg hgr hc
    obtain ⟨tk, p1, hopt, hkl⟩ := decode_options_promotion s arg ⟨t, arg.getD 0 'n', 0, src⟩ dst
      kl hgr hcap hpro
    obtain ⟨tp, htp, htpP, htpK⟩ := kind_of_letter_grammar kl hkl
    have hill : decode_move s (some arg) = .error ILLMOVE := by
      rw [hdec, hopt]
      apply decode_promotion_illegal s _ _ _ _ _ _ _ tp rfl htp
      rcases hv with hv | hv | hv | hv | hv
      · exact Or.inl (fun hh => hv (ht1.1 hh))
      · exact Or.inr (Or.inl (htpP.2 hv))
      · exact Or.inr (Or.inr (Or.inl (htpK.2 hv)))
      · refine Or.inr (Or.inr (Or.inr (Or.inl ⟨hv.1, ?_⟩)))
        rcases hv.2 with h | h
        · exact Or.inl (fun hh => h (hs6.1 hh))
        · exact Or.inr (fun hh => h (hd7.1 hh))
      · refine Or.inr (Or.inr (Or.inr (Or.inr ⟨hv.1, ?_⟩)))
        rcases hv.2 with h | h
        · exact Or.inl (fun hh => h (hs1.1 hh))
        · exact Or.inr (fun hh => h (hd0.1 hh))
    rw [write_move_error s msg (some arg) ILLMOVE hm hill]
    rfl

/-- C18 (counterexample): in the starting layout with White to move the
grammatical `02 WPa2-a3yBK` declares a promotion to a king and is answered
INVFMT, not ILLMOVE. -/
theorem promotion_in_other_colour_is_format_error :
    start_white.game_on = 1 ∧ start_white.turn = start_white.player_color ∧
    grammar_move_spec "WPa2-a3yBK".data = true ∧
    declared_promotion "WPa2-a3yBK".data = some ('B', 'K') ∧
    (d_write start_white "02 WPa2-a3yBK\n".data).reply = INVFMT := by
  decide

/-! ### The replies of the decoder -/

theorem decode_promotion_error (s : d_data) (len : Nat) (piece : piece_t) (dest : coord_t)
    (take_piece : Int) (piece_opt1 : piece_t) (color_opt type_opt : Char) (r : List Char)
    (h : decode_promotion s len piece dest take_piece piece_opt1 color_opt type_opt = .error r) :
    r = INVFMT ∨ r = ILLMOVE := by
  unfold decode_promotion at h
  cases hk : kind_of_letter type_opt with
  | none =>
    rw [hk] at h
    simp only at h
    split_ifs at h <;> cases h <;> exact Or.inl rfl
  | some t =>
    rw [hk] at h
    simp only at h
    split_ifs at h <;> cases h <;> first | exact Or.inl rfl | exact Or.inr rfl

theorem decode_options_error (s : d_data) (arg : List Char) (piece : piece_t) (dest : coord_t)
    (r : List Char) (h : decode_options s arg piece dest = .error r) :
    r = INVFMT ∨ r = ILLMOVE := by
  unfold decode_options at h
  simp only at h
  by_cases hl : arg.length = 10 ∨ arg.length = 13
  · rw [if_pos hl] at h
    by_cases hx : arg.getD 7 'n' = 'x'
    · rw [if_pos hx] at h
      by_cases hc : arg.getD 8 'n' = s.computer_color
      · rw [if_pos hc] at h
        cases hk : kind_of_letter (arg.getD 9 'n') with
        | none => rw [hk] at h; cases h; exact Or.inl rfl
        | some t1 =>
          rw [hk] at h
          simp only at h
          split_ifs at h <;> exact decode_promotion_error _ _ _ _ _ _ _ _ _ h
      · rw [if_neg hc] at h
        cases h; exact Or.inl rfl
    · rw [if_neg hx] at h
      split_ifs at h
      exact decode_promotion_error _ _ _ _ _ _ _ _ _ h
  · rw [if_neg hl] at h
    cases h

theorem decode_move_error (s : d_data) (arg : Option (List Char)) (r : List Char)
    (h : decode_move s arg = .error r) : r = INVFMT ∨ r = ILLMOVE := by
  unfold decode_move at h
  cases arg with
  | none => cases h; exact Or.inl rfl
  | some arg =>
    simp only at h
    by_cases hl : arg.length < 7
    · rw [if_pos hl] at h; cases h; exact Or.inl rfl
    · rw [if_neg hl] at h
      cases hk : kind_of_letter (arg.getD 1 'n') with
      | none => rw [hk] at h; cases h; exact Or.inl rfl
      | some t =>
        rw [hk] at h
        simp only at h
        by_cases hc : (arg.getD 0 'n' = 'W' ∨ arg.getD 0 'n' = 'B') ∧
            arg.getD 0 'n' = s.player_color
        · rw [if_pos hc] at h
          cases hs : coord_of_letters (arg.getD 2 'n') (arg.getD 3 'n') with
          | none => rw [hs] at h; cases h; exact Or.inl rfl
          | some src =>
            rw [hs] at h
            simp only at h
            by_cases hsep : arg.getD 4 'n' ≠ '-'
            · rw [if_pos hsep] at h; cases h; exact Or.inl rfl
            · rw [if_neg hsep] at h
              cases hd : coord_of_letters (arg.getD 5 'n') (arg.getD 6 'n') with
              | none => rw [hd] at h; cases h; exact Or.inl rfl
              | some dst =>
                rw [hd] at h
                exact decode_options_error _ _ _ _ _ h
        · rw [if_neg hc] at h
          cases h; exact Or.inl rfl

/-! ### What a rejected move leaves -/

theorem mv_apply_rejected_eq (st : d_data) (idx : Int) (prev_c : coord_t)
    (take_piece promote : Int) (oc op : piece_t) (m : coord_t) (r : d_data)
    (h : mv_apply st idx prev_c take_piece promote oc op m = .rejected r) :
    r = wr_square st idx m ∨
    r = wr_alive (wr_square st idx m) (rd_board st (coord_to_sq m)) 0 := by
  unfold mv_apply at h
  simp only [rd_board_wr_square] at h
  split_ifs at h <;> first
    | (injection h with h; exact Or.inl h.symm)
    | (injection h with h; exact Or.inr h.symm)

theorem rolled_back_rejected (s st : d_data) (idx : Int) (prev_c : coord_t)
    (take_piece promote : Int) (oc op : piece_t) (m : coord_t) (r : d_data)
    (hr : rolled_back s st idx)
    (h : mv_apply st idx prev_c take_piece promote oc op m = .rejected r) :
    rolled_back s r idx := by
  obtain ⟨r1, r2, r3, r4⟩ := hr
  rcases mv_apply_rejected_eq st idx prev_c take_piece promote oc op m r h with h | h
  · subst h
    refine ⟨fun k => r1 k, r2, r3, fun k => ⟨?_, ?_, fun hk => ?_⟩⟩
    · rw [rd_figure_wr_square_type, (r4 k).1]
    · rw [rd_figure_wr_square_color, (r4 k).2.1]
    · rw [rd_figure_wr_square, if_neg (fun hh => hk hh.1), (r4 k).2.2 hk]
  · subst h
    refine ⟨fun k => r1 k, r2, r3, fun k => ⟨?_, ?_, fun hk => ?_⟩⟩
    · rw [rd_figure_wr_alive_type, rd_figure_wr_square_type, (r4 k).1]
    · rw [rd_figure_wr_alive_color, rd_figure_wr_square_color, (r4 k).2.1]
    · rw [rd_figure_wr_alive_square, rd_figure_wr_square, if_neg (fun hh => hk hh.1),
        (r4 k).2.2 hk]

theorem move_valid_loop_rejected (s : d_data) (idx : Int) (prev_c dest : coord_t)
    (take_piece promote : Int) (oc op : piece_t) (hi : 0 ≤ idx ∧ idx < 32)
    (hidx : rd_board s (coord_to_sq prev_c) = idx) :
    ∀ (ms : List coord_t) (st : d_data), rolled_back s st idx →
      (move_valid_loop st idx prev_c dest take_piece promote oc op ms).2 = 0 →
      rolled_back s (move_valid_loop st idx prev_c dest take_piece promote oc op ms).1 idx := by
  have h10 : ¬ ((1 : Int) = 0) := by decide
  intro ms
  induction ms with
  | nil => intro st hr _; exact hr
  | cons m ms ih =>
    intro st hr h
    unfold move_valid_loop at h ⊢
    by_cases hm : m.x = dest.x ∧ m.y = dest.y
    · rw [if_pos hm] at h ⊢
      cases ha : mv_apply st idx prev_c take_piece promote oc op m with
      | rejected s1 =>
        exact rolled_back_rejected s st idx prev_c take_piece promote oc op m s1 hr ha
      | applied t =>
        rw [ha] at h
        simp only at h ⊢
        by_cases hc : in_check t.state t.state.player_color = 0
        · rw [if_pos hc] at h
          exact absurd h h10
        · rw [if_neg hc] at h ⊢
          exact ih (undo t idx)
            (rolled_back_undo s st idx prev_c take_piece promote oc op m t hi hidx hr ha) h
    · rw [if_neg hm] at h ⊢
      exact ih st hr h

theorem move_valid_rejected (s : d_data) (piece : piece_t) (dest : coord_t)
    (take_piece promote : Int) (oc op : piece_t)
    (h : (move_valid s piece dest take_piece promote oc op).2 = 0) :
    rolled_back s (move_valid s piece dest take_piece promote oc op).1
      (rd_board s (coord_to_sq piece.square)) := by
  unfold move_valid at h ⊢
  simp only at h ⊢
  by_cases h1 : rd_board s (coord_to_sq piece.square) = -1
  · rw [if_pos h1]
    exact rolled_back_refl s _
  · rw [if_neg h1] at h ⊢
    by_cases h2 : (rd_figure s (rd_board s (coord_to_sq piece.square))).color ≠ piece.color ∨
        (rd_figure s (rd_board s (coord_to_sq piece.square))).type ≠ piece.type ∨
        (rd_figure s (rd_board s (coord_to_sq piece.square))).alive = 0
    · rw [if_pos h2]
      exact rolled_back_refl s _
    · rw [if_neg h2] at h ⊢
      have hal : (rd_figure s (rd_board s (coord_to_sq piece.square))).alive ≠ 0 :=
        fun hh => h2 (Or.inr (Or.inr hh))
      exact move_valid_loop_rejected s _ piece.square dest take_piece promote oc op
        (rd_figure_range s _ hal) rfl (find_move s piece) s (rolled_back_refl s _) h

/-! ### The promotion written as the only option -/

theorem decode_promotion_ok (s : d_data) (len : Nat) (piece : piece_t) (dest : coord_t)
    (take_piece : Int) (piece_opt1 : piece_t) (color_opt type_opt : Char) (a : move_args)
    (hc : s.player_color = 'W' ∨ s.player_color = 'B')
    (h : decode_promotion s len piece dest take_piece piece_opt1 color_opt type_opt = .ok a) :
    a.piece = piece ∧ a.dest = dest ∧ a.take_piece = take_piece ∧ a.promote = 1 ∧
    piece.type = PAWN ∧
    ((s.player_color = 'W' ∧ dest.y = 7) ∨ (s.player_color = 'B' ∧ dest.y = 0)) ∧
    (len = 10 → a.piece_opt2 = no_piece) ∧
    (len = 13 → a.piece_opt1 = piece_opt1 ∧ kind_of_letter type_opt = some a.piece_opt2.type ∧
      a.piece_opt2.type ≠ PAWN ∧ a.piece_opt2.type ≠ KING) := by
  unfold decode_promotion at h
  by_cases h0 : color_opt = s.player_color
  · rw [if_pos h0] at h
    cases hk : kind_of_letter type_opt with
    | none => rw [hk] at h; cases h
    | some t =>
      rw [hk] at h
      simp only at h
      by_cases h1 : piece.type ≠ PAWN
      · rw [if_pos h1] at h; cases h
      · rw [if_neg h1] at h
        by_cases h2 : t = PAWN ∨ t = KING
        · rw [if_pos h2] at h; cases h
        · rw [if_neg h2] at h
          by_cases h3 : s.player_color = 'W' ∧ (piece.square.y ≠ 6 ∨ dest.y ≠ 7)
          · rw [if_pos h3] at h; cases h
          · rw [if_neg h3] at h
            by_cases h4 : s.player_color ≠ 'W' ∧ s.player_color = 'B' ∧
                (piece.square.y ≠ 1 ∨ dest.y ≠ 0)
            · rw [if_pos h4] at h; cases h
            · rw [if_neg h4] at h
              have hp : piece.type = PAWN := not_not.1 h1
              have hrank : (s.player_color = 'W' ∧ dest.y = 7) ∨
                  (s.player_color = 'B' ∧ dest.y = 0) := by
                rcases hc with hc | hc
                · left
                  refine ⟨hc, ?_⟩
                  by_contra hn
                  exact h3 ⟨hc, Or.inr hn⟩
                · right
                  refine ⟨hc, ?_⟩
                  by_contra hn
                  refine h4 ⟨?_, hc, Or.inr hn⟩
                  rw [hc]; decide
              have ht : t ≠ PAWN ∧ t ≠ KING := not_or.1 h2
              by_cases h10 : len = 10
              · rw [if_pos h10] at h
                injection h with h
                subst h
                exact ⟨rfl, rfl, rfl, rfl, hp, hrank, fun _ => rfl,
                  fun hh => absurd (h10.symm.trans hh) (by decide)⟩
              · rw [if_neg h10] at h
                by_cases h13 : len = 13
                · rw [if_pos h13] at h
                  injection h with h
                  subst h
                  exact ⟨rfl, rfl, rfl, rfl, hp, hrank, fun hh => absurd hh h10,
                    fun _ => ⟨rfl, rfl, ht.1, ht.2⟩⟩
                · rw [if_neg h13] at h
                  injection h with h
                  subst h
                  exact ⟨rfl, rfl, rfl, rfl, hp, hrank, fun hh => absurd hh h10,
                    fun hh => absurd hh h13⟩
  · rw [if_neg h0] at h
    cases h

theorem decode_move_short_promotion (s : d_data) (arg : List Char) (a : move_args)
    (hl : arg.length = 10) (hy : arg.getD 7 'n' = 'y')
    (h : decode_move s (some arg) = .ok a) :
    a.promote = 1 ∧ a.piece.type = PAWN ∧ a.piece.color = s.player_color ∧
    a.piece_opt2 = no_piece ∧
    ((s.player_color = 'W' ∧ a.dest.y = 7) ∨ (s.player_color = 'B' ∧ a.dest.y = 0)) := by
  unfold decode_move at h
  simp only at h
  rw [if_neg (by omega)] at h
  cases hk : kind_of_letter (arg.getD 1 'n') with
  | none => rw [hk] at h; cases h
  | some t =>
    rw [hk] at h
    simp only at h
    by_cases hc : (arg.getD 0 'n' = 'W' ∨ arg.getD 0 'n' = 'B') ∧
        arg.getD 0 'n' = s.player_color
    · rw [if_pos hc] at h
      cases hs : coord_of_letters (arg.getD 2 'n') (arg.getD 3 'n') with
      | none => rw [hs] at h; cases h
      | some src =>
        rw [hs] at h
        simp only at h
        by_cases hsep : arg.getD 4 'n' ≠ '-'
        · rw [if_pos hsep] at h; cases h
        · rw [if_neg hsep] at h
          cases hd : coord_of_letters (arg.getD 5 'n') (arg.getD 6 'n') with
          | none => rw [hd] at h; cases h
          | some dst =>
            rw [hd] at h
            simp only at h
            unfold decode_options at h
            simp only at h
            rw [if_pos (Or.inl hl), if_neg (by rw [hy]; decide), if_pos hy] at h
            have hpc : s.player_color = 'W' ∨ s.player_color = 'B' := by
              rw [← hc.2]; exact hc.1
            obtain ⟨e1, e2, _, e4, e5, e6, e7, _⟩ :=
              decode_promotion_ok s arg.length _ dst 0 no_piece _ _ a hpc h
            refine ⟨e4, ?_, ?_, e7 hl, ?_⟩
            · rw [e1]; exact e5
            · rw [e1]; exact hc.2
            · rw [e2]; exact e6
    · rw [if_neg hc] at h
      cases h

/-- C16 (the code breaks it): in every state a `02` command whose argument
has 10 characters with the option marker y, the promotion form of the
grammar, is answered INVFMT, ILLMOVE, NOGAME or OOT, never OK, CHECK or MATE;
when `d_write` decodes it in a game in progress with the player to move the
answer is ILLMOVE; and every record keeps its kind. -/
theorem short_promotion_never_accepted (s : d_data) (msg arg : List Char)
    (hm : tokenize msg = some ("02".data, some arg)) (hl : arg.length = 10)
    (hy : arg.getD 7 'n' = 'y') :
    ((d_write s msg).reply = INVFMT ∨ (d_write s msg).reply = ILLMOVE ∨
      (d_write s msg).reply = NOGAME ∨ (d_write s msg).reply = OOT) ∧
    (d_write s msg).reply ≠ OK ∧ (d_write s msg).reply ≠ CHECK ∧
    (d_write s msg).reply ≠ MATE ∧
    (∀ a : move_args, decode_move s (some arg) = .ok a → s.game_on = 1 →
      s.turn = s.player_color → (d_write s msg).reply = ILLMOVE) ∧
    ∀ k, (rd_figure (d_write s msg) k).type = (rd_figure s k).type := by
  have hne : ∀ r : List Char, (r = INVFMT ∨ r = ILLMOVE ∨ r = NOGAME ∨ r = OOT) →
      r ≠ OK ∧ r ≠ CHECK ∧ r ≠ MATE := by
    intro r hr
    rcases hr with rfl | rfl | rfl | rfl <;> decide
  have hrej : ∀ a : move_args, decode_move s (some arg) = .ok a →
      (move_valid s a.piece a.dest a.take_piece a.promote a.piece_opt1 a.piece_opt2).2 = 0 := by
    intro a hd
    obtain ⟨e1, e2, e3, e4, e5⟩ := decode_move_short_promotion s arg a hl hy hd
    apply move_valid_promotion_rejected s a.piece a.dest a.take_piece a.promote _ _ e2
    · rw [e3]; exact e5
    · right; rw [e4]; rfl
  have hmain : ((d_write s msg).reply = INVFMT ∨ (d_write s msg).reply = ILLMOVE ∨
      (d_write s msg).reply = NOGAME ∨ (d_write s msg).reply = OOT) ∧
      ∀ k, (rd_figure (d_write s msg) k).type = (rd_figure s k).type := by
    cases hd : decode_move s (some arg) with
    | error r =>
      rw [write_move_error s msg (some arg) r hm hd]
      refine ⟨?_, fun k => rfl⟩
      show r = INVFMT ∨ r = ILLMOVE ∨ r = NOGAME ∨ r = OOT
      rcases decode_move_error s (some arg) r hd with h | h
      · exact Or.inl h
      · exact Or.inr (Or.inl h)
    | ok a =>
      rw [write_move s msg (some arg) a hm hd]
      unfold player_move
      by_cases hg : s.game_on = 0
      · rw [if_pos hg]; exact ⟨Or.inr (Or.inr (Or.inl rfl)), fun k => rfl⟩
      · rw [if_neg hg]
        by_cases ht : s.turn ≠ s.player_color
        · rw [if_pos ht]; exact ⟨Or.inr (Or.inr (Or.inr rfl)), fun k => rfl⟩
        · rw [if_neg ht]
          simp only
          rw [if_pos (hrej a hd)]
          refine ⟨Or.inr (Or.inl rfl), fun k => ?_⟩
          exact ((move_valid_rejected s a.piece a.dest a.take_piece a.promote a.piece_opt1
            a.piece_opt2 (hrej a hd)).2.2.2 k).1
  obtain ⟨h1, h2, h3⟩ := hne _ hmain.1
  refine ⟨hmain.1, h1, h2, h3, fun a hd hg ht => ?_, hmain.2⟩
  rw [write_move s msg (some arg) a hm hd, player_move_rejected s a hg ht (hrej a hd)]
  rfl

/-- C11 (the code breaks it): in the game reached by `00 W` and
`phantom_pawn_game` the player is to move and grid slot 52 (e7) holds record
5; the command `02 WPe7-f8xBByWQ` is answered CHECK and puts record 5 on slot
61 (f8) with stored square f8, but slot 52 is not empty afterwards: it holds
index 20. -/
theorem accepted_move_leaves_source_occupied :
    (run init_state ("00 W\n".data :: phantom_pawn_game)).game_on = 1 ∧
    (run init_state ("00 W\n".data :: phantom_pawn_game)).turn =
      (run init_state ("00 W\n".data :: phantom_pawn_game)).player_color ∧
    (run init_state ("00 W\n".data :: phantom_pawn_game)).board 52 = 5 ∧
    (d_write (run init_state ("00 W\n".data :: phantom_pawn_game)) phantom_capture).reply =
      CHECK ∧
    (d_write (run init_state ("00 W\n".data :: phantom_pawn_game)) phantom_capture).board 61 =
      5 ∧
    ((d_write (run init_state ("00 W\n".data :: phantom_pawn_game)) phantom_capture).figures
      5).square = ⟨5, 7⟩ ∧
    (d_write (run init_state ("00 W\n".data :: phantom_pawn_game)) phantom_capture).board 52 =
      20 := by
  rw [run_cons, new_game_white_eq]
  obtain ⟨h1, h2, _, _, _, _, h7, h8, h9, h10, h11⟩ := phantom_facts
  exact ⟨h1, h2, h9, h7, h10, h11, h8⟩

set_option maxRecDepth 100000 in
theorem scenario_one_all_files :
    ∀ f ∈ files,
      (d_write start_white (pawn_push f)).reply = OK ∧
      (((d_write (d_write start_white (pawn_push f)) "01\n".data).reply.drop
        (2 * (8 + (f.toNat - 97)))).take 2 = "**".data) ∧
      (((d_write (d_write start_white (pawn_push f)) "01\n".data).reply.drop
        (2 * (24 + (f.toNat - 97)))).take 2 = "WP".data) := by
  decide!

theorem accepted_move_effect (s : d_data) (a : move_args) (hg : s.game_on = 1)
    (ht : s.turn = s.player_color)
    (hv : (move_valid s a.piece a.dest a.take_piece a.promote a.piece_opt1 a.piece_opt2).2 = 1)
    (hr : (player_move s a).reply = OK ∨
      (well_formed
          (move_valid s a.piece a.dest a.take_piece a.promote a.piece_opt1 a.piece_opt2).1 ∧
        grid_agrees
          (move_valid s a.piece a.dest a.take_piece a.promote a.piece_opt1 a.piece_opt2).1)) :
    rd_board (player_move s a) (coord_to_sq a.piece.square) = -1 ∧
    rd_board (player_move s a) (coord_to_sq a.dest) =
      rd_board s (coord_to_sq a.piece.square) ∧
    (rd_figure (player_move s a) (rd_board s (coord_to_sq a.piece.square))).square = a.dest ∧
    ∀ k, k ≠ coord_to_sq a.piece.square → k ≠ coord_to_sq a.dest →
      rd_board (player_move s a) k = rd_board s k := by
  have hpos : same_position
      (move_valid s a.piece a.dest a.take_piece a.promote a.piece_opt1 a.piece_opt2).1
      (player_move s a) := by
    rcases hr with hr | hr
    · rw [player_move_accepted s a hg ht hv] at hr ⊢
      obtain ⟨_, _, _, h4, _, _, _, _, h9, _⟩ :=
        evaluate_spec
          (move_valid s a.piece a.dest a.take_piece a.promote a.piece_opt1 a.piece_opt2).1
          { (move_valid s a.piece a.dest a.take_piece a.promote a.piece_opt1 a.piece_opt2).1 with
            turn := s.computer_color } s.computer_color
      exact h9 (h4.1 hr)
    · exact (accepted_move_outcome s a hg ht hv).2.2.2.2.2.2 hr.1 hr.2
  obtain ⟨_, hmem, a1, a4, _, _, _⟩ :=
    move_valid_accepted s a.piece a.dest a.take_piece a.promote a.piece_opt1 a.piece_opt2 hv
  obtain ⟨c1, c2, c3⟩ := candidate_square_ne s a.piece a.dest hmem
  have hb : ∀ k, rd_board (player_move s a) k =
      rd_board (move_valid s a.piece a.dest a.take_piece a.promote a.piece_opt1 a.piece_opt2).1
        k := by
    intro k
    unfold rd_board
    rw [hpos.1]
  have hf : ∀ k, rd_figure (player_move s a) k =
      rd_figure (move_valid s a.piece a.dest a.take_piece a.promote a.piece_opt1 a.piece_opt2).1
        k := by
    intro k
    unfold rd_figure
    rw [hpos.2]
  refine ⟨?_, ?_, ?_, fun k h1 h2 => ?_⟩
  · rw [hb, a1]
    by_cases hin : 0 ≤ coord_to_sq a.piece.square ∧ coord_to_sq a.piece.square < 64
    · rw [if_pos ⟨rfl, hin⟩]
    · rw [if_neg (fun hh => hin hh.2), if_neg (fun hh => hin hh.2)]
      unfold rd_board
      rw [dif_neg hin]
  · rw [hb, a1, if_neg (fun hh => c3 hh.1), if_pos ⟨rfl, c1, c2⟩]
  · rw [hf, a4]
  · rw [hb, a1, if_neg (fun hh => h1 hh.1), if_neg (fun hh => h2 hh.1)]

/-! ### The step pieces -/

theorem mem_keep_move_iff (s : d_data) (color : Char) (c t : coord_t) :
    t ∈ keep_move s color c ↔ t = c ∧ may_land s color c := by
  unfold keep_move verify_move_helper may_land
  simp only
  by_cases hq : coord_to_sq c ≠ -1
  · rw [if_pos hq]
    by_cases ho : rd_board s (coord_to_sq c) = -1 ∨
        (rd_figure s (rd_board s (coord_to_sq c))).color ≠ color
    · rw [if_pos ho, if_pos rfl]
      simp only [List.mem_singleton]
      exact ⟨fun h => ⟨h, hq, ho⟩, fun h => h.1⟩
    · rw [if_neg ho, if_neg (by decide)]
      simp only [List.not_mem_nil, false_iff]
      exact fun h => ho h.2.2
  · rw [if_neg hq, if_neg (by decide)]
    simp only [List.not_mem_nil, false_iff]
    exact fun h => hq h.2.1

theorem coord_mk_eq (t : coord_t) (x y : Int) : t = ⟨x, y⟩ ↔ t.x = x ∧ t.y = y := by
  cases t
  simp

/-- C30: a square is among the candidates of a knight iff it is the square of
the piece plus an L-shaped offset, on the board, and empty or occupied by a
piece of another colour; the same for a king with the offsets to the eight
adjacent squares; `find_move` returns these lists for the kinds knight and
king, so nothing else filters them. -/
theorem step_piece_filter (s : d_data) (piece : piece_t) (t : coord_t) :
    (t ∈ knight_helper s piece ↔
      l_shaped (t.x - piece.square.x) (t.y - piece.square.y) ∧ may_land s piece.color t) ∧
    (t ∈ king_helper s piece ↔
      adjacent (t.x - piece.square.x) (t.y - piece.square.y) ∧ may_land s piece.color t) ∧
    (piece.type = KNIGHT → find_move s piece = knight_helper s piece) ∧
    (piece.type = KING → find_move s piece = king_helper s piece) := by
  refine ⟨?_, ?_, ?_, ?_⟩
  · unfold knight_helper l_shaped
    simp only [List.mem_append, mem_keep_move_iff, coord_mk_eq]
    constructor
    · rintro (((((((⟨⟨h1, h2⟩, h3⟩ | ⟨⟨h1, h2⟩, h3⟩) | ⟨⟨h1, h2⟩, h3⟩) | ⟨⟨h1, h2⟩, h3⟩) |
        ⟨⟨h1, h2⟩, h3⟩) | ⟨⟨h1, h2⟩, h3⟩) | ⟨⟨h1, h2⟩, h3⟩) | ⟨⟨h1, h2⟩, h3⟩) <;>
      · have ht : t = ⟨t.x, t.y⟩ := rfl
        rw [← h1, ← h2, ← ht] at h3
        exact ⟨by omega, h3⟩
    · rintro ⟨hl, hm⟩
      have ht : ∀ x y : Int, t.x = x → t.y = y → may_land s piece.color ⟨x, y⟩ := by
        intro x y hx hy
        rw [← hx, ← hy]
        exact hm
      rcases hl with ⟨h1 | h1, h2 | h2⟩ | ⟨h1 | h1, h2 | h2⟩
      · have hx : t.x = piece.square.x + 1 := by omega
        have hy : t.y = piece.square.y + 2 := by omega
        exact Or.inl (Or.inl (Or.inl (Or.inl (Or.inl (Or.inr ⟨⟨hx, hy⟩, ht _ _ hx hy⟩)))))
      · have hx : t.x = piece.square.x + 1 := by omega
        have hy : t.y = piece.square.y - 2 := by omega
        exact Or.inl (Or.inl (Or.inl (Or.inl (Or.inr ⟨⟨hx, hy⟩, ht _ _ hx hy⟩))))
      · have hx : t.x = piece.square.x - 1 := by omega
        have hy : t.y = piece.square.y + 2 := by omega
        exact Or.inl (Or.inl (Or.inl (Or.inl (Or.inl (Or.inl (Or.inr
          ⟨⟨hx, hy⟩, ht _ _ hx hy⟩))))))
      · have hx : t.x = piece.square.x - 1 := by omega
        have hy : t.y = piece.square.y - 2 := by omega
        exact Or.inl (Or.inl (Or.inl (Or.inl (Or.inl (Or.inl (Or.inl
          ⟨⟨hx, hy⟩, ht _ _ hx hy⟩))))))
      · have hx : t.x = piece.square.x + 2 := by omega
        have hy : t.y = piece.square.y + 1 := by omega
        exact Or.inl (Or.inl (Or.inr ⟨⟨hx, hy⟩, ht _ _ hx hy⟩))
      · have hx : t.x = piece.square.x + 2 := by omega
        have hy : t.y = piece.square.y - 1 := by omega
        exact Or.inl (Or.inl (Or.inl (Or.inr ⟨⟨hx, hy⟩, ht _ _ hx hy⟩)))
      · have hx : t.x = piece.square.x - 2 := by omega
        have hy : t.y = piece.square.y + 1 := by omega
        exact Or.inl (Or.inr ⟨⟨hx, hy⟩, ht _ _ hx hy⟩)
      · have hx : t.x = piece.square.x - 2 := by omega
        have hy : t.y = piece.square.y - 1 := by omega
        exact Or.inr ⟨⟨hx, hy⟩, ht _ _ hx hy⟩
  · unfold king_helper adjacent
    simp only [List.mem_append, mem_keep_move_iff, coord_mk_eq]
    constructor
    · rintro (((((((⟨⟨h1, h2⟩, h3⟩ | ⟨⟨h1, h2⟩, h3⟩) | ⟨⟨h1, h2⟩, h3⟩) | ⟨⟨h1, h2⟩, h3⟩) |
        ⟨⟨h1, h2⟩, h3⟩) | ⟨⟨h1, h2⟩, h3⟩) | ⟨⟨h1, h2⟩, h3⟩) | ⟨⟨h1, h2⟩, h3⟩) <;>
      · have ht : t = ⟨t.x, t.y⟩ := rfl
        rw [← h1, ← h2, ← ht] at h3
        exact ⟨⟨by omega, by omega, by omega⟩, h3⟩
    · rintro ⟨⟨hx, hy, hn⟩, hm⟩
      have ht : ∀ x y : Int, t.x = x → t.y = y → may_land s piece.color ⟨x, y⟩ := by
        intro x y hx hy
        rw [← hx, ← hy]
        exact hm
      have key : ∀ a b : Int, t.x - piece.square.x = a → t.y - piece.square.y = b →
          (t.x = piece.square.x + a ∧ t.y = piece.square.y + b) := by
        intro a b h1 h2; constructor <;> omega
      rcases hx with hx | hx | hx <;> rcases hy with hy | hy | hy
      · have h1 : t.x = piece.square.x - 1 := by omega
        have h2 : t.y = piece.square.y - 1 := by omega
        exact Or.inl (Or.inl (Or.inr ⟨⟨h1, h2⟩, ht _ _ h1 h2⟩))
      · have h1 : t.x = piece.square.x - 1 := by omega
        have h2 : t.y = piece.square.y := by omega
        exact Or.inl (Or.inl (Or.inl (Or.inl (Or.inl (Or.inl (Or.inr
          ⟨⟨h1, h2⟩, ht _ _ h1 h2⟩))))))
      · have h1 : t.x = piece.square.x - 1 := by omega
        have h2 : t.y = piece.square.y + 1 := by omega
        exact Or.inr ⟨⟨h1, h2⟩, ht _ _ h1 h2⟩
      · have h1 : t.x = piece.square.x := by omega
        have h2 : t.y = piece.square.y - 1 := by omega
        exact Or.inl (Or.inl (Or.inl (Or.inl (Or.inr ⟨⟨h1, h2⟩, ht _ _ h1 h2⟩))))
      · exfalso; omega
      · have h1 : t.x = piece.square.x := by omega
        have h2 : t.y = piece.square.y + 1 := by omega
        exact Or.inl (Or.inl (Or.inl (Or.inl (Or.inl (Or.inr ⟨⟨h1, h2⟩, ht _ _ h1 h2⟩)))))
      · have h1 : t.x = piece.square.x + 1 := by omega
        have h2 : t.y = piece.square.y - 1 := by omega
        exact Or.inl (Or.inr ⟨⟨h1, h2⟩, ht _ _ h1 h2⟩)
      · have h1 : t.x = piece.square.x + 1 := by omega
        have h2 : t.y = piece.square.y := by omega
        exact Or.inl (Or.inl (Or.inl (Or.inl (Or.inl (Or.inl (Or.inl
          ⟨⟨h1, h2⟩, ht _ _ h1 h2⟩))))))
      · have h1 : t.x = piece.square.x + 1 := by omega
        have h2 : t.y = piece.square.y + 1 := by omega
        exact Or.inl (Or.inl (Or.inl (Or.inr ⟨⟨h1, h2⟩, ht _ _ h1 h2⟩)))
  · intro h
    unfold find_move
    rw [if_neg (by rw [h]; decide), if_neg (by rw [h]; decide), if_pos h]
  · intro h
    unfold find_move
    rw [if_neg (by rw [h]; decide), if_neg (by rw [h]; decide), if_neg (by rw [h]; decide),
      if_neg (by rw [h]; decide), if_neg (by rw [h]; decide)]

/-! ### The rays of rook, bishop and queen -/

theorem coord_to_sq_on_board (c : coord_t) :
    coord_to_sq c ≠ -1 ↔ 0 ≤ c.x ∧ c.x ≤ 7 ∧ 0 ≤ c.y ∧ c.y ≤ 7 := by
  unfold coord_to_sq
  constructor
  · intro h
    by_contra hn
    rw [if_pos (by omega)] at h
    exact h rfl
  · intro h
    rw [if_neg (by omega)]
    omega

theorem ray_length_le (s : d_data) (color : Char) (dx dy : Int) (f : coord_t → Int)
    (hf : ∀ c : coord_t, coord_to_sq ⟨c.x + dx, c.y + dy⟩ ≠ -1 →
      f ⟨c.x + dx, c.y + dy⟩ + 1 ≤ f c ∧ 0 ≤ f ⟨c.x + dx, c.y + dy⟩) :
    ∀ (fuel : Nat) (c : coord_t), 0 ≤ f c →
      ((ray s color dx dy fuel c).length : Int) ≤ f c := by
  intro fuel
  induction fuel with
  | zero => intro c h; simpa [ray] using h
  | succ fuel ih =>
    intro c h
    unfold ray
    simp only
    by_cases hq : coord_to_sq ⟨c.x + dx, c.y + dy⟩ = -1
    · rw [if_pos hq]; simpa using h
    · rw [if_neg hq]
      obtain ⟨h1, h2⟩ := hf c hq
      by_cases he : rd_board s (coord_to_sq ⟨c.x + dx, c.y + dy⟩) = -1
      · rw [if_pos he]
        have := ih ⟨c.x + dx, c.y + dy⟩ h2
        simp only [List.length_cons, Nat.cast_add, Nat.cast_one]
        omega
      · rw [if_neg he]
        split
        · simp only [List.length_singleton, Nat.cast_one]; omega
        · simpa using h

theorem ray_length_empty (s : d_data) (color : Char) (dx dy : Int) (f : coord_t → Int)
    (inv : coord_t → Prop)
    (hstep : ∀ c : coord_t, inv c → 0 ≤ f c ∧
      (f c = 0 → coord_to_sq ⟨c.x + dx, c.y + dy⟩ = -1) ∧
      (1 ≤ f c → coord_to_sq ⟨c.x + dx, c.y + dy⟩ ≠ -1 ∧
        rd_board s (coord_to_sq ⟨c.x + dx, c.y + dy⟩) = -1 ∧ inv ⟨c.x + dx, c.y + dy⟩ ∧
        f ⟨c.x + dx, c.y + dy⟩ = f c - 1)) :
    ∀ (fuel : Nat) (c : coord_t), inv c → f c ≤ fuel →
      ((ray s color dx dy fuel c).length : Int) = f c := by
  intro fuel
  induction fuel with
  | zero =>
    intro c hi hfu
    have := (hstep c hi).1
    simp only [ray, List.length_nil, Nat.cast_zero]
    simp only [Nat.cast_zero] at hfu
    omega
  | succ fuel ih =>
    intro c hi hfu
    obtain ⟨h0, hz, hp⟩ := hstep c hi
    unfold ray
    simp only
    by_cases hf0 : f c = 0
    · rw [if_pos (hz hf0)]
      simp only [List.length_nil, Nat.cast_zero]
      omega
    · obtain ⟨p1, p2, p3, p4⟩ := hp (by omega)
      rw [if_neg p1, if_pos p2]
      have := ih ⟨c.x + dx, c.y + dy⟩ p3 (by rw [p4]; push_cast at hfu; omega)
      simp only [List.length_cons, Nat.cast_add, Nat.cast_one]
      omega

theorem mem_ray_iff (s : d_data) (color : Char) (dx dy : Int) :
    ∀ (fuel : Nat) (c m : coord_t),
      m ∈ ray s color dx dy fuel c ↔
        ∃ k : Nat, 1 ≤ k ∧ k ≤ fuel ∧ m.x = c.x + k * dx ∧ m.y = c.y + k * dy ∧
          (∀ j : Nat, 1 ≤ j → j < k → empty_at s ⟨c.x + j * dx, c.y + j * dy⟩) ∧
          may_land s color m := by
  intro fuel
  induction fuel with
  | zero =>
    intro c m
    simp only [ray, List.not_mem_nil, false_iff]
    rintro ⟨k, h1, h2, _⟩
    omega
  | succ fuel ih =>
    intro c m
    have hone : ∀ k : Nat, k = 1 → m.x = c.x + k * dx → m.y = c.y + k * dy →
        m = ⟨c.x + dx, c.y + dy⟩ := by
      intro k hk hx hy
      subst hk
      rw [coord_mk_eq]
      simp only [Nat.cast_one, one_mul] at hx hy
      exact ⟨hx, hy⟩
    have hfirst : ∀ k : Nat, 2 ≤ k →
        (∀ j : Nat, 1 ≤ j → j < k → empty_at s ⟨c.x + j * dx, c.y + j * dy⟩) →
        empty_at s ⟨c.x + dx, c.y + dy⟩ := by
      intro k hk h
      have := h 1 (le_refl _) (by omega)
      simpa using this
    unfold ray
    simp only
    by_cases hq : coord_to_sq ⟨c.x + dx, c.y + dy⟩ = -1
    · rw [if_pos hq]
      simp only [List.not_mem_nil, false_iff]
      rintro ⟨k, h1, h2, hx, hy, hem, hl⟩
      by_cases hk : k = 1
      · have := hone k hk hx hy
        rw [this] at hl
        exact hl.1 hq
      · exact (hfirst k (by omega) hem).1 hq
    · rw [if_neg hq]
      by_cases he : rd_board s (coord_to_sq ⟨c.x + dx, c.y + dy⟩) = -1
      · rw [if_pos he, List.mem_cons, ih]
        constructor
        · rintro (h | ⟨k, h1, h2, hx, hy, hem, hl⟩)
          · refine ⟨1, le_refl _, by omega, ?_, ?_, fun j h1 h2 => by omega, ?_⟩
            · rw [h]; simp
            · rw [h]; simp
            · rw [h]; exact ⟨hq, Or.inl he⟩
          · refine ⟨k + 1, by omega, by omega, ?_, ?_, fun j h1 h2 => ?_, hl⟩
            · rw [hx]; push_cast; ring
            · rw [hy]; push_cast; ring
            · by_cases hj : j = 1
              · subst hj
                simpa using (⟨hq, he⟩ : empty_at s ⟨c.x + dx, c.y + dy⟩)
              · have := hem (j - 1) (by omega) (by omega)
                have hcast : ((j - 1 : Nat) : Int) = (j : Int) - 1 := by omega
                rw [hcast] at this
                have e1 : c.x + dx + ((j : Int) - 1) * dx = c.x + j * dx := by ring
                have e2 : c.y + dy + ((j : Int) - 1) * dy = c.y + j * dy := by ring
                simp only at this
                rw [e1, e2] at this
                exact this
        · rintro ⟨k, h1, h2, hx, hy, hem, hl⟩
          by_cases hk : k = 1
          · exact Or.inl (hone k hk hx hy)
          · right
            refine ⟨k - 1, by omega, by omega, ?_, ?_, fun j h1 h2 => ?_, hl⟩
            · have hcast : ((k - 1 : Nat) : Int) = (k : Int) - 1 := by omega
              rw [hx, hcast]; simp only; ring
            · have hcast : ((k - 1 : Nat) : Int) = (k : Int) - 1 := by omega
              rw [hy, hcast]; simp only; ring
            · have := hem (j + 1) (by omega) (by omega)
              have e1 : c.x + ((j + 1 : Nat) : Int) * dx = c.x + dx + j * dx := by
                push_cast; ring
              have e2 : c.y + ((j + 1 : Nat) : Int) * dy = c.y + dy + j * dy := by
                push_cast; ring
              rw [e1, e2] at this
              exact this
      · rw [if_neg he]
        by_cases hcol : (rd_figure s (rd_board s (coord_to_sq ⟨c.x + dx, c.y + dy⟩))).color ≠
            color
        · rw [if_pos hcol, List.mem_singleton]
          constructor
          · intro h
            refine ⟨1, le_refl _, by omega, ?_, ?_, fun j h1 h2 => by omega, ?_⟩
            · rw [h]; simp
            · rw [h]; simp
            · rw [h]; exact ⟨hq, Or.inr hcol⟩
          · rintro ⟨k, h1, h2, hx, hy, hem, hl⟩
            by_cases hk : k = 1
            · exact hone k hk hx hy
            · exact absurd (hfirst k (by omega) hem).2 he
        · rw [if_neg hcol]
          simp only [List.not_mem_nil, false_iff]
          rintro ⟨k, h1, h2, hx, hy, hem, hl⟩
          by_cases hk : k = 1
          · have := hone k hk hx hy
            rw [this] at hl
            rcases hl.2 with h | h
            · exact he h
            · exact hcol h
          · exact absurd (hfirst k (by omega) hem).2 he

theorem mem_ray_slides (s : d_data) (color : Char) (dx dy : Int) (c t : coord_t)
    (hx : dx = -1 ∨ dx = 0 ∨ dx = 1) (hy : dy = -1 ∨ dy = 0 ∨ dy = 1) (hn : dx ≠ 0 ∨ dy ≠ 0)
    (hb : coord_to_sq c ≠ -1) :
    t ∈ ray s color dx dy 8 c ↔ slides_to s color c (dx, dy) t := by
  rw [coord_to_sq_on_board] at hb
  rw [mem_ray_iff]
  unfold slides_to
  simp only
  constructor
  · rintro ⟨k, h1, _, h3, h4, h5, h6⟩
    exact ⟨k, h1, h3, h4, fun j hj1 hj2 => (h5 j hj1 hj2).2, h6⟩
  · rintro ⟨k, h1, h3, h4, h5, h6⟩
    have ht := (coord_to_sq_on_board t).1 h6.1
    rw [h3, h4] at ht
    have hk : k ≤ 8 := by
      rcases hx with hx | hx | hx <;> rcases hy with hy | hy | hy <;> subst hx <;> subst hy <;>
        simp only [mul_neg, mul_one, mul_zero, add_zero, ne_eq, not_true_eq_false,
          or_self] at ht hn <;> omega
    refine ⟨k, h1, hk, h3, h4, fun j hj1 hj2 => ⟨?_, h5 j hj1 hj2⟩, h6⟩
    rw [coord_to_sq_on_board]
    simp only
    rcases hx with hx | hx | hx <;> rcases hy with hy | hy | hy <;> subst hx <;> subst hy <;>
      simp only [mul_neg, mul_one, mul_zero, add_zero, ne_eq, not_true_eq_false,
        or_self] at ht hn ⊢ <;> omega

/-- C29: for a piece on an on-board square, a square is a rook candidate iff
it slides to it along one of the four axis directions (on the ray, the
squares strictly between empty, the square itself on the board and empty or
occupied by another colour), a bishop candidate iff it does so along one of
the four diagonals; `find_move` returns the rook list for a rook, the bishop
list for a bishop, and for a queen the rook candidates followed by the bishop
candidates. -/
theorem sliding_piece_rays (s : d_data) (piece : piece_t) (t : coord_t)
    (hb : coord_to_sq piece.square ≠ -1) :
    (t ∈ rook_helper s piece ↔
      ∃ d ∈ rook_directions, slides_to s piece.color piece.square d t) ∧
    (t ∈ bishop_helper s piece ↔
      ∃ d ∈ bishop_directions, slides_to s piece.color piece.square d t) ∧
    (piece.type = ROOK → find_move s piece = rook_helper s piece) ∧
    (piece.type = BISHOP → find_move s piece = bishop_helper s piece) ∧
    (piece.type = QUEEN → find_move s piece = rook_helper s piece ++ bishop_helper s piece) := by
  have h0 : ¬ ((0 : Int) ≠ 0) := by decide
  refine ⟨?_, ?_, ?_, ?_, ?_⟩
  · unfold rook_helper rook_directions
    simp only [List.mem_append, List.mem_cons, List.mem_singleton, List.not_mem_nil, or_false,
      exists_eq_or_imp, exists_eq_left]
    rw [mem_ray_slides s _ 1 0 _ _ (by decide) (by decide) (by decide) hb,
      mem_ray_slides s _ (-1) 0 _ _ (by decide) (by decide) (by decide) hb,
      mem_ray_slides s _ 0 1 _ _ (by decide) (by decide) (by decide) hb,
      mem_ray_slides s _ 0 (-1) _ _ (by decide) (by decide) (by decide) hb]
    tauto
  · unfold bishop_helper bishop_directions
    simp only [List.mem_append, List.mem_cons, List.mem_singleton, List.not_mem_nil, or_false,
      exists_eq_or_imp, exists_eq_left]
    rw [mem_ray_slides s _ 1 1 _ _ (by decide) (by decide) (by decide) hb,
      mem_ray_slides s _ 1 (-1) _ _ (by decide) (by decide) (by decide) hb,
      mem_ray_slides s _ (-1) 1 _ _ (by decide) (by decide) (by decide) hb,
      mem_ray_slides s _ (-1) (-1) _ _ (by decide) (by decide) (by decide) hb]
    tauto
  · intro h
    unfold find_move
    rw [if_neg (by rw [h]; decide), if_pos h]
  · intro h
    unfold find_move
    rw [if_neg (by rw [h]; decide), if_neg (by rw [h]; decide), if_neg (by rw [h]; decide),
      if_pos h]
  · intro h
    unfold find_move queen_helper
    rw [if_neg (by rw [h]; decide), if_neg (by rw [h]; decide), if_neg (by rw [h]; decide),
      if_neg (by rw [h]; decide), if_pos h]

/-! ### The number of candidates -/

theorem ray_fuel_irrelevant (s : d_data) (color : Char) (dx dy : Int) (f : coord_t → Int)
    (hf : ∀ c : coord_t, coord_to_sq ⟨c.x + dx, c.y + dy⟩ ≠ -1 →
      f ⟨c.x + dx, c.y + dy⟩ + 1 ≤ f c ∧ 0 ≤ f ⟨c.x + dx, c.y + dy⟩) :
    ∀ (n m : Nat) (c : coord_t), f c ≤ n → n ≤ m →
      ray s color dx dy m c = ray s color dx dy n c := by
  intro n
  induction n with
  | zero =>
    intro m c h _
    cases m with
    | zero => rfl
    | succ m =>
      unfold ray
      simp only
      by_cases hq : coord_to_sq ⟨c.x + dx, c.y + dy⟩ = -1
      · rw [if_pos hq]
      · have := hf c hq
        simp only [Nat.cast_zero] at h
        omega
  | succ n ih =>
    intro m c h hm
    cases m with
    | zero => omega
    | succ m =>
      unfold ray
      simp only
      by_cases hq : coord_to_sq ⟨c.x + dx, c.y + dy⟩ = -1
      · rw [if_pos hq, if_pos hq]
      · rw [if_neg hq, if_neg hq]
        have hc := hf c hq
        rw [ih m ⟨c.x + dx, c.y + dy⟩ (by push_cast at h; omega) (by omega)]

theorem ray_fuel_enough (s : d_data) (color : Char) (dx dy : Int) (c : coord_t) (fuel : Nat)
    (hx : dx = -1 ∨ dx = 0 ∨ dx = 1) (hy : dy = -1 ∨ dy = 0 ∨ dy = 1) (hn : dx ≠ 0 ∨ dy ≠ 0)
    (hb : coord_to_sq c ≠ -1) (hfuel : 8 ≤ fuel) :
    ray s color dx dy fuel c = ray s color dx dy 8 c := by
  rw [coord_to_sq_on_board] at hb
  rcases hx with hx | hx | hx
  · subst hx
    apply ray_fuel_irrelevant s color (-1) dy (fun c => c.x) _ 8 fuel c _ hfuel
    · intro c h
      rw [coord_to_sq_on_board] at h
      simp only at h ⊢
      omega
    · simp only; omega
  · subst hx
    rcases hy with hy | hy | hy
    · subst hy
      apply ray_fuel_irrelevant s color 0 (-1) (fun c => c.y) _ 8 fuel c _ hfuel
      · intro c h
        rw [coord_to_sq_on_board] at h
        simp only at h ⊢
        omega
      · simp only; omega
    · subst hy
      simp at hn
    · subst hy
      apply ray_fuel_irrelevant s color 0 1 (fun c => 7 - c.y) _ 8 fuel c _ hfuel
      · intro c h
        rw [coord_to_sq_on_board] at h
        simp only at h ⊢
        omega
      · simp only; omega
  · subst hx
    apply ray_fuel_irrelevant s color 1 dy (fun c => 7 - c.x) _ 8 fuel c _ hfuel
    · intro c h
      rw [coord_to_sq_on_board] at h
      simp only at h ⊢
      omega
    · simp only; omega

theorem ray_length_right (s : d_data) (color : Char) (dy : Int) (c : coord_t)
    (hb : coord_to_sq c ≠ -1) : ((ray s color 1 dy 8 c).length : Int) ≤ 7 - c.x := by
  rw [coord_to_sq_on_board] at hb
  apply ray_length_le s color 1 dy (fun c => 7 - c.x)
  · intro c h
    rw [coord_to_sq_on_board] at h
    simp only at h ⊢
    omega
  · show (0 : Int) ≤ _
    omega

theorem ray_length_left (s : d_data) (color : Char) (dy : Int) (c : coord_t)
    (hb : coord_to_sq c ≠ -1) : ((ray s color (-1) dy 8 c).length : Int) ≤ c.x := by
  rw [coord_to_sq_on_board] at hb
  apply ray_length_le s color (-1) dy (fun c => c.x)
  · intro c h
    rw [coord_to_sq_on_board] at h
    simp only at h ⊢
    omega
  · show (0 : Int) ≤ _
    omega

theorem ray_length_up (s : d_data) (color : Char) (c : coord_t)
    (hb : coord_to_sq c ≠ -1) : ((ray s color 0 1 8 c).length : Int) ≤ 7 - c.y := by
  rw [coord_to_sq_on_board] at hb
  apply ray_length_le s color 0 1 (fun c => 7 - c.y)
  · intro c h
    rw [coord_to_sq_on_board] at h
    simp only at h ⊢
    omega
  · show (0 : Int) ≤ _
    omega

theorem ray_length_down (s : d_data) (color : Char) (c : coord_t)
    (hb : coord_to_sq c ≠ -1) : ((ray s color 0 (-1) 8 c).length : Int) ≤ c.y := by
  rw [coord_to_sq_on_board] at hb
  apply ray_length_le s color 0 (-1) (fun c => c.y)
  · intro c h
    rw [coord_to_sq_on_board] at h
    simp only at h ⊢
    omega
  · show (0 : Int) ≤ _
    omega

theorem rook_helper_length (s : d_data) (piece : piece_t)
    (hb : coord_to_sq piece.square ≠ -1) : (rook_helper s piece).length ≤ 14 := by
  have h1 := ray_length_right s piece.color 0 piece.square hb
  have h2 := ray_length_left s piece.color 0 piece.square hb
  have h3 := ray_length_up s piece.color piece.square hb
  have h4 := ray_length_down s piece.color piece.square hb
  unfold rook_helper
  simp only [List.length_append]
  omega

theorem bishop_helper_length (s : d_data) (piece : piece_t)
    (hb : coord_to_sq piece.square ≠ -1) : (bishop_helper s piece).length ≤ 14 := by
  have h1 := ray_length_right s piece.color 1 piece.square hb
  have h2 := ray_length_right s piece.color (-1) piece.square hb
  have h3 := ray_length_left s piece.color 1 piece.square hb
  have h4 := ray_length_left s piece.color (-1) piece.square hb
  unfold bishop_helper
  simp only [List.length_append]
  omega

theorem keep_move_length (s : d_data) (color : Char) (c : coord_t) :
    (keep_move s color c).length ≤ 1 := by
  unfold keep_move
  split <;> simp

theorem ite_single_length (p : Prop) [Decidable p] (c : coord_t) :
    (if p then [c] else []).length ≤ 1 := by
  split <;> simp

theorem pawn_helper_length (s : d_data) (piece : piece_t) :
    (pawn_helper s piece).length ≤ 4 := by
  unfold pawn_helper
  simp only [List.length_append]
  split_ifs <;> simp

theorem knight_helper_length (s : d_data) (piece : piece_t) :
    (knight_helper s piece).length ≤ 8 := by
  unfold knight_helper
  simp only [List.length_append]
  have h := keep_move_length s piece.color
  have h1 := h ⟨piece.square.x - 1, piece.square.y - 2⟩
  have h2 := h ⟨piece.square.x - 1, piece.square.y + 2⟩
  have h3 := h ⟨piece.square.x + 1, piece.square.y + 2⟩
  have h4 := h ⟨piece.square.x + 1, piece.square.y - 2⟩
  have h5 := h ⟨piece.square.x + 2, piece.square.y - 1⟩
  have h6 := h ⟨piece.square.x + 2, piece.square.y + 1⟩
  have h7 := h ⟨piece.square.x - 2, piece.square.y + 1⟩
  have h8 := h ⟨piece.square.x - 2, piece.square.y - 1⟩
  omega

theorem king_helper_length (s : d_data) (piece : piece_t) :
    (king_helper s piece).length ≤ 8 := by
  unfold king_helper
  simp only [List.length_append]
  have h := keep_move_length s piece.color
  have h1 := h ⟨piece.square.x + 1, piece.square.y⟩
  have h2 := h ⟨piece.square.x - 1, piece.square.y⟩
  have h3 := h ⟨piece.square.x, piece.square.y + 1⟩
  have h4 := h ⟨piece.square.x, piece.square.y - 1⟩
  have h5 := h ⟨piece.square.x + 1, piece.square.y + 1⟩
  have h6 := h ⟨piece.square.x - 1, piece.square.y - 1⟩
  have h7 := h ⟨piece.square.x + 1, piece.square.y - 1⟩
  have h8 := h ⟨piece.square.x - 1, piece.square.y + 1⟩
  omega

/-- C21: for every board and every piece on an on-board square, `find_move`
returns at most 28 candidates, so at most the 32 that the buffer holds. -/
theorem candidate_count_bound (s : d_data) (piece : piece_t)
    (hb : coord_to_sq piece.square ≠ -1) :
    (find_move s piece).length ≤ 28 ∧ (find_move s piece).length ≤ 32 := by
  have h : (find_move s piece).length ≤ 28 := by
    have h1 := pawn_helper_length s piece
    have h2 := rook_helper_length s piece hb
    have h3 := knight_helper_length s piece
    have h4 := bishop_helper_length s piece hb
    have h5 := king_helper_length s piece
    unfold find_move queen_helper
    split_ifs
    · omega
    · omega
    · omega
    · omega
    · rw [List.length_append]; omega
    · omega
  exact ⟨h, by omega⟩

/-! ### The rook on an empty board -/

theorem sq_ne_of_coord_ne (a b : coord_t) (ha : coord_to_sq a ≠ -1)
    (h : a.x ≠ b.x ∨ a.y ≠ b.y) : coord_to_sq a ≠ coord_to_sq b := by
  intro he
  have hb : coord_to_sq b ≠ -1 := by rw [← he]; exact ha
  rw [coord_to_sq_on_board] at ha hb
  unfold coord_to_sq at he
  rw [if_neg (by omega), if_neg (by omega)] at he
  omega

/-- C22: on a board whose squares other than the rook's own are empty, a rook
of either colour on an on-board square has exactly 14 candidates; they are
what `find_move` returns for the kind rook. -/
theorem rook_on_empty_board (s : d_data) (piece : piece_t)
    (hb : coord_to_sq piece.square ≠ -1)
    (he : ∀ c : coord_t, coord_to_sq c ≠ -1 → coord_to_sq c ≠ coord_to_sq piece.square →
      rd_board s (coord_to_sq c) = -1) :
    (rook_helper s piece).length = 14 ∧
    (piece.type = ROOK → (find_move s piece).length = 14) := by
  have hb2 := (coord_to_sq_on_board piece.square).1 hb
  have hmain : (rook_helper s piece).length = 14 := by
    have h1 : ((ray s piece.color 1 0 8 piece.square).length : Int) = 7 - piece.square.x := by
      apply ray_length_empty s piece.color 1 0 (fun c => 7 - c.x)
        (fun c => c.y = piece.square.y ∧ piece.square.x ≤ c.x ∧ c.x ≤ 7)
      · rintro c ⟨i1, i2, i3⟩
        simp only
        refine ⟨by omega, fun h0 => ?_, fun h1 => ?_⟩
        · by_contra hq
          have hq2 := (coord_to_sq_on_board _).1 hq
          simp only at hq2
          omega
        · have hon : coord_to_sq ⟨c.x + 1, c.y + 0⟩ ≠ -1 := by
            rw [coord_to_sq_on_board]; simp only; omega
          refine ⟨hon, he _ hon (sq_ne_of_coord_ne _ _ hon (Or.inl ?_)), ⟨?_, ?_, ?_⟩, ?_⟩ <;>
            first | omega | (simp only; omega)
      · exact ⟨rfl, le_refl _, hb2.2.1⟩
      · show (7 - piece.square.x : Int) ≤ _
        push_cast; omega
    have h2 : ((ray s piece.color (-1) 0 8 piece.square).length : Int) = piece.square.x := by
      apply ray_length_empty s piece.color (-1) 0 (fun c => c.x)
        (fun c => c.y = piece.square.y ∧ c.x ≤ piece.square.x ∧ 0 ≤ c.x)
      · rintro c ⟨i1, i2, i3⟩
        simp only
        refine ⟨by omega, fun h0 => ?_, fun h1 => ?_⟩
        · by_contra hq
          have hq2 := (coord_to_sq_on_board _).1 hq
          simp only at hq2
          omega
        · have hon : coord_to_sq ⟨c.x + -1, c.y + 0⟩ ≠ -1 := by
            rw [coord_to_sq_on_board]; simp only; omega
          refine ⟨hon, he _ hon (sq_ne_of_coord_ne _ _ hon (Or.inl ?_)), ⟨?_, ?_, ?_⟩, ?_⟩ <;>
            first | omega | (simp only; omega)
      · exact ⟨rfl, le_refl _, hb2.1⟩
      · show (piece.square.x : Int) ≤ _
        push_cast; omega
    have h3 : ((ray s piece.color 0 1 8 piece.square).length : Int) = 7 - piece.square.y := by
      apply ray_length_empty s piece.color 0 1 (fun c => 7 - c.y)
        (fun c => c.x = piece.square.x ∧ piece.square.y ≤ c.y ∧ c.y ≤ 7)
      · rintro c ⟨i1, i2, i3⟩
        simp only
        refine ⟨by omega, fun h0 => ?_, fun h1 => ?_⟩
        · by_contra hq
          have hq2 := (coord_to_sq_on_board _).1 hq
          simp only at hq2
          omega
        · have hon : coord_to_sq ⟨c.x + 0, c.y + 1⟩ ≠ -1 := by
            rw [coord_to_sq_on_board]; simp only; omega
          refine ⟨hon, he _ hon (sq_ne_of_coord_ne _ _ hon (Or.inr ?_)), ⟨?_, ?_, ?_⟩, ?_⟩ <;>
            first | omega | (simp only; omega)
      · exact ⟨rfl, le_refl _, hb2.2.2.2⟩
      · show (7 - piece.square.y : Int) ≤ _
        push_cast; omega
    have h4 : ((ray s piece.color 0 (-1) 8 piece.square).length : Int) = piece.square.y := by
      apply ray_length_empty s piece.color 0 (-1) (fun c => c.y)
        (fun c => c.x = piece.square.x ∧ c.y ≤ piece.square.y ∧ 0 ≤ c.y)
      · rintro c ⟨i1, i2, i3⟩
        simp only
        refine ⟨by omega, fun h0 => ?_, fun h1 => ?_⟩
        · by_contra hq
          have hq2 := (coord_to_sq_on_board _).1 hq
          simp only at hq2
          omega
        · have hon : coord_to_sq ⟨c.x + 0, c.y + -1⟩ ≠ -1 := by
            rw [coord_to_sq_on_board]; simp only; omega
          refine ⟨hon, he _ hon (sq_ne_of_coord_ne _ _ hon (Or.inr ?_)), ⟨?_, ?_, ?_⟩, ?_⟩ <;>
            first | omega | (simp only; omega)
      · exact ⟨rfl, le_refl _, hb2.2.2.1⟩
      · show (piece.square.y : Int) ≤ _
        push_cast; omega
    unfold rook_helper
    simp only [List.length_append]
    omega
  refine ⟨hmain, fun h => ?_⟩
  unfold find_move
  rw [if_neg (by rw [h]; decide), if_pos h]
  exact hmain

/-! ### The pawn -/

theorem ite_list_congr {p q : Prop} [Decidable p] [Decidable q] (a : List coord_t)
    (h : p ↔ q) : (if p then a else []) = (if q then a else []) := by
  by_cases hp : p
  · rw [if_pos hp, if_pos (h.1 hp)]
  · rw [if_neg hp, if_neg (fun hq => hp (h.2 hq))]

theorem pawn_helper_eq_reference (s : d_data) (piece : piece_t)
    (hc : piece.color = 'W' ∨ piece.color = 'B') :
    pawn_helper s piece = pawn_reference s piece := by
  unfold pawn_helper pawn_reference pawn_forward home_rank empty_at enemy_at
  simp only
  have hWB : ¬ (('W' : Char) = 'B') := by decide
  have hBW : ¬ (('B' : Char) = 'W') := by decide
  rcases hc with hc | hc
  · simp only [hc, hWB, if_true, if_false, true_and, false_and, or_false]
    congr 1
    · by_cases h1 : piece.square.y = 1
      · simp only [h1, if_true, true_and]
      · simp only [h1, if_false, false_and]
    · by_cases h7 : piece.square.x = 7 ∧ piece.square.y = 0
      · rw [if_pos h7, if_neg (by omega)]
      · rw [if_neg h7, if_pos (by omega)]
  · simp only [hc, hBW, if_true, if_false, true_and, false_and, false_or]
    congr 1
    · by_cases h1 : piece.square.y = 6
      · simp only [h1, if_true, true_and]
      · simp only [h1, if_false, false_and]
    · by_cases h7 : piece.square.x = 7 ∧ piece.square.y = 0
      · rw [if_pos h7, if_neg (by omega)]
      · rw [if_neg h7, if_pos (by omega)]

/-- C28: for a pawn of colour W or B, `pawn_helper` returns the list of the
reference definition: the double step iff the pawn is on its home rank and the
square two ranks ahead is on the board and empty, then, unless the pawn stands
on file h rank 1 (x = 7, y = 0), the single step iff on the board and empty
and the two forward diagonals iff on the board and occupied by a piece of the
other colour; `find_move` returns this list for the kind pawn. -/
theorem pawn_helper_is_reference (s : d_data) (piece : piece_t)
    (hc : piece.color = 'W' ∨ piece.color = 'B') :
    pawn_helper s piece = pawn_reference s piece ∧
    (piece.type = PAWN → find_move s piece = pawn_reference s piece) := by
  have hmain := pawn_helper_eq_reference s piece hc
  refine ⟨hmain, fun h => ?_⟩
  unfold find_move
  rw [if_pos h, hmain]

theorem filter_ite_single (p : Prop) [Decidable p] (c : coord_t) (f : coord_t → Bool) :
    ((if p then [c] else []).filter f).length = if p ∧ f c = true then 1 else 0 := by
  by_cases hp : p
  · rw [if_pos hp]
    by_cases hf : f c = true
    · rw [if_pos ⟨hp, hf⟩, List.filter_cons_of_pos hf]; rfl
    · rw [if_neg (fun h => hf h.2), List.filter_cons_of_neg hf]; rfl
  · rw [if_neg hp, if_neg (fun h => hp h.1)]; rfl

/-- C23 (amended): for a pawn of colour W or B on its home rank the forward
candidates are the double-step square when that square is on the board and
empty, and the single-step square when that one is; their number is the
number of empty squares among the two (0, 1 or 2), and the double step does
not ask for the intermediate square to be empty. -/
theorem home_rank_forward_candidates (s : d_data) (piece : piece_t)
    (hc : piece.color = 'W' ∨ piece.color = 'B')
    (hh : piece.square.y = home_rank piece.color) :
    (forward_candidates s piece).length =
      (if empty_at s ⟨piece.square.x, piece.square.y + 2 * pawn_forward piece.color⟩
        then 1 else 0) +
      (if empty_at s ⟨piece.square.x, piece.square.y + pawn_forward piece.color⟩
        then 1 else 0) := by
  have h7 : ¬ (piece.square.x = 7 ∧ piece.square.y = 0) := by
    intro h
    rw [h.2] at hh
    unfold home_rank at hh
    split at hh <;> omega
  have hl : ¬ (piece.square.x - 1 = piece.square.x) := by omega
  have hr : ¬ (piece.square.x + 1 = piece.square.x) := by omega
  unfold forward_candidates
  rw [pawn_helper_eq_reference s piece hc]
  unfold pawn_reference
  rw [if_neg h7]
  simp only [List.filter_append, List.length_append, filter_ite_single, decide_eq_true_eq,
    hl, hr, and_false, if_false, and_true, add_zero, hh, true_and]

/-- C23 (counterexample): after 00 W, Nb1-a3, a computer move, h2-h3 and a
second computer move the game is in progress with the player to move, record
0 is the live white pawn on a2 (its home rank, index 1), the square a3 holds
the white knight and a4 the computer's pawn, and pawn_helper generates no
forward candidate for it: neither one nor two. -/
theorem blocked_home_pawn_has_no_forward_candidate :
    (run start_white blocked_pawn_game).game_on = 1 ∧
    (run start_white blocked_pawn_game).turn = (run start_white blocked_pawn_game).player_color ∧
    (run start_white blocked_pawn_game).figures 0 = ⟨PAWN, 'W', 1, ⟨0, 1⟩⟩ ∧
    home_rank 'W' = 1 ∧
    rd_board (run start_white blocked_pawn_game) 8 = 0 ∧
    rd_board (run start_white blocked_pawn_game) 16 = 10 ∧
    rd_board (run start_white blocked_pawn_game) 24 = 16 ∧
    forward_candidates (run start_white blocked_pawn_game)
      ((run start_white blocked_pawn_game).figures 0) = [] ∧
    pawn_helper (run start_white blocked_pawn_game)
      ((run start_white blocked_pawn_game).figures 0) = [] := by
  decide!

/-! ### Tokens of a written message -/

theorem last_newline_append (l : List Char) :
    ∀ i n : Nat, last_newline (l ++ ['\n']) i n = i + l.length := by
  induction l with
  | nil => intro i n; simp [last_newline]
  | cons c l ih =>
    intro i n
    show last_newline (l ++ ['\n']) (i + 1) (if c = '\n' then i else n) = _
    rw [ih, List.length_cons]
    omega

theorem takeWhile_all (l : List Char) (p : Char → Bool) (h : ∀ c ∈ l, p c = true) :
    l.takeWhile p = l := by
  induction l with
  | nil => rfl
  | cons c l ih =>
    rw [List.takeWhile_cons_of_pos (h c (List.mem_cons_self _ _)),
      ih (fun d hd => h d (List.mem_cons_of_mem _ hd))]

theorem strsep_all_token (l : List Char) (h : ∀ c ∈ l, c ≠ ' ') : strsep_all l = [l] := by
  induction l with
  | nil => rfl
  | cons c l ih =>
    rw [strsep_all, if_neg (h c (List.mem_cons_self _ _)), ih (fun d hd => h d (List.mem_cons_of_mem _ hd))]

theorem strsep_all_two (l r : List Char) (h : ∀ c ∈ l, c ≠ ' ') (hr : ∀ c ∈ r, c ≠ ' ') :
    strsep_all (l ++ ' ' :: r) = [l, r] := by
  induction l with
  | nil =>
    show (if ' ' = ' ' then [] :: strsep_all r else _) = _
    rw [if_pos rfl, strsep_all_token r hr]
  | cons c l ih =>
    rw [List.cons_append, strsep_all, if_neg (h c (List.mem_cons_self _ _)), ih (fun d hd => h d (List.mem_cons_of_mem _ hd))]

theorem tokenize_command (cmd : List Char) (hl : cmd.length = 2)
    (h : ∀ c ∈ cmd, c ≠ ' ' ∧ c ≠ Char.ofNat 0) :
    tokenize (cmd ++ ['\n']) = some (cmd, none) := by
  unfold tokenize
  simp only
  rw [last_newline_append, if_neg (by omega)]
  unfold c_string
  have ht : (cmd ++ ['\n']).take (0 + cmd.length) = cmd := by
    rw [Nat.zero_add, List.take_left']
    rfl
  rw [ht, takeWhile_all cmd _ (fun c hc => by simpa using (h c hc).2),
    strsep_all_token cmd (fun c hc => (h c hc).1)]
  simp only
  rw [if_neg (by rw [hl]; decide)]

theorem tokenize_command_arg (cmd arg : List Char) (hl : cmd.length = 2)
    (h : ∀ c ∈ cmd, c ≠ ' ' ∧ c ≠ Char.ofNat 0)
    (ha : ∀ c ∈ arg, c ≠ ' ' ∧ c ≠ Char.ofNat 0) (hal : arg.length ≤ 13) :
    tokenize (cmd ++ ' ' :: arg ++ ['\n']) = some (cmd, some arg) := by
  unfold tokenize
  simp only
  rw [last_newline_append, if_neg (by simp)]
  unfold c_string
  have ht : (cmd ++ ' ' :: arg ++ ['\n']).take (0 + (cmd ++ ' ' :: arg).length) =
      cmd ++ ' ' :: arg := by
    rw [Nat.zero_add, List.take_left']
    rfl
  have hall : ∀ c ∈ cmd ++ ' ' :: arg, (fun c => decide (c ≠ Char.ofNat 0)) c = true := by
    intro c hc
    rcases List.mem_append.1 hc with hc | hc
    · simpa using (h c hc).2
    · rcases List.mem_cons.1 hc with hc | hc
      · rw [hc]; decide
      · simpa using (ha c hc).2
  rw [ht, takeWhile_all _ _ hall,
    strsep_all_two cmd arg (fun c hc => (h c hc).1) (fun c hc => (ha c hc).1)]
  simp only
  rw [if_neg (by rw [hl]; decide), if_neg (by omega)]

theorem dispatch_unknown (s : d_data) (cmd : List Char) (arg : Option (List Char))
    (h : cmd ∉ ["00".data, "01".data, "02".data, "03".data, "04".data]) :
    dispatch s cmd arg = answer s UNKCMD := by
  simp only [List.mem_cons, List.mem_singleton, List.not_mem_nil, or_false, not_or] at h
  obtain ⟨h0, h1, h2, h3, h4⟩ := h
  unfold dispatch
  rw [if_neg h0, if_neg h1, if_neg h2, if_neg h3, if_neg h4]

/-- C27: for every state, a message made of a two-character code other than
00, 01, 02, 03, 04 and a newline, or of such a code, a blank, an argument of
at most 13 characters and a newline (no blank and no NUL inside the code or
the argument), is answered UNKCMD, and nothing but the reply changes. -/
theorem unknown_command (s : d_data) (cmd arg : List Char) (hl : cmd.length = 2)
    (h : ∀ c ∈ cmd, c ≠ ' ' ∧ c ≠ Char.ofNat 0)
    (hc : cmd ∉ ["00".data, "01".data, "02".data, "03".data, "04".data])
    (ha : ∀ c ∈ arg, c ≠ ' ' ∧ c ≠ Char.ofNat 0) (hal : arg.length ≤ 13) :
    (d_write s (cmd ++ ['\n'])).reply = UNKCMD ∧
    (d_write s (cmd ++ ' ' :: arg ++ ['\n'])).reply = UNKCMD ∧
    same_game s (d_write s (cmd ++ ['\n'])) ∧
    same_game s (d_write s (cmd ++ ' ' :: arg ++ ['\n'])) := by
  have e1 : d_write s (cmd ++ ['\n']) = answer s UNKCMD := by
    unfold d_write
    rw [tokenize_command cmd hl h]
    exact dispatch_unknown s cmd none hc
  have e2 : d_write s (cmd ++ ' ' :: arg ++ ['\n']) = answer s UNKCMD := by
    unfold d_write
    rw [tokenize_command_arg cmd arg hl h ha hal]
    exact dispatch_unknown s cmd (some arg) hc
  rw [e1, e2]
  exact ⟨rfl, rfl, ⟨rfl, rfl, rfl, rfl, rfl, rfl⟩, ⟨rfl, rfl, rfl, rfl, rfl, rfl⟩⟩

/-! ### Malformed move specs -/

theorem tokenize_long_arg (cmd arg : List Char) (hl : cmd.length = 2)
    (h : ∀ c ∈ cmd, c ≠ ' ' ∧ c ≠ Char.ofNat 0)
    (ha : ∀ c ∈ arg, c ≠ ' ' ∧ c ≠ Char.ofNat 0) (hal : 13 < arg.length) :
    tokenize (cmd ++ ' ' :: arg ++ ['\n']) = none := by
  unfold tokenize
  simp only
  rw [last_newline_append, if_neg (by simp)]
  unfold c_string
  have ht : (cmd ++ ' ' :: arg ++ ['\n']).take (0 + (cmd ++ ' ' :: arg).length) =
      cmd ++ ' ' :: arg := by
    rw [Nat.zero_add, List.take_left']
    rfl
  have hall : ∀ c ∈ cmd ++ ' ' :: arg, (fun c => decide (c ≠ Char.ofNat 0)) c = true := by
    intro c hc
    rcases List.mem_append.1 hc with hc | hc
    · simpa using (h c hc).2
    · rcases List.mem_cons.1 hc with hc | hc
      · rw [hc]; decide
      · simpa using (ha c hc).2
  rw [ht, takeWhile_all _ _ hall,
    strsep_all_two cmd arg (fun c hc => (h c hc).1) (fun c hc => (ha c hc).1)]
  simp only
  rw [if_neg (by rw [hl]; decide), if_pos (by omega)]

theorem decode_move_malformed (s : d_data) (arg : List Char)
    (h : arg.length < 7 ∨ kind_of_letter (arg.getD 1 'n') = none ∨
      coord_of_letters (arg.getD 2 'n') (arg.getD 3 'n') = none ∨ arg.getD 4 'n' ≠ '-' ∨
      coord_of_letters (arg.getD 5 'n') (arg.getD 6 'n') = none) :
    decode_move s (some arg) = .error INVFMT := by
  unfold decode_move
  simp only
  by_cases hl : arg.length < 7
  · rw [if_pos hl]
  rw [if_neg hl]
  cases hk : kind_of_letter (arg.getD 1 'n') with
  | none => rfl
  | some t =>
    simp only
    by_cases hc : (arg.getD 0 'n' = 'W' ∨ arg.getD 0 'n' = 'B') ∧ arg.getD 0 'n' = s.player_color
    · rw [if_pos hc]
      cases hs : coord_of_letters (arg.getD 2 'n') (arg.getD 3 'n') with
      | none => rfl
      | some src =>
        simp only
        by_cases hd : arg.getD 4 'n' ≠ '-'
        · rw [if_pos hd]
        · rw [if_neg hd]
          cases hq : coord_of_letters (arg.getD 5 'n') (arg.getD 6 'n') with
          | none => rfl
          | some dst =>
            exfalso
            rcases h with h | h | h | h | h
            · exact hl h
            · rw [hk] at h; cases h
            · rw [hs] at h; cases h
            · exact hd h
            · rw [hq] at h; cases h
    · rw [if_neg hc]

/-- The part of C25 that holds in every state: a 02 command without an
argument, with an argument shorter than 7 or longer than 13 characters, with
a kind letter outside P, R, N, B, Q, K, with a source or destination file
outside a-h or rank outside 1-8, or with a fifth character other than '-' is
answered INVFMT. -/
theorem malformed_move_format_error (s : d_data) (arg : List Char)
    (ha : ∀ c ∈ arg, c ≠ ' ' ∧ c ≠ Char.ofNat 0) :
    (d_write s "02\n".data).reply = INVFMT ∧
    (arg.length < 7 ∨ 13 < arg.length ∨ kind_of_letter (arg.getD 1 'n') = none ∨
      coord_of_letters (arg.getD 2 'n') (arg.getD 3 'n') = none ∨ arg.getD 4 'n' ≠ '-' ∨
      coord_of_letters (arg.getD 5 'n') (arg.getD 6 'n') = none →
      (d_write s ("02 ".data ++ arg ++ ['\n'])).reply = INVFMT) := by
  have hcmd : ∀ c ∈ "02".data, c ≠ ' ' ∧ c ≠ Char.ofNat 0 := by decide
  refine ⟨?_, fun h => ?_⟩
  · rw [write_move_error s "02\n".data none INVFMT (by decide) rfl]; rfl
  · have hm : "02 ".data ++ arg ++ ['\n'] = "02".data ++ ' ' :: arg ++ ['\n'] := rfl
    rw [hm]
    by_cases hl : arg.length ≤ 13
    · rw [write_move_error s _ (some arg) INVFMT (tokenize_command_arg "02".data arg rfl hcmd ha hl)
        (decode_move_malformed s arg (by
          rcases h with h | h | h
          · exact Or.inl h
          · omega
          · exact Or.inr h))]
      rfl
    · unfold d_write
      rw [tokenize_long_arg "02".data arg rfl hcmd ha (by omega)]
      rfl

/-- C25 (the code does not reject them): in the starting layout with White to move, 02 commands whose
arguments have the lengths 8, 9, 11 and 12, or the length 10 or 13 with an
option marker that is neither x nor y, are not answered INVFMT: each is
answered OK and the pawn is moved from e2 to e4. -/
theorem malformed_move_is_played :
    start_white.game_on = 1 ∧ start_white.turn = start_white.player_color ∧
    (d_write start_white "02 WPe2-e4z\n".data).reply = OK ∧
    rd_board (d_write start_white "02 WPe2-e4z\n".data) 28 = 4 ∧
    (d_write start_white "02 WPe2-e4zz\n".data).reply = OK ∧
    (d_write start_white "02 WPe2-e4zWQ\n".data).reply = OK ∧
    rd_board (d_write start_white "02 WPe2-e4zWQ\n".data) 28 = 4 ∧
    (d_write start_white "02 WPe2-e4xBPy\n".data).reply = OK ∧
    (d_write start_white "02 WPe2-e4xBPyW\n".data).reply = OK ∧
    (d_write start_white "02 WPe2-e4zBPzWQ\n".data).reply = OK ∧
    rd_board (d_write start_white "02 WPe2-e4zBPzWQ\n".data) 28 = 4 := by
  decide!

/-! ### A grammatical move and the format error -/

theorem decode_options_declared (s : d_data) (arg : List Char) (piece : piece_t)
    (dest : coord_t) (cl kl : Char) (hg : grammar_move_spec arg = true)
    (hcap : arg.getD 7 'n' = 'x' → arg.getD 8 'n' = s.computer_color)
    (hp : declared_promotion arg = some (cl, kl)) :
    ∃ (take_piece : Int) (piece_opt1 : piece_t),
      decode_options s arg piece dest =
        decode_promotion s arg.length piece dest take_piece piece_opt1 cl kl ∧
      grammar_kind kl = true := by
  obtain ⟨_, _, _, _, _, _, _, _, hopt⟩ := grammar_facts arg hg
  unfold declared_promotion at hp
  unfold decode_options
  simp only
  by_cases h7 : arg.getD 7 'n' = 'y'
  · have hlen : arg.length = 10 ∨ arg.length = 13 := by
      by_contra hn
      rw [if_neg (fun hh => hn hh.1), if_neg (fun hh => hn (Or.inr hh.1))] at hp
      exact absurd hp (by simp)
    rw [if_pos ⟨hlen, h7⟩] at hp
    injection hp with hp
    injection hp with hp1 hp2
    have hk : grammar_kind kl = true := by
      rw [← hp2]
      rcases hopt with h | h | h
      · omega
      · have := h.2
        simp only [grammar_option, Bool.and_eq_true] at this
        exact this.2
      · have := h.2.1
        simp only [grammar_option, Bool.and_eq_true] at this
        exact this.2
    refine ⟨0, no_piece, ?_, hk⟩
    rw [if_pos hlen, if_neg (by rw [h7]; decide), if_pos h7, hp1, hp2]
  · rw [if_neg (fun hh => h7 hh.2)] at hp
    by_cases h13 : arg.length = 13 ∧ arg.getD 10 'n' = 'y'
    · rw [if_pos h13] at hp
      injection hp with hp
      injection hp with hp1 hp2
      rcases hopt with h | h | h
      · omega
      · omega
      · have g1 := h.2.1
        have g2 := h.2.2
        simp only [grammar_option, Bool.and_eq_true, Bool.or_eq_true, decide_eq_true_eq] at g1 g2
        have hx : arg.getD 7 'n' = 'x' := by
          rcases g1.1.1 with hh | hh
          · exact hh
          · exact absurd hh h7
        obtain ⟨t1, ht1, _⟩ := kind_of_letter_grammar _ g1.2
        refine ⟨1, ⟨t1, arg.getD 8 'n', 0, dest⟩, ?_, by rw [← hp2]; exact g2.2⟩
        rw [if_pos (Or.inr h13.1), if_pos hx, if_pos (hcap hx), ht1]
        simp only
        rw [if_pos h13.1, if_pos h13.1, if_pos h13.1, if_pos h13.2, hp1, hp2]
    · rw [if_neg h13] at hp
      exact absurd hp (by simp)

theorem decode_options_plain (s : d_data) (arg : List Char) (piece : piece_t)
    (dest : coord_t) (hg : grammar_move_spec arg = true)
    (hcap : arg.getD 7 'n' = 'x' → arg.getD 8 'n' = s.computer_color)
    (hp : declared_promotion arg = none) :
    ∃ a, decode_options s arg piece dest = .ok a := by
  obtain ⟨_, _, _, _, _, _, _, _, hopt⟩ := grammar_facts arg hg
  unfold declared_promotion at hp
  unfold decode_options
  simp only
  by_cases hlen : arg.length = 10 ∨ arg.length = 13
  · rw [if_pos hlen]
    have h7 : ¬ arg.getD 7 'n' = 'y' := by
      intro h7
      rw [if_pos ⟨hlen, h7⟩] at hp
      cases hp
    rw [if_neg (fun hh => h7 hh.2)] at hp
    have g1 : grammar_option (arg.getD 7 'n') (arg.getD 8 'n') (arg.getD 9 'n') = true := by
      rcases hopt with h | h | h
      · omega
      · exact h.2
      · exact h.2.1
    simp only [grammar_option, Bool.and_eq_true, Bool.or_eq_true, decide_eq_true_eq] at g1
    have hx : arg.getD 7 'n' = 'x' := by
      rcases g1.1.1 with hh | hh
      · exact hh
      · exact absurd hh h7
    obtain ⟨t1, ht1, _⟩ := kind_of_letter_grammar _ g1.2
    rw [if_pos hx, if_pos (hcap hx), ht1]
    simp only
    have h2 : ¬ (if arg.length = 13 then arg.getD 10 'n' else 'n') = 'y' := by
      by_cases h13 : arg.length = 13
      · rw [if_pos h13]
        intro h10
        rw [if_pos ⟨h13, h10⟩] at hp
        cases hp
      · rw [if_neg h13]; decide
    rw [if_neg h2]
    exact ⟨_, rfl⟩
  · rw [if_neg hlen]
    exact ⟨_, rfl⟩

theorem decode_promotion_in_role (s : d_data) (len : Nat) (piece : piece_t) (dest : coord_t)
    (take_piece : Int) (piece_opt1 : piece_t) (type_opt : Char) (r : List Char)
    (hk : grammar_kind type_opt = true)
    (h : decode_promotion s len piece dest take_piece piece_opt1 s.player_color type_opt =
      .error r) : r = ILLMOVE := by
  obtain ⟨t, ht, _⟩ := kind_of_letter_grammar _ hk
  unfold decode_promotion at h
  rw [if_pos rfl, ht] at h
  simp only at h
  split_ifs at h <;> cases h <;> rfl

theorem decode_promotion_out_of_role (s : d_data) (len : Nat) (piece : piece_t)
    (dest : coord_t) (take_piece : Int) (piece_opt1 : piece_t) (color_opt type_opt : Char)
    (hc : color_opt ≠ s.player_color) :
    decode_promotion s len piece dest take_piece piece_opt1 color_opt type_opt =
      .error INVFMT := by
  unfold decode_promotion
  rw [if_neg hc]

theorem decode_move_in_role (s : d_data) (arg : List Char)
    (hg : grammar_move_spec arg = true) (hr : colors_in_role s arg) (r : List Char)
    (h : decode_move s (some arg) = .error r) : r = ILLMOVE := by
  obtain ⟨h0, hcap, hpro⟩ := hr
  obtain ⟨t, src, dst, he, _⟩ := decode_move_grammar s arg hg h0
  rw [he] at h
  cases hd : declared_promotion arg with
  | none =>
    obtain ⟨a, ha⟩ := decode_options_plain s arg ⟨t, arg.getD 0 'n', 0, src⟩ dst hg hcap hd
    rw [ha] at h
    cases h
  | some p =>
    obtain ⟨cl, kl⟩ := p
    have hcl : cl = s.player_color := hpro _ hd
    subst hcl
    obtain ⟨tp, po1, hq, hk⟩ :=
      decode_options_declared s arg ⟨t, arg.getD 0 'n', 0, src⟩ dst _ kl hg hcap hd
    rw [hq] at h
    exact decode_promotion_in_role _ _ _ _ _ _ _ _ hk h

theorem decode_move_out_of_role (s : d_data) (arg : List Char)
    (hg : grammar_move_spec arg = true) (hr : ¬ colors_in_role s arg) :
    decode_move s (some arg) = .error INVFMT := by
  obtain ⟨h7, _, hk, _, _, _, _, _, hopt⟩ := grammar_facts arg hg
  by_cases h0 : arg.getD 0 'n' = s.player_color
  · obtain ⟨t, src, dst, he, _⟩ := decode_move_grammar s arg hg h0
    rw [he]
    by_cases hcap : arg.getD 7 'n' = 'x' → arg.getD 8 'n' = s.computer_color
    · cases hd : declared_promotion arg with
      | none =>
        exfalso
        exact hr ⟨h0, hcap, fun p hp => by rw [hd] at hp; cases hp⟩
      | some p =>
        obtain ⟨cl, kl⟩ := p
        have hcl : cl ≠ s.player_color := by
          intro hcl
          apply hr
          refine ⟨h0, hcap, fun p hp => ?_⟩
          rw [hd] at hp
          injection hp with hp
          rw [← hp]
          exact hcl
        obtain ⟨tp, po1, hq, _⟩ :=
          decode_options_declared s arg ⟨t, arg.getD 0 'n', 0, src⟩ dst cl kl hg hcap hd
        rw [hq]
        exact decode_promotion_out_of_role _ _ _ _ _ _ _ _ hcl
    · have hx : arg.getD 7 'n' = 'x' := by
        by_contra hx
        exact hcap (fun h => absurd h hx)
      have hc : ¬ arg.getD 8 'n' = s.computer_color := fun hc => hcap (fun _ => hc)
      have hlen : arg.length = 10 ∨ arg.length = 13 := by
        rcases hopt with h | h | h
        · exfalso
          rw [List.getD_eq_default _ _ (by omega)] at hx
          exact absurd hx (by decide)
        · exact Or.inl h.1
        · exact Or.inr h.1
      unfold decode_options
      simp only
      rw [if_pos hlen, if_pos hx, if_neg hc]
  · obtain ⟨t, ht, _⟩ := kind_of_letter_grammar _ hk
    unfold decode_move
    simp only
    rw [if_neg (by omega), ht]
    simp only
    rw [if_neg (fun h => h0 h.2)]

/-- C26 (counterexample): in the starting layout with White to move (game in
progress, the player's turn), the grammatical commands 02 BPe7-e5, which
names a piece of the computer's colour, 02 WPe2-e4xWP, which declares the
capture of a piece of the player's colour, and 02 WPe2-e4yBQ, which declares
a promotion in the computer's colour, are answered INVFMT. -/
theorem grammatical_move_is_format_error :
    start_white.game_on = 1 ∧ start_white.turn = start_white.player_color ∧
    start_white.computer_color = 'B' ∧
    grammar_move_spec "BPe7-e5".data = true ∧
    (d_write start_white "02 BPe7-e5\n".data).reply = INVFMT ∧
    grammar_move_spec "WPe2-e4xWP".data = true ∧
    (d_write start_white "02 WPe2-e4xWP\n".data).reply = INVFMT ∧
    grammar_move_spec "WPe2-e4yBQ".data = true ∧
    (d_write start_white "02 WPe2-e4yBQ\n".data).reply = INVFMT := by
  decide

/-- C26 (amended): in a game in progress on the player's turn, a 02 command
whose argument matches the move-spec grammar is answered OK, CHECK, MATE or
ILLMOVE, and not INVFMT, when its colour letters name the sides in their
roles (the moving piece and a declared promotion in the player's colour, a
declared capture in the computer's colour); when they do not, it is answered
INVFMT. -/
theorem grammatical_move_replies (s : d_data) (msg arg : List Char)
    (hg : s.game_on = 1) (ht : s.turn = s.player_color)
    (hm : tokenize msg = some ("02".data, some arg))
    (hgr : grammar_move_spec arg = true) :
    (colors_in_role s arg →
      ((d_write s msg).reply = OK ∨ (d_write s msg).reply = CHECK ∨
        (d_write s msg).reply = MATE ∨ (d_write s msg).reply = ILLMOVE) ∧
      (d_write s msg).reply ≠ INVFMT) ∧
    (¬ colors_in_role s arg → (d_write s msg).reply = INVFMT) := by
  refine ⟨fun hr => ?_, fun hr => ?_⟩
  · have key : (d_write s msg).reply = OK ∨ (d_write s msg).reply = CHECK ∨
        (d_write s msg).reply = MATE ∨ (d_write s msg).reply = ILLMOVE := by
      cases hd : decode_move s (some arg) with
      | error r =>
        have := decode_move_in_role s arg hgr hr r hd
        subst this
        rw [write_move_error s msg (some arg) ILLMOVE hm hd]
        exact Or.inr (Or.inr (Or.inr rfl))
      | ok a =>
        rw [write_move s msg (some arg) a hm hd]
        unfold player_move
        rw [if_neg (by rw [hg]; decide), if_neg (by simp [ht])]
        simp only
        by_cases hv : (move_valid s a.piece a.dest a.take_piece a.promote a.piece_opt1
            a.piece_opt2).2 = 0
        · rw [if_pos hv]
          exact Or.inr (Or.inr (Or.inr rfl))
        · rw [if_neg hv]
          rcases evaluate_reply
            { (move_valid s a.piece a.dest a.take_piece a.promote a.piece_opt1
              a.piece_opt2).1 with
              turn := (move_valid s a.piece a.dest a.take_piece a.promote a.piece_opt1
                a.piece_opt2).1.computer_color }
            (move_valid s a.piece a.dest a.take_piece a.promote a.piece_opt1
              a.piece_opt2).1.computer_color with h | h | h
          · exact Or.inr (Or.inr (Or.inl h))
          · exact Or.inr (Or.inl h)
          · exact Or.inl h
    refine ⟨key, ?_⟩
    rcases key with h | h | h | h <;> rw [h] <;> decide
  · rw [write_move_error s msg (some arg) INVFMT hm (decode_move_out_of_role s arg hgr hr)]
    rfl

/-! ### The colour and the kind of a record -/

theorem kind_kept_refl (k : Int) : kind_kept k k := Or.inl rfl

theorem kind_kept_trans (a b c : Int) (h1 : kind_kept a b) (h2 : kind_kept b c) :
    kind_kept a c := by
  unfold kind_kept at *
  unfold PAWN ROOK KNIGHT BISHOP QUEEN at *
  omega

theorem identity_kept_refl (s : d_data) : identity_kept s s :=
  fun _ => ⟨rfl, kind_kept_refl _⟩

theorem identity_kept_trans (s t u : d_data) (h1 : identity_kept s t) (h2 : identity_kept t u) :
    identity_kept s u :=
  fun k => ⟨(h2 k).1.trans (h1 k).1, kind_kept_trans _ _ _ (h1 k).2 (h2 k).2⟩

theorem identity_kept_figures (s t u : d_data) (h : identity_kept s t)
    (hf : u.figures = t.figures) : identity_kept s u := by
  intro k
  have e : rd_figure u k = rd_figure t k := by
    unfold rd_figure
    rw [hf]
  rw [e]
  exact h k

theorem identity_kept_of_equal (s t : d_data)
    (h : ∀ k, (rd_figure t k).type = (rd_figure s k).type ∧
      (rd_figure t k).color = (rd_figure s k).color) : identity_kept s t :=
  fun k => ⟨(h k).2, Or.inl (h k).1⟩

theorem rd_figure_wr_type_type (s : d_data) (i t k : Int) :
    (rd_figure (wr_type s i t) k).type =
      if k = i ∧ 0 ≤ k ∧ k < 32 then t else (rd_figure s k).type := by
  rw [rd_figure_wr_type]; split <;> rfl

theorem rd_type_ite (c : Prop) [Decidable c] (a b : d_data) (k : Int) :
    (rd_figure (if c then a else b) k).type =
      if c then (rd_figure a k).type else (rd_figure b k).type := by
  split <;> rfl

theorem rd_color_ite (c : Prop) [Decidable c] (a b : d_data) (k : Int) :
    (rd_figure (if c then a else b) k).color =
      if c then (rd_figure a k).color else (rd_figure b k).color := by
  split <;> rfl

theorem mm_apply_color (s : d_data) (color : Char) (j : Int) (m : coord_t) (k : Int) :
    (rd_figure (mm_apply s color j m).state k).color = (rd_figure s k).color := by
  unfold mm_apply
  simp only [rd_figure_wr_board, rd_color_ite, rd_figure_wr_type_color,
    rd_figure_wr_alive_color, rd_figure_wr_square_color, ite_self]

theorem mm_apply_promoted (s : d_data) (color : Char) (j : Int) (m : coord_t) :
    (mm_apply s color j m).promoted = if on_last_rank s j m = true then 1 else 0 := by
  unfold mm_apply
  simp only [on_last_rank_attempt]

theorem mm_apply_type (s : d_data) (color : Char) (j : Int) (m : coord_t) (k : Int) :
    (rd_figure (mm_apply s color j m).state k).type =
      if on_last_rank s j m = true ∧ k = j ∧ 0 ≤ k ∧ k < 32 then QUEEN
      else (rd_figure s k).type := by
  unfold mm_apply
  simp only [rd_figure_wr_board, on_last_rank_attempt, rd_type_ite, rd_figure_wr_type_type,
    rd_figure_wr_alive_type, rd_figure_wr_square_type, ite_self]
  by_cases hp : on_last_rank s j m = true
  · rw [if_pos hp]
    by_cases hk : k = j ∧ 0 ≤ k ∧ k < 32
    · rw [if_pos hk, if_pos ⟨hp, hk⟩]
    · rw [if_neg hk, if_neg (fun h => hk h.2)]
  · rw [if_neg hp, if_neg (fun h => hp h.1)]

theorem undo_color (t : tentative) (j k : Int) :
    (rd_figure (undo t j) k).color = (rd_figure t.state k).color := by
  unfold undo
  simp only [rd_color_ite, rd_figure_wr_type_color, rd_figure_wr_alive_color,
    rd_figure_wr_board, rd_figure_wr_square_color, ite_self]

theorem undo_type (t : tentative) (j k : Int) :
    (rd_figure (undo t j) k).type =
      if t.promoted = 1 ∧ k = j ∧ 0 ≤ k ∧ k < 32 then PAWN else (rd_figure t.state k).type := by
  unfold undo
  simp only [rd_type_ite, rd_figure_wr_type_type, rd_figure_wr_alive_type,
    rd_figure_wr_board, rd_figure_wr_square_type, ite_self]
  by_cases hp : t.promoted = 1
  · rw [if_pos hp]
    by_cases hk : k = j ∧ 0 ≤ k ∧ k < 32
    · rw [if_pos hk, if_pos ⟨hp, hk⟩]
    · rw [if_neg hk, if_neg (fun h => hk h.2)]
  · rw [if_neg hp, if_neg (fun h => hp h.1)]

theorem identity_kept_mm_apply (s : d_data) (color : Char) (j : Int) (m : coord_t) :
    identity_kept s (mm_apply s color j m).state := by
  intro k
  refine ⟨mm_apply_color s color j m k, ?_⟩
  rw [mm_apply_type]
  by_cases h : on_last_rank s j m = true ∧ k = j ∧ 0 ≤ k ∧ k < 32
  · rw [if_pos h]
    have hp := on_last_rank_true s j m h.1
    rw [← h.2.1] at hp
    exact Or.inr ⟨hp, Or.inr (Or.inr (Or.inr rfl))⟩
  · rw [if_neg h]
    exact Or.inl rfl

theorem identity_kept_undo_mm_apply (s : d_data) (color : Char) (j : Int) (m : coord_t) :
    identity_kept s (undo (mm_apply s color j m) j) := by
  apply identity_kept_of_equal
  intro k
  refine ⟨?_, by rw [undo_color, mm_apply_color]⟩
  rw [undo_type, mm_apply_promoted, mm_apply_type]
  by_cases hp : on_last_rank s j m = true
  · have hpawn := on_last_rank_true s j m hp
    by_cases hk : k = j ∧ 0 ≤ k ∧ k < 32
    · rw [if_pos hp, if_pos ⟨rfl, hk⟩, hk.1, hpawn]
    · rw [if_pos hp, if_neg (fun h => hk h.2), if_neg (fun h => hk h.2)]
  · have h01 : ¬ ((0 : Int) = 1) := by decide
    rw [if_neg hp, if_neg (fun h => h01 h.1), if_neg (fun h => hp h.1)]

theorem identity_kept_make_move_cands (color : Char) (testing : Int) (j : Int) :
    ∀ (ms : List coord_t) (s : d_data),
      identity_kept s (make_move_cands s color testing j ms).1 := by
  intro ms
  induction ms with
  | nil => intro s; exact identity_kept_refl s
  | cons m ms ih =>
    intro s
    simp only [make_move_cands]
    by_cases hc : in_check (mm_apply s color j m).state color = 0
    · rw [if_pos hc]
      by_cases ht : testing = 1
      · rw [if_pos ht]
        exact identity_kept_undo_mm_apply s color j m
      · rw [if_neg ht]
        exact identity_kept_mm_apply s color j m
    · rw [if_neg hc]
      exact identity_kept_trans _ _ _ (identity_kept_undo_mm_apply s color j m) (ih _)

theorem identity_kept_make_move_loop (color : Char) (testing : Int) :
    ∀ (is : List Int) (s : d_data),
      identity_kept s (make_move_loop s color testing is).1 := by
  intro is
  induction is with
  | nil => intro s; exact identity_kept_refl s
  | cons i is ih =>
    intro s
    simp only [make_move_loop]
    by_cases ha : (rd_figure s (mover color i)).alive ≠ 0
    · rw [if_pos ha]
      have hc := identity_kept_make_move_cands color testing (mover color i)
        (find_move s (rd_figure s (mover color i))) s
      split
      · exact hc
      · exact identity_kept_trans _ _ _ hc (ih _)
    · rw [if_neg ha]
      exact ih s

theorem identity_kept_make_move (s : d_data) (color : Char) (testing : Int) :
    identity_kept s (make_move s color testing).1 :=
  identity_kept_make_move_loop color testing sixteen s

theorem identity_kept_evaluate (s : d_data) (color : Char) :
    identity_kept s (evaluate s color) := by
  unfold evaluate
  simp only
  split
  · split
    · exact identity_kept_figures _ _ _ (identity_kept_make_move s color 1) rfl
    · exact identity_kept_figures _ _ _ (identity_kept_make_move s color 1) rfl
  · exact identity_kept_figures _ _ _ (identity_kept_refl s) rfl

theorem identity_kept_computer_move (s : d_data) : identity_kept s (computer_move s) := by
  unfold computer_move
  split
  · exact identity_kept_figures _ _ _ (identity_kept_refl s) rfl
  · split
    · exact identity_kept_figures _ _ _ (identity_kept_refl s) rfl
    · simp only
      refine identity_kept_trans _ _ _ ?_ (identity_kept_evaluate _ _)
      refine identity_kept_figures _ _ _ ?_ rfl
      exact identity_kept_trans _ _ _
        (identity_kept_figures _ _ _ (identity_kept_refl s) rfl)
        (identity_kept_make_move (answer s OK) _ 0)

theorem identity_kept_move_valid (s : d_data) (piece : piece_t) (dest : coord_t)
    (take_piece promote : Int) (oc op : piece_t)
    (hk : op.type = -1 ∨ op.type = ROOK ∨ op.type = KNIGHT ∨ op.type = BISHOP ∨
      op.type = QUEEN) :
    identity_kept s (move_valid s piece dest take_piece promote oc op).1 := by
  rcases move_valid_binary s piece dest take_piece promote oc op with h | h
  · have hr := move_valid_rejected s piece dest take_piece promote oc op h
    exact identity_kept_of_equal _ _ (fun k => ⟨(hr.2.2.2 k).1, (hr.2.2.2 k).2.1⟩)
  · obtain ⟨_, _, _, _, hcol, hoth, _, _, _, hpro, hnot⟩ :=
      move_valid_accepted s piece dest take_piece promote oc op h
    intro k
    refine ⟨hcol k, ?_⟩
    by_cases hi : k = rd_board s (coord_to_sq piece.square)
    · subst hi
      cases hl : on_last_rank s (rd_board s (coord_to_sq piece.square)) dest
      · rw [hnot hl]
        exact Or.inl rfl
      · obtain ⟨_, hne, ht⟩ := hpro hl
        rw [ht]
        have hp := on_last_rank_true _ _ _ hl
        rcases hk with hk | hk
        · exact absurd hk hne
        · exact Or.inr ⟨hp, hk⟩
    · rw [(hoth k hi).1]
      exact Or.inl rfl

theorem kind_of_letter_kinds (c : Char) (t : Int) (h : kind_of_letter c = some t) :
    t = PAWN ∨ t = ROOK ∨ t = KNIGHT ∨ t = BISHOP ∨ t = QUEEN ∨ t = KING := by
  unfold kind_of_letter at h
  split_ifs at h <;> injection h with h <;> subst h <;> simp

theorem decode_promotion_kind (s : d_data) (len : Nat) (piece : piece_t) (dest : coord_t)
    (take_piece : Int) (piece_opt1 : piece_t) (color_opt type_opt : Char) (a : move_args)
    (h : decode_promotion s len piece dest take_piece piece_opt1 color_opt type_opt = .ok a) :
    a.piece_opt2.type = -1 ∨ a.piece_opt2.type = ROOK ∨ a.piece_opt2.type = KNIGHT ∨
      a.piece_opt2.type = BISHOP ∨ a.piece_opt2.type = QUEEN := by
  unfold decode_promotion at h
  by_cases h0 : color_opt = s.player_color
  · rw [if_pos h0] at h
    cases hk : kind_of_letter type_opt with
    | none => rw [hk] at h; cases h
    | some t =>
      have hkinds := kind_of_letter_kinds _ _ hk
      rw [hk] at h
      simp only at h
      by_cases h1 : piece.type ≠ PAWN
      · rw [if_pos h1] at h; cases h
      rw [if_neg h1] at h
      by_cases h2 : t = PAWN ∨ t = KING
      · rw [if_pos h2] at h; cases h
      rw [if_neg h2] at h
      have hq : t = ROOK ∨ t = KNIGHT ∨ t = BISHOP ∨ t = QUEEN := by
        rcases hkinds with e | e | e | e | e | e
        · exact absurd (Or.inl e) h2
        · exact Or.inl e
        · exact Or.inr (Or.inl e)
        · exact Or.inr (Or.inr (Or.inl e))
        · exact Or.inr (Or.inr (Or.inr e))
        · exact absurd (Or.inr e) h2
      split_ifs at h <;> injection h with h <;> subst h
      · exact Or.inl rfl
      · exact Or.inr hq
      · exact Or.inl rfl
  · rw [if_neg h0] at h; cases h

theorem decode_options_kind (s : d_data) (arg : List Char) (piece : piece_t) (dest : coord_t)
    (a : move_args) (h : decode_options s arg piece dest = .ok a) :
    a.piece_opt2.type = -1 ∨ a.piece_opt2.type = ROOK ∨ a.piece_opt2.type = KNIGHT ∨
      a.piece_opt2.type = BISHOP ∨ a.piece_opt2.type = QUEEN := by
  unfold decode_options at h
  simp only at h
  by_cases hl : arg.length = 10 ∨ arg.length = 13
  · rw [if_pos hl] at h
    by_cases hx : arg.getD 7 'n' = 'x'
    · rw [if_pos hx] at h
      by_cases hc : arg.getD 8 'n' = s.computer_color
      · rw [if_pos hc] at h
        cases hk : kind_of_letter (arg.getD 9 'n') with
        | none => rw [hk] at h; cases h
        | some t1 =>
          rw [hk] at h
          simp only at h
          split_ifs at h <;> first
            | exact decode_promotion_kind _ _ _ _ _ _ _ _ _ h
            | (injection h with h; subst h; exact Or.inl rfl)
      · rw [if_neg hc] at h
        cases h
    · rw [if_neg hx] at h
      split_ifs at h <;> first
        | exact decode_promotion_kind _ _ _ _ _ _ _ _ _ h
        | (injection h with h; subst h; exact Or.inl rfl)
  · rw [if_neg hl] at h
    injection h with h; subst h; exact Or.inl rfl

theorem decode_move_kind (s : d_data) (arg : Option (List Char)) (a : move_args)
    (h : decode_move s arg = .ok a) :
    a.piece_opt2.type = -1 ∨ a.piece_opt2.type = ROOK ∨ a.piece_opt2.type = KNIGHT ∨
      a.piece_opt2.type = BISHOP ∨ a.piece_opt2.type = QUEEN := by
  unfold decode_move at h
  cases arg with
  | none => cases h
  | some arg =>
    simp only at h
    by_cases hl : arg.length < 7
    · rw [if_pos hl] at h; cases h
    · rw [if_neg hl] at h
      cases hk : kind_of_letter (arg.getD 1 'n') with
      | none => rw [hk] at h; cases h
      | some t =>
        rw [hk] at h
        simp only at h
        by_cases hc : (arg.getD 0 'n' = 'W' ∨ arg.getD 0 'n' = 'B') ∧
            arg.getD 0 'n' = s.player_color
        · rw [if_pos hc] at h
          cases hs : coord_of_letters (arg.getD 2 'n') (arg.getD 3 'n') with
          | none => rw [hs] at h; cases h
          | some src =>
            rw [hs] at h
            simp only at h
            by_cases hsep : arg.getD 4 'n' ≠ '-'
            · rw [if_pos hsep] at h; cases h
            · rw [if_neg hsep] at h
              cases hd : coord_of_letters (arg.getD 5 'n') (arg.getD 6 'n') with
              | none => rw [hd] at h; cases h
              | some dst =>
                rw [hd] at h
                exact decode_options_kind _ _ _ _ _ h
        · rw [if_neg hc] at h
          cases h

theorem identity_kept_player_move (s : d_data) (a : move_args)
    (hk : a.piece_opt2.type = -1 ∨ a.piece_opt2.type = ROOK ∨ a.piece_opt2.type = KNIGHT ∨
      a.piece_opt2.type = BISHOP ∨ a.piece_opt2.type = QUEEN) :
    identity_kept s (player_move s a) := by
  have hv := identity_kept_move_valid s a.piece a.dest a.take_piece a.promote a.piece_opt1
    a.piece_opt2 hk
  unfold player_move
  split
  · exact identity_kept_figures _ _ _ (identity_kept_refl s) rfl
  · split
    · exact identity_kept_figures _ _ _ (identity_kept_refl s) rfl
    · simp only
      split
      · exact identity_kept_figures _ _ _ hv rfl
      · refine identity_kept_trans _ _ _ ?_ (identity_kept_evaluate _ _)
        exact identity_kept_figures _ _ _ hv rfl

theorem layout_identity_of_layout (t : d_data) (h : ∀ i : Fin 32, t.figures i = layout_piece i) :
    layout_identity t :=
  fun i => by rw [h i]; exact ⟨rfl, kind_kept_refl _⟩

theorem layout_identity_step (s t : d_data) (hs : layout_identity s) (h : identity_kept s t) :
    layout_identity t := by
  intro i
  have := h (i.val : Int)
  rw [rd_figure_fin, rd_figure_fin] at this
  exact ⟨this.1.trans (hs i).1, kind_kept_trans _ _ _ (hs i).2 this.2⟩

theorem layout_identity_dispatch (s : d_data) (cmd : List Char) (arg : Option (List Char))
    (hs : layout_identity s) : layout_identity (dispatch s cmd arg) := by
  have hsame : ∀ u : d_data, u.figures = s.figures → layout_identity u := fun u hu =>
    layout_identity_step s u hs (identity_kept_figures _ _ _ (identity_kept_refl s) hu)
  unfold dispatch
  split
  · cases arg with
    | none => exact hsame _ rfl
    | some a =>
      simp only
      unfold new_game
      split
      · exact layout_identity_of_layout _ (new_game_state s 'W' 'B' _ rfl).2.2.2.2.2.1
      · split
        · exact layout_identity_of_layout _ (new_game_state s 'B' 'W' _ rfl).2.2.2.2.2.1
        · exact hsame _ rfl
  · split
    · cases arg with
      | none => exact hsame _ rfl
      | some a => exact hsame _ rfl
    · split
      · cases hd : decode_move s arg with
        | error r => exact hsame _ rfl
        | ok a =>
          exact layout_identity_step s _ hs
            (identity_kept_player_move s a (decode_move_kind s arg a hd))
      · split
        · cases arg with
          | none => exact layout_identity_step s _ hs (identity_kept_computer_move s)
          | some a => exact hsame _ rfl
        · split
          · cases arg with
            | none =>
              simp only
              unfold resign
              split
              · exact hsame _ rfl
              · split
                · exact hsame _ rfl
                · exact hsame _ rfl
            | some a => exact hsame _ rfl
          · exact hsame _ rfl

theorem layout_identity_write (s : d_data) (msg : List Char) (hs : layout_identity s) :
    layout_identity (d_write s msg) := by
  unfold d_write
  cases tokenize msg with
  | none =>
    exact layout_identity_step s _ hs
      (identity_kept_figures _ _ _ (identity_kept_refl s) rfl)
  | some p => exact layout_identity_dispatch s p.1 p.2 hs

theorem layout_identity_run (msgs : List (List Char)) :
    ∀ s : d_data, layout_identity s → layout_identity (run s msgs) := by
  induction msgs with
  | nil => intro s hs; exact hs
  | cons m ms ih => intro s hs; exact ih _ (layout_identity_write s m hs)

/-- C24 (counterexample): after 00 W and ten further commands in which the
computer's a-pawn walks to a1, the game is in progress and record 16, a pawn
at set-up, is a queen: its kind is not the one assigned at set-up. -/
theorem promotion_changes_the_kind :
    (run start_white computer_promotion_game).game_on = 1 ∧
    (layout_piece 16).type = PAWN ∧
    (run start_white computer_promotion_game).figures 16 = ⟨QUEEN, 'B', 1, ⟨0, 0⟩⟩ ∧
    ((run start_white computer_promotion_game).figures 16).type ≠ (layout_piece 16).type := by
  decide!

/-- C24 (amended): after a new game (00 W or 00 B, from every state) and every
sequence of further messages, every record i has the colour assigned at
set-up; its kind is the one assigned at set-up, or, when that is a pawn,
possibly rook, knight, bishop or queen (a promotion); a record that is not a
pawn at set-up keeps its kind. -/
theorem piece_identity (s : d_data) (msgs : List (List Char)) (i : Fin 32) :
    (((run (d_write s "00 W\n".data) msgs).figures i).color = (layout_piece i).color ∧
      kind_kept (layout_piece i).type ((run (d_write s "00 W\n".data) msgs).figures i).type ∧
      ((layout_piece i).type ≠ PAWN →
        ((run (d_write s "00 W\n".data) msgs).figures i).type = (layout_piece i).type)) ∧
    (((run (d_write s "00 B\n".data) msgs).figures i).color = (layout_piece i).color ∧
      kind_kept (layout_piece i).type ((run (d_write s "00 B\n".data) msgs).figures i).type ∧
      ((layout_piece i).type ≠ PAWN →
        ((run (d_write s "00 B\n".data) msgs).figures i).type = (layout_piece i).type)) := by
  have hW := layout_identity_run msgs _
    (layout_identity_of_layout _
      (new_game_state s 'W' 'B' (d_write s "00 W\n".data) rfl).2.2.2.2.2.1) i
  have hB := layout_identity_run msgs _
    (layout_identity_of_layout _
      (new_game_state s 'B' 'W' (d_write s "00 B\n".data) rfl).2.2.2.2.2.1) i
  refine ⟨⟨hW.1, hW.2, fun hn => ?_⟩, ⟨hB.1, hB.2, fun hn => ?_⟩⟩
  · rcases hW.2 with h | h
    · exact h
    · exact absurd h.1 hn
  · rcases hB.2 with h | h
    · exact h
    · exact absurd h.1 hn

/-! ### The board with a single rook -/

theorem lone_rook_empty (k : Int) (h : k ≠ 27) : rd_board lone_rook k = -1 := by
  unfold rd_board
  split
  · rename_i hr
    show (if ((k.toNat : Nat) = 27) then (8 : Int) else -1) = -1
    rw [if_neg (by omega)]
  · rfl

/-! ### Candidates are unique -/

theorem ray_nodup (s : d_data) (color : Char) (dx dy : Int) (hd : dx ≠ 0 ∨ dy ≠ 0) :
    ∀ (fuel : Nat) (c : coord_t), (ray s color dx dy fuel c).Nodup := by
  intro fuel
  induction fuel with
  | zero => intro c; exact List.nodup_nil
  | succ fuel ih =>
    intro c
    unfold ray
    simp only
    by_cases hq : coord_to_sq ⟨c.x + dx, c.y + dy⟩ = -1
    · rw [if_pos hq]; exact List.nodup_nil
    · rw [if_neg hq]
      by_cases he : rd_board s (coord_to_sq ⟨c.x + dx, c.y + dy⟩) = -1
      · rw [if_pos he]
        refine List.nodup_cons.2 ⟨fun hm => ?_, ih _⟩
        have := (mem_ray_off s color dx dy hd fuel _ _ hm).2
        simp at this
      · rw [if_neg he]
        split
        · exact List.nodup_singleton _
        · exact List.nodup_nil

theorem ray_heading (s : d_data) (color : Char) (dx dy : Int)
    (hx : dx = -1 ∨ dx = 0 ∨ dx = 1) (hy : dy = -1 ∨ dy = 0 ∨ dy = 1)
    (fuel : Nat) (c m : coord_t) (h : m ∈ ray s color dx dy fuel c) :
    heading c m = (dx, dy) := by
  obtain ⟨_, k, hk, h1, h2⟩ := mem_ray s color dx dy fuel c m h
  unfold heading
  rcases hx with rfl | rfl | rfl <;> rcases hy with rfl | rfl | rfl <;>
    refine Prod.ext ?_ ?_ <;> simp only <;> split_ifs <;> omega

theorem nodup_append_heading (c : coord_t) (l1 l2 : List coord_t) (A B : List (Int × Int))
    (h1 : l1.Nodup) (h2 : l2.Nodup) (hA : ∀ m ∈ l1, heading c m ∈ A)
    (hB : ∀ m ∈ l2, heading c m ∈ B) (hd : ∀ a ∈ A, a ∉ B) :
    (l1 ++ l2).Nodup ∧ ∀ m ∈ l1 ++ l2, heading c m ∈ A ++ B := by
  refine ⟨List.nodup_append.2 ⟨h1, h2, fun m m1 m2 => hd _ (hA m m1) (hB m m2)⟩, fun m hm => ?_⟩
  rcases List.mem_append.1 hm with hm | hm
  · exact List.mem_append_left _ (hA m hm)
  · exact List.mem_append_right _ (hB m hm)

theorem ray_unit (s : d_data) (color : Char) (dx dy : Int)
    (hx : dx = -1 ∨ dx = 0 ∨ dx = 1) (hy : dy = -1 ∨ dy = 0 ∨ dy = 1) (hd : dx ≠ 0 ∨ dy ≠ 0)
    (c : coord_t) :
    (ray s color dx dy 8 c).Nodup ∧ ∀ m ∈ ray s color dx dy 8 c, heading c m ∈ [(dx, dy)] :=
  ⟨ray_nodup s color dx dy hd 8 c,
    fun m hm => List.mem_singleton.2 (ray_heading s color dx dy hx hy 8 c m hm)⟩

theorem rook_helper_unique (s : d_data) (piece : piece_t) :
    (rook_helper s piece).Nodup ∧
    ∀ m ∈ rook_helper s piece,
      heading piece.square m ∈ [((1 : Int), (0 : Int)), (-1, 0), (0, 1), (0, -1)] := by
  have r1 := ray_unit s piece.color 1 0 (by decide) (by decide) (by decide) piece.square
  have r2 := ray_unit s piece.color (-1) 0 (by decide) (by decide) (by decide) piece.square
  have r3 := ray_unit s piece.color 0 1 (by decide) (by decide) (by decide) piece.square
  have r4 := ray_unit s piece.color 0 (-1) (by decide) (by decide) (by decide) piece.square
  have a := nodup_append_heading piece.square _ _ _ _ r1.1 r2.1 r1.2 r2.2 (by decide)
  have b := nodup_append_heading piece.square _ _ _ _ a.1 r3.1 a.2 r3.2 (by decide)
  exact nodup_append_heading piece.square _ _ _ _ b.1 r4.1 b.2 r4.2 (by decide)

theorem bishop_helper_unique (s : d_data) (piece : piece_t) :
    (bishop_helper s piece).Nodup ∧
    ∀ m ∈ bishop_helper s piece,
      heading piece.square m ∈ [((1 : Int), (1 : Int)), (1, -1), (-1, 1), (-1, -1)] := by
  have r1 := ray_unit s piece.color 1 1 (by decide) (by decide) (by decide) piece.square
  have r2 := ray_unit s piece.color 1 (-1) (by decide) (by decide) (by decide) piece.square
  have r3 := ray_unit s piece.color (-1) 1 (by decide) (by decide) (by decide) piece.square
  have r4 := ray_unit s piece.color (-1) (-1) (by decide) (by decide) (by decide) piece.square
  have a := nodup_append_heading piece.square _ _ _ _ r1.1 r2.1 r1.2 r2.2 (by decide)
  have b := nodup_append_heading piece.square _ _ _ _ a.1 r3.1 a.2 r3.2 (by decide)
  exact nodup_append_heading piece.square _ _ _ _ b.1 r4.1 b.2 r4.2 (by decide)

theorem rook_bishop_disjoint (s : d_data) (piece : piece_t) (t : coord_t)
    (hr : t ∈ rook_helper s piece) : t ∉ bishop_helper s piece := by
  intro hb
  have h1 := (rook_helper_unique s piece).2 t hr
  have h2 := (bishop_helper_unique s piece).2 t hb
  revert h1 h2
  generalize heading piece.square t = d
  intro h1 h2
  simp only [List.mem_cons, List.mem_singleton, List.not_mem_nil, or_false] at h1 h2
  rcases h1 with rfl | rfl | rfl | rfl <;> simp at h2

theorem queen_helper_unique (s : d_data) (piece : piece_t) : (queen_helper s piece).Nodup := by
  unfold queen_helper
  exact List.nodup_append.2 ⟨(rook_helper_unique s piece).1, (bishop_helper_unique s piece).1,
    fun t hr hb => rook_bishop_disjoint s piece t hr hb⟩

theorem keep_move_sublist (s : d_data) (color : Char) (c : coord_t) :
    List.Sublist (keep_move s color c) [c] := by
  unfold keep_move
  split
  · exact List.Sublist.refl _
  · exact List.nil_sublist _

theorem ite_single_sublist (p : Prop) [Decidable p] (c : coord_t) :
    List.Sublist (if p then [c] else []) [c] := by
  split
  · exact List.Sublist.refl _
  · exact List.nil_sublist _

theorem ite_nil_sublist (p : Prop) [Decidable p] (l : List coord_t) :
    List.Sublist (if p then l else []) l := by
  split
  · exact List.Sublist.refl _
  · exact List.nil_sublist _

theorem knight_helper_unique (s : d_data) (piece : piece_t) : (knight_helper s piece).Nodup := by
  have hs : List.Sublist (knight_helper s piece)
      ([⟨piece.square.x - 1, piece.square.y - 2⟩] ++ [⟨piece.square.x - 1, piece.square.y + 2⟩] ++
       [⟨piece.square.x + 1, piece.square.y + 2⟩] ++ [⟨piece.square.x + 1, piece.square.y - 2⟩] ++
       [⟨piece.square.x + 2, piece.square.y - 1⟩] ++ [⟨piece.square.x + 2, piece.square.y + 1⟩] ++
       [⟨piece.square.x - 2, piece.square.y + 1⟩] ++
       [⟨piece.square.x - 2, piece.square.y - 1⟩]) := by
    unfold knight_helper
    simp only
    repeat first
      | exact keep_move_sublist _ _ _
      | apply List.Sublist.append _ (keep_move_sublist _ _ _)
  refine List.Nodup.sublist hs ?_
  simp only [List.singleton_append, List.cons_append, List.nil_append, List.nodup_cons,
    List.mem_cons, List.mem_singleton, coord_t.mk.injEq, List.not_mem_nil, List.nodup_nil,
    not_or, not_and, and_true, not_false_eq_true]
  omega

theorem king_helper_unique (s : d_data) (piece : piece_t) : (king_helper s piece).Nodup := by
  have hs : List.Sublist (king_helper s piece)
      ([⟨piece.square.x + 1, piece.square.y⟩] ++ [⟨piece.square.x - 1, piece.square.y⟩] ++
       [⟨piece.square.x, piece.square.y + 1⟩] ++ [⟨piece.square.x, piece.square.y - 1⟩] ++
       [⟨piece.square.x + 1, piece.square.y + 1⟩] ++ [⟨piece.square.x - 1, piece.square.y - 1⟩] ++
       [⟨piece.square.x + 1, piece.square.y - 1⟩] ++
       [⟨piece.square.x - 1, piece.square.y + 1⟩]) := by
    unfold king_helper
    simp only
    repeat first
      | exact keep_move_sublist _ _ _
      | apply List.Sublist.append _ (keep_move_sublist _ _ _)
  refine List.Nodup.sublist hs ?_
  simp only [List.singleton_append, List.cons_append, List.nil_append, List.nodup_cons,
    List.mem_cons, List.mem_singleton, coord_t.mk.injEq, List.not_mem_nil, List.nodup_nil,
    not_or, not_and, and_true, not_false_eq_true]
  omega

theorem pawn_helper_unique (s : d_data) (piece : piece_t) : (pawn_helper s piece).Nodup := by
  have hy : (if piece.color = 'B' then (-1 : Int) else 1) = -1 ∨
      (if piece.color = 'B' then (-1 : Int) else 1) = 1 := by
    split
    · exact Or.inl rfl
    · exact Or.inr rfl
  unfold pawn_helper
  simp only
  generalize (if piece.color = 'B' then (-1 : Int) else 1) = ym at hy
  have hs : List.Sublist
      ((if (piece.color = 'W' ∧ piece.square.y = 1) ∨ (piece.color = 'B' ∧ piece.square.y = 6)
        then
          if coord_to_sq ⟨piece.square.x, piece.square.y + 2 * ym⟩ ≠ -1 ∧
              rd_board s (coord_to_sq ⟨piece.square.x, piece.square.y + 2 * ym⟩) = -1 then
            [(⟨piece.square.x, piece.square.y + 2 * ym⟩ : coord_t)]
          else []
        else []) ++
      (if piece.square.y ≠ 0 ∨ piece.square.x ≠ 7 then
        (if coord_to_sq ⟨piece.square.x, piece.square.y + ym⟩ ≠ -1 ∧
            rd_board s (coord_to_sq ⟨piece.square.x, piece.square.y + ym⟩) = -1 then
          [(⟨piece.square.x, piece.square.y + ym⟩ : coord_t)]
        else []) ++
        (if coord_to_sq ⟨piece.square.x - 1, piece.square.y + ym⟩ ≠ -1 ∧
            rd_board s (coord_to_sq ⟨piece.square.x - 1, piece.square.y + ym⟩) ≠ -1 ∧
            (rd_figure s (rd_board s
              (coord_to_sq ⟨piece.square.x - 1, piece.square.y + ym⟩))).color ≠ piece.color then
          [(⟨piece.square.x - 1, piece.square.y + ym⟩ : coord_t)]
        else []) ++
        (if coord_to_sq ⟨piece.square.x + 1, piece.square.y + ym⟩ ≠ -1 ∧
            rd_board s (coord_to_sq ⟨piece.square.x + 1, piece.square.y + ym⟩) ≠ -1 ∧
            (rd_figure s (rd_board s
              (coord_to_sq ⟨piece.square.x + 1, piece.square.y + ym⟩))).color ≠ piece.color then
          [(⟨piece.square.x + 1, piece.square.y + ym⟩ : coord_t)]
        else [])
      else []))
      ([⟨piece.square.x, piece.square.y + 2 * ym⟩] ++
        ([⟨piece.square.x, piece.square.y + ym⟩] ++ [⟨piece.square.x - 1, piece.square.y + ym⟩] ++
          [⟨piece.square.x + 1, piece.square.y + ym⟩])) := by
    apply List.Sublist.append
    · exact (ite_nil_sublist _ _).trans (ite_single_sublist _ _)
    · refine (ite_nil_sublist _ _).trans ?_
      exact List.Sublist.append (List.Sublist.append (ite_single_sublist _ _)
        (ite_single_sublist _ _)) (ite_single_sublist _ _)
  refine List.Nodup.sublist hs ?_
  simp only [List.singleton_append, List.cons_append, List.nil_append, List.nodup_cons,
    List.mem_cons, List.mem_singleton, coord_t.mk.injEq, List.not_mem_nil, List.nodup_nil,
    not_or, not_and, and_true, not_false_eq_true]
  omega

theorem find_move_unique (s : d_data) (piece : piece_t) : (find_move s piece).Nodup := by
  unfold find_move
  split_ifs
  · exact pawn_helper_unique s piece
  · exact (rook_helper_unique s piece).1
  · exact knight_helper_unique s piece
  · exact (bishop_helper_unique s piece).1
  · exact queen_helper_unique s piece
  · exact king_helper_unique s piece

theorem nodup_filter_eq_length (l : List coord_t) (dest : coord_t) (h : l.Nodup) :
    (l.filter (fun m => decide (m.x = dest.x ∧ m.y = dest.y))).length ≤ 1 := by
  have hn := h.filter (fun m => decide (m.x = dest.x ∧ m.y = dest.y))
  have he : ∀ m ∈ l.filter (fun m => decide (m.x = dest.x ∧ m.y = dest.y)), m = dest := by
    intro m hm
    have := (List.mem_filter.1 hm).2
    simp only [decide_eq_true_eq] at this
    exact (coord_eq_iff m dest).1 this
  generalize l.filter (fun m => decide (m.x = dest.x ∧ m.y = dest.y)) = f at hn he
  match f, hn, he with
  | [], _, _ => exact Nat.zero_le _
  | [_], _, _ => exact Nat.le_refl _
  | a :: b :: r, hn, he =>
    exfalso
    have ha := he a (List.mem_cons_self _ _)
    have hb := he b (List.mem_cons_of_mem _ (List.mem_cons_self _ _))
    rw [ha, hb] at hn
    exact (List.nodup_cons.1 hn).1 (List.mem_cons_self _ _)

/-- C31: for every board and every piece (of any kind, on any square) the list
that `find_move` returns contains no coordinate twice; a rook candidate of a
square is never a bishop candidate of it, so the two parts of a queen's list
are disjoint; and at most one candidate passes the test
`m.x = dest.x ∧ m.y = dest.y` of the scan of `move_valid`. -/
theorem candidates_are_unique (s : d_data) (piece : piece_t) (dest : coord_t) :
    (find_move s piece).Nodup ∧
    (∀ t : coord_t, ¬ (t ∈ rook_helper s piece ∧ t ∈ bishop_helper s piece)) ∧
    ((find_move s piece).filter
      (fun m => decide (m.x = dest.x ∧ m.y = dest.y))).length ≤ 1 :=
  ⟨find_move_unique s piece, fun t h => rook_bishop_disjoint s piece t h.1 h.2,
    nodup_filter_eq_length _ dest (find_move_unique s piece)⟩

/-! ### The computer without a safe candidate -/

theorem write_computer_eq (s : d_data) (hg : s.game_on = 1) (ht : s.turn = s.computer_color) :
    d_write s "03\n".data =
      evaluate (relabel (make_move s s.computer_color 0).1
        { answer s OK with turn := s.player_color }) s.player_color := by
  show computer_move s = _
  unfold computer_move
  rw [if_neg (not_not.2 hg), if_neg (not_not.2 ht)]
  show evaluate { (make_move (relabel s (answer s OK)) s.computer_color 0).1 with
    turn := (make_move (relabel s (answer s OK)) s.computer_color 0).1.player_color }
    (make_move (relabel s (answer s OK)) s.computer_color 0).1.player_color = _
  rw [make_move_relabel]
  rfl

theorem make_move_none_state (s : d_data) (color : Char) (hw : well_formed s)
    (hg : grid_agrees s) (hn : (make_move s color 0).2 = 1) : (make_move s color 0).1 = s := by
  have e := make_move_commit_eq s color hw hg
  cases hf : first_safe s color with
  | none =>
    rw [hf] at e
    rw [e]
  | some jm =>
    rw [hf] at e
    rw [e] at hn
    have h01 : ¬ ((0 : Int) = 1) := by decide
    exact absurd hn h01

/-- The part of C32 that holds in every state: when the game is in progress,
the computer is to move and `make_move` finds no safe candidate, `03` gives
the turn to the player; if moreover the state is well formed with grid/piece
agreement, the grid and all records are unchanged, and the reply is OK
exactly when the player's king is not attacked. -/
theorem computer_without_move (s : d_data) (hg : s.game_on = 1)
    (ht : s.turn = s.computer_color) (hn : (make_move s s.computer_color 0).2 = 1) :
    (d_write s "03\n".data).turn = s.player_color ∧
    (well_formed s → grid_agrees s →
      same_position s (d_write s "03\n".data) ∧
      ((d_write s "03\n".data).reply = OK ↔ in_check s s.player_color = 0)) := by
  rw [write_computer_eq s hg ht]
  obtain ⟨h1, _, _, h4, _, _, _, _, h9, h10⟩ :=
    evaluate_spec (make_move s s.computer_color 0).1
      { answer s OK with turn := s.player_color } s.player_color
  refine ⟨h1, fun hw hga => ?_⟩
  have hs := make_move_none_state s s.computer_color hw hga hn
  rw [hs] at h4 h9 h10 ⊢
  refine ⟨?_, h4⟩
  by_cases hc : in_check s s.player_color = 0
  · exact h9 hc
  · have hp : (make_move s s.player_color 1).1 = s :=
      (make_move_loop_testing s s.player_color hw hga sixteen (fun _ h => h)).1
    have h := h10 hc
    rw [hp] at h
    exact h

set_option maxRecDepth 100000 in
/-- C32 (code defect: a computer move without a safe candidate revives a dead
record). After `00 W` and the revival game the game is in progress, it is the
computer's turn and the committing search of the computer finds no safe
candidate, while the dead record 5 (a promoted pawn that was captured earlier)
still stands in grid slot 61. Command `03` is answered OK, gives the turn to
the player and leaves the grid as it is, but record 5 is alive afterwards:
the piece records are not unchanged. -/
theorem computer_without_move_revives :
    (run start_white revival_game).game_on = 1 ∧
    (run start_white revival_game).turn = (run start_white revival_game).computer_color ∧
    (make_move (run start_white revival_game)
      (run start_white revival_game).computer_color 0).2 = 1 ∧
    (run start_white revival_game).board 61 = 5 ∧
    ((run start_white revival_game).figures 5).alive = 0 ∧
    (d_write (run start_white revival_game) "03\n".data).reply = OK ∧
    (d_write (run start_white revival_game) "03\n".data).turn =
      (run start_white revival_game).player_color ∧
    (∀ k : Fin 64, (d_write (run start_white revival_game) "03\n".data).board k =
      (run start_white revival_game).board k) ∧
    ((d_write (run start_white revival_game) "03\n".data).figures 5).alive = 1 := by
  rw [revival_game_state]
  decide!

/-! ### The kings keep their records -/

theorem kings_in_place_of_layout (t : d_data) (h : layout_identity t) : kings_in_place t := by
  have h15 := h 15
  have h31 := h 31
  refine ⟨h15.1, ?_, h31.1, ?_, fun i => (h i).1⟩
  · rcases h15.2 with e | e
    · exact e
    · exact absurd e.1 (by decide)
  · rcases h31.2 with e | e
    · exact e
    · exact absurd e.1 (by decide)

theorem identity_kept_dispatch (s : d_data) (cmd : List Char) (arg : Option (List Char)) :
    identity_kept s (dispatch s cmd arg) ∨
    ∀ i : Fin 32, (dispatch s cmd arg).figures i = layout_piece i := by
  have hsame : ∀ u : d_data, u.figures = s.figures → identity_kept s u := fun u hu =>
    identity_kept_figures _ _ _ (identity_kept_refl s) hu
  unfold dispatch
  split
  · cases arg with
    | none => exact Or.inl (hsame _ rfl)
    | some a =>
      simp only
      unfold new_game
      split
      · exact Or.inr (new_game_state s 'W' 'B' _ rfl).2.2.2.2.2.1
      · split
        · exact Or.inr (new_game_state s 'B' 'W' _ rfl).2.2.2.2.2.1
        · exact Or.inl (hsame _ rfl)
  · left
    split
    · cases arg with
      | none => exact hsame _ rfl
      | some a => exact hsame _ rfl
    · split
      · cases hd : decode_move s arg with
        | error r => exact hsame _ rfl
        | ok a => exact identity_kept_player_move s a (decode_move_kind s arg a hd)
      · split
        · cases arg with
          | none => exact identity_kept_computer_move s
          | some a => exact hsame _ rfl
        · split
          · cases arg with
            | none =>
              simp only
              unfold resign
              split
              · exact hsame _ rfl
              · split
                · exact hsame _ rfl
                · exact hsame _ rfl
            | some a => exact hsame _ rfl
          · exact hsame _ rfl

theorem identity_kept_write (s : d_data) (msg : List Char) :
    identity_kept s (d_write s msg) ∨
    ∀ i : Fin 32, (d_write s msg).figures i = layout_piece i := by
  unfold d_write
  cases tokenize msg with
  | none => exact Or.inl (identity_kept_figures _ _ _ (identity_kept_refl s) rfl)
  | some p => exact identity_kept_dispatch s p.1 p.2

/-- C33: after a new game (00 W or 00 B, from every state) and every sequence
of further messages, record 15 is a white king and record 31 a black king,
the records 0..15 are white and 16..31 black, and the kind of every record is
the kind of the set-up or, for a pawn of the set-up, rook, knight, bishop or
queen; a single message either leaves every record its colour and changes a
kind at most from pawn to rook, knight, bishop or queen, or is a new game
that writes the set-up into all records. -/
theorem king_identities (s : d_data) (msgs : List (List Char)) (msg : List Char) :
    kings_in_place (run (d_write s "00 W\n".data) msgs) ∧
    kings_in_place (run (d_write s "00 B\n".data) msgs) ∧
    layout_identity (run (d_write s "00 W\n".data) msgs) ∧
    layout_identity (run (d_write s "00 B\n".data) msgs) ∧
    (identity_kept s (d_write s msg) ∨
      ∀ i : Fin 32, (d_write s msg).figures i = layout_piece i) := by
  have hW := layout_identity_run msgs _ (layout_identity_of_layout _
    (new_game_state s 'W' 'B' (d_write s "00 W\n".data) rfl).2.2.2.2.2.1)
  have hB := layout_identity_run msgs _ (layout_identity_of_layout _
    (new_game_state s 'B' 'W' (d_write s "00 B\n".data) rfl).2.2.2.2.2.1)
  exact ⟨kings_in_place_of_layout _ hW, kings_in_place_of_layout _ hB, hW, hB,
    identity_kept_write s msg⟩

/-! ### The tentative application of `make_move` is the one of the specification -/

theorem occupant_ne_mover (s : d_data) (kj : Fin 32) (m : coord_t) (hg : grid_agrees s)
    (hm : coord_to_sq m ≠ coord_to_sq (s.figures kj).square) :
    rd_board s (coord_to_sq m) ≠ (kj.val : Int) := by
  intro h
  rcases rd_board_cases s hg (coord_to_sq m) with h1 | ⟨kv, h1, sl, h2, h3⟩
  · omega
  · have hkv : kv = kj := by apply Fin.ext; omega
    subst hkv
    have := ((hg.1 sl kv).1 h3).2
    exact hm (by rw [this, h2])

theorem on_last_rank_iff (s : d_data) (j : Int) (m : coord_t) :
    on_last_rank s j m = true ↔ reaches_final_rank (rd_figure s j) m := by
  unfold on_last_rank reaches_final_rank
  rw [decide_eq_true_iff]
  constructor
  · rintro ⟨h1, h2 | h2⟩
    · exact ⟨h1, Or.inr h2⟩
    · exact ⟨h1, Or.inl h2⟩
  · rintro ⟨h1, h2 | h2⟩
    · exact ⟨h1, Or.inr h2⟩
    · exact ⟨h1, Or.inl h2⟩

theorem mm_apply_board (s : d_data) (color : Char) (j : Int) (m : coord_t) :
    (mm_apply s color j m).state.board =
      (tentative_application s color j m).board := by
  funext k
  simp only [mm_apply, tentative_application, wr_board_board]
  split_ifs <;> rfl

theorem mm_apply_figures (s : d_data) (color : Char) (kj : Fin 32) (m : coord_t)
    (hg : grid_agrees s) (hm : coord_to_sq m ≠ coord_to_sq (s.figures kj).square) :
    (mm_apply s color (kj.val : Int) m).state.figures =
      (tentative_application s color (kj.val : Int) m).figures := by
  have hocc := occupant_ne_mover s kj m hg hm
  have hfin : ∀ a b : Fin 32, ((a.val : Int) = (b.val : Int)) ↔ a = b := by
    intro a b; constructor
    · intro h; apply Fin.ext; omega
    · intro h; rw [h]
  funext i
  have hpromo : ∀ st : d_data, (rd_figure st (kj.val : Int)).type = (s.figures kj).type →
      (rd_figure st (kj.val : Int)).color = (s.figures kj).color →
      (on_last_rank st (kj.val : Int) m = true ↔ reaches_final_rank (s.figures kj) m) := by
    intro st h1 h2
    rw [on_last_rank_iff]
    unfold reaches_final_rank
    rw [h1, h2]
  have hA : ∀ v : Int, (on_last_rank (wr_alive (wr_square s kj m) v 0) kj m = true ↔
      reaches_final_rank (s.figures kj) m) := fun v =>
    hpromo _ (by rw [rd_figure_wr_alive_type, rd_figure_wr_square_type, rd_figure_fin])
      (by rw [rd_figure_wr_alive_color, rd_figure_wr_square_color, rd_figure_fin])
  have hB : (on_last_rank (wr_square s kj m) kj m = true ↔
      reaches_final_rank (s.figures kj) m) :=
    hpromo _ (by rw [rd_figure_wr_square_type, rd_figure_fin])
      (by rw [rd_figure_wr_square_color, rd_figure_fin])
  have hvict : (rd_board s (coord_to_sq m) = (i.val : Int) ∧ (s.figures i).color ≠ color) ↔
      (takes (wr_square s kj m) color (rd_board s (coord_to_sq m)) = true ∧
        (i.val : Int) = rd_board s (coord_to_sq m)) := by
    constructor
    · rintro ⟨h1, h2⟩
      refine ⟨?_, h1.symm⟩
      unfold takes
      rw [decide_eq_true_iff, rd_figure_wr_square_color, h1, rd_figure_fin]
      exact ⟨by omega, h2⟩
    · rintro ⟨h1, h2⟩
      have h3 := (takes_true _ _ _ h1).2
      rw [rd_figure_wr_square_color, ← h2, rd_figure_fin] at h3
      exact ⟨h2.symm, h3⟩
  simp only [mm_apply, tentative_application, rd_board_wr_square]
  by_cases hi : i = kj
  · subst hi
    have hv : ¬ ((i.val : Int) = rd_board s (coord_to_sq m)) := fun h => hocc h.symm
    rw [if_pos rfl]
    by_cases hc : takes (wr_square s i m) color (rd_board s (coord_to_sq m)) = true
    · rw [if_pos hc]
      by_cases hp : reaches_final_rank (s.figures i) m
      · rw [if_pos ((hA _).2 hp), if_pos hp]
        show (wr_type (wr_alive (wr_square s i m) _ 0) i QUEEN).figures i = _
        simp [wr_type, wr_alive, wr_square, hv]
      · rw [if_neg (fun h => hp ((hA _).1 h)), if_neg hp]
        show (wr_alive (wr_square s i m) _ 0).figures i = _
        simp [wr_alive, wr_square, hv]
    · rw [if_neg hc]
      by_cases hp : reaches_final_rank (s.figures i) m
      · rw [if_pos (hB.2 hp), if_pos hp]
        show (wr_type (wr_square s i m) i QUEEN).figures i = _
        simp [wr_type, wr_square]
      · rw [if_neg (fun h => hp (hB.1 h)), if_neg hp]
        show (wr_square s i m).figures i = _
        simp [wr_square]
  · have hk : ¬ ((i.val : Int) = (kj.val : Int)) := fun h => hi ((hfin _ _).1 h)
    rw [if_neg hk]
    by_cases hc : takes (wr_square s kj m) color (rd_board s (coord_to_sq m)) = true
    · rw [if_pos hc]
      by_cases hv : (i.val : Int) = rd_board s (coord_to_sq m)
      · rw [if_pos (hvict.2 ⟨hc, hv⟩)]
        by_cases hp : reaches_final_rank (s.figures kj) m
        · rw [if_pos ((hA _).2 hp)]
          show (wr_type (wr_alive (wr_square s kj m) _ 0) kj QUEEN).figures i = _
          simp only [wr_type, wr_alive, wr_square, if_neg hk, if_pos hv]
        · rw [if_neg (fun h => hp ((hA _).1 h))]
          show (wr_alive (wr_square s kj m) _ 0).figures i = _
          simp only [wr_alive, wr_square, if_neg hk, if_pos hv]
      · rw [if_neg (fun h => hv (hvict.1 h).2)]
        by_cases hp : reaches_final_rank (s.figures kj) m
        · rw [if_pos ((hA _).2 hp)]
          show (wr_type (wr_alive (wr_square s kj m) _ 0) kj QUEEN).figures i = _
          simp only [wr_type, wr_alive, wr_square, if_neg hk, if_neg hv]
        · rw [if_neg (fun h => hp ((hA _).1 h))]
          show (wr_alive (wr_square s kj m) _ 0).figures i = _
          simp only [wr_alive, wr_square, if_neg hk, if_neg hv]
    · rw [if_neg hc, if_neg (fun h => hc (hvict.1 h).1)]
      by_cases hp : reaches_final_rank (s.figures kj) m
      · rw [if_pos (hB.2 hp)]
        show (wr_type (wr_square s kj m) kj QUEEN).figures i = _
        simp only [wr_type, wr_square, if_neg hk]
      · rw [if_neg (fun h => hp (hB.1 h))]
        show (wr_square s kj m).figures i = _
        simp only [wr_square, if_neg hk]

theorem mm_apply_specified (s : d_data) (color : Char) (j : Int) (m : coord_t)
    (hg : grid_agrees s) (hj : 0 ≤ j ∧ j < 32)
    (hm : m ∈ find_move s (rd_figure s j)) :
    (mm_apply s color j m).state = tentative_application s color j m := by
  obtain ⟨kj, rfl⟩ : ∃ kj : Fin 32, (kj.val : Int) = j :=
    ⟨⟨j.toNat, by omega⟩, by simp; omega⟩
  have hne := (candidate_square_ne s _ m hm).2.2
  rw [rd_figure_fin] at hne
  have hs : ∀ st : d_data, ∀ c : Bool, ∀ a b : d_data, a.game_on = st.game_on →
      b.game_on = st.game_on → (if c = true then a else b).game_on = st.game_on := by
    intro st c a b ha hb; split <;> assumption
  apply d_data_ext
  · simp only [mm_apply, tentative_application]; split_ifs <;> rfl
  · exact mm_apply_board s color _ m
  · exact mm_apply_figures s color kj m hg hne
  all_goals (simp only [mm_apply, tentative_application]; split_ifs <;> rfl)

theorem mm_apply_in_order (s : d_data) (color : Char) (hg : grid_agrees s)
    (jm : Int × coord_t) (h : jm ∈ search_order s color sixteen) :
    (mm_apply s color jm.1 jm.2).state = tentative_application s color jm.1 jm.2 := by
  obtain ⟨j, m⟩ := jm
  obtain ⟨⟨i, hi, hj⟩, _, hm⟩ := (mem_search_order s color sixteen j m).1 h
  have hr := mover_range color i hi
  rw [← hj] at hr
  exact mm_apply_specified s color j m hg hr hm

/-- C9: in a well-formed state with grid/piece agreement, `make_move` with
`testing = 0` follows the search order (alive records of the colour by
ascending index, then generation order). It returns 1 exactly when no
candidate of the order leaves the king of the colour unattacked after its
tentative application (the mover on the candidate square, a victim of the
other colour marked dead, a pawn on its final rank a queen), and then the
state is unchanged; otherwise it returns 0 and the new state is exactly the
tentative application of the first such candidate, in which `in_check` of the
colour is 0. -/
theorem make_move_first_legal (s : d_data) (color : Char)
    (hw : well_formed s) (hg : grid_agrees s) :
    (∀ j m, (j, m) ∈ search_order s color sixteen ↔
      (∃ i, (0 ≤ i ∧ i < 16) ∧ j = mover color i) ∧ (rd_figure s j).alive ≠ 0 ∧
        m ∈ find_move s (rd_figure s j)) ∧
    ((make_move s color 0).2 = 1 ↔
      ∀ jm ∈ search_order s color sixteen,
        in_check (tentative_application s color jm.1 jm.2) color ≠ 0) ∧
    ((make_move s color 0).2 = 1 → (make_move s color 0).1 = s) ∧
    ((make_move s color 0).2 ≠ 1 →
      (make_move s color 0).2 = 0 ∧
      ∃ before jm after, search_order s color sixteen = before ++ jm :: after ∧
        (∀ x ∈ before, in_check (tentative_application s color x.1 x.2) color ≠ 0) ∧
        in_check (tentative_application s color jm.1 jm.2) color = 0 ∧
        (make_move s color 0).1 = tentative_application s color jm.1 jm.2 ∧
        in_check (make_move s color 0).1 color = 0) ∧
    (∀ before jm after, search_order s color sixteen = before ++ jm :: after →
      (∀ x ∈ before, in_check (tentative_application s color x.1 x.2) color ≠ 0) →
      in_check (tentative_application s color jm.1 jm.2) color = 0 →
      make_move s color 0 = (tentative_application s color jm.1 jm.2, 0)) := by
  obtain ⟨h1, h2, h3, h4⟩ := make_move_first_safe s color hw hg
  have hsp := mm_apply_in_order s color hg
  refine ⟨h1, ⟨fun h jm hjm => ?_, fun h => h2.2 (fun jm hjm => ?_)⟩, h3, fun hne => ?_,
    fun before jm after hsplit hb hsafe => ?_⟩
  · rw [← hsp jm hjm]
    exact h2.1 h jm hjm
  · rw [hsp jm hjm]
    exact h jm hjm
  · obtain ⟨h0, before, jm, after, hsplit, hb, hsafe, hst, hin⟩ := h4 hne
    have hjm : jm ∈ search_order s color sixteen := by rw [hsplit]; simp
    refine ⟨h0, before, jm, after, hsplit, fun x hx => ?_, ?_, ?_, hin⟩
    · have hx2 : x ∈ search_order s color sixteen := by
        rw [hsplit]; exact List.mem_append_left _ hx
      rw [← hsp x hx2]
      exact hb x hx
    · rw [← hsp jm hjm]
      exact hsafe
    · rw [← hsp jm hjm]
      exact hst
  · have hjm : jm ∈ search_order s color sixteen := by rw [hsplit]; simp
    have hfirst : first_safe s color = some jm := by
      unfold first_safe
      refine List.find?_eq_some.2 ⟨?_, before, after, hsplit, fun x hx => ?_⟩
      · rw [safe_candidate_iff, hsp jm hjm]
        exact hsafe
      · have hx2 : x ∈ search_order s color sixteen := by
          rw [hsplit]; exact List.mem_append_left _ hx
        have hu := hb x hx
        rw [← hsp x hx2] at hu
        cases hsc : safe_candidate s color x
        · rfl
        · exact absurd ((safe_candidate_iff s color x).1 hsc) hu
    have heq := make_move_commit_eq s color hw hg
    rw [hfirst] at heq
    rw [heq]
    show ((mm_apply s color jm.1 jm.2).state, (0 : Int)) = _
    rw [hsp jm hjm]

/-! ### The capture declaration of a grammatical move -/

theorem decode_move_unset_colour (s : d_data) (hw : s.player_color ≠ 'W')
    (hb : s.player_color ≠ 'B') (arg : Option (List Char)) :
    decode_move s arg = .error INVFMT := by
  unfold decode_move
  cases arg with
  | none => rfl
  | some arg =>
    simp only
    by_cases hl : arg.length < 7
    · rw [if_pos hl]
    · rw [if_neg hl]
      cases hk : kind_of_letter (arg.getD 1 'n') with
      | none => rfl
      | some t =>
        simp only
        rw [if_neg]
        rintro ⟨h1 | h1, h2⟩
        · exact hw (by rw [← h2, h1])
        · exact hb (by rw [← h2, h1])

/-- C13 (code defect: on a fresh device no move is answered NOGAME). Before
any new game `game_on` is 0; every message with the command `02`, whatever
its argument, is answered INVFMT there and leaves the state as it is, while
`03` and `04` are answered NOGAME; the same `02 WPe2-e4` is answered NOGAME
after `00 W` and the resignation `04`. -/
theorem move_on_fresh_device_is_format_error (msg : List Char) (arg : Option (List Char))
    (hm : tokenize msg = some ("02".data, arg)) :
    init_state.game_on = 0 ∧
    (d_write init_state msg).reply = INVFMT ∧
    same_game init_state (d_write init_state msg) ∧
    (d_write init_state "03\n".data).reply = NOGAME ∧
    (d_write init_state "04\n".data).reply = NOGAME ∧
    (d_write start_white "04\n".data).game_on = 0 ∧
    (d_write (d_write start_white "04\n".data) "02 WPe2-e4\n".data).reply = NOGAME := by
  have hd := decode_move_unset_colour init_state (by decide) (by decide) arg
  rw [write_move_error init_state msg arg INVFMT hm hd]
  exact ⟨rfl, rfl, same_game_answer init_state INVFMT, by decide, by decide, by decide,
    by decide⟩

/-! ### Witnesses -/

/-- Witness of C3: from the starting layout the validator accepts e2-e4, and
the white king is not attacked afterwards. -/
theorem move_valid_sound_witness :
    (move_valid start_white ⟨PAWN, 'W', 0, ⟨4, 1⟩⟩ ⟨4, 3⟩ 0 0 no_piece no_piece).2 = 1 ∧
    in_check (move_valid start_white ⟨PAWN, 'W', 0, ⟨4, 1⟩⟩ ⟨4, 3⟩ 0 0 no_piece no_piece).1
      (move_valid start_white ⟨PAWN, 'W', 0, ⟨4, 1⟩⟩ ⟨4, 3⟩ 0 0 no_piece
        no_piece).1.player_color = 0 :=
  ⟨by decide,
    move_valid_sound start_white ⟨PAWN, 'W', 0, ⟨4, 1⟩⟩ ⟨4, 3⟩ 0 0 no_piece no_piece
      (by decide)⟩

/-- Witness of C4: before any game, `02` with an argument of length 5 is
answered INVFMT and the state keeps its fields. -/
theorem error_replies_keep_state_witness :
    (d_write init_state "02 abcde\n".data).reply = INVFMT ∧
    (d_write init_state "02 abcde\n".data).game_on = init_state.game_on ∧
    (d_write init_state "02 abcde\n".data).board = init_state.board ∧
    (d_write init_state "02 abcde\n".data).figures = init_state.figures ∧
    (d_write init_state "02 abcde\n".data).turn = init_state.turn ∧
    (d_write init_state "02 abcde\n".data).player_color = init_state.player_color ∧
    (d_write init_state "02 abcde\n".data).computer_color = init_state.computer_color :=
  ⟨by decide, error_replies_keep_state init_state "02 abcde\n".data (Or.inl (by decide))⟩

/-- Witness of C7: after e2-e4 from the starting layout the computer is to
move, and `03` hands the turn back to the player. -/
theorem computer_move_outcome_witness :
    (d_write start_white "02 WPe2-e4\n".data).game_on = 1 ∧
    (d_write start_white "02 WPe2-e4\n".data).turn =
      (d_write start_white "02 WPe2-e4\n".data).computer_color ∧
    (d_write (d_write start_white "02 WPe2-e4\n".data) "03\n".data).turn =
      (d_write start_white "02 WPe2-e4\n".data).player_color :=
  ⟨by decide, by decide,
    (computer_move_outcome (d_write start_white "02 WPe2-e4\n".data) (by decide)
      (by decide)).1⟩

/-- Witness of C8: the starting layout is well formed and agrees with its
grid, and the test search for Black returns it unchanged. -/
theorem make_move_testing_pure_witness :
    well_formed start_white ∧ grid_agrees start_white ∧
    (make_move start_white 'B' 1).1 = start_white :=
  ⟨by decide, by decide, (make_move_testing_pure start_white 'B' (by decide) (by decide)).1⟩

/-- Witness of C9: in `capture_promotion_state` the first candidate of Black in
the search order is the capture a2xb1 of the pawn of record 16; it is safe, so
the committing search returns 0 and its new state is the tentative
application: record 16 is a queen on b1, the knight of record 10 is dead,
slot 1 holds index 16 and slot 8 is empty. -/
theorem make_move_first_legal_witness :
    well_formed capture_promotion_state ∧ grid_agrees capture_promotion_state ∧
    make_move capture_promotion_state 'B' 0 =
      (tentative_application capture_promotion_state 'B' 16 ⟨1, 0⟩, 0) ∧
    (tentative_application capture_promotion_state 'B' 16 ⟨1, 0⟩).figures 16 =
      ⟨QUEEN, 'B', 1, ⟨1, 0⟩⟩ ∧
    (tentative_application capture_promotion_state 'B' 16 ⟨1, 0⟩).figures 10 =
      ⟨KNIGHT, 'W', 0, ⟨1, 0⟩⟩ ∧
    (tentative_application capture_promotion_state 'B' 16 ⟨1, 0⟩).board 1 = 16 ∧
    (tentative_application capture_promotion_state 'B' 16 ⟨1, 0⟩).board 8 = -1 :=
  ⟨by decide, by decide,
    (make_move_first_legal capture_promotion_state 'B' (by decide) (by decide)).2.2.2.2
      [] (16, ⟨1, 0⟩) (search_order capture_promotion_state 'B' sixteen).tail
      (by decide) (fun x hx => absurd hx (List.not_mem_nil x)) (by decide),
    by decide, by decide, by decide, by decide⟩

/-- Witness of C15: in the starting layout with White to move, `04` is
answered OK and ends the game. -/
theorem resign_ends_game_witness :
    start_white.game_on = 1 ∧ start_white.turn = start_white.player_color ∧
    (d_write start_white "04\n".data).reply = OK ∧
    (d_write start_white "04\n".data).game_on = 0 :=
  ⟨rfl, rfl, (resign_ends_game start_white rfl rfl).1, (resign_ends_game start_white rfl rfl).2.1⟩

/-- An instance of `no_game_replies`: after `00 W` and `04` no game is in
progress, and the decoded `02 WPe2-e4` is answered NOGAME. -/
theorem no_game_replies_after_resignation :
    (d_write start_white "04\n".data).game_on = 0 ∧
    tokenize "02 WPe2-e4\n".data = some ("02".data, some "WPe2-e4".data) ∧
    (decode_move (d_write start_white "04\n".data) (some "WPe2-e4".data)).toOption =
      some ⟨⟨PAWN, 'W', 0, ⟨4, 1⟩⟩, ⟨4, 3⟩, 0, 0, no_piece, no_piece⟩ ∧
    (d_write (d_write start_white "04\n".data) "02 WPe2-e4\n".data).reply = NOGAME :=
  ⟨by decide, by decide, by decide,
    (no_game_replies (d_write start_white "04\n".data) (by decide)).2.2 "02 WPe2-e4\n".data
      (some "WPe2-e4".data) ⟨⟨PAWN, 'W', 0, ⟨4, 1⟩⟩, ⟨4, 3⟩, 0, 0, no_piece, no_piece⟩
      (by decide) rfl⟩

/-- Witness of C14: after `00 W` and `02 WPe2-e4` it is the computer's turn;
`04` and the decoded `02 WPd2-d4` are answered OOT. -/
theorem out_of_turn_replies_witness :
    (d_write start_white "02 WPe2-e4\n".data).game_on = 1 ∧
    (d_write start_white "02 WPe2-e4\n".data).turn ≠
      (d_write start_white "02 WPe2-e4\n".data).player_color ∧
    (d_write (d_write start_white "02 WPe2-e4\n".data) "04\n".data).reply = OOT ∧
    (d_write (d_write start_white "02 WPe2-e4\n".data) "02 WPd2-d4\n".data).reply = OOT :=
  ⟨by decide, by decide,
    ((out_of_turn_replies (d_write start_white "02 WPe2-e4\n".data) (by decide)).1
      (by decide)).1,
    ((out_of_turn_replies (d_write start_white "02 WPe2-e4\n".data) (by decide)).1
      (by decide)).2 "02 WPd2-d4\n".data (some "WPd2-d4".data)
      ⟨⟨PAWN, 'W', 0, ⟨3, 1⟩⟩, ⟨3, 3⟩, 0, 0, no_piece, no_piece⟩ (by decide) rfl⟩

/-- Witness of C13: the grammatical `02 WPe2-e4`, written to a fresh device, is
answered INVFMT. -/
theorem move_on_fresh_device_is_format_error_witness :
    tokenize "02 WPe2-e4\n".data = some ("02".data, some "WPe2-e4".data) ∧
    grammar_move_spec "WPe2-e4".data = true ∧
    init_state.game_on = 0 ∧
    (d_write init_state "02 WPe2-e4\n".data).reply = INVFMT :=
  ⟨by decide, by decide, rfl,
    (move_on_fresh_device_is_format_error "02 WPe2-e4\n".data (some "WPe2-e4".data)
      (by decide)).2.1⟩

/-- Witness of C17: after `00 W`, `02 WPb2-b4`, `03` the validator accepts
b4xa5 declared as the capture of a pawn, and record 16 is dead afterwards. -/
theorem capture_rule_witness :
    (move_valid (run start_white capture_offer) ⟨PAWN, 'W', 0, ⟨1, 3⟩⟩ ⟨0, 4⟩ 1 0
      ⟨PAWN, 'B', 0, ⟨0, 4⟩⟩ no_piece).2 = 1 ∧
    rd_board (run start_white capture_offer) (coord_to_sq ⟨0, 4⟩) = 16 ∧
    (rd_figure (move_valid (run start_white capture_offer) ⟨PAWN, 'W', 0, ⟨1, 3⟩⟩ ⟨0, 4⟩ 1 0
      ⟨PAWN, 'B', 0, ⟨0, 4⟩⟩ no_piece).1
      (rd_board (run start_white capture_offer) (coord_to_sq ⟨0, 4⟩))).alive = 0 :=
  ⟨by decide, by decide,
    ((capture_rule (run start_white capture_offer) ⟨PAWN, 'W', 0, ⟨1, 3⟩⟩ ⟨0, 4⟩ 1 0
      ⟨PAWN, 'B', 0, ⟨0, 4⟩⟩ no_piece (by decide) (by decide) (by decide)).1
      (by decide)).2.2.1⟩

/-- Witness of C18: in the starting layout with White to move,
`02 WPa2-a3yWK` (a promotion to a king) is answered ILLMOVE. -/
theorem promotion_rules_witness :
    start_white.game_on = 1 ∧ start_white.turn = start_white.player_color ∧
    (d_write start_white "02 WPa2-a3yWK\n".data).reply = ILLMOVE :=
  ⟨rfl, rfl, (promotion_rules start_white rfl rfl).2 "02 WPa2-a3yWK\n".data "WPa2-a3yWK".data
    'K' (by decide) (by decide) (by decide) (by decide) (by decide) (by decide)⟩

/-- Witness of C16: the command `02 WPb7-b8yWQ`, written after `00 W` and
`promotion_game` (the white pawn 2 on b7, b8 empty, White to move), is not
answered OK, CHECK or MATE. -/
theorem short_promotion_never_accepted_witness :
    tokenize short_promotion = some ("02".data, some "WPb7-b8yWQ".data) ∧
    (d_write (run init_state ("00 W\n".data :: promotion_game)) short_promotion).reply ≠ OK ∧
    (d_write (run init_state ("00 W\n".data :: promotion_game)) short_promotion).reply ≠
      CHECK ∧
    (d_write (run init_state ("00 W\n".data :: promotion_game)) short_promotion).reply ≠
      MATE :=
  ⟨by decide,
    (short_promotion_never_accepted (run init_state ("00 W\n".data :: promotion_game))
      short_promotion "WPb7-b8yWQ".data (by decide) (by decide) (by decide)).2.1,
    (short_promotion_never_accepted (run init_state ("00 W\n".data :: promotion_game))
      short_promotion "WPb7-b8yWQ".data (by decide) (by decide) (by decide)).2.2.1,
    (short_promotion_never_accepted (run init_state ("00 W\n".data :: promotion_game))
      short_promotion "WPb7-b8yWQ".data (by decide) (by decide) (by decide)).2.2.2.1⟩

/-- Witness of C21: a queen on d4 of the board that holds only the rook of
record 8 has at most 32 candidates. -/
theorem candidate_count_bound_witness :
    coord_to_sq (⟨3, 3⟩ : coord_t) ≠ -1 ∧
    (find_move lone_rook ⟨QUEEN, 'W', 1, ⟨3, 3⟩⟩).length ≤ 32 :=
  ⟨by decide, (candidate_count_bound lone_rook ⟨QUEEN, 'W', 1, ⟨3, 3⟩⟩ (by decide)).2⟩

/-- Witness of C22: the rook on d4 of the board that holds nothing else has 14
candidates. -/
theorem rook_on_empty_board_witness :
    coord_to_sq (⟨3, 3⟩ : coord_t) ≠ -1 ∧
    (rook_helper lone_rook ⟨ROOK, 'W', 1, ⟨3, 3⟩⟩).length = 14 :=
  ⟨by decide, (rook_on_empty_board lone_rook ⟨ROOK, 'W', 1, ⟨3, 3⟩⟩ (by decide)
    (fun c _ h2 => lone_rook_empty _ h2)).1⟩

/-- Witness of C23: the white e-pawn of the initial position stands on its home
rank and has two forward candidates. -/
theorem home_rank_forward_candidates_witness :
    (forward_candidates start_white ⟨PAWN, 'W', 1, ⟨4, 1⟩⟩).length = 2 :=
  (home_rank_forward_candidates start_white ⟨PAWN, 'W', 1, ⟨4, 1⟩⟩ (Or.inl rfl) rfl).trans
    (by decide)

/-- Witness of C24: after 00 W and the ten commands in which the computer
promotes a pawn, record 8, a rook at set-up, is still a rook. -/
theorem piece_identity_witness :
    (layout_piece 8).type ≠ PAWN ∧
    ((run (d_write init_state "00 W\n".data) computer_promotion_game).figures 8).type =
      (layout_piece 8).type :=
  ⟨by decide, (piece_identity init_state computer_promotion_game 8).1.2.2 (by decide)⟩

/-- Witness of C26: in the starting layout with White to move, 02 WPe2-e4 is
answered OK, CHECK, MATE or ILLMOVE and not INVFMT. -/
theorem grammatical_move_replies_witness :
    start_white.game_on = 1 ∧ start_white.turn = start_white.player_color ∧
    tokenize "02 WPe2-e4\n".data = some ("02".data, some "WPe2-e4".data) ∧
    grammar_move_spec "WPe2-e4".data = true ∧
    colors_in_role start_white "WPe2-e4".data ∧
    (d_write start_white "02 WPe2-e4\n".data).reply ≠ INVFMT :=
  ⟨rfl, rfl, by decide, by decide, ⟨rfl, by decide, fun p hp => by cases hp⟩,
    ((grammatical_move_replies start_white "02 WPe2-e4\n".data "WPe2-e4".data rfl rfl
      (by decide) (by decide)).1 ⟨rfl, by decide, fun p hp => by cases hp⟩).2⟩

/-- Witness of C27: in the starting layout, 05 and 05 abc are answered UNKCMD. -/
theorem unknown_command_witness :
    (d_write start_white "05\n".data).reply = UNKCMD ∧
    (d_write start_white "05 abc\n".data).reply = UNKCMD :=
  ⟨(unknown_command start_white "05".data "abc".data rfl (by decide) (by decide) (by decide)
      (by decide)).1,
    (unknown_command start_white "05".data "abc".data rfl (by decide) (by decide) (by decide)
      (by decide)).2.1⟩

/-- Witness of C28: for the white e-pawn of the starting layout `pawn_helper`
returns the double step to e4 and then the single step to e3. -/
theorem pawn_helper_is_reference_witness :
    pawn_helper start_white ⟨PAWN, 'W', 1, ⟨4, 1⟩⟩ = [⟨4, 3⟩, ⟨4, 2⟩] :=
  (pawn_helper_is_reference start_white ⟨PAWN, 'W', 1, ⟨4, 1⟩⟩ (Or.inl rfl)).1.trans
    (by decide)

/-- Witness of C29: the candidate d6 of the rook on d4 of the board that holds
nothing else is reached by a slide along an axis direction. -/
theorem sliding_piece_rays_witness :
    coord_to_sq (⟨3, 3⟩ : coord_t) ≠ -1 ∧
    ∃ d ∈ rook_directions, slides_to lone_rook 'W' ⟨3, 3⟩ d ⟨3, 5⟩ :=
  ⟨by decide, (sliding_piece_rays lone_rook ⟨ROOK, 'W', 1, ⟨3, 3⟩⟩ ⟨3, 5⟩ (by decide)).1.1
    (by decide)⟩

/-- Witness of C30: in the starting layout c3 is a candidate of the knight on
b1, and `find_move` returns the knight list for it. -/
theorem step_piece_filter_witness :
    (⟨2, 2⟩ : coord_t) ∈ knight_helper start_white ⟨KNIGHT, 'W', 1, ⟨1, 0⟩⟩ ∧
    find_move start_white ⟨KNIGHT, 'W', 1, ⟨1, 0⟩⟩ =
      knight_helper start_white ⟨KNIGHT, 'W', 1, ⟨1, 0⟩⟩ :=
  ⟨(step_piece_filter start_white ⟨KNIGHT, 'W', 1, ⟨1, 0⟩⟩ ⟨2, 2⟩).1.2 (by decide),
    (step_piece_filter start_white ⟨KNIGHT, 'W', 1, ⟨1, 0⟩⟩ ⟨2, 2⟩).2.2.1 rfl⟩

end KernelChess
